import Mathlib

/-!
# libril/ril.cpp: request routing, pending-request registry and response dispatch

A shallow embedding of the protocol core of `src/libril/ril.cpp`.

Conventions of the embedding.

* Memory bytes are natural numbers below 256; 32-bit integers are `Int`
  values and are reduced modulo 2^32 where they are stored.
* `android::Parcel` is an external library class.  It is modelled as a byte
  buffer with a cursor; growing the buffer always succeeds, so every write
  reports `NO_ERROR`.  The host is little-endian.
* `calloc` always succeeds.  A `RequestInfo` allocation is identified by its
  address (`addr`); the singly linked list `s_pendingRequests` is the list of
  its nodes in link order.
* The two mutexes are not modelled: every entry point is one atomic step.
* Function pointers stored in the command tables are values of two parameter
  types `δ` (decoders) and `ρ` (encoders); calling through a pointer is
  `Ril.dispatchFunction` / `Ril.responseFunction`.
* The vendor's `onRequest` is external: a call to it is recorded in the
  trace of the state, and any completion by the vendor is a later call of
  `RIL_onRequestComplete`.
* The vendor's `onStateRequest` is external: what it returns is the field
  `radioState` of the state.
* The event loop is not part of the embedding: a timed callback that has been
  added stays in the field `timers`, and `RIL_register` is followed up to the
  point where it enters the loop.
-/

namespace Libril

/-! ## Integers in memory -/

/-- Little-endian bytes of the two's-complement 32-bit representation of `v`. -/
def int32Bytes (v : Int) : List Nat :=
  let u := (v % 4294967296).toNat
  [u % 256, u / 256 % 256, u / 65536 % 256, u / 16777216 % 256]

/-- The signed 32-bit integer held in four little-endian bytes. -/
def int32OfBytes (b0 b1 b2 b3 : Nat) : Int :=
  let u := b0 % 256 + 256 * (b1 % 256) + 65536 * (b2 % 256) + 16777216 * (b3 % 256)
  if u < 2147483648 then (u : Int) else (u : Int) - 4294967296

/-- Little-endian bytes of the two's-complement 64-bit representation of `v`. -/
def int64Bytes (v : Int) : List Nat :=
  let u := (v % 18446744073709551616).toNat
  [u % 256, u / 256 % 256, u / 65536 % 256, u / 16777216 % 256,
   u / 4294967296 % 256, u / 1099511627776 % 256, u / 281474976710656 % 256,
   u / 72057594037927936 % 256]

/-- Bytes of one UTF-16 code unit, little-endian. -/
def char16Bytes (u : Nat) : List Nat := [u % 256, u / 256 % 256]

/-- The UTF-16 code units held in a run of bytes (two bytes each). -/
def char16OfBytes : List Nat → List Nat
  | b0 :: b1 :: rest => (b0 % 256 + 256 * (b1 % 256)) :: char16OfBytes rest
  | _ => []

/-- The `htonl` of libc: the four bytes of a 32-bit value in network order. -/
def htonl (n : Nat) : List Nat :=
  let u := n % 4294967296
  [u / 16777216 % 256, u / 65536 % 256, u / 256 % 256, u % 256]

/-! ## android::Parcel -/

/-- The `status_t` value of success. -/
def NO_ERROR : Int := 0

/-- The `status_t` value of a read past the end of the data (`-ENODATA`). -/
def NOT_ENOUGH_DATA : Int := -61

/-- A parcel: its bytes (`mData`, of size `mDataSize`) and its cursor. -/
structure Parcel where
  mData : List Nat
  mDataPos : Nat
deriving DecidableEq, Repr

namespace Parcel

/-- A freshly constructed parcel. -/
def empty : Parcel := { mData := [], mDataPos := 0 }

/-- `Parcel::setData`: take a copy of the buffer and rewind. -/
def setData (buffer : List Nat) : Parcel := { mData := buffer, mDataPos := 0 }

/-- `Parcel::data` together with `Parcel::dataSize`. -/
def data (p : Parcel) : List Nat := p.mData

/-- `Parcel::dataSize`. -/
def dataSize (p : Parcel) : Nat := p.mData.length

/-- `Parcel::dataPosition`. -/
def dataPosition (p : Parcel) : Nat := p.mDataPos

/-- `Parcel::setDataPosition`: the data and its size stay as they are. -/
def setDataPosition (p : Parcel) (pos : Nat) : Parcel := { p with mDataPos := pos }

/-- Store bytes at the cursor: bytes already there are overwritten, the data
grows when the cursor passes its end, and the cursor advances. -/
def write (p : Parcel) (bytes : List Nat) : Parcel :=
  { mData := p.mData.take p.mDataPos ++ bytes ++ p.mData.drop (p.mDataPos + bytes.length)
    mDataPos := p.mDataPos + bytes.length }

/-- `Parcel::writeInt32`. -/
def writeInt32 (p : Parcel) (v : Int) : Parcel := p.write (int32Bytes v)

/-- `Parcel::writeInt64`. -/
def writeInt64 (p : Parcel) (v : Int) : Parcel := p.write (int64Bytes v)

/-- `Parcel::appendFrom(parcel, offset, len)`: `len` bytes of the other
parcel, from `offset` on, are stored at the cursor; nothing is done when the
range does not lie inside the other parcel's data. -/
def appendFrom (p : Parcel) (parcel : Parcel) (offset len : Nat) : Parcel :=
  if len = 0 then p
  else if offset > parcel.mData.length ∨ len > parcel.mData.length
      ∨ offset + len > parcel.mData.length then p
  else p.write ((parcel.mData.drop offset).take len)

/-- `Parcel::readInt32(int32_t*)`: status, value and the parcel afterwards.
On failure the cursor does not move and the out-parameter is not written
(the value component is then 0). -/
def readInt32 (p : Parcel) : Int × Int × Parcel :=
  match p.mData.drop p.mDataPos with
  | b0 :: b1 :: b2 :: b3 :: _ =>
    (NO_ERROR, int32OfBytes b0 b1 b2 b3, { p with mDataPos := p.mDataPos + 4 })
  | _ => (NOT_ENOUGH_DATA, 0, p)

/-- Zero bytes that bring a length up to a multiple of four. -/
def padding (len : Nat) : List Nat := List.replicate ((4 - len % 4) % 4) 0

/-- `Parcel::writeInplace` followed by the copy into the reserved room. -/
def writeInplace (p : Parcel) (bytes : List Nat) : Parcel :=
  p.write (bytes ++ padding bytes.length)

/-- `Parcel::readInplace`: `len` bytes at the cursor, the cursor moving past
them and their padding; `none` (NULL) when the data is too short. -/
def readInplace (p : Parcel) (len : Nat) : Option (List Nat × Parcel) :=
  let padded := len + (4 - len % 4) % 4
  if p.mDataPos + padded ≤ p.mData.length then
    some ((p.mData.drop p.mDataPos).take len, { p with mDataPos := p.mDataPos + padded })
  else none

/-- `Parcel::writeString16(const char16_t*, size_t)`: a NULL text is the
length -1; otherwise the length, the code units and a terminating zero unit. -/
def writeString16 (p : Parcel) (str : Option (List Nat)) : Parcel :=
  match str with
  | none => p.writeInt32 (-1)
  | some s16 => (p.writeInt32 s16.length).writeInplace (s16.flatMap char16Bytes ++ [0, 0])

/-- `Parcel::readString16Inplace`: the code units (NULL as `none`), the
reported length and the parcel afterwards. -/
def readString16Inplace (p : Parcel) : Option (List Nat) × Nat × Parcel :=
  let r := p.readInt32
  let size := r.2.1
  let p1 := r.2.2
  if 0 ≤ size ∧ size < 2147483647 then
    match p1.readInplace ((size.toNat + 1) * 2) with
    | some (bytes, p2) => (some (char16OfBytes (bytes.take (size.toNat * 2))), size.toNat, p2)
    | none => (none, 0, p1)
  else (none, 0, p1)

end Parcel

/-- The text conversions of libcutils (`jstring.h`), external to the
repository: UTF-8 bytes to UTF-16 code units and back. -/
structure Jstring where
  strdup8to16 : List Nat → List Nat
  strndup16to8 : List Nat → List Nat

/-- `strdupReadString`: NULL when the parcel holds no text at the cursor. -/
def strdupReadString (js : Jstring) (p : Parcel) : Option (List Nat) × Parcel :=
  let r := p.readString16Inplace
  (r.1.map js.strndup16to8, r.2.2)

/-- `writeStringToParcel`: `strdup8to16` maps NULL to NULL. -/
def writeStringToParcel (js : Jstring) (p : Parcel) (s : Option (List Nat)) : Parcel :=
  p.writeString16 (s.map js.strdup8to16)

/-! ## Data model -/

/-! The record types below are declared in `telephony/ril.h`, which is not
among the source files. Each is given with the fields the encoders read, in
the order they read them; a `char*` field is `none` when NULL. -/

/-- The struct `RIL_UUS_Info`; `uusData` is a byte buffer, not a text. -/
structure RIL_UUS_Info where
  uusType : Int
  uusDcs : Int
  uusLength : Int
  uusData : Option (List Nat)
deriving DecidableEq, Repr

/-- The struct `RIL_Dial`; `uusInfo` is `none` when NULL. -/
structure RIL_Dial where
  address : Option (List Nat)
  clir : Int
  uusInfo : Option RIL_UUS_Info
deriving DecidableEq, Repr

/-- The struct `RIL_Call`. -/
structure RIL_Call where
  state : Int
  index : Int
  toa : Int
  isMpty : Int
  isMT : Int
  als : Int
  isVoice : Int
  isVoicePrivacy : Int
  number : Option (List Nat)
  numberPresentation : Int
  name : Option (List Nat)
  namePresentation : Int
  uusInfo : Option RIL_UUS_Info
deriving DecidableEq, Repr

/-- The struct `RIL_SMS_Response`. -/
structure RIL_SMS_Response where
  messageRef : Int
  ackPDU : Option (List Nat)
  errorCode : Int
deriving DecidableEq, Repr

/-- The struct `RIL_Data_Call_Response_v4`. -/
structure RIL_Data_Call_Response_v4 where
  cid : Int
  active : Int
  type : Option (List Nat)
  apn : Option (List Nat)
  address : Option (List Nat)
deriving DecidableEq, Repr

/-- The struct `RIL_Data_Call_Response_v11`. -/
structure RIL_Data_Call_Response_v11 where
  status : Int
  suggestedRetryTime : Int
  cid : Int
  active : Int
  type : Option (List Nat)
  ifname : Option (List Nat)
  addresses : Option (List Nat)
  dnses : Option (List Nat)
  gateways : Option (List Nat)
  pcscf : Option (List Nat)
  mtu : Int
deriving DecidableEq, Repr

/-- The struct `RIL_SIM_IO_Response`. -/
structure RIL_SIM_IO_Response where
  sw1 : Int
  sw2 : Int
  simResponse : Option (List Nat)
deriving DecidableEq, Repr

/-- The struct `RIL_CallForwardInfo`. -/
structure RIL_CallForwardInfo where
  status : Int
  reason : Int
  serviceClass : Int
  toa : Int
  number : Option (List Nat)
  timeSeconds : Int
deriving DecidableEq, Repr

/-- The struct `RIL_SuppSvcNotification`. -/
structure RIL_SuppSvcNotification where
  notificationType : Int
  code : Int
  index : Int
  type : Int
  number : Option (List Nat)
deriving DecidableEq, Repr

/-- The struct `RIL_NeighboringCell`. -/
structure RIL_NeighboringCell where
  cid : Option (List Nat)
  rssi : Int
deriving DecidableEq, Repr

/-- The struct `RIL_SimRefreshResponse_v7`. -/
structure RIL_SimRefreshResponse_v7 where
  result : Int
  ef_id : Int
  aid : Option (List Nat)
deriving DecidableEq, Repr

/-- The union `CellInfo` of a `RIL_CellInfo`, by the member that is live. The
members the encoder never reads are `other`. -/
inductive RIL_CellInfoUnion where
  | gsm (mcc mnc lac cid signalStrength bitErrorRate : Int)
  | wcdma (mcc mnc lac cid psc signalStrength bitErrorRate : Int)
  | lte (mcc mnc ci pci tac signalStrength rsrp rsrq rssnr cqi timingAdvance : Int)
  | other
deriving DecidableEq, Repr

/-- The struct `RIL_CellInfo`; `timeStamp` is a 64-bit value. -/
structure RIL_CellInfo where
  cellInfoType : Int
  registered : Int
  timeStampType : Int
  timeStamp : Int
  CellInfo : RIL_CellInfoUnion
deriving DecidableEq, Repr

/-- The struct `RIL_AppStatus`. -/
structure RIL_AppStatus where
  app_type : Int
  app_state : Int
  perso_substate : Int
  aid_ptr : Option (List Nat)
  app_label_ptr : Option (List Nat)
  pin1_replaced : Int
  pin1 : Int
  pin2 : Int
deriving DecidableEq, Repr

/-- The part `base.base.base` of the struct `RIL_CardStatus_v1_5`, which is
all the encoder reads; `applications` is the array of `RIL_CARD_MAX_APPS`
entries. -/
structure RIL_CardStatus_v1_5 where
  card_state : Int
  universal_pin_state : Int
  gsm_umts_subscription_app_index : Int
  cdma_subscription_app_index : Int
  ims_subscription_app_index : Int
  num_applications : Int
  applications : List RIL_AppStatus
deriving DecidableEq, Repr

/-- The struct `RIL_IMS_REGISTRATION_STATE_RESPONSE`. -/
structure RIL_IMS_REGISTRATION_STATE_RESPONSE where
  reg_state : Int
  service_type : Int
  uri_response : Option (List Nat)
deriving DecidableEq, Repr

/-- The struct `RIL_GSM_BroadcastSmsConfigInfo`. -/
structure RIL_GSM_BroadcastSmsConfigInfo where
  fromServiceId : Int
  toServiceId : Int
  fromCodeScheme : Int
  toCodeScheme : Int
  selected : Int
deriving DecidableEq, Repr

/-- The struct `RIL_ActivityStatsInfo`; `tx_mode_time_ms` is the array of
`RIL_NUM_TX_POWER_LEVELS` entries. -/
structure RIL_ActivityStatsInfo where
  sleep_mode_time_ms : Int
  idle_mode_time_ms : Int
  tx_mode_time_ms : List Int
  rx_mode_time_ms : Int
deriving DecidableEq, Repr

/-- A typed view of the memory behind a `void*` argument or response. An
array is the list of the elements that lie in the memory pointed to; a read
past them is undefined behaviour. -/
inductive Data where
  /-- A `char*`: the bytes of a NUL-terminated text. -/
  | cstr (s : List Nat)
  /-- An `int[]`, which is also the view of a struct made of `int` fields
  only (`RIL_SignalStrength_v6`, field by field). -/
  | ints (xs : List Int)
  /-- A `char*[]`, entries may be NULL. -/
  | cstrs (xs : List (Option (List Nat)))
  /-- Raw bytes. -/
  | raw (bs : List Nat)
  /-- A `RIL_Call*[]`, by the records pointed to. -/
  | calls (xs : List RIL_Call)
  /-- A `RIL_SMS_Response`. -/
  | sms (r : RIL_SMS_Response)
  /-- A `RIL_Data_Call_Response_v4[]`. -/
  | dataCallsV4 (xs : List RIL_Data_Call_Response_v4)
  /-- A `RIL_Data_Call_Response_v11[]`. -/
  | dataCallsV11 (xs : List RIL_Data_Call_Response_v11)
  /-- A `RIL_SIM_IO_Response`. -/
  | simIoResponse (r : RIL_SIM_IO_Response)
  /-- A `RIL_CallForwardInfo*[]`, by the records pointed to. -/
  | callForwards (xs : List RIL_CallForwardInfo)
  /-- A `RIL_SuppSvcNotification`. -/
  | ssn (r : RIL_SuppSvcNotification)
  /-- A `RIL_NeighboringCell[]`. -/
  | cells (xs : List RIL_NeighboringCell)
  /-- A `RIL_SimRefreshResponse_v7`. -/
  | simRefresh (r : RIL_SimRefreshResponse_v7)
  /-- A `RIL_CellInfo[]`. -/
  | cellInfos (xs : List RIL_CellInfo)
  /-- A `RIL_CardStatus_v1_5`. -/
  | cardStatus (r : RIL_CardStatus_v1_5)
  /-- A `RIL_IMS_REGISTRATION_STATE_RESPONSE`. -/
  | imsStatus (r : RIL_IMS_REGISTRATION_STATE_RESPONSE)
  /-- A `RIL_GSM_BroadcastSmsConfigInfo*[]`, by the records pointed to. -/
  | brSmsCnf (xs : List RIL_GSM_BroadcastSmsConfigInfo)
  /-- A `RIL_ActivityStatsInfo`. -/
  | activity (r : RIL_ActivityStatsInfo)
  /-- A `RIL_IMS_SMS_Message` of the 3GPP family: `tech`, `retry`, `messageRef`
  and the array `message.gsmMessage` points to (`none` is NULL). -/
  | imsSms (tech : Int) (retry : Nat) (messageRef : Int)
      (gsmMessage : Option (List (Option (List Nat))))
  /-- A `RIL_Dial`. -/
  | dial (r : RIL_Dial)
deriving DecidableEq, Repr

/-- The enumerators and version bounds of `telephony/ril.h` that the radio
state shims, the registration and the unsolicited path name. The header is
not among the source files, so they are parameters. -/
structure RilEnums where
  RADIO_STATE_OFF : Int
  RADIO_STATE_UNAVAILABLE : Int
  RADIO_STATE_SIM_NOT_READY : Int
  RADIO_STATE_SIM_LOCKED_OR_ABSENT : Int
  RADIO_STATE_SIM_READY : Int
  RADIO_STATE_RUIM_NOT_READY : Int
  RADIO_STATE_RUIM_READY : Int
  RADIO_STATE_RUIM_LOCKED_OR_ABSENT : Int
  RADIO_STATE_NV_NOT_READY : Int
  RADIO_STATE_NV_READY : Int
  RADIO_STATE_ON : Int
  RADIO_TECH_UMTS : Int
  RADIO_TECH_1xRTT : Int
  RADIO_TECH_3GPP : Int
  RIL_E_SUCCESS : Int
  RIL_E_RADIO_NOT_AVAILABLE : Int
  RIL_VERSION_MIN : Int
  RIL_VERSION : Int
  RIL_UNSOL_RESPONSE_BASE : Int
  RIL_UNSOL_RESPONSE_RADIO_STATE_CHANGED : Int
  RIL_UNSOL_NITZ_TIME_RECEIVED : Int
  RIL_UNSOL_RIL_CONNECTED : Int
  RIL_UNSOL_VOICE_RADIO_TECH_CHANGED : Int
  RIL_UNSOL_RESPONSE_SIM_STATUS_CHANGED : Int

/-- The sizes of types on the target and the constants of `telephony/ril.h`
that the encoders and decoders use. The header is not among the source
files and the target is not fixed by them, so these are parameters;
`sizeof(int)` is 4 throughout. -/
structure RilH where
  /-- The size of a data pointer: `sizeof(char*)`, `sizeof(int*)`. -/
  sizeofPtr : Nat
  sizeof_RIL_SMS_Response : Nat
  sizeof_RIL_Data_Call_Response_v4 : Nat
  sizeof_RIL_Data_Call_Response_v11 : Nat
  sizeof_RIL_SIM_IO_Response : Nat
  sizeof_RIL_SuppSvcNotification : Nat
  sizeof_RIL_SignalStrength_v5 : Nat
  sizeof_RIL_SignalStrength_v6 : Nat
  sizeof_RIL_CellInfo : Nat
  sizeof_RIL_CardStatus_v1_5 : Nat
  sizeof_RIL_ActivityStatsInfo : Nat
  RIL_NUM_TX_POWER_LEVELS : Nat
  RIL_CELL_INFO_TYPE_GSM : Int
  RIL_CELL_INFO_TYPE_WCDMA : Int
  RIL_CELL_INFO_TYPE_LTE : Int
deriving DecidableEq, Repr

/-- The constant `INT_MAX` of `limits.h` for a 32-bit `int`. -/
def INT_MAX : Int := 2147483647

/-- The struct `CommandInfo`: a table entry. A NULL function pointer is `none`. -/
structure CommandInfo (δ ρ : Type) where
  requestNumber : Int
  dispatchFunction : Option δ
  responseFunction : Option ρ
deriving DecidableEq, Repr

/-- The struct `RequestInfo`. `addr` is the address of the allocation, which
is what an `RIL_Token` holds; `p_next` is the order of `s_pendingRequests`;
`pCI` points into a command table (`none` is NULL). -/
structure RequestInfo (δ ρ : Type) where
  addr : Nat
  token : Int
  pCI : Option (CommandInfo δ ρ)
  cancelled : Int
  local_ : Int
deriving DecidableEq, Repr

/-- An `RIL_Token`: NULL or the address of a `RequestInfo`. -/
abbrev RIL_Token := Option Nat

/-- The enum `WakeType`. -/
inductive WakeType where
  | DONT_WAKE
  | WAKE_PARTIAL
deriving DecidableEq, Repr

/-- The struct `UnsolResponseInfo`: an entry of `s_unsolResponses`. -/
structure UnsolResponseInfo (ρ : Type) where
  requestNumber : Int
  responseFunction : Option ρ
  wakeType : WakeType
deriving DecidableEq, Repr

/-- The struct `UserCallbackInfo` of a timed callback that has been handed to
`ril_timer_add`: the address of the allocation and its `userParam` (0 is
NULL). The callback of every timer below is `wakeTimeoutCallback`. -/
structure UserCallbackInfo where
  addr : Nat
  userParam : Nat
deriving DecidableEq, Repr

/-- The struct `RIL_RadioFunctions`: the version and the five function
pointers, by their addresses (0 is NULL). -/
structure RIL_RadioFunctions where
  version : Int
  onRequest : Nat
  onStateRequest : Nat
  supports : Nat
  onCancel : Nat
  getVersion : Nat
deriving DecidableEq, Repr

/-- What the core does towards its collaborators, in order of occurrence. -/
inductive Event (δ : Type) where
  /-- A call of `sendResponse` with the bytes of its parcel. -/
  | sendResponse (data : List Nat)
  /-- A call of a decoder through `pCI->dispatchFunction`: the function, the
  parcel it is given and the address of the `RequestInfo`. -/
  | dispatch (f : δ) (p : Parcel) (pRI : Nat)
  /-- A call of the vendor's `s_callbacks.onRequest`. -/
  | onRequest (request : Int) (data : Option Data) (datalen : Nat) (t : Nat)
  /-- A call of `sendResponseRaw` that does not come from `sendResponse`,
  with the buffer and the size it is given. -/
  | sendResponseRaw (data : List Nat) (dataSize : Nat)
deriving DecidableEq, Repr

/-- The outcome of one `write(2)` on the command socket. -/
inductive WriteResult where
  /-- The call accepted at most this many bytes. -/
  | written (n : Nat)
  /-- The call failed with `EINTR`. -/
  | eintr
  /-- The call failed with `EAGAIN`. -/
  | eagain
  /-- The call failed with another error. -/
  | failed
deriving DecidableEq, Repr

/-- The connection behind `s_fdCommand` as the operating system sees it:
the outcomes of the coming `write(2)` calls (once they are used up every
call accepts all it is given), the bytes accepted so far, and whether the
descriptor has been closed. -/
structure CommandSocket where
  writeResults : List WriteResult
  wire : List Nat
  closed : Bool
deriving DecidableEq, Repr

/-- The process-wide state the routing and completion paths work on. The
fields after `trace` have the values of their static initialisers unless
given. -/
structure RilState (δ ρ : Type) where
  s_pendingRequests : List (RequestInfo δ ρ)
  s_fdCommand : Int
  /-- How many `RequestInfo` and `UserCallbackInfo` blocks `calloc` has handed
  out; the next block has the address `allocated + 1`. -/
  allocated : Nat
  socket : CommandSocket
  trace : List (Event δ)
  s_callbacks : RIL_RadioFunctions :=
    { version := 0, onRequest := 0, onStateRequest := 0, supports := 0, onCancel := 0,
      getVersion := 0 }
  s_registerCalled : Int := 0
  /-- The address in `s_last_wake_timeout_info`; `none` is NULL. -/
  s_last_wake_timeout_info : Option Nat := none
  /-- The buffer `s_lastNITZTimeData` points to; `none` is NULL. -/
  s_lastNITZTimeData : Option (List Nat) := none
  s_lastNITZTimeDataSize : Nat := 0
  voiceRadioTech : Int := -1
  simRuimStatus : Int := -1
  /-- The timed callbacks handed to `ril_timer_add`, oldest first. -/
  timers : List UserCallbackInfo := []
  /-- What the vendor's `s_callbacks.onStateRequest()` returns. -/
  radioState : Int := 0
deriving DecidableEq, Repr

/-- What the translation unit is compiled and linked against: the constants
of `telephony/ril.h`, the four included command tables and the included table
of unsolicited responses (none is among the source files, so they are
parameters), and the code behind the function pointers of the tables. An encoder yields its return code and the parcel it
leaves; `none` stands for undefined behaviour. -/
structure Ril (δ ρ : Type) where
  RIL_E_GENERIC_FAILURE : Int
  RIL_E_REQUEST_NOT_SUPPORTED : Int
  RIL_SECOND_REQUEST_BASE : Int
  RIL_IMS_REQUEST_BASE : Int
  RIL_CUS_REQUEST_BASE : Int
  s_commands : List (CommandInfo δ ρ)
  s_second_commands : List (CommandInfo δ ρ)
  s_ims_commands : List (CommandInfo δ ρ)
  s_cus_commands : List (CommandInfo δ ρ)
  s_unsolResponses : List (UnsolResponseInfo ρ)
  dispatchFunction : δ → Parcel → RequestInfo δ ρ → RilState δ ρ → Option (RilState δ ρ)
  responseFunction : ρ → Parcel → Option Data → Nat → Option (Int × Parcel)

/-- The constant `MAX_COMMAND_BYTES`. -/
def MAX_COMMAND_BYTES : Nat := 8 * 1024

/-- The constant `RESPONSE_SOLICITED`. -/
def RESPONSE_SOLICITED : Int := 0

/-- The constant `RESPONSE_UNSOLICITED`. -/
def RESPONSE_UNSOLICITED : Int := 1

/-- The constant `RIL_ERRNO_INVALID_RESPONSE`. -/
def RIL_ERRNO_INVALID_RESPONSE : Int := -1

variable {δ ρ : Type}

/-! ## Frame emission -/

/-- The loop of `blockingWrite` over the outcomes of the `write(2)` calls it
makes: the bytes still to write, the bytes on the wire. Yields the return
code, the outcomes left, the wire, and whether it closed the descriptor. -/
def blockingWriteLoop : List WriteResult → List Nat → List Nat →
    Int × List WriteResult × List Nat × Bool
  | [], toWrite, wire => (0, [], wire ++ toWrite, false)
  | r :: rest, toWrite, wire =>
    if toWrite = [] then (0, r :: rest, wire, false)
    else
      match r with
      | .written n => blockingWriteLoop rest (toWrite.drop n) (wire ++ toWrite.take n)
      | .eintr => blockingWriteLoop rest toWrite wire
      | .eagain => blockingWriteLoop rest toWrite wire
      | .failed => (-1, rest, wire, true)

/-- `blockingWrite` on the command descriptor. A `write(2)` on a descriptor
that is already closed fails (`EBADF`). -/
def blockingWrite (buffer : List Nat) (k : CommandSocket) : Int × CommandSocket :=
  if buffer = [] then (0, k)
  else if k.closed then (-1, k)
  else
    let r := blockingWriteLoop k.writeResults buffer k.wire
    (r.1, { writeResults := r.2.1, wire := r.2.2.1, closed := r.2.2.2 })

/-- `sendResponseRaw`. -/
def sendResponseRaw (data : List Nat) (s : RilState δ ρ) : Int × RilState δ ρ :=
  if s.s_fdCommand < 0 then (-1, s)
  else if data.length > MAX_COMMAND_BYTES then (-1, s)
  else
    let header := htonl data.length
    let r1 := blockingWrite header s.socket
    if r1.1 < 0 then (r1.1, { s with socket := r1.2 })
    else
      let r2 := blockingWrite data r1.2
      if r2.1 < 0 then (r2.1, { s with socket := r2.2 })
      else (0, { s with socket := r2.2 })

/-- `sendResponse`: the call is recorded, then `p.data()` and `p.dataSize()`
go to `sendResponseRaw`. -/
def sendResponse (p : Parcel) (s : RilState δ ρ) : Int × RilState δ ρ :=
  sendResponseRaw p.data { s with trace := s.trace ++ [Event.sendResponse p.data] }

/-! ## Encoders and decoders used below -/

/-- `responseString`: one text, NULL accepted, `responselen` ignored. The
response has to point to a text. -/
def responseString (js : Jstring) (p : Parcel) (response : Option Data) (_responselen : Nat) :
    Option (Int × Parcel) :=
  match response with
  | none => some (0, writeStringToParcel js p none)
  | some (Data.cstr s) => some (0, writeStringToParcel js p (some s))
  | some _ => none

/-- `responseVoid`. -/
def responseVoid (p : Parcel) (_response : Option Data) (_responselen : Nat) :
    Option (Int × Parcel) :=
  some (0, p)

/-- `responseInts`. `sizeofPtr` is the `sizeof(int*)` of the target and
`sizeof(int)` is 4. The response has to point to an array that holds the
integers read from it. -/
def responseInts (sizeofPtr : Nat) (p : Parcel) (response : Option Data) (responselen : Nat) :
    Option (Int × Parcel) :=
  if response = none ∧ responselen ≠ 0 then some (RIL_ERRNO_INVALID_RESPONSE, p)
  else if responselen % 4 ≠ 0 then some (RIL_ERRNO_INVALID_RESPONSE, p)
  else
    let numInts := responselen / sizeofPtr
    match response with
    | none => some (0, p.writeInt32 numInts)
    | some (Data.ints p_int) =>
      if numInts ≤ p_int.length then
        some (0, (p_int.take numInts).foldl Parcel.writeInt32 (p.writeInt32 numInts))
      else none
    | some _ => none

/-- `dispatchVoid`: the vendor is called with no argument. -/
def dispatchVoid (_p : Parcel) (pRI : RequestInfo δ ρ) (s : RilState δ ρ) :
    Option (RilState δ ρ) :=
  match pRI.pCI with
  | none => none
  | some ci => some { s with trace := s.trace ++ [Event.onRequest ci.requestNumber none 0 pRI.addr] }

/-! ## The other encoders

`s_callbacks.version`, which `RIL_register` sets before any frame is
processed and nothing changes afterwards, is an argument of the functions
that read it. An encoder that writes into the vendor's buffer (the signal
strength fix-ups) is modelled by what it sends only. -/

/-- `Parcel::write(const void*, size_t)`: the bytes and their padding; a
length above `INT32_MAX` is refused and nothing is written. -/
def Parcel.writeBuffer (p : Parcel) (bytes : List Nat) : Parcel :=
  if bytes.length > 2147483647 then p else p.writeInplace bytes

/-- Several `writeInt32` calls in a row. -/
def writeInts (p : Parcel) (xs : List Int) : Parcel := xs.foldl Parcel.writeInt32 p

/-- `responseStrings`. -/
def responseStrings (js : Jstring) (sizeofPtr : Nat) (p : Parcel) (response : Option Data)
    (responselen : Nat) : Option (Int × Parcel) :=
  if response = none ∧ responselen ≠ 0 then some (RIL_ERRNO_INVALID_RESPONSE, p)
  else if responselen % sizeofPtr ≠ 0 then some (RIL_ERRNO_INVALID_RESPONSE, p)
  else
    match response with
    | none => some (0, p.writeInt32 0)
    | some (Data.cstrs p_cur) =>
      let numStrings := responselen / sizeofPtr
      if numStrings ≤ p_cur.length then
        some (0, (p_cur.take numStrings).foldl (writeStringToParcel js) (p.writeInt32 numStrings))
      else none
    | some _ => none

/-- `responseStringsWithVersion`. -/
def responseStringsWithVersion (version : Int) (js : Jstring) (sizeofPtr : Nat) (p : Parcel)
    (response : Option Data) (responselen : Nat) : Option (Int × Parcel) :=
  responseStrings js sizeofPtr (p.writeInt32 version) response responselen

/-- The body of the loop of `responseCallList` for one call. `none` is a read
past the end of the UUS data. -/
def writeCall (version : Int) (js : Jstring) (p : Parcel) (p_cur : RIL_Call) : Option Parcel :=
  let p := writeInts p [p_cur.state, p_cur.index, p_cur.toa, p_cur.isMpty, p_cur.isMT,
    p_cur.als, p_cur.isVoice, p_cur.isVoicePrivacy]
  let p := writeStringToParcel js p p_cur.number
  let p := p.writeInt32 p_cur.numberPresentation
  let p := writeStringToParcel js p p_cur.name
  let p := p.writeInt32 p_cur.namePresentation
  match (if version < 3 then none
      else p_cur.uusInfo.bind (fun u => u.uusData.map (fun d => (u, d)))) with
  | none => some (p.writeInt32 0)
  | some (uusInfo, uusData) =>
    let p := writeInts p [1, uusInfo.uusType, uusInfo.uusDcs, uusInfo.uusLength]
    if uusInfo.uusLength < 0 then some p
    else if uusInfo.uusLength.toNat ≤ uusData.length then
      some (p.writeBuffer (uusData.take uusInfo.uusLength.toNat))
    else none

/-- `responseCallList`. -/
def responseCallList (version : Int) (js : Jstring) (sizeofPtr : Nat) (p : Parcel)
    (response : Option Data) (responselen : Nat) : Option (Int × Parcel) :=
  if response = none ∧ responselen ≠ 0 then some (RIL_ERRNO_INVALID_RESPONSE, p)
  else if responselen % sizeofPtr ≠ 0 then some (RIL_ERRNO_INVALID_RESPONSE, p)
  else
    let num := responselen / sizeofPtr
    match response with
    | none => some (0, p.writeInt32 num)
    | some (Data.calls xs) =>
      if num ≤ xs.length then
        ((xs.take num).foldlM (writeCall version js) (p.writeInt32 num)).map (fun q => (0, q))
      else none
    | some _ => none

/-- `responseSMS`. -/
def responseSMS (js : Jstring) (h : RilH) (p : Parcel) (response : Option Data)
    (responselen : Nat) : Option (Int × Parcel) :=
  if response = none then some (RIL_ERRNO_INVALID_RESPONSE, p)
  else if responselen ≠ h.sizeof_RIL_SMS_Response then some (RIL_ERRNO_INVALID_RESPONSE, p)
  else
    match response with
    | some (Data.sms p_cur) =>
      some (0, (writeStringToParcel js (p.writeInt32 p_cur.messageRef) p_cur.ackPDU).writeInt32
        p_cur.errorCode)
    | _ => none

/-- The body of the loop of `responseDataCallListV4` for one record. -/
def writeDataCallV4 (js : Jstring) (p : Parcel) (c : RIL_Data_Call_Response_v4) : Parcel :=
  writeStringToParcel js (writeStringToParcel js (writeInts p [c.cid, c.active]) c.type) c.address

/-- `responseDataCallListV4`. -/
def responseDataCallListV4 (js : Jstring) (h : RilH) (p : Parcel) (response : Option Data)
    (responselen : Nat) : Option (Int × Parcel) :=
  if response = none ∧ responselen ≠ 0 then some (RIL_ERRNO_INVALID_RESPONSE, p)
  else if responselen % h.sizeof_RIL_Data_Call_Response_v4 ≠ 0 then
    some (RIL_ERRNO_INVALID_RESPONSE, p)
  else
    let num := responselen / h.sizeof_RIL_Data_Call_Response_v4
    match response with
    | none => some (0, p.writeInt32 num)
    | some (Data.dataCallsV4 p_cur) =>
      if num ≤ p_cur.length then
        some (0, (p_cur.take num).foldl (writeDataCallV4 js) (p.writeInt32 num))
      else none
    | some _ => none

/-- The body of the loop of `responseDataCallList` for one record. -/
def writeDataCallV11 (js : Jstring) (p : Parcel) (c : RIL_Data_Call_Response_v11) : Parcel :=
  let p := writeInts p [c.status, c.suggestedRetryTime, c.cid, c.active]
  let p := writeStringToParcel js p c.type
  let p := writeStringToParcel js p c.ifname
  let p := writeStringToParcel js p c.addresses
  let p := writeStringToParcel js p c.dnses
  let p := writeStringToParcel js p c.gateways
  let p := writeStringToParcel js p c.pcscf
  p.writeInt32 c.mtu

/-- `responseDataCallList`: the version is written before anything is checked. -/
def responseDataCallList (version : Int) (js : Jstring) (h : RilH) (p : Parcel)
    (response : Option Data) (responselen : Nat) : Option (Int × Parcel) :=
  let p := p.writeInt32 version
  if version < 5 then responseDataCallListV4 js h p response responselen
  else if response = none ∧ responselen ≠ 0 then some (RIL_ERRNO_INVALID_RESPONSE, p)
  else if responselen % h.sizeof_RIL_Data_Call_Response_v11 ≠ 0 then
    some (RIL_ERRNO_INVALID_RESPONSE, p)
  else
    let num := responselen / h.sizeof_RIL_Data_Call_Response_v11
    match response with
    | none => some (0, p.writeInt32 num)
    | some (Data.dataCallsV11 p_cur) =>
      if num ≤ p_cur.length then
        some (0, (p_cur.take num).foldl (writeDataCallV11 js) (p.writeInt32 num))
      else none
    | some _ => none

/-- `responseSetupDataCall`. -/
def responseSetupDataCall (version : Int) (js : Jstring) (h : RilH) (p : Parcel)
    (response : Option Data) (responselen : Nat) : Option (Int × Parcel) :=
  if version < 5 then responseStringsWithVersion version js h.sizeofPtr p response responselen
  else responseDataCallList version js h p response responselen

/-- `responseRaw`. -/
def responseRaw (p : Parcel) (response : Option Data) (responselen : Nat) :
    Option (Int × Parcel) :=
  if response = none ∧ responselen ≠ 0 then some (RIL_ERRNO_INVALID_RESPONSE, p)
  else
    match response with
    | none => some (0, p.writeInt32 (-1))
    | some (Data.raw bs) =>
      if responselen ≤ bs.length then
        some (0, (p.writeInt32 responselen).writeBuffer (bs.take responselen))
      else none
    | some _ => none

/-- `responseSIM_IO`. -/
def responseSIM_IO (js : Jstring) (h : RilH) (p : Parcel) (response : Option Data)
    (responselen : Nat) : Option (Int × Parcel) :=
  if response = none then some (RIL_ERRNO_INVALID_RESPONSE, p)
  else if responselen ≠ h.sizeof_RIL_SIM_IO_Response then some (RIL_ERRNO_INVALID_RESPONSE, p)
  else
    match response with
    | some (Data.simIoResponse p_cur) =>
      some (0, writeStringToParcel js (writeInts p [p_cur.sw1, p_cur.sw2]) p_cur.simResponse)
    | _ => none

/-- The body of the loop of `responseCallForwards` for one record. -/
def writeCallForward (js : Jstring) (p : Parcel) (c : RIL_CallForwardInfo) : Parcel :=
  (writeStringToParcel js (writeInts p [c.status, c.reason, c.serviceClass, c.toa])
    c.number).writeInt32 c.timeSeconds

/-- `responseCallForwards`. -/
def responseCallForwards (js : Jstring) (sizeofPtr : Nat) (p : Parcel) (response : Option Data)
    (responselen : Nat) : Option (Int × Parcel) :=
  if response = none ∧ responselen ≠ 0 then some (RIL_ERRNO_INVALID_RESPONSE, p)
  else if responselen % sizeofPtr ≠ 0 then some (RIL_ERRNO_INVALID_RESPONSE, p)
  else
    let num := responselen / sizeofPtr
    match response with
    | none => some (0, p.writeInt32 num)
    | some (Data.callForwards xs) =>
      if num ≤ xs.length then
        some (0, (xs.take num).foldl (writeCallForward js) (p.writeInt32 num))
      else none
    | some _ => none

/-- `responseSsn`. -/
def responseSsn (js : Jstring) (h : RilH) (p : Parcel) (response : Option Data)
    (responselen : Nat) : Option (Int × Parcel) :=
  if response = none then some (RIL_ERRNO_INVALID_RESPONSE, p)
  else if responselen ≠ h.sizeof_RIL_SuppSvcNotification then
    some (RIL_ERRNO_INVALID_RESPONSE, p)
  else
    match response with
    | some (Data.ssn p_cur) =>
      some (0, writeStringToParcel js
        (writeInts p [p_cur.notificationType, p_cur.code, p_cur.index, p_cur.type])
        p_cur.number)
    | _ => none

/-- The body of the loop of `responseCellList` for one record. -/
def writeNeighboringCell (js : Jstring) (p : Parcel) (c : RIL_NeighboringCell) : Parcel :=
  writeStringToParcel js (p.writeInt32 c.rssi) c.cid

/-- `responseCellList`: the count is the length over the size of a pointer,
the records are read from an array of structs. -/
def responseCellList (js : Jstring) (sizeofPtr : Nat) (p : Parcel) (response : Option Data)
    (responselen : Nat) : Option (Int × Parcel) :=
  if response = none ∧ responselen ≠ 0 then some (RIL_ERRNO_INVALID_RESPONSE, p)
  else if responselen % sizeofPtr ≠ 0 then some (RIL_ERRNO_INVALID_RESPONSE, p)
  else
    let num := responselen / sizeofPtr
    match response with
    | none => some (0, p.writeInt32 num)
    | some (Data.cells xs) =>
      if num ≤ xs.length then
        some (0, (xs.take num).foldl (writeNeighboringCell js) (p.writeInt32 num))
      else none
    | some _ => none

/-- `responseRilSignalStrength`. The response is read as the twelve `int`
fields of a `RIL_SignalStrength_v6` in their order (GW signalStrength and
bitErrorRate, CDMA dbm and ecio, EVDO dbm, ecio and signalNoiseRatio, LTE
signalStrength, rsrp, rsrq, rssnr and cqi), or as a plain `int[]`. -/
def responseRilSignalStrength (version : Int) (h : RilH) (p : Parcel) (response : Option Data)
    (responselen : Nat) : Option (Int × Parcel) :=
  if response = none ∧ responselen ≠ 0 then some (RIL_ERRNO_INVALID_RESPONSE, p)
  else if responselen ≥ h.sizeof_RIL_SignalStrength_v5 then
    match response with
    | some (Data.ints (gwSignalStrength :: gwBitErrorRate :: cdmaDbm :: cdmaEcio :: evdoDbm
        :: evdoEcio :: evdoSignalNoiseRatio :: lte)) =>
      let p := writeInts p [gwSignalStrength, gwBitErrorRate, cdmaDbm, cdmaEcio, evdoDbm,
        evdoEcio, evdoSignalNoiseRatio]
      if responselen ≥ h.sizeof_RIL_SignalStrength_v6 then
        match lte with
        | signalStrength :: rsrp :: rsrq :: rssnr :: cqi :: _ =>
          if version ≤ 6 then
            some (0, writeInts p
              [if signalStrength = -1 then 99 else signalStrength,
               if rsrp = -1 then INT_MAX else if rsrp < -1 then -rsrp else rsrp,
               if rsrq = -1 then INT_MAX else rsrq,
               rssnr,
               if cqi = -1 then INT_MAX else cqi])
          else some (0, writeInts p [signalStrength, rsrp, rsrq, rssnr, cqi])
        | _ => none
      else some (0, writeInts p [99, INT_MAX, INT_MAX, INT_MAX, INT_MAX])
    | _ => none
  else if responselen % 4 = 0 then
    let num := responselen / 4
    match response with
    | none => some (0, writeInts p (List.replicate (7 - num) 0))
    | some (Data.ints p_cur) =>
      if num ≤ p_cur.length then
        some (0, writeInts (writeInts p (p_cur.take num)) (List.replicate (7 - num) 0))
      else none
    | some _ => none
  else some (RIL_ERRNO_INVALID_RESPONSE, p)

/-- `responseSimRefresh`. Below the test on the version the response is read
as an `int[]`; the first two `int`s of a `RIL_SimRefreshResponse_v7` are its
`result` and `ef_id`. -/
def responseSimRefresh (version : Int) (js : Jstring) (p : Parcel) (response : Option Data)
    (responselen : Nat) : Option (Int × Parcel) :=
  if response = none ∧ responselen ≠ 0 then some (RIL_ERRNO_INVALID_RESPONSE, p)
  else if response = none ∧ responselen = 0 then some (0, p)
  else if version = 7 then
    match response with
    | some (Data.simRefresh p_cur) =>
      some (0, writeStringToParcel js (writeInts p [p_cur.result, p_cur.ef_id]) p_cur.aid)
    | _ => none
  else
    match response with
    | some (Data.ints (p0 :: p1 :: _)) => some (0, writeStringToParcel js (writeInts p [p0, p1]) none)
    | some (Data.simRefresh r) =>
      some (0, writeStringToParcel js (writeInts p [r.result, r.ef_id]) none)
    | _ => none

/-- The body of the loop of `responseCellInfoList` for one record. `none` is
a record whose live union member is not the one its type names. -/
def writeCellInfo (h : RilH) (p : Parcel) (p_cur : RIL_CellInfo) : Option Parcel :=
  let p := (writeInts p [p_cur.cellInfoType, p_cur.registered, p_cur.timeStampType]).writeInt64
    p_cur.timeStamp
  if p_cur.cellInfoType = h.RIL_CELL_INFO_TYPE_GSM then
    match p_cur.CellInfo with
    | .gsm mcc mnc lac cid signalStrength bitErrorRate =>
      some (writeInts p [mcc, mnc, lac, cid, signalStrength, bitErrorRate])
    | _ => none
  else if p_cur.cellInfoType = h.RIL_CELL_INFO_TYPE_WCDMA then
    match p_cur.CellInfo with
    | .wcdma mcc mnc lac cid psc signalStrength bitErrorRate =>
      some (writeInts p [mcc, mnc, lac, cid, psc, signalStrength, bitErrorRate])
    | _ => none
  else if p_cur.cellInfoType = h.RIL_CELL_INFO_TYPE_LTE then
    match p_cur.CellInfo with
    | .lte mcc mnc ci pci tac signalStrength rsrp rsrq rssnr cqi timingAdvance =>
      some (writeInts p [mcc, mnc, ci, pci, tac, signalStrength, rsrp, rsrq, rssnr, cqi,
        timingAdvance])
    | _ => none
  else some p

/-- `responseCellInfoList`. -/
def responseCellInfoList (h : RilH) (p : Parcel) (response : Option Data) (responselen : Nat) :
    Option (Int × Parcel) :=
  if response = none ∧ responselen ≠ 0 then some (RIL_ERRNO_INVALID_RESPONSE, p)
  else if responselen % h.sizeof_RIL_CellInfo ≠ 0 then some (RIL_ERRNO_INVALID_RESPONSE, p)
  else
    let num := responselen / h.sizeof_RIL_CellInfo
    match response with
    | none => some (0, p.writeInt32 num)
    | some (Data.cellInfos xs) =>
      if num ≤ xs.length then
        ((xs.take num).foldlM (writeCellInfo h) (p.writeInt32 num)).map (fun q => (0, q))
      else none
    | some _ => none

/-- The body of the loop of `sendSimStatusAppInfo` for one application. -/
def writeAppStatus (js : Jstring) (p : Parcel) (a : RIL_AppStatus) : Parcel :=
  let p := writeInts p [a.app_type, a.app_state, a.perso_substate]
  let p := writeStringToParcel js p a.aid_ptr
  let p := writeStringToParcel js p a.app_label_ptr
  writeInts p [a.pin1_replaced, a.pin1, a.pin2]

/-- `sendSimStatusAppInfo`. `none` is a read past the end of the array. -/
def sendSimStatusAppInfo (js : Jstring) (p : Parcel) (num_apps : Int)
    (appStatus : List RIL_AppStatus) : Option Parcel :=
  if num_apps.toNat ≤ appStatus.length then
    some ((appStatus.take num_apps.toNat).foldl (writeAppStatus js) (p.writeInt32 num_apps))
  else none

/-- `responseSimStatus`. -/
def responseSimStatus (js : Jstring) (h : RilH) (p : Parcel) (response : Option Data)
    (responselen : Nat) : Option (Int × Parcel) :=
  if response = none ∧ responselen ≠ 0 then some (RIL_ERRNO_INVALID_RESPONSE, p)
  else if responselen = h.sizeof_RIL_CardStatus_v1_5 then
    match response with
    | some (Data.cardStatus p_cur) =>
      (sendSimStatusAppInfo js
        (writeInts p [p_cur.card_state, p_cur.universal_pin_state,
          p_cur.gsm_umts_subscription_app_index, p_cur.cdma_subscription_app_index,
          p_cur.ims_subscription_app_index])
        p_cur.num_applications p_cur.applications).map (fun q => (0, q))
    | _ => none
  else some (RIL_ERRNO_INVALID_RESPONSE, p)

/-- `responseImsStatus`: the response is read whatever its length. -/
def responseImsStatus (js : Jstring) (p : Parcel) (response : Option Data)
    (_responselen : Nat) : Option (Int × Parcel) :=
  match response with
  | some (Data.imsStatus p_cur) =>
    some (0, writeStringToParcel js (writeInts p [p_cur.reg_state, p_cur.service_type])
      p_cur.uri_response)
  | _ => none

/-- The body of the loop of `responseGsmBrSmsCnf` for one record. -/
def writeBroadcastSmsConfig (p : Parcel) (c : RIL_GSM_BroadcastSmsConfigInfo) : Parcel :=
  writeInts p [c.fromServiceId, c.toServiceId, c.fromCodeScheme, c.toCodeScheme, c.selected]

/-- `responseGsmBrSmsCnf`: no test comes before the writes. -/
def responseGsmBrSmsCnf (sizeofPtr : Nat) (p : Parcel) (response : Option Data)
    (responselen : Nat) : Option (Int × Parcel) :=
  let num := responselen / sizeofPtr
  match response with
  | none => if num = 0 then some (0, p.writeInt32 num) else none
  | some (Data.brSmsCnf p_cur) =>
    if num ≤ p_cur.length then
      some (0, (p_cur.take num).foldl writeBroadcastSmsConfig (p.writeInt32 num))
    else none
  | some _ => none

/-- `responseActivityData`. -/
def responseActivityData (h : RilH) (p : Parcel) (response : Option Data) (responselen : Nat) :
    Option (Int × Parcel) :=
  if response = none ∨ responselen ≠ h.sizeof_RIL_ActivityStatsInfo then
    some (RIL_ERRNO_INVALID_RESPONSE, p)
  else
    match response with
    | some (Data.activity p_cur) =>
      if h.RIL_NUM_TX_POWER_LEVELS ≤ p_cur.tx_mode_time_ms.length then
        some (0, (writeInts (writeInts p [p_cur.sleep_mode_time_ms, p_cur.idle_mode_time_ms])
          (p_cur.tx_mode_time_ms.take h.RIL_NUM_TX_POWER_LEVELS)).writeInt32
          p_cur.rx_mode_time_ms)
      else none
    | _ => none

/-! ## The array decoders -/

/-- The loop of `dispatchInts`: `count` reads of an `int32`; `none` when a
read fails. -/
def readInts : Nat → Parcel → Option (List Int)
  | 0, _ => some []
  | n + 1, p =>
    if p.readInt32.1 ≠ NO_ERROR then none
    else (readInts n p.readInt32.2.2).map (fun rest => p.readInt32.2.1 :: rest)

/-- `dispatchInts`. On the invalid path only a message is logged. -/
def dispatchInts (p : Parcel) (pRI : RequestInfo δ ρ) (s : RilState δ ρ) :
    Option (RilState δ ρ) :=
  match pRI.pCI with
  | none => none
  | some ci =>
    let status := p.readInt32.1
    let count := p.readInt32.2.1
    if status ≠ NO_ERROR ∨ count ≤ 0 then some s
    else
      match readInts count.toNat p.readInt32.2.2 with
      | none => some s
      | some pInts =>
        some { s with trace := s.trace
          ++ [Event.onRequest ci.requestNumber (some (Data.ints pInts)) (4 * count.toNat)
                pRI.addr] }

/-- The loop of `dispatchStrings`: `countStrings` calls of `strdupReadString`,
whose results are stored whatever they are. -/
def readStrings (js : Jstring) : Nat → Parcel → List (Option (List Nat))
  | 0, _ => []
  | n + 1, p => (strdupReadString js p).1 :: readStrings js n (strdupReadString js p).2

/-- `dispatchStrings` where its `calloc` returns a block, as the allocations
of the other functions do; `dispatchStringsCalloc` below has the path on which
it returns NULL as well. For a count of zero the vendor gets a pointer to one
zeroed entry and a length of 0; for a negative count it gets NULL. -/
def dispatchStrings (js : Jstring) (sizeofPtr : Nat) (p : Parcel) (pRI : RequestInfo δ ρ)
    (s : RilState δ ρ) : Option (RilState δ ρ) :=
  match pRI.pCI with
  | none => none
  | some ci =>
    let status := p.readInt32.1
    let countStrings := p.readInt32.2.1
    if status ≠ NO_ERROR then some s
    else if countStrings = 0 then
      some { s with trace := s.trace
        ++ [Event.onRequest ci.requestNumber (some (Data.cstrs [none])) 0 pRI.addr] }
    else if countStrings < 0 then
      some { s with trace := s.trace ++ [Event.onRequest ci.requestNumber none 0 pRI.addr] }
    else
      some { s with trace := s.trace
        ++ [Event.onRequest ci.requestNumber
              (some (Data.cstrs (readStrings js countStrings.toNat p.readInt32.2.2)))
              (sizeofPtr * countStrings.toNat) pRI.addr] }

/-- The `calloc` of the target's libc as `dispatchStrings` meets it: the
`SIZE_MAX` of the target, and for which requests memory is at hand. -/
structure Calloc where
  SIZE_MAX : Nat
  available : Nat → Nat → Bool

/-- Whether `calloc(nmemb, size)` returns a block. A block holds
`nmemb * size` bytes, so NULL is returned when the product does not fit a
`size_t`, and when no memory is at hand. -/
def Calloc.returnsBlock (m : Calloc) (nmemb size : Nat) : Bool :=
  decide (nmemb * size ≤ m.SIZE_MAX) && m.available nmemb size

/-- `dispatchStrings` with the outcome of its two `calloc` calls: when the
array cannot be allocated a message is logged and the function returns, the
vendor not being called. `datalen` is a `size_t`, so the product is taken
modulo `SIZE_MAX + 1`. -/
def dispatchStringsCalloc (m : Calloc) (js : Jstring) (sizeofPtr : Nat) (p : Parcel)
    (pRI : RequestInfo δ ρ) (s : RilState δ ρ) : Option (RilState δ ρ) :=
  match pRI.pCI with
  | none => none
  | some ci =>
    let status := p.readInt32.1
    let countStrings := p.readInt32.2.1
    if status ≠ NO_ERROR then some s
    else if countStrings = 0 then
      if m.returnsBlock 1 sizeofPtr = false then some s
      else
        some { s with trace := s.trace
          ++ [Event.onRequest ci.requestNumber (some (Data.cstrs [none])) 0 pRI.addr] }
    else if countStrings < 0 then
      some { s with trace := s.trace ++ [Event.onRequest ci.requestNumber none 0 pRI.addr] }
    else
      let datalen := sizeofPtr * countStrings.toNat % (m.SIZE_MAX + 1)
      if m.returnsBlock countStrings.toNat sizeofPtr = false then some s
      else
        some { s with trace := s.trace
          ++ [Event.onRequest ci.requestNumber
                (some (Data.cstrs (readStrings js countStrings.toNat p.readInt32.2.2)))
                datalen pRI.addr] }

/-- `dispatchDataCall`. The value-returning `Parcel::readInt32()` yields 0
when the read fails. -/
def dispatchDataCall (version : Int) (js : Jstring) (sizeofPtr : Nat) (p : Parcel)
    (pRI : RequestInfo δ ρ) (s : RilState δ ρ) : Option (RilState δ ρ) :=
  let numParamsRilV3 : Int := 6
  let pos := p.dataPosition
  let numParams := p.readInt32.2.1
  if version < 4 ∧ numParams > numParamsRilV3 then
    let p2 := ((Parcel.empty.appendFrom p 0 pos).writeInt32 numParamsRilV3).setDataPosition pos
    dispatchStrings js sizeofPtr p2 pRI s
  else dispatchStrings js sizeofPtr (p.setDataPosition pos) pRI s

/-! ## Pending-request registry and response dispatch -/

/-- The scan of `checkAndDequeueRequestInfo` from a link of the list: the
first node whose address is `pRI` is unlinked. -/
def dequeueLoop (pRI : Nat) : List (RequestInfo δ ρ) → Int × List (RequestInfo δ ρ)
  | [] => (0, [])
  | cur :: rest =>
    if pRI = cur.addr then (1, rest)
    else ((dequeueLoop pRI rest).1, cur :: (dequeueLoop pRI rest).2)

/-- `checkAndDequeueRequestInfo`. -/
def checkAndDequeueRequestInfo (pRI : RIL_Token) (s : RilState δ ρ) : Int × RilState δ ρ :=
  match pRI with
  | none => (0, s)
  | some a =>
    ((dequeueLoop a s.s_pendingRequests).1,
      { s with s_pendingRequests := (dequeueLoop a s.s_pendingRequests).2 })

/-- The `RequestInfo` a token points to, while it is linked in the list. -/
def deref (t : RIL_Token) (s : RilState δ ρ) : Option (RequestInfo δ ρ) :=
  match t with
  | none => none
  | some a => s.s_pendingRequests.find? (fun r => decide (r.addr = a))

/-- `RIL_onRequestComplete`. `none` is a call through a NULL pointer or an
encoder with undefined behaviour. -/
def RIL_onRequestComplete (ril : Ril δ ρ) (t : RIL_Token) (e : Int) (response : Option Data)
    (responselen : Nat) (s : RilState δ ρ) : Option (RilState δ ρ) :=
  let c := checkAndDequeueRequestInfo t s
  if c.1 = 0 then some s
  else
    match deref t s with
    | none => none
    | some pRI =>
      if pRI.local_ > 0 then some c.2
      else if pRI.cancelled = 0 then
        let p := (Parcel.empty.writeInt32 RESPONSE_SOLICITED).writeInt32 pRI.token
        let errorOffset := p.dataPosition
        let p := p.writeInt32 e
        match response with
        | none => some (sendResponse p c.2).2
        | some _ =>
          match pRI.pCI.bind (fun ci => ci.responseFunction) with
          | none => none
          | some f =>
            match ril.responseFunction f p response responselen with
            | none => none
            | some (ret, p1) =>
              if ret ≠ 0 then
                some (sendResponse ((p1.setDataPosition errorOffset).writeInt32 ret) c.2).2
              else some (sendResponse p1 c.2).2
      else some c.2

/-- `onCommandsSocketClosed`. -/
def onCommandsSocketClosed (s : RilState δ ρ) : RilState δ ρ :=
  { s with s_pendingRequests := s.s_pendingRequests.map (fun p_cur => { p_cur with cancelled := 1 }) }

/-! ## Request routing -/

/-- The test of `processCommandBuffer` that turns a request code away. -/
def unsupportedRequest (ril : Ril δ ρ) (request : Int) : Prop :=
  request < 1
    ∨ (request ≥ ril.s_commands.length ∧ request ≤ ril.RIL_SECOND_REQUEST_BASE)
    ∨ (request ≥ ril.RIL_SECOND_REQUEST_BASE + ril.s_second_commands.length
        ∧ request ≤ ril.RIL_IMS_REQUEST_BASE)
    ∨ (request ≥ ril.RIL_IMS_REQUEST_BASE + ril.s_ims_commands.length
        ∧ request ≤ ril.RIL_CUS_REQUEST_BASE)
    ∨ request ≥ ril.RIL_CUS_REQUEST_BASE + ril.s_cus_commands.length

instance (ril : Ril δ ρ) (request : Int) : Decidable (unsupportedRequest ril request) := by
  unfold unsupportedRequest; infer_instance

/-- The table entry `processCommandBuffer` stores in `pRI->pCI`; NULL (left by
`calloc`) when none of the four tests holds. -/
def selectCommandInfo (ril : Ril δ ρ) (request : Int) : Option (CommandInfo δ ρ) :=
  if request > 0 ∧ request < ril.s_commands.length then
    ril.s_commands[request.toNat]?
  else if request > ril.RIL_SECOND_REQUEST_BASE
      ∧ request < ril.RIL_SECOND_REQUEST_BASE + ril.s_second_commands.length then
    ril.s_second_commands[(request - ril.RIL_SECOND_REQUEST_BASE).toNat]?
  else if request > ril.RIL_IMS_REQUEST_BASE
      ∧ request < ril.RIL_IMS_REQUEST_BASE + ril.s_ims_commands.length then
    ril.s_ims_commands[(request - ril.RIL_IMS_REQUEST_BASE).toNat]?
  else if request > ril.RIL_CUS_REQUEST_BASE
      ∧ request < ril.RIL_CUS_REQUEST_BASE + ril.s_cus_commands.length then
    ril.s_cus_commands[(request - ril.RIL_CUS_REQUEST_BASE).toNat]?
  else none

/-- `processCommandBuffer` on the bytes of one frame. `none` is a NULL
dereference or undefined behaviour inside the decoder. -/
def processCommandBuffer (ril : Ril δ ρ) (buffer : List Nat) (s : RilState δ ρ) :
    Option (RilState δ ρ) :=
  let p := Parcel.setData buffer
  let r1 := p.readInt32
  let request := r1.2.1
  let r2 := r1.2.2.readInt32
  let status := r2.1
  let token := r2.2.1
  let p := r2.2.2
  if status ≠ NO_ERROR then some s
  else if unsupportedRequest ril request then
    let pErr := ((Parcel.empty.writeInt32 RESPONSE_SOLICITED).writeInt32 token).writeInt32
      ril.RIL_E_GENERIC_FAILURE
    some (sendResponse pErr s).2
  else
    let pRI : RequestInfo δ ρ :=
      { addr := s.allocated + 1, token := token, pCI := selectCommandInfo ril request,
        cancelled := 0, local_ := 0 }
    let s1 := { s with allocated := s.allocated + 1,
                       s_pendingRequests := pRI :: s.s_pendingRequests }
    match pRI.pCI with
    | none => none
    | some ci =>
      match ci.dispatchFunction with
      | none => RIL_onRequestComplete ril (some pRI.addr) ril.RIL_E_REQUEST_NOT_SUPPORTED none 0 s1
      | some f =>
        ril.dispatchFunction f p pRI { s1 with trace := s1.trace ++ [Event.dispatch f p pRI.addr] }

/-! ## Runs of vendor completions -/

/-- The vendor calling `RIL_onRequestComplete` several times in a row, each
call with its token, status, response and length. -/
def completeAll (ril : Ril δ ρ) :
    List (RIL_Token × Int × Option Data × Nat) → RilState δ ρ → Option (RilState δ ρ)
  | [], s => some s
  | c :: rest, s =>
    match RIL_onRequestComplete ril c.1 c.2.1 c.2.2.1 c.2.2.2 s with
    | none => none
    | some s1 => completeAll ril rest s1

/-! ## The text decoder, the IMS SMS decoder and the voice-radio-technology shim -/

/-- `invalidCommandBlock`: a message is logged, for which `pRI->pCI` is read. -/
def invalidCommandBlock (pRI : RequestInfo δ ρ) (s : RilState δ ρ) : Option (RilState δ ρ) :=
  match pRI.pCI with
  | none => none
  | some _ => some s

/-- `dispatchString`: a text that cannot be read, or is NULL, takes the
invalid path. -/
def dispatchString (js : Jstring) (sizeofPtr : Nat) (p : Parcel) (pRI : RequestInfo δ ρ)
    (s : RilState δ ρ) : Option (RilState δ ρ) :=
  match (strdupReadString js p).1 with
  | none => invalidCommandBlock pRI s
  | some string8 =>
    match pRI.pCI with
    | none => none
    | some ci =>
      some { s with trace := s.trace
        ++ [Event.onRequest ci.requestNumber (some (Data.cstr string8)) sizeofPtr pRI.addr] }

/-- `Parcel::read(void*, size_t)`: status, the `len` bytes and the parcel
afterwards; the cursor moves past the bytes and their padding. -/
def Parcel.read (p : Parcel) (len : Nat) : Int × List Nat × Parcel :=
  match p.readInplace len with
  | some (bytes, p1) => (NO_ERROR, bytes, p1)
  | none => (NOT_ENOUGH_DATA, [], p)

/-- `dispatchImsGsmSms`. The length handed to the vendor is
`sizeof(RIL_RadioTechnologyFamily) + sizeof(uint8_t) + sizeof(int32_t)`, which
is 4 + 1 + 4, plus the size of the array of texts. -/
def dispatchImsGsmSms (js : Jstring) (c : RilEnums) (sizeofPtr : Nat) (p : Parcel)
    (pRI : RequestInfo δ ρ) (retry : Nat) (messageRef : Int) (s : RilState δ ρ) :
    Option (RilState δ ρ) :=
  let status := p.readInt32.1
  let countStrings := p.readInt32.2.1
  if status ≠ NO_ERROR then invalidCommandBlock pRI s
  else
    match pRI.pCI with
    | none => none
    | some ci =>
      if countStrings = 0 then
        some { s with trace := s.trace
          ++ [Event.onRequest ci.requestNumber
                (some (Data.imsSms c.RADIO_TECH_3GPP retry messageRef (some [none])))
                (4 + 1 + 4 + 0) pRI.addr] }
      else if countStrings < 0 then
        some { s with trace := s.trace
          ++ [Event.onRequest ci.requestNumber
                (some (Data.imsSms c.RADIO_TECH_3GPP retry messageRef none))
                (4 + 1 + 4 + 0) pRI.addr] }
      else if countStrings.toNat > INT_MAX.toNat / sizeofPtr then some s
      else
        some { s with trace := s.trace
          ++ [Event.onRequest ci.requestNumber
                (some (Data.imsSms c.RADIO_TECH_3GPP retry messageRef
                  (some (readStrings js countStrings.toNat p.readInt32.2.2))))
                (4 + 1 + 4 + sizeofPtr * countStrings.toNat) pRI.addr] }

/-- `dispatchImsSms`. A format other than `RADIO_TECH_3GPP` is logged and
nothing else is done. -/
def dispatchImsSms (js : Jstring) (c : RilEnums) (sizeofPtr : Nat) (p : Parcel)
    (pRI : RequestInfo δ ρ) (s : RilState δ ρ) : Option (RilState δ ρ) :=
  let r1 := p.readInt32
  if r1.1 ≠ NO_ERROR then invalidCommandBlock pRI s
  else
    let format := r1.2.1
    let r2 := r1.2.2.read 1
    if r2.1 ≠ NO_ERROR then invalidCommandBlock pRI s
    else
      let retry := r2.2.1.headD 0
      let r3 := r2.2.2.read 4
      if r3.1 ≠ NO_ERROR then invalidCommandBlock pRI s
      else
        let messageRef := int32OfBytes (r3.2.1.getD 0 0) (r3.2.1.getD 1 0) (r3.2.1.getD 2 0)
          (r3.2.1.getD 3 0)
        if c.RADIO_TECH_3GPP = format then
          dispatchImsGsmSms js c sizeofPtr r3.2.2 pRI retry messageRef s
        else some s

/-- `decodeVoiceRadioTechnology`. -/
def decodeVoiceRadioTechnology (c : RilEnums) (radioState : Int) : Int :=
  if radioState = c.RADIO_STATE_SIM_NOT_READY
      ∨ radioState = c.RADIO_STATE_SIM_LOCKED_OR_ABSENT
      ∨ radioState = c.RADIO_STATE_SIM_READY then c.RADIO_TECH_UMTS
  else if radioState = c.RADIO_STATE_RUIM_NOT_READY
      ∨ radioState = c.RADIO_STATE_RUIM_READY
      ∨ radioState = c.RADIO_STATE_RUIM_LOCKED_OR_ABSENT
      ∨ radioState = c.RADIO_STATE_NV_NOT_READY
      ∨ radioState = c.RADIO_STATE_NV_READY then c.RADIO_TECH_1xRTT
  else -1

/-- `decodeSimStatus`. -/
def decodeSimStatus (c : RilEnums) (radioState : Int) : Int :=
  if radioState = c.RADIO_STATE_SIM_NOT_READY
      ∨ radioState = c.RADIO_STATE_RUIM_NOT_READY
      ∨ radioState = c.RADIO_STATE_NV_NOT_READY
      ∨ radioState = c.RADIO_STATE_NV_READY then -1
  else if radioState = c.RADIO_STATE_SIM_LOCKED_OR_ABSENT
      ∨ radioState = c.RADIO_STATE_SIM_READY
      ∨ radioState = c.RADIO_STATE_RUIM_READY
      ∨ radioState = c.RADIO_STATE_RUIM_LOCKED_OR_ABSENT then radioState
  else -1

/-- `dispatchVoiceRadioTech`. After the completion for an unavailable or
switched-off radio the function goes on, as the source does. -/
def dispatchVoiceRadioTech (ril : Ril δ ρ) (c : RilEnums) (p : Parcel) (pRI : RequestInfo δ ρ)
    (s : RilState δ ρ) : Option (RilState δ ρ) :=
  let state := s.radioState
  let r :=
    if c.RADIO_STATE_UNAVAILABLE = state ∨ c.RADIO_STATE_OFF = state then
      RIL_onRequestComplete ril (some pRI.addr) c.RIL_E_RADIO_NOT_AVAILABLE none 0 s
    else some s
  match r with
  | none => none
  | some s1 =>
    if c.RADIO_STATE_ON = state then dispatchVoid p pRI s1
    else
      let s2 := { s1 with voiceRadioTech := decodeVoiceRadioTechnology c state }
      if s2.voiceRadioTech < 0 then
        RIL_onRequestComplete ril (some pRI.addr) ril.RIL_E_GENERIC_FAILURE none 0 s2
      else
        RIL_onRequestComplete ril (some pRI.addr) c.RIL_E_SUCCESS
          (some (Data.ints [s2.voiceRadioTech])) 4 s2

/-! ## Unsolicited responses, the connection handshake and registration

The wake lock functions `grabPartialWakeLock` and `releaseWakeLock` have
empty bodies in the source. A timer that has been added is kept in
`RilState.timers`; the event loop that fires it is not part of the embedding.
`RIL_onUnsolicitedResponse` and `processRadioState` call each other: their
first argument bounds the depth of these calls, and `none` is returned when it
is used up. -/

/-- `internalRequestTimedCallback` for `wakeTimeoutCallback` and a relative
time: a `UserCallbackInfo` is allocated, filled in and handed to
`ril_timer_add`; its address is returned. -/
def internalRequestTimedCallback (param : Nat) (s : RilState δ ρ) : Nat × RilState δ ρ :=
  (s.allocated + 1,
    { s with allocated := s.allocated + 1
             timers := s.timers ++ [{ addr := s.allocated + 1, userParam := param }] })

/-- The body of `processRadioState`, given what a call of
`RIL_onUnsolicitedResponse` does. The nested calls are handed the address of
the global they have just set. -/
def processRadioStateWith (c : RilEnums)
    (notify : Int → Option Data → Nat → RilState δ ρ → Option (RilState δ ρ))
    (newRadioState : Int) (s : RilState δ ρ) : Option (Int × RilState δ ρ) :=
  if newRadioState > c.RADIO_STATE_UNAVAILABLE ∧ newRadioState < c.RADIO_STATE_ON then
    let newVoiceRadioTech := decodeVoiceRadioTechnology c newRadioState
    let r1 :=
      if newVoiceRadioTech ≠ s.voiceRadioTech then
        notify c.RIL_UNSOL_VOICE_RADIO_TECH_CHANGED (some (Data.ints [newVoiceRadioTech])) 4
          { s with voiceRadioTech := newVoiceRadioTech }
      else some s
    match r1 with
    | none => none
    | some s1 =>
      let newSimStatus := decodeSimStatus c newRadioState
      let r2 :=
        if newSimStatus ≠ s1.simRuimStatus then
          notify c.RIL_UNSOL_RESPONSE_SIM_STATUS_CHANGED none 0
            { s1 with simRuimStatus := newSimStatus }
        else some s1
      match r2 with
      | none => none
      | some s2 => some (c.RADIO_STATE_ON, s2)
  else some (newRadioState, s)

/-- The block of `RIL_onUnsolicitedResponse` under the test of the version:
a release timer is armed, the timer tracked before is told to do nothing
(its `userParam` becomes 1), and the new one is tracked. -/
def armWakeTimeout (shouldScheduleTimeout : Bool) (s1 : RilState δ ρ) : RilState δ ρ :=
  if s1.s_callbacks.version < 13 ∧ shouldScheduleTimeout = true then
    let t := internalRequestTimedCallback 0 s1
    { t.2 with
      timers := t.2.timers.map (fun i =>
        if some i.addr = s1.s_last_wake_timeout_info then { i with userParam := 1 }
        else i)
      s_last_wake_timeout_info := some t.1 }
  else s1

/-- The end of `RIL_onUnsolicitedResponse`, from the test of the version
on: the release timer is armed and tracked, the frame is sent, and a network
time frame that could not be sent is kept. -/
def unsolicitedSend (c : RilEnums) (unsolResponse : Int) (shouldScheduleTimeout : Bool)
    (p : Parcel) (s1 : RilState δ ρ) : RilState δ ρ :=
  let s2 := armWakeTimeout shouldScheduleTimeout s1
  let sent := sendResponse p s2
  if sent.1 ≠ 0 ∧ unsolResponse = c.RIL_UNSOL_NITZ_TIME_RECEIVED then
    { sent.2 with s_lastNITZTimeData := some p.data
                  s_lastNITZTimeDataSize := p.dataSize }
  else sent.2

/-- The body of `RIL_onUnsolicitedResponse`, given what a call of
`processRadioState` does. `timeReceived` is 0 where it is written. `none` is
a call through a NULL pointer or an encoder with undefined behaviour. -/
def onUnsolicitedResponseWith (ril : Ril δ ρ) (c : RilEnums)
    (processRadioState : Int → RilState δ ρ → Option (Int × RilState δ ρ))
    (unsolResponse : Int) (data : Option Data) (datalen : Nat) (s : RilState δ ρ) :
    Option (RilState δ ρ) :=
  let timeReceived : Int := 0
  if s.s_registerCalled = 0 then some s
  else
    let unsolResponseIndex := unsolResponse - c.RIL_UNSOL_RESPONSE_BASE
    if unsolResponseIndex < 0 ∨ unsolResponseIndex ≥ ril.s_unsolResponses.length then some s
    else
      match ril.s_unsolResponses[unsolResponseIndex.toNat]? with
      | none => none
      | some info =>
        let shouldScheduleTimeout : Bool := decide (info.wakeType = WakeType.WAKE_PARTIAL)
        let p := (Parcel.empty.writeInt32 RESPONSE_UNSOLICITED).writeInt32 unsolResponse
        match info.responseFunction with
        | none => none
        | some f =>
          match ril.responseFunction f p data datalen with
          | none => none
          | some (ret, p) =>
            if ret ≠ 0 then some s
            else
              let r : Option (Parcel × RilState δ ρ) :=
                if unsolResponse = c.RIL_UNSOL_RESPONSE_RADIO_STATE_CHANGED then
                  match processRadioState s.radioState s with
                  | none => none
                  | some (newState, s1) => some (p.writeInt32 newState, s1)
                else if unsolResponse = c.RIL_UNSOL_NITZ_TIME_RECEIVED then
                  some (p.writeInt64 timeReceived, s)
                else some (p, s)
              match r with
              | none => none
              | some (p, s1) => some (unsolicitedSend c unsolResponse shouldScheduleTimeout p s1)

/-- `RIL_onUnsolicitedResponse`. -/
def RIL_onUnsolicitedResponse (ril : Ril δ ρ) (c : RilEnums) :
    Nat → Int → Option Data → Nat → RilState δ ρ → Option (RilState δ ρ)
  | 0 => fun _ _ _ _ => none
  | depth + 1 =>
    onUnsolicitedResponseWith ril c
      (processRadioStateWith c (RIL_onUnsolicitedResponse ril c depth))

/-- `processRadioState`. -/
def processRadioState (ril : Ril δ ρ) (c : RilEnums) (depth : Nat) (newRadioState : Int)
    (s : RilState δ ρ) : Option (Int × RilState δ ρ) :=
  processRadioStateWith c (RIL_onUnsolicitedResponse ril c depth) newRadioState s

/-- `onNewCommandConnect`. The call of `sendResponseRaw` is recorded; it reads
`s_lastNITZTimeDataSize` bytes of the cached buffer. -/
def onNewCommandConnect (ril : Ril δ ρ) (c : RilEnums) (depth : Nat) (s : RilState δ ρ) :
    Option (RilState δ ρ) :=
  let rilVer := s.s_callbacks.version
  match RIL_onUnsolicitedResponse ril c depth c.RIL_UNSOL_RIL_CONNECTED
      (some (Data.ints [rilVer])) 4 s with
  | none => none
  | some s1 =>
    match RIL_onUnsolicitedResponse ril c depth c.RIL_UNSOL_RESPONSE_RADIO_STATE_CHANGED
        none 0 s1 with
    | none => none
    | some s2 =>
      match s2.s_lastNITZTimeData with
      | none => some s2
      | some d =>
        if s2.s_lastNITZTimeDataSize ≤ d.length then
          let s3 := { s2 with trace := s2.trace
            ++ [Event.sendResponseRaw d s2.s_lastNITZTimeDataSize] }
          some { (sendResponseRaw (d.take s2.s_lastNITZTimeDataSize) s3).2 with
            s_lastNITZTimeData := none }
        else none

/-- The radio states of `RIL_RadioState`, in the order of the sample
values. Distinct enumerators have distinct values in the public header. -/
def RilEnums.radioStates (c : RilEnums) : List Int :=
  [c.RADIO_STATE_OFF, c.RADIO_STATE_UNAVAILABLE, c.RADIO_STATE_SIM_NOT_READY,
   c.RADIO_STATE_SIM_LOCKED_OR_ABSENT, c.RADIO_STATE_SIM_READY, c.RADIO_STATE_RUIM_NOT_READY,
   c.RADIO_STATE_RUIM_READY, c.RADIO_STATE_RUIM_LOCKED_OR_ABSENT, c.RADIO_STATE_NV_NOT_READY,
   c.RADIO_STATE_NV_READY, c.RADIO_STATE_ON]

/-- The eight radio states of older vendor libraries: the SIM, RUIM and NV
states. -/
def RilEnums.legacyStates (c : RilEnums) : List Int :=
  [c.RADIO_STATE_SIM_NOT_READY, c.RADIO_STATE_SIM_LOCKED_OR_ABSENT, c.RADIO_STATE_SIM_READY,
   c.RADIO_STATE_RUIM_NOT_READY, c.RADIO_STATE_RUIM_READY, c.RADIO_STATE_RUIM_LOCKED_OR_ABSENT,
   c.RADIO_STATE_NV_NOT_READY, c.RADIO_STATE_NV_READY]

/-- `RIL_register`, up to the point where it starts the event loop: the
checks and the two stores. -/
def RIL_register (c : RilEnums) (callbacks : Option RIL_RadioFunctions) (s : RilState δ ρ) :
    RilState δ ρ :=
  match callbacks with
  | none => s
  | some cb =>
    if cb.version < c.RIL_VERSION_MIN then s
    else if cb.version > c.RIL_VERSION then s
    else if s.s_registerCalled > 0 then s
    else { s with s_callbacks := cb, s_registerCalled := 1 }

/-- Several calls of `RIL_register` in a row. -/
def registerAll (c : RilEnums) : List (Option RIL_RadioFunctions) → RilState δ ρ → RilState δ ρ
  | [], s => s
  | cb :: rest, s => registerAll c rest (RIL_register c cb s)

/-! ## The peer's view of a reply -/

/-- The bytes `Parcel::writeString16` stores for a text of the given code
units: the length, the units, a zero unit, and padding to a multiple of four. -/
def string16Bytes (s16 : List Nat) : List Nat :=
  int32Bytes s16.length ++ ((s16.flatMap char16Bytes ++ [0, 0])
    ++ Parcel.padding (s16.flatMap char16Bytes ++ [0, 0]).length)

/-- The bytes `writeStringToParcel` stores for a text that may be NULL, given
its code units: the length -1 for NULL. -/
def optString16Bytes (s16 : Option (List Nat)) : List Nat :=
  match s16 with
  | none => int32Bytes (-1)
  | some u => string16Bytes u

/-- What the peer of the command socket reads from a reply that carries one
text: three integers (tag, token, status) and the text, provided every read
succeeds and the reads use up the frame. -/
def readSolicitedString (js : Jstring) (frame : List Nat) :
    Option (Int × Int × Int × Option (List Nat)) :=
  let r1 := (Parcel.setData frame).readInt32
  let r2 := r1.2.2.readInt32
  let r3 := r2.2.2.readInt32
  let r4 := strdupReadString js r3.2.2
  if r1.1 = NO_ERROR ∧ r2.1 = NO_ERROR ∧ r3.1 = NO_ERROR ∧ r4.2.mDataPos = frame.length then
    some (r1.2.1, r2.2.1, r3.2.1, r4.1)
  else none

/-! ## A sample configuration

The command tables and the constants of `telephony/ril.h` are parameters of
the embedding. The configuration below fixes them for concrete evaluation. -/

/-- The decoders embedded above, as the values a table can point to. -/
inductive DispatchFn where
  | dispatchVoid
  | dispatchInts
  | dispatchStrings
  | dispatchDataCall
  | dispatchString
  | dispatchImsSms
deriving DecidableEq, Repr

/-- The encoders of the file that have the signature of a table entry, as
the values a table can point to. `responseStringsWithVersion` takes the
version as well and is reached through `responseSetupDataCall` only. -/
inductive ResponseFn where
  | responseVoid
  | responseString
  | responseInts
  | responseStrings
  | responseCallList
  | responseSMS
  | responseDataCallListV4
  | responseDataCallList
  | responseSetupDataCall
  | responseRaw
  | responseSIM_IO
  | responseCallForwards
  | responseSsn
  | responseCellList
  | responseRilSignalStrength
  | responseSimRefresh
  | responseCellInfoList
  | responseSimStatus
  | responseImsStatus
  | responseGsmBrSmsCnf
  | responseActivityData
deriving DecidableEq, Repr

/-- Text conversions that keep every unit as it is, as the library does on
7-bit texts. -/
def asciiJstring : Jstring := { strdup8to16 := id, strndup16to8 := id }

/-- The call through a decoder pointer, for given text conversions, target
sizes, enumerators and negotiated version. -/
def callDispatch (js : Jstring) (h : RilH) (c : RilEnums) (version : Int) :
    DispatchFn → Parcel → RequestInfo DispatchFn ResponseFn →
    RilState DispatchFn ResponseFn → Option (RilState DispatchFn ResponseFn)
  | .dispatchVoid => dispatchVoid
  | .dispatchInts => dispatchInts
  | .dispatchStrings => dispatchStrings js h.sizeofPtr
  | .dispatchDataCall => dispatchDataCall version js h.sizeofPtr
  | .dispatchString => dispatchString js h.sizeofPtr
  | .dispatchImsSms => dispatchImsSms js c h.sizeofPtr

/-- The call through an encoder pointer, for given text conversions, target
sizes and negotiated version. -/
def callResponse (js : Jstring) (h : RilH) (version : Int) :
    ResponseFn → Parcel → Option Data → Nat → Option (Int × Parcel)
  | .responseVoid => responseVoid
  | .responseString => responseString js
  | .responseInts => responseInts h.sizeofPtr
  | .responseStrings => responseStrings js h.sizeofPtr
  | .responseCallList => responseCallList version js h.sizeofPtr
  | .responseSMS => responseSMS js h
  | .responseDataCallListV4 => responseDataCallListV4 js h
  | .responseDataCallList => responseDataCallList version js h
  | .responseSetupDataCall => responseSetupDataCall version js h
  | .responseRaw => responseRaw
  | ResponseFn.responseSIM_IO => responseSIM_IO js h
  | .responseCallForwards => responseCallForwards js h.sizeofPtr
  | .responseSsn => responseSsn js h
  | .responseCellList => responseCellList js h.sizeofPtr
  | .responseRilSignalStrength => responseRilSignalStrength version h
  | .responseSimRefresh => responseSimRefresh version js
  | .responseCellInfoList => responseCellInfoList h
  | .responseSimStatus => responseSimStatus js h
  | .responseImsStatus => responseImsStatus js
  | .responseGsmBrSmsCnf => responseGsmBrSmsCnf h.sizeofPtr
  | .responseActivityData => responseActivityData h

/-- Sizes of a target with pointers of 8 bytes and the usual alignment, with
type tags 1, 4 and 3 for GSM, WCDMA and LTE cells and five transmit levels. -/
def sampleRilH : RilH :=
  { sizeofPtr := 8
    sizeof_RIL_SMS_Response := 24
    sizeof_RIL_Data_Call_Response_v4 := 32
    sizeof_RIL_Data_Call_Response_v11 := 72
    sizeof_RIL_SIM_IO_Response := 16
    sizeof_RIL_SuppSvcNotification := 24
    sizeof_RIL_SignalStrength_v5 := 28
    sizeof_RIL_SignalStrength_v6 := 48
    sizeof_RIL_CellInfo := 72
    sizeof_RIL_CardStatus_v1_5 := 344
    sizeof_RIL_ActivityStatsInfo := 32
    RIL_NUM_TX_POWER_LEVELS := 5
    RIL_CELL_INFO_TYPE_GSM := 1
    RIL_CELL_INFO_TYPE_WCDMA := 4
    RIL_CELL_INFO_TYPE_LTE := 3 }

/-- An allocator of a target with a `size_t` of 8 bytes that has memory at
hand for requests of up to 65536 bytes. -/
def sampleCalloc : Calloc :=
  { SIZE_MAX := 18446744073709551615, available := fun nmemb size => decide (nmemb * size ≤ 65536) }

/-- An allocator of a target with a `size_t` of 4 bytes that has memory at
hand for every request that fits. -/
def sampleCalloc32 : Calloc :=
  { SIZE_MAX := 4294967295, available := fun _ _ => true }

/-- The same sizes on a target with pointers of 4 bytes. -/
def sampleRilH32 : RilH :=
  { sampleRilH with
    sizeofPtr := 4
    sizeof_RIL_SMS_Response := 12
    sizeof_RIL_Data_Call_Response_v4 := 20
    sizeof_RIL_Data_Call_Response_v11 := 44
    sizeof_RIL_SIM_IO_Response := 12
    sizeof_RIL_SuppSvcNotification := 20
    sizeof_RIL_CellInfo := 64
    sizeof_RIL_CardStatus_v1_5 := 216 }

/-- Enumerators with the values of the public `ril.h`: radio states 0 to 10
in the order OFF, UNAVAILABLE, the three SIM states, the three RUIM states,
the two NV states, ON; technologies UMTS 3 and 1xRTT 6; the 3GPP family 1;
versions 6 to 15; unsolicited codes from 1000 on, with the radio state change
at 1000, the network time at 1008, the SIM status change at 1019, the
connection notice at 1034 and the voice technology change at 1035. -/
def sampleEnums : RilEnums :=
  { RADIO_STATE_OFF := 0
    RADIO_STATE_UNAVAILABLE := 1
    RADIO_STATE_SIM_NOT_READY := 2
    RADIO_STATE_SIM_LOCKED_OR_ABSENT := 3
    RADIO_STATE_SIM_READY := 4
    RADIO_STATE_RUIM_NOT_READY := 5
    RADIO_STATE_RUIM_READY := 6
    RADIO_STATE_RUIM_LOCKED_OR_ABSENT := 7
    RADIO_STATE_NV_NOT_READY := 8
    RADIO_STATE_NV_READY := 9
    RADIO_STATE_ON := 10
    RADIO_TECH_UMTS := 3
    RADIO_TECH_1xRTT := 6
    RADIO_TECH_3GPP := 1
    RIL_E_SUCCESS := 0
    RIL_E_RADIO_NOT_AVAILABLE := 1
    RIL_VERSION_MIN := 6
    RIL_VERSION := 15
    RIL_UNSOL_RESPONSE_BASE := 1000
    RIL_UNSOL_RESPONSE_RADIO_STATE_CHANGED := 1000
    RIL_UNSOL_NITZ_TIME_RECEIVED := 1008
    RIL_UNSOL_RIL_CONNECTED := 1034
    RIL_UNSOL_VOICE_RADIO_TECH_CHANGED := 1035
    RIL_UNSOL_RESPONSE_SIM_STATUS_CHANGED := 1019 }

/-- A base table of 39 entries whose entry 38 is (dispatchVoid, responseString),
whose entry 37 has no decoder and whose entry 36 is (dispatchVoid, responseInts),
three extension tables of two entries, family bases 1000, 2000 and 3000, generic
failure 2, not-supported 6, pointers of 8 bytes and negotiated version 11. The
table of unsolicited responses has 36 entries for the codes from 1000 on:
entry 8 uses `responseString`, entries 34 and 35 use `responseInts`, the
others `responseVoid`; entries 0, 8, 19, 34 and 35 ask for a wake lock. -/
def sampleRil : Ril DispatchFn ResponseFn :=
  { RIL_E_GENERIC_FAILURE := 2
    RIL_E_REQUEST_NOT_SUPPORTED := 6
    RIL_SECOND_REQUEST_BASE := 1000
    RIL_IMS_REQUEST_BASE := 2000
    RIL_CUS_REQUEST_BASE := 3000
    s_commands :=
      (List.range 36).map (fun i =>
          { requestNumber := i, dispatchFunction := some .dispatchVoid,
            responseFunction := some .responseVoid })
        ++ [{ requestNumber := 36, dispatchFunction := some .dispatchVoid,
              responseFunction := some .responseInts },
            { requestNumber := 37, dispatchFunction := none, responseFunction := none },
            { requestNumber := 38, dispatchFunction := some .dispatchVoid,
              responseFunction := some .responseString }]
    s_second_commands :=
      [{ requestNumber := 1000, dispatchFunction := none, responseFunction := none },
       { requestNumber := 1001, dispatchFunction := some .dispatchVoid,
         responseFunction := some .responseVoid }]
    s_ims_commands :=
      [{ requestNumber := 2000, dispatchFunction := none, responseFunction := none },
       { requestNumber := 2001, dispatchFunction := some .dispatchVoid,
         responseFunction := some .responseString }]
    s_cus_commands :=
      [{ requestNumber := 3000, dispatchFunction := none, responseFunction := none },
       { requestNumber := 3001, dispatchFunction := none, responseFunction := none }]
    s_unsolResponses :=
      (List.range 36).map (fun i =>
        { requestNumber := 1000 + i,
          responseFunction :=
            some (if i = 8 then ResponseFn.responseString
              else if i = 34 ∨ i = 35 then ResponseFn.responseInts
              else ResponseFn.responseVoid),
          wakeType :=
            if i = 0 ∨ i = 8 ∨ i = 19 ∨ i = 34 ∨ i = 35 then WakeType.WAKE_PARTIAL
            else WakeType.DONT_WAKE })
    dispatchFunction := callDispatch asciiJstring sampleRilH sampleEnums 11
    responseFunction := callResponse asciiJstring sampleRilH 11 }

/-- A pending request of the sample configuration, for a code of the base table. -/
def sampleRequest (addr : Nat) (token : Int) (request : Nat) :
    RequestInfo DispatchFn ResponseFn :=
  { addr := addr, token := token, pCI := sampleRil.s_commands[request]?, cancelled := 0,
    local_ := 0 }

/-- A connected state with two requests pending. -/
def sampleState : RilState DispatchFn ResponseFn :=
  { s_pendingRequests := [sampleRequest 2 7 36, sampleRequest 1 5 38]
    s_fdCommand := 9
    allocated := 2
    socket := { writeResults := [], wire := [], closed := false }
    trace := [] }

/-- The sample configuration with a custom table whose entries 1, 2 and 3
use `dispatchInts`, `dispatchString` and `dispatchImsSms`. -/
def sampleDecoderRil : Ril DispatchFn ResponseFn :=
  { sampleRil with
    s_cus_commands :=
      [{ requestNumber := 3000, dispatchFunction := none, responseFunction := none },
       { requestNumber := 3001, dispatchFunction := some .dispatchInts,
         responseFunction := some .responseVoid },
       { requestNumber := 3002, dispatchFunction := some .dispatchString,
         responseFunction := some .responseVoid },
       { requestNumber := 3003, dispatchFunction := some .dispatchImsSms,
         responseFunction := some .responseSMS }] }

/-- The sample configuration on a target with pointers of 4 bytes. -/
def sampleRil32 : Ril DispatchFn ResponseFn :=
  { sampleRil with
    dispatchFunction := callDispatch asciiJstring sampleRilH32 sampleEnums 11
    responseFunction := callResponse asciiJstring sampleRilH32 11 }

/-- The vendor's function table of the sample configuration: version 11 and
five functions at distinct addresses. -/
def sampleCallbacks : RIL_RadioFunctions :=
  { version := 11, onRequest := 101, onStateRequest := 102, supports := 103, onCancel := 104,
    getVersion := 105 }

/-- The sample state after `RIL_register` has accepted `sampleCallbacks`,
with a vendor that reports `RADIO_STATE_ON`. -/
def sampleRegistered : RilState DispatchFn ResponseFn :=
  { sampleState with s_callbacks := sampleCallbacks, s_registerCalled := 1, radioState := 10 }

/-! ## The length rule of the specification

The specification describes one validation for the encoders: the supplied
byte length is either the size of one fixed-size record or an exact multiple
of the size of one record of an array. -/

/-- The two shapes of the rule: one record of `size` bytes, or an array of
records of `size` bytes each. -/
inductive LengthRule where
  | exact (size : Nat)
  | multiple (size : Nat)
deriving DecidableEq, Repr

/-- Whether a byte length is consistent with a rule. -/
def LengthRule.consistent : LengthRule → Nat → Bool
  | .exact size, responselen => responselen = size
  | .multiple size, responselen => responselen % size = 0

/-- The rule of the specification for the encoders that test the length
against the type they read the response as: `int`, a pointer, or the record
named in their cast. No rule is given for `responseVoid`, `responseString`,
`responseRaw`, `responseRilSignalStrength`, `responseSimRefresh`,
`responseImsStatus` and `responseGsmBrSmsCnf`, nor for `responseCellList`,
which reads records but tests the size of a pointer. -/
def specLengthRule (h : RilH) (version : Int) : ResponseFn → Option LengthRule
  | .responseInts => some (.multiple 4)
  | .responseStrings => some (.multiple h.sizeofPtr)
  | .responseCallList => some (.multiple h.sizeofPtr)
  | .responseSMS => some (.exact h.sizeof_RIL_SMS_Response)
  | .responseDataCallListV4 => some (.multiple h.sizeof_RIL_Data_Call_Response_v4)
  | .responseDataCallList =>
    some (.multiple (if version < 5 then h.sizeof_RIL_Data_Call_Response_v4
      else h.sizeof_RIL_Data_Call_Response_v11))
  | .responseSetupDataCall =>
    some (.multiple (if version < 5 then h.sizeofPtr else h.sizeof_RIL_Data_Call_Response_v11))
  | ResponseFn.responseSIM_IO => some (.exact h.sizeof_RIL_SIM_IO_Response)
  | .responseCallForwards => some (.multiple h.sizeofPtr)
  | .responseSsn => some (.exact h.sizeof_RIL_SuppSvcNotification)
  | .responseCellInfoList => some (.multiple h.sizeof_RIL_CellInfo)
  | .responseSimStatus => some (.exact h.sizeof_RIL_CardStatus_v1_5)
  | .responseActivityData => some (.exact h.sizeof_RIL_ActivityStatsInfo)
  | _ => none

/-! ## Hexadecimal texts -/

/-- The constant `INVALID_HEX_CHAR`. -/
def INVALID_HEX_CHAR : Nat := 16

/-- `hexCharToInt`, on the code of the character: the digits are the codes
48 to 57, `A` to `F` are 65 to 70 and `a` to `f` are 97 to 102. -/
def hexCharToInt (c : Nat) : Nat :=
  if c ≥ 48 ∧ c ≤ 57 then c - 48
  else if c ≥ 65 ∧ c ≤ 70 then c - 65 + 10
  else if c ≥ 97 ∧ c ≤ 102 then c - 97 + 10
  else INVALID_HEX_CHAR

/-- The loop of `convertHexStringToBytes` over the pairs of characters still
to convert and the memory from the current pair on. The outer `none` is a
read past the end of the memory, the inner one is the NULL returned for a
character that is no digit; a byte is stored in a `uint8_t`. -/
def convertHexLoop : Nat → List Nat → Option (Option (List Nat))
  | 0, _ => some (some [])
  | n + 1, hexChar1 :: hexChar2 :: rest =>
    if hexCharToInt hexChar1 = INVALID_HEX_CHAR ∨ hexCharToInt hexChar2 = INVALID_HEX_CHAR then
      some none
    else
      (convertHexLoop n rest).map
        (Option.map (fun bytes =>
          ((hexCharToInt hexChar1 <<< 4) ||| hexCharToInt hexChar2) % 256 :: bytes))
  | _ + 1, _ => none

/-- `convertHexStringToBytes` on the memory `response` points to. The outer
`none` is undefined behaviour, `some none` is the NULL result. -/
def convertHexStringToBytes (response : List Nat) (responseLen : Nat) :
    Option (Option (List Nat)) :=
  if responseLen % 2 ≠ 0 then some none
  else convertHexLoop (responseLen / 2) response

/-- The code of the character that spells a digit below 16, in upper or in
lower case. -/
def hexDigit (upper : Bool) (n : Nat) : Nat :=
  if n < 10 then 48 + n else if upper then 65 + (n - 10) else 97 + (n - 10)

/-- The hexadecimal spelling of a sequence of bytes: two digits for each,
the high one first, each in the case asked for. -/
def hexSpelling (upperHigh upperLow : Bool) (bytes : List Nat) : List Nat :=
  bytes.flatMap (fun b => [hexDigit upperHigh (b / 16), hexDigit upperLow (b % 16)])

/-! ## The dial decoder -/

/-- `dispatchDial`. `sizeof_RIL_Dial` is the `sizeof(dial)` of the target and
`sizeofPtr` its `sizeof(RIL_UUS_Info*)`. The statuses of the reads of
`uusType` and `uusDcs` are not looked at, and a read that fails leaves `t` as
it was. A negative length other than -1 makes `readInplace` return NULL. -/
def dispatchDial (js : Jstring) (sizeof_RIL_Dial sizeofPtr : Nat) (p : Parcel)
    (pRI : RequestInfo δ ρ) (s : RilState δ ρ) : Option (RilState δ ρ) :=
  let address := (strdupReadString js p).1
  let r1 := (strdupReadString js p).2.readInt32
  let t := r1.2.1
  let clir := t
  if r1.1 ≠ NO_ERROR ∨ address = none then invalidCommandBlock pRI s
  else if s.s_callbacks.version < 3 then
    match pRI.pCI with
    | none => none
    | some ci =>
      some { s with trace := s.trace
        ++ [Event.onRequest ci.requestNumber
              (some (Data.dial { address := address, clir := clir, uusInfo := none }))
              (sizeof_RIL_Dial - sizeofPtr) pRI.addr] }
  else
    let r2 := r1.2.2.readInt32
    let uusPresent := r2.2.1
    if r2.1 ≠ NO_ERROR then invalidCommandBlock pRI s
    else if uusPresent = 0 then
      match pRI.pCI with
      | none => none
      | some ci =>
        some { s with trace := s.trace
          ++ [Event.onRequest ci.requestNumber
                (some (Data.dial { address := address, clir := clir, uusInfo := none }))
                sizeof_RIL_Dial pRI.addr] }
    else
      let r3 := r2.2.2.readInt32
      let t3 := if r3.1 = NO_ERROR then r3.2.1 else t
      let r4 := r3.2.2.readInt32
      let t4 := if r4.1 = NO_ERROR then r4.2.1 else t3
      let r5 := r4.2.2.readInt32
      let len := r5.2.1
      if r5.1 ≠ NO_ERROR then invalidCommandBlock pRI s
      else
        let uusData :=
          if len = -1 then none
          else if len < 0 then none
          else (r5.2.2.readInplace len.toNat).map (fun r => r.1)
        let uusLength := if len = -1 then 0 else len
        match pRI.pCI with
        | none => none
        | some ci =>
          some { s with trace := s.trace
            ++ [Event.onRequest ci.requestNumber
                  (some (Data.dial
                    { address := address, clir := clir
                      uusInfo := some { uusType := t3, uusDcs := t4, uusLength := uusLength
                                        uusData := uusData } }))
                  sizeof_RIL_Dial pRI.addr] }

/-! ## The wake-release timers

`userTimerCallback` is what the event loop runs when a timer fires. The body
of `releaseWakeLock` is empty in the source, so a call of it leaves the state
as it is; whether the call is made is kept as a flag next to the state. -/

/-- `releaseWakeLock`: the body is empty. -/
def releaseWakeLock (s : RilState δ ρ) : RilState δ ρ := s

/-- `wakeTimeoutCallback`: the flag tells whether `releaseWakeLock` has been
called. -/
def wakeTimeoutCallback (param : Nat) (s : RilState δ ρ) : Bool × RilState δ ρ :=
  if param = 0 then (true, releaseWakeLock s) else (false, s)

/-- `userTimerCallback` for the `UserCallbackInfo` at the address `p_info`,
whose callback is `wakeTimeoutCallback`: the callback is run with the
`userParam` of the block, the tracking slot is cleared when it holds this
address, and the block is freed. `none` when there is no such block. The flag
is the one of `wakeTimeoutCallback`. -/
def userTimerCallback (p_info : Nat) (s : RilState δ ρ) : Option (Bool × RilState δ ρ) :=
  match s.timers.find? (fun i => i.addr = p_info) with
  | none => none
  | some info =>
    let r := wakeTimeoutCallback info.userParam s
    let s1 :=
      if r.2.s_last_wake_timeout_info ≠ none ∧ r.2.s_last_wake_timeout_info = some p_info then
        { r.2 with s_last_wake_timeout_info := none }
      else r.2
    some (r.1, { s1 with timers := s1.timers.filter (fun i => i.addr ≠ p_info) })

/-- One step of the notifier or of the event loop: the vendor reports an
unsolicited event, or the timer of the block at an address fires. -/
inductive WakeStep where
  | unsolicited (unsolResponse : Int) (data : Option Data) (datalen : Nat)
  | timer (p_info : Nat)
deriving DecidableEq, Repr

/-- An interleaving of unsolicited events and timer firings, run from a state:
`none` when one of the steps has no result. -/
def runWakeSteps (ril : Ril δ ρ) (c : RilEnums) (depth : Nat) :
    List WakeStep → RilState δ ρ → Option (RilState δ ρ)
  | [], s => some s
  | WakeStep.unsolicited u data datalen :: rest, s =>
    match RIL_onUnsolicitedResponse ril c depth u data datalen s with
    | none => none
    | some s1 => runWakeSteps ril c depth rest s1
  | WakeStep.timer p_info :: rest, s =>
    match userTimerCallback p_info s with
    | none => none
    | some r => runWakeSteps ril c depth rest r.2

/-- The invariant of the wake-release timers: the blocks have addresses that
have been handed out, no two of them the same; the tracking slot, when set,
holds the address of one of them; that one has a NULL `userParam` and every
other one has the sentinel 1. -/
def wakeTimersInvariant (s : RilState δ ρ) : Prop :=
  (∀ i ∈ s.timers, i.addr ≤ s.allocated)
  ∧ (s.timers.map (fun i => i.addr)).Nodup
  ∧ (∀ a ∈ s.s_last_wake_timeout_info, a ∈ s.timers.map (fun i => i.addr))
  ∧ (∀ i ∈ s.timers,
      (s.s_last_wake_timeout_info = some i.addr → i.userParam = 0)
      ∧ (s.s_last_wake_timeout_info ≠ some i.addr → i.userParam = 1))

instance (s : RilState δ ρ) : Decidable (wakeTimersInvariant s) := by
  unfold wakeTimersInvariant
  infer_instance

/-! ## Codec lemmas -/

theorem int32Bytes_length (v : Int) : (int32Bytes v).length = 4 := rfl

theorem int32OfBytes_int32Bytes (v : Int) (h1 : -2147483648 ≤ v) (h2 : v < 2147483648) :
    int32OfBytes ((v % 4294967296).toNat % 256) ((v % 4294967296).toNat / 256 % 256)
      ((v % 4294967296).toNat / 65536 % 256) ((v % 4294967296).toNat / 16777216 % 256) = v := by
  have hu : (((v % 4294967296).toNat : Nat) : Int) = v % 4294967296 :=
    Int.toNat_of_nonneg (Int.emod_nonneg _ (by norm_num))
  generalize (v % 4294967296).toNat = u at hu
  unfold int32OfBytes
  have hw : u % 256 % 256 + 256 * (u / 256 % 256 % 256) + 65536 * (u / 65536 % 256 % 256)
      + 16777216 * (u / 16777216 % 256 % 256) = u := by omega
  simp only [hw]
  split <;> omega

theorem int32OfBytes_range (b0 b1 b2 b3 : Nat) :
    -2147483648 ≤ int32OfBytes b0 b1 b2 b3 ∧ int32OfBytes b0 b1 b2 b3 < 2147483648 := by
  unfold int32OfBytes
  simp only
  split <;> omega

/-- Four bytes of memory are the image of the integer they hold, so a frame
of at least eight bytes is `int32Bytes request ++ int32Bytes token ++ body`. -/
theorem int32Bytes_int32OfBytes (b0 b1 b2 b3 : Nat)
    (h0 : b0 < 256) (h1 : b1 < 256) (h2 : b2 < 256) (h3 : b3 < 256) :
    int32Bytes (int32OfBytes b0 b1 b2 b3) = [b0, b1, b2, b3] := by
  unfold int32Bytes int32OfBytes
  simp only
  have hu : ((if b0 % 256 + 256 * (b1 % 256) + 65536 * (b2 % 256) + 16777216 * (b3 % 256)
        < 2147483648
      then ((b0 % 256 + 256 * (b1 % 256) + 65536 * (b2 % 256) + 16777216 * (b3 % 256) : Nat) : Int)
      else ((b0 % 256 + 256 * (b1 % 256) + 65536 * (b2 % 256) + 16777216 * (b3 % 256) : Nat) : Int)
        - 4294967296) % 4294967296).toNat
      = b0 + 256 * b1 + 65536 * b2 + 16777216 * b3 := by
    split <;> omega
  rw [hu]
  congr 1
  · omega
  · congr 1
    · omega
    · congr 1
      · omega
      · congr 1
        omega

/-! ## Parcel lemmas -/

theorem Parcel.write_at_end (p : Parcel) (bytes : List Nat) (h : p.mDataPos = p.mData.length) :
    p.write bytes = { mData := p.mData ++ bytes, mDataPos := p.mData.length + bytes.length } := by
  unfold Parcel.write
  rw [h]
  simp

theorem Parcel.readInt32_at (p : Parcel) (pre post : List Nat) (v : Int)
    (hd : p.mData = pre ++ int32Bytes v ++ post) (hp : p.mDataPos = pre.length)
    (h1 : -2147483648 ≤ v) (h2 : v < 2147483648) :
    p.readInt32 = (NO_ERROR, v, { p with mDataPos := pre.length + 4 }) := by
  unfold Parcel.readInt32
  rw [hd, hp, List.append_assoc, List.drop_left]
  simp only [int32Bytes, List.cons_append, List.nil_append]
  rw [int32OfBytes_int32Bytes v h1 h2]

/-- The parcel holding three 32-bit integers written into a fresh parcel. -/
theorem Parcel.three_ints (a b c : Int) :
    ((Parcel.empty.writeInt32 a).writeInt32 b).writeInt32 c
      = { mData := int32Bytes a ++ int32Bytes b ++ int32Bytes c, mDataPos := 12 } := by
  simp [Parcel.writeInt32, Parcel.write, Parcel.empty, int32Bytes]

/-- Reading the two header integers of a frame. -/
theorem Parcel.read_header (request token : Int) (body : List Nat)
    (hr1 : -2147483648 ≤ request) (hr2 : request < 2147483648)
    (ht1 : -2147483648 ≤ token) (ht2 : token < 2147483648) :
    (Parcel.setData (int32Bytes request ++ int32Bytes token ++ body)).readInt32
        = (NO_ERROR, request,
            { mData := int32Bytes request ++ int32Bytes token ++ body, mDataPos := 4 })
    ∧ (Parcel.mk (int32Bytes request ++ int32Bytes token ++ body) 4).readInt32
        = (NO_ERROR, token,
            { mData := int32Bytes request ++ int32Bytes token ++ body, mDataPos := 8 }) := by
  constructor
  · have h := Parcel.readInt32_at (Parcel.setData (int32Bytes request ++ int32Bytes token ++ body))
      [] (int32Bytes token ++ body) request (by simp [Parcel.setData]) rfl hr1 hr2
    simpa [Parcel.setData] using h
  · have h := Parcel.readInt32_at (Parcel.mk (int32Bytes request ++ int32Bytes token ++ body) 4)
      (int32Bytes request) body token rfl rfl ht1 ht2
    simpa using h

/-! ## Frame emission lemmas -/

theorem sendResponseRaw_frame (data : List Nat) (s : RilState δ ρ) :
    (sendResponseRaw data s).2.s_pendingRequests = s.s_pendingRequests
    ∧ (sendResponseRaw data s).2.trace = s.trace
    ∧ (sendResponseRaw data s).2.allocated = s.allocated
    ∧ (sendResponseRaw data s).2.s_fdCommand = s.s_fdCommand := by
  unfold sendResponseRaw
  split
  · simp
  · split
    · simp
    · simp only
      split
      · simp
      · split <;> simp

theorem sendResponse_frame (p : Parcel) (s : RilState δ ρ) :
    (sendResponse p s).2.s_pendingRequests = s.s_pendingRequests
    ∧ (sendResponse p s).2.trace = s.trace ++ [Event.sendResponse p.mData]
    ∧ (sendResponse p s).2.allocated = s.allocated
    ∧ (sendResponse p s).2.s_fdCommand = s.s_fdCommand := by
  unfold sendResponse
  have h := sendResponseRaw_frame p.data { s with trace := s.trace ++ [Event.sendResponse p.data] }
  simpa [Parcel.data] using h

/-! ## Request routing: codes outside the tables -/

/-- C1. For every token and every request code outside the four table ranges,
`processCommandBuffer` builds one reply parcel holding exactly the three
integers (0, token, RIL_E_GENERIC_FAILURE) and hands it to `sendResponse`
once; no decoder and no vendor callback is invoked (the trace grows by that
one event) and the pending list is unchanged. -/
theorem processCommandBuffer_unsupported_request (ril : Ril δ ρ) (s : RilState δ ρ)
    (request token : Int) (body : List Nat)
    (hr1 : -2147483648 ≤ request) (hr2 : request < 2147483648)
    (ht1 : -2147483648 ≤ token) (ht2 : token < 2147483648)
    (h : request < 1
      ∨ ((ril.s_commands.length : Int) ≤ request ∧ request ≤ ril.RIL_SECOND_REQUEST_BASE)
      ∨ (ril.RIL_SECOND_REQUEST_BASE + ril.s_second_commands.length ≤ request
          ∧ request ≤ ril.RIL_IMS_REQUEST_BASE)
      ∨ (ril.RIL_IMS_REQUEST_BASE + ril.s_ims_commands.length ≤ request
          ∧ request ≤ ril.RIL_CUS_REQUEST_BASE)
      ∨ ril.RIL_CUS_REQUEST_BASE + ril.s_cus_commands.length ≤ request) :
    ∃ s1, processCommandBuffer ril (int32Bytes request ++ int32Bytes token ++ body) s = some s1
      ∧ s1 = (sendResponse
          { mData := int32Bytes 0 ++ int32Bytes token ++ int32Bytes ril.RIL_E_GENERIC_FAILURE,
            mDataPos := 12 } s).2
      ∧ s1.trace = s.trace ++ [Event.sendResponse
          (int32Bytes 0 ++ int32Bytes token ++ int32Bytes ril.RIL_E_GENERIC_FAILURE)]
      ∧ s1.s_pendingRequests = s.s_pendingRequests
      ∧ s1.allocated = s.allocated := by
  have hh := Parcel.read_header request token body hr1 hr2 ht1 ht2
  have hu : unsupportedRequest ril request := h
  refine ⟨_, ?_, rfl, ?_, ?_, ?_⟩
  · unfold processCommandBuffer
    simp only [hh.1, hh.2, NO_ERROR, ne_eq, not_true_eq_false, if_false, hu, if_true,
      RESPONSE_SOLICITED, Parcel.three_ints]
  · exact (sendResponse_frame _ s).2.1
  · exact (sendResponse_frame _ s).1
  · exact (sendResponse_frame _ s).2.2.1

/-- The sample configuration, request code 500 (between the base table and the second family) and token 42. -/
theorem processCommandBuffer_unsupported_request_witness :
    ∃ s1, processCommandBuffer sampleRil (int32Bytes 500 ++ int32Bytes 42 ++ []) sampleState
        = some s1
      ∧ s1 = (sendResponse
          { mData := int32Bytes 0 ++ int32Bytes 42 ++ int32Bytes sampleRil.RIL_E_GENERIC_FAILURE,
            mDataPos := 12 } sampleState).2
      ∧ s1.trace = sampleState.trace ++ [Event.sendResponse
          (int32Bytes 0 ++ int32Bytes 42 ++ int32Bytes sampleRil.RIL_E_GENERIC_FAILURE)]
      ∧ s1.s_pendingRequests = sampleState.s_pendingRequests
      ∧ s1.allocated = sampleState.allocated :=
  processCommandBuffer_unsupported_request sampleRil sampleState 500 42 [] (by decide) (by decide)
    (by decide) (by decide) (Or.inr (Or.inl (by decide)))

/-! ## The pending-request registry -/

theorem dequeueLoop_absent (a : Nat) (l : List (RequestInfo δ ρ))
    (h : ∀ r ∈ l, r.addr ≠ a) : dequeueLoop a l = (0, l) := by
  induction l with
  | nil => rfl
  | cons cur rest ih =>
    have hc : a ≠ cur.addr := fun e => h cur (List.mem_cons_self _ _) e.symm
    have hr := ih (fun r hr => h r (List.mem_cons_of_mem _ hr))
    simp [dequeueLoop, hc, hr]

theorem dequeueLoop_first (a : Nat) (front back : List (RequestInfo δ ρ)) (r : RequestInfo δ ρ)
    (hr : r.addr = a) (hf : ∀ x ∈ front, x.addr ≠ a) :
    dequeueLoop a (front ++ r :: back) = (1, front ++ back) := by
  induction front with
  | nil => simp [dequeueLoop, hr]
  | cons cur rest ih =>
    have hc : a ≠ cur.addr := fun e => hf cur (List.mem_cons_self _ _) e.symm
    have h2 := ih (fun x hx => hf x (List.mem_cons_of_mem _ hx))
    simp [dequeueLoop, hc, h2]

/-- A list that holds an entry with address `a` splits at the first such entry. -/
theorem first_occurrence (a : Nat) (l : List (RequestInfo δ ρ))
    (h : ∃ r ∈ l, r.addr = a) :
    ∃ front r back, l = front ++ r :: back ∧ r.addr = a ∧ ∀ x ∈ front, x.addr ≠ a := by
  induction l with
  | nil => simp at h
  | cons cur rest ih =>
    by_cases hc : cur.addr = a
    · exact ⟨[], cur, rest, rfl, hc, by simp⟩
    · have h2 : ∃ r ∈ rest, r.addr = a := by
        obtain ⟨r, hr, hra⟩ := h
        rcases List.mem_cons.mp hr with e | e
        · exact absurd (e ▸ hra) hc
        · exact ⟨r, e, hra⟩
      obtain ⟨front, r, back, e, hra, hf⟩ := ih h2
      refine ⟨cur :: front, r, back, by simp [e], hra, ?_⟩
      intro x hx
      rcases List.mem_cons.mp hx with e2 | e2
      · exact e2 ▸ hc
      · exact hf x e2

theorem find_first (a : Nat) (front back : List (RequestInfo δ ρ)) (r : RequestInfo δ ρ)
    (hr : r.addr = a) (hf : ∀ x ∈ front, x.addr ≠ a) :
    (front ++ r :: back).find? (fun x => decide (x.addr = a)) = some r := by
  induction front with
  | nil => simp [hr]
  | cons cur rest ih =>
    have hc : cur.addr ≠ a := hf cur (List.mem_cons_self _ _)
    have h2 := ih (fun x hx => hf x (List.mem_cons_of_mem _ hx))
    simp [List.find?, hc, h2]

theorem dequeueLoop_code (a : Nat) (l : List (RequestInfo δ ρ)) :
    ((dequeueLoop a l).1 = 1 ↔ ∃ r ∈ l, r.addr = a)
    ∧ ((dequeueLoop a l).1 = 0 ↔ ∀ r ∈ l, r.addr ≠ a) := by
  by_cases h : ∃ r ∈ l, r.addr = a
  · obtain ⟨front, r, back, e, hra, hf⟩ := first_occurrence a l h
    have hd := dequeueLoop_first a front back r hra hf
    rw [← e] at hd
    refine ⟨by simp [hd, h], ?_⟩
    rw [hd]
    constructor
    · intro h0; simp at h0
    · intro hall
      obtain ⟨x, hx, hxa⟩ := h
      exact absurd hxa (hall x hx)
  · have hall : ∀ r ∈ l, r.addr ≠ a := fun r hr hra => h ⟨r, hr, hra⟩
    have hd := dequeueLoop_absent a l hall
    rw [hd]
    refine ⟨?_, ⟨fun _ => hall, fun _ => rfl⟩⟩
    constructor
    · intro h1; simp at h1
    · intro h1; exact absurd h1 h

/-- C7. `checkAndDequeueRequestInfo` returns 1 exactly when the token is the
address of an entry of the pending list, and 0 otherwise (so 0 for NULL); on 1
the new list is the old one with the first such entry unlinked and all other
entries in their order; on 0 the state is unchanged; no other part of the
state is ever touched. -/
theorem checkAndDequeueRequestInfo_spec (t : RIL_Token) (s : RilState δ ρ) :
    ((checkAndDequeueRequestInfo t s).1 = 1 ∨ (checkAndDequeueRequestInfo t s).1 = 0)
    ∧ ((checkAndDequeueRequestInfo t s).1 = 1
        ↔ ∃ a, t = some a ∧ ∃ r ∈ s.s_pendingRequests, r.addr = a)
    ∧ ((checkAndDequeueRequestInfo none s).1 = 0)
    ∧ ((checkAndDequeueRequestInfo t s).1 = 1 →
        ∃ a front r back, t = some a ∧ r.addr = a
          ∧ s.s_pendingRequests = front ++ r :: back
          ∧ (∀ x ∈ front, x.addr ≠ a)
          ∧ (checkAndDequeueRequestInfo t s).2.s_pendingRequests = front ++ back)
    ∧ ((checkAndDequeueRequestInfo t s).1 = 0 → (checkAndDequeueRequestInfo t s).2 = s)
    ∧ (checkAndDequeueRequestInfo t s).2.s_fdCommand = s.s_fdCommand
    ∧ (checkAndDequeueRequestInfo t s).2.socket = s.socket
    ∧ (checkAndDequeueRequestInfo t s).2.trace = s.trace
    ∧ (checkAndDequeueRequestInfo t s).2.allocated = s.allocated := by
  cases t with
  | none => simp [checkAndDequeueRequestInfo]
  | some a =>
    have hc := dequeueLoop_code a s.s_pendingRequests
    simp only [checkAndDequeueRequestInfo, Option.some.injEq, exists_eq_left', and_true]
    refine ⟨?_, hc.1, trivial, ?_, ?_⟩
    · by_cases h : ∃ r ∈ s.s_pendingRequests, r.addr = a
      · exact Or.inl (hc.1.mpr h)
      · exact Or.inr (hc.2.mpr (fun r hr hra => h ⟨r, hr, hra⟩))
    · intro h1
      obtain ⟨front, r, back, e, hra, hf⟩ := first_occurrence a _ (hc.1.mp h1)
      refine ⟨a, front, r, back, rfl, hra, e, hf, ?_⟩
      rw [e, dequeueLoop_first a front back r hra hf]
    · intro h0
      rw [dequeueLoop_absent a _ (hc.2.mp h0)]

/-- C8. `onCommandsSocketClosed` sets `cancelled` to 1 on every entry of
the pending list and changes nothing else: the list holds the same entries in
the same order, each with its address, token, descriptor and local flag, and
the rest of the state is as before. -/
theorem onCommandsSocketClosed_spec (s : RilState δ ρ) :
    List.Forall₂
        (fun old new => new.cancelled = 1 ∧ new.addr = old.addr ∧ new.token = old.token
          ∧ new.pCI = old.pCI ∧ new.local_ = old.local_)
        s.s_pendingRequests (onCommandsSocketClosed s).s_pendingRequests
    ∧ (onCommandsSocketClosed s).s_fdCommand = s.s_fdCommand
    ∧ (onCommandsSocketClosed s).socket = s.socket
    ∧ (onCommandsSocketClosed s).trace = s.trace
    ∧ (onCommandsSocketClosed s).allocated = s.allocated := by
  refine ⟨?_, rfl, rfl, rfl, rfl⟩
  simp only [onCommandsSocketClosed]
  induction s.s_pendingRequests with
  | nil => exact List.Forall₂.nil
  | cons cur rest ih => exact List.Forall₂.cons ⟨rfl, rfl, rfl, rfl, rfl⟩ ih

/-! ## Response dispatch -/

theorem checkAndDequeueRequestInfo_first (s : RilState δ ρ)
    (front back : List (RequestInfo δ ρ)) (pRI : RequestInfo δ ρ)
    (hs : s.s_pendingRequests = front ++ pRI :: back)
    (hf : ∀ x ∈ front, x.addr ≠ pRI.addr) :
    checkAndDequeueRequestInfo (some pRI.addr) s
        = (1, { s with s_pendingRequests := front ++ back })
    ∧ deref (some pRI.addr) s = some pRI := by
  constructor
  · simp only [checkAndDequeueRequestInfo, hs, dequeueLoop_first pRI.addr front back pRI rfl hf]
  · simp only [deref, hs, find_first pRI.addr front back pRI rfl hf]

theorem RIL_onRequestComplete_absent (ril : Ril δ ρ) (t : RIL_Token) (e : Int)
    (response : Option Data) (responselen : Nat) (s : RilState δ ρ)
    (h : ∀ a, t = some a → ∀ r ∈ s.s_pendingRequests, r.addr ≠ a) :
    RIL_onRequestComplete ril t e response responselen s = some s := by
  cases t with
  | none => simp [RIL_onRequestComplete, checkAndDequeueRequestInfo]
  | some a =>
    simp [RIL_onRequestComplete, checkAndDequeueRequestInfo,
      dequeueLoop_absent a _ (h a rfl)]

/-- The parcel `RIL_onRequestComplete` holds before it looks at the response. -/
theorem solicited_header (token e : Int) :
    ((Parcel.empty.writeInt32 RESPONSE_SOLICITED).writeInt32 token).writeInt32 e
        = { mData := int32Bytes 0 ++ int32Bytes token ++ int32Bytes e, mDataPos := 12 }
    ∧ ((Parcel.empty.writeInt32 RESPONSE_SOLICITED).writeInt32 token).dataPosition = 8 := by
  simp [Parcel.writeInt32, Parcel.write, Parcel.empty, int32Bytes, Parcel.dataPosition,
    RESPONSE_SOLICITED]

/-- Completion of a request that is linked in the list, is not local and is
not cancelled, with no response payload. -/
theorem RIL_onRequestComplete_null (ril : Ril δ ρ) (s : RilState δ ρ)
    (front back : List (RequestInfo δ ρ)) (pRI : RequestInfo δ ρ) (e : Int) (responselen : Nat)
    (hs : s.s_pendingRequests = front ++ pRI :: back)
    (hf : ∀ x ∈ front, x.addr ≠ pRI.addr)
    (hl : ¬ pRI.local_ > 0) (hc : pRI.cancelled = 0) :
    RIL_onRequestComplete ril (some pRI.addr) e none responselen s
      = some (sendResponse
          { mData := int32Bytes 0 ++ int32Bytes pRI.token ++ int32Bytes e, mDataPos := 12 }
          { s with s_pendingRequests := front ++ back }).2 := by
  have h := checkAndDequeueRequestInfo_first s front back pRI hs hf
  simp only [RIL_onRequestComplete, h.1, h.2, hl, hc, if_false, if_true, one_ne_zero,
    (solicited_header pRI.token e).1]

/-- Completion of a request that is linked in the list, is not local and is
not cancelled, with a response payload the encoder accepts or refuses. -/
theorem RIL_onRequestComplete_payload (ril : Ril δ ρ) (s : RilState δ ρ)
    (front back : List (RequestInfo δ ρ)) (pRI : RequestInfo δ ρ) (e : Int) (responselen : Nat)
    (d : Data) (ci : CommandInfo δ ρ) (f : ρ) (ret : Int) (p1 : Parcel)
    (hs : s.s_pendingRequests = front ++ pRI :: back)
    (hf : ∀ x ∈ front, x.addr ≠ pRI.addr)
    (hl : ¬ pRI.local_ > 0) (hc : pRI.cancelled = 0)
    (hci : pRI.pCI = some ci) (hfn : ci.responseFunction = some f)
    (hr : ril.responseFunction f
        { mData := int32Bytes 0 ++ int32Bytes pRI.token ++ int32Bytes e, mDataPos := 12 }
        (some d) responselen = some (ret, p1)) :
    RIL_onRequestComplete ril (some pRI.addr) e (some d) responselen s
      = some (sendResponse (if ret ≠ 0 then (p1.setDataPosition 8).writeInt32 ret else p1)
          { s with s_pendingRequests := front ++ back }).2 := by
  have h := checkAndDequeueRequestInfo_first s front back pRI hs hf
  simp only [RIL_onRequestComplete, h.1, h.2, hl, hc, if_false, if_true, one_ne_zero,
    (solicited_header pRI.token e).1, (solicited_header pRI.token e).2, hci, Option.bind, hfn, hr]
  split <;> rfl

/-- A completion of a linked, non-local, non-cancelled request that returns
at all has removed the entry and called `sendResponse` once. -/
theorem RIL_onRequestComplete_sends (ril : Ril δ ρ) (s s1 : RilState δ ρ)
    (front back : List (RequestInfo δ ρ)) (pRI : RequestInfo δ ρ) (e : Int)
    (response : Option Data) (responselen : Nat)
    (hs : s.s_pendingRequests = front ++ pRI :: back)
    (hf : ∀ x ∈ front, x.addr ≠ pRI.addr)
    (hl : ¬ pRI.local_ > 0) (hc : pRI.cancelled = 0)
    (h1 : RIL_onRequestComplete ril (some pRI.addr) e response responselen s = some s1) :
    ∃ p, s1 = (sendResponse p { s with s_pendingRequests := front ++ back }).2 := by
  have h := checkAndDequeueRequestInfo_first s front back pRI hs hf
  cases response with
  | none =>
    rw [RIL_onRequestComplete_null ril s front back pRI e responselen hs hf hl hc] at h1
    exact ⟨_, (Option.some.inj h1).symm⟩
  | some d =>
    cases hci : pRI.pCI with
    | none =>
      simp [RIL_onRequestComplete, h.1, h.2, hl, hc, hci] at h1
    | some ci =>
      cases hfn : ci.responseFunction with
      | none =>
        simp [RIL_onRequestComplete, h.1, h.2, hl, hc, hci, hfn] at h1
      | some f =>
        cases hr : ril.responseFunction f
            { mData := int32Bytes 0 ++ int32Bytes pRI.token ++ int32Bytes e, mDataPos := 12 }
            (some d) responselen with
        | none =>
          simp only [RIL_onRequestComplete, h.1, h.2, hl, hc, if_false, if_true, one_ne_zero,
            (solicited_header pRI.token e).1, hci, Option.bind, hfn, hr] at h1
          cases h1
        | some r =>
          obtain ⟨ret, p1⟩ := r
          rw [RIL_onRequestComplete_payload ril s front back pRI e responselen d ci f ret p1
            hs hf hl hc hci hfn hr] at h1
          exact ⟨_, (Option.some.inj h1).symm⟩

/-- C3. For a pending request that is neither local nor cancelled,
`RIL_onRequestComplete` removes it and sends one parcel. With a NULL response
the parcel is exactly the three integers (0, token, e) and the result does not
depend on any encoder; with a response for which the table-resolved encoder
returns 0, the parcel sent is the one the encoder leaves when it is handed the
parcel (0, token, e) with the cursor at its end, nothing added. -/
theorem RIL_onRequestComplete_solicited_reply (ril : Ril δ ρ) (s : RilState δ ρ)
    (front back : List (RequestInfo δ ρ)) (pRI : RequestInfo δ ρ) (e : Int) (responselen : Nat)
    (hs : s.s_pendingRequests = front ++ pRI :: back)
    (hf : ∀ x ∈ front, x.addr ≠ pRI.addr)
    (hl : ¬ pRI.local_ > 0) (hc : pRI.cancelled = 0) :
    (∃ s1, RIL_onRequestComplete ril (some pRI.addr) e none responselen s = some s1
      ∧ s1.trace = s.trace
          ++ [Event.sendResponse (int32Bytes 0 ++ int32Bytes pRI.token ++ int32Bytes e)]
      ∧ s1.s_pendingRequests = front ++ back
      ∧ ∀ g, RIL_onRequestComplete { ril with responseFunction := g } (some pRI.addr) e none
          responselen s = some s1)
    ∧ (∀ d ci f p1, pRI.pCI = some ci → ci.responseFunction = some f →
        ril.responseFunction f
          { mData := int32Bytes 0 ++ int32Bytes pRI.token ++ int32Bytes e, mDataPos := 12 }
          (some d) responselen = some (0, p1) →
        ∃ s1, RIL_onRequestComplete ril (some pRI.addr) e (some d) responselen s = some s1
          ∧ s1.trace = s.trace ++ [Event.sendResponse p1.mData]
          ∧ (∀ out, p1.mData = int32Bytes 0 ++ int32Bytes pRI.token ++ int32Bytes e ++ out →
              s1.trace = s.trace ++ [Event.sendResponse
                (int32Bytes 0 ++ int32Bytes pRI.token ++ int32Bytes e ++ out)])
          ∧ s1.s_pendingRequests = front ++ back) := by
  constructor
  · refine ⟨_, RIL_onRequestComplete_null ril s front back pRI e responselen hs hf hl hc,
      ?_, ?_, ?_⟩
    · exact (sendResponse_frame _ _).2.1
    · exact (sendResponse_frame _ _).1
    · intro g
      exact RIL_onRequestComplete_null _ s front back pRI e responselen hs hf hl hc
  · intro d ci f p1 hci hfn hr
    refine ⟨_, RIL_onRequestComplete_payload ril s front back pRI e responselen d ci f 0 p1
      hs hf hl hc hci hfn hr, ?_, ?_, ?_⟩
    · exact (sendResponse_frame _ _).2.1
    · intro out hout
      rw [← hout]
      exact (sendResponse_frame _ _).2.1
    · exact (sendResponse_frame _ _).1

/-- The sample state: the request at address 1 (token 5) completed with no payload, and with a two-character text through responseString. -/
theorem RIL_onRequestComplete_solicited_reply_witness :
    (∃ s1, RIL_onRequestComplete sampleRil (some 1) 0 none 0 sampleState = some s1
      ∧ s1.trace = [Event.sendResponse [0, 0, 0, 0, 5, 0, 0, 0, 0, 0, 0, 0]]
      ∧ s1.s_pendingRequests = [sampleRequest 2 7 36])
    ∧ (∃ s1, RIL_onRequestComplete sampleRil (some 1) 0 (some (Data.cstr [49, 50])) 3 sampleState
          = some s1
      ∧ s1.trace = [Event.sendResponse
          [0, 0, 0, 0, 5, 0, 0, 0, 0, 0, 0, 0, 2, 0, 0, 0, 49, 0, 50, 0, 0, 0, 0, 0]]
      ∧ s1.s_pendingRequests = [sampleRequest 2 7 36]) := by
  have h := RIL_onRequestComplete_solicited_reply sampleRil sampleState [sampleRequest 2 7 36] []
    (sampleRequest 1 5 38) 0
  constructor
  · obtain ⟨s1, h1, h2, h3, _⟩ := (h 0 rfl (by decide) (by decide) rfl).1
    exact ⟨s1, h1, h2, h3⟩
  · obtain ⟨s1, h1, h2, _, h3⟩ := (h 3 rfl (by decide) (by decide) rfl).2 (Data.cstr [49, 50])
      { requestNumber := 38, dispatchFunction := some .dispatchVoid,
        responseFunction := some .responseString }
      .responseString
      { mData := [0, 0, 0, 0, 5, 0, 0, 0, 0, 0, 0, 0, 2, 0, 0, 0, 49, 0, 50, 0, 0, 0, 0, 0],
        mDataPos := 24 }
      rfl rfl rfl
    exact ⟨s1, h1, h2, h3⟩

/-- C4. If the table-resolved encoder returns a non-zero code for a
non-NULL response, having appended some output to the parcel (0, token, e),
the frame sent carries that code in the status position: it is
(0, token, code) followed by what the encoder appended, whatever e was. -/
theorem RIL_onRequestComplete_encoder_error (ril : Ril δ ρ) (s : RilState δ ρ)
    (front back : List (RequestInfo δ ρ)) (pRI : RequestInfo δ ρ) (e : Int) (responselen : Nat)
    (d : Data) (ci : CommandInfo δ ρ) (f : ρ) (ret : Int) (p1 : Parcel) (out : List Nat)
    (hs : s.s_pendingRequests = front ++ pRI :: back)
    (hf : ∀ x ∈ front, x.addr ≠ pRI.addr)
    (hl : ¬ pRI.local_ > 0) (hc : pRI.cancelled = 0)
    (hci : pRI.pCI = some ci) (hfn : ci.responseFunction = some f)
    (hr : ril.responseFunction f
        { mData := int32Bytes 0 ++ int32Bytes pRI.token ++ int32Bytes e, mDataPos := 12 }
        (some d) responselen = some (ret, p1))
    (hret : ret ≠ 0)
    (hout : p1.mData = int32Bytes 0 ++ int32Bytes pRI.token ++ int32Bytes e ++ out) :
    ∃ s1, RIL_onRequestComplete ril (some pRI.addr) e (some d) responselen s = some s1
      ∧ s1.trace = s.trace
          ++ [Event.sendResponse (int32Bytes 0 ++ int32Bytes pRI.token ++ int32Bytes ret ++ out)]
      ∧ s1.s_pendingRequests = front ++ back := by
  refine ⟨_, RIL_onRequestComplete_payload ril s front back pRI e responselen d ci f ret p1
      hs hf hl hc hci hfn hr, ?_, ?_⟩
  · rw [(sendResponse_frame _ _).2.1, if_pos hret]
    simp [Parcel.setDataPosition, Parcel.writeInt32, Parcel.write, hout, int32Bytes]
  · exact (sendResponse_frame _ _).1

/-- The sample state: the request at address 2 (token 7, responseInts) completed with a length of 7 bytes, which the encoder refuses with -1. -/
theorem RIL_onRequestComplete_encoder_error_witness :
    ∃ s1, RIL_onRequestComplete sampleRil (some 2) 0 (some (Data.ints [3, 4])) 7 sampleState
        = some s1
      ∧ s1.trace = [Event.sendResponse [0, 0, 0, 0, 7, 0, 0, 0, 255, 255, 255, 255]]
      ∧ s1.s_pendingRequests = [sampleRequest 1 5 38] :=
  RIL_onRequestComplete_encoder_error sampleRil sampleState [] [sampleRequest 1 5 38]
    (sampleRequest 2 7 36) 0 7 (Data.ints [3, 4])
    { requestNumber := 36, dispatchFunction := some .dispatchVoid,
      responseFunction := some .responseInts }
    .responseInts (-1)
    { mData := [0, 0, 0, 0, 7, 0, 0, 0, 0, 0, 0, 0], mDataPos := 12 } []
    rfl (by simp) (by decide) rfl rfl rfl rfl (by decide) rfl

/-! ## Stale tokens and cancelled requests -/

/-- Completion of a linked request whose cancelled flag is set: the entry is
unlinked and nothing else happens. -/
theorem RIL_onRequestComplete_cancelled (ril : Ril δ ρ) (s : RilState δ ρ)
    (front back : List (RequestInfo δ ρ)) (pRI : RequestInfo δ ρ) (e : Int)
    (response : Option Data) (responselen : Nat)
    (hs : s.s_pendingRequests = front ++ pRI :: back)
    (hf : ∀ x ∈ front, x.addr ≠ pRI.addr)
    (hc : pRI.cancelled ≠ 0) :
    RIL_onRequestComplete ril (some pRI.addr) e response responselen s
      = some { s with s_pendingRequests := front ++ back } := by
  have h := checkAndDequeueRequestInfo_first s front back pRI hs hf
  simp only [RIL_onRequestComplete, h.1, h.2, hc, if_false, one_ne_zero]
  split <;> rfl

/-- C6. A completion whose token is not the address of a pending entry
(NULL, never routed, or already completed) returns with the whole state as it
was: no frame, same pending list. In particular, when the pending entries
have distinct addresses and a request that is neither local nor cancelled is
completed, that first completion calls `sendResponse` exactly once and removes
the entry, and a second completion of the same token changes nothing. -/
theorem RIL_onRequestComplete_stale_token :
    (∀ (ril : Ril δ ρ) (t : RIL_Token) (e : Int) (response : Option Data) (responselen : Nat)
        (s : RilState δ ρ),
        (∀ a, t = some a → ∀ r ∈ s.s_pendingRequests, r.addr ≠ a) →
        RIL_onRequestComplete ril t e response responselen s = some s)
    ∧ (∀ (ril : Ril δ ρ) (s s1 : RilState δ ρ) (front back : List (RequestInfo δ ρ))
        (pRI : RequestInfo δ ρ) (e : Int) (response : Option Data) (responselen : Nat),
        s.s_pendingRequests = front ++ pRI :: back →
        (s.s_pendingRequests.map (fun r => r.addr)).Nodup →
        ¬ pRI.local_ > 0 → pRI.cancelled = 0 →
        RIL_onRequestComplete ril (some pRI.addr) e response responselen s = some s1 →
        (∃ data, s1.trace = s.trace ++ [Event.sendResponse data])
          ∧ s1.s_pendingRequests = front ++ back
          ∧ ∀ (e2 : Int) (response2 : Option Data) (responselen2 : Nat),
              RIL_onRequestComplete ril (some pRI.addr) e2 response2 responselen2 s1
                = some s1) := by
  constructor
  · intro ril t e response responselen s h
    exact RIL_onRequestComplete_absent ril t e response responselen s h
  · intro ril s s1 front back pRI e response responselen hs hn hl hc h1
    rw [hs] at hn
    simp only [List.map_append, List.map_cons] at hn
    have hn2 := List.nodup_append.mp hn
    have hfront : ∀ x ∈ front, x.addr ≠ pRI.addr := by
      intro x hx hxa
      exact hn2.2.2 (List.mem_map_of_mem _ hx) (by rw [hxa]; exact List.mem_cons_self _ _)
    have hback : ∀ x ∈ back, x.addr ≠ pRI.addr := by
      intro x hx hxa
      have := (List.nodup_cons.mp hn2.2.1).1
      exact this (hxa ▸ List.mem_map_of_mem (fun r : RequestInfo δ ρ => r.addr) hx)
    obtain ⟨p, hp⟩ := RIL_onRequestComplete_sends ril s s1 front back pRI e response responselen
      hs hfront hl hc h1
    have hpend : s1.s_pendingRequests = front ++ back := by
      rw [hp]; exact (sendResponse_frame _ _).1
    refine ⟨⟨p.mData, ?_⟩, hpend, ?_⟩
    · rw [hp]; exact (sendResponse_frame _ _).2.1
    · intro e2 response2 responselen2
      apply RIL_onRequestComplete_absent
      intro a ha r hr
      cases ha
      rw [hpend] at hr
      rcases List.mem_append.mp hr with h | h
      · exact hfront r h
      · exact hback r h

/-- The sample state: a NULL token, a token never handed out, and the request at address 1 completed twice. -/
theorem RIL_onRequestComplete_stale_token_witness :
    RIL_onRequestComplete sampleRil none 0 none 0 sampleState = some sampleState
    ∧ RIL_onRequestComplete sampleRil (some 3) 0 (some (Data.cstr [49])) 2 sampleState
        = some sampleState
    ∧ ∃ s1, RIL_onRequestComplete sampleRil (some 1) 0 (some (Data.cstr [49])) 2 sampleState
          = some s1
        ∧ (∃ data, s1.trace = sampleState.trace ++ [Event.sendResponse data])
        ∧ s1.s_pendingRequests = [sampleRequest 2 7 36]
        ∧ RIL_onRequestComplete sampleRil (some 1) 0 (some (Data.cstr [49])) 2 s1 = some s1 := by
  refine ⟨RIL_onRequestComplete_stale_token.1 sampleRil none 0 none 0 sampleState (by simp),
    RIL_onRequestComplete_stale_token.1 sampleRil (some 3) 0 _ 2 sampleState (by decide), ?_⟩
  have h := RIL_onRequestComplete_stale_token.2 sampleRil sampleState
    (Option.get (RIL_onRequestComplete sampleRil (some 1) 0 (some (Data.cstr [49])) 2 sampleState)
      rfl)
    [sampleRequest 2 7 36] [] (sampleRequest 1 5 38) 0 (some (Data.cstr [49])) 2 rfl (by decide)
    (by decide) rfl rfl
  exact ⟨_, rfl, h.1, h.2.1, h.2.2 0 _ 2⟩

/-- Completions of requests whose cancelled flag is set, one for each pending
entry in any order, empty the list and do nothing else. -/
theorem completeAll_cancelled (ril : Ril δ ρ)
    (calls : List (RIL_Token × Int × Option Data × Nat)) :
    ∀ (s : RilState δ ρ), (∀ r ∈ s.s_pendingRequests, r.cancelled ≠ 0) →
      (calls.map (fun c => c.1)).Perm (s.s_pendingRequests.map (fun r => some r.addr)) →
      completeAll ril calls s = some { s with s_pendingRequests := [] } := by
  induction calls with
  | nil =>
    intro s _ hp
    have hnil : s.s_pendingRequests = [] := by
      have := hp.length_eq
      simpa using this.symm
    simp only [completeAll]
    rw [← hnil]
  | cons c rest ih =>
    intro s hc hp
    have hmem : c.1 ∈ s.s_pendingRequests.map (fun r => some r.addr) :=
      hp.subset (by simp)
    obtain ⟨r0, hr0, hr0a⟩ := List.mem_map.mp hmem
    obtain ⟨front, r, back, hs, hra, hf⟩ :=
      first_occurrence r0.addr s.s_pendingRequests ⟨r0, hr0, rfl⟩
    have hf2 : ∀ x ∈ front, x.addr ≠ r.addr := by rw [hra]; exact hf
    have hrc : r.cancelled ≠ 0 := hc r (by rw [hs]; simp)
    have hstep := RIL_onRequestComplete_cancelled ril s front back r c.2.1 c.2.2.1 c.2.2.2
      hs hf2 hrc
    have hc1 : c.1 = some r.addr := by rw [hra]; exact hr0a.symm
    have hrest : (rest.map (fun c => c.1)).Perm
        ((front ++ back).map (fun r => some r.addr)) := by
      rw [hs] at hp
      simp only [List.map_cons, List.map_append] at hp
      rw [hc1] at hp
      have h2 := hp.trans List.perm_middle
      simpa using h2.cons_inv
    have hih := ih { s with s_pendingRequests := front ++ back }
      (fun x hx => hc x (by
        rw [hs]
        rcases List.mem_append.mp hx with h | h
        · exact List.mem_append_left _ h
        · exact List.mem_append_right _ (List.mem_cons_of_mem _ h)))
      hrest
    simp only [completeAll, hc1, hstep]
    exact hih

/-- C5. From any pending list, after `onCommandsSocketClosed`, one call of
`RIL_onRequestComplete` for each pending entry, in any order and with any
status and payload, leaves the pending list empty and everything else as it
was: no call of `sendResponse`, no byte on the wire. -/
theorem completions_after_socket_closed (ril : Ril δ ρ) (s : RilState δ ρ)
    (calls : List (RIL_Token × Int × Option Data × Nat))
    (h : (calls.map (fun c => c.1)).Perm (s.s_pendingRequests.map (fun r => some r.addr))) :
    completeAll ril calls (onCommandsSocketClosed s) = some { s with s_pendingRequests := [] } := by
  have hc : ∀ r ∈ (onCommandsSocketClosed s).s_pendingRequests, r.cancelled ≠ 0 := by
    intro r hr
    simp only [onCommandsSocketClosed, List.mem_map] at hr
    obtain ⟨x, _, hx⟩ := hr
    rw [← hx]
    simp
  have hp : (calls.map (fun c => c.1)).Perm
      ((onCommandsSocketClosed s).s_pendingRequests.map (fun r => some r.addr)) := by
    simpa [onCommandsSocketClosed, Function.comp_def] using h
  have := completeAll_cancelled ril calls (onCommandsSocketClosed s) hc hp
  simpa [onCommandsSocketClosed] using this

/-- The sample state: both pending requests completed after the socket closed, oldest first. -/
theorem completions_after_socket_closed_witness :
    completeAll sampleRil [(some 1, 0, some (Data.cstr [49]), 2), (some 2, 2, none, 0)]
        (onCommandsSocketClosed sampleState)
      = some { sampleState with s_pendingRequests := [] } :=
  completions_after_socket_closed sampleRil sampleState
    [(some 1, 0, some (Data.cstr [49]), 2), (some 2, 2, none, 0)] (by decide)

/-! ## Request routing: codes inside the tables -/

/-- A code that passes the rejection test is inside one of the four tables,
whatever the table sizes and family bases: `pRI->pCI` is never left NULL. -/
theorem selectCommandInfo_of_accepted (ril : Ril δ ρ) (request : Int)
    (hacc : ¬ unsupportedRequest ril request) :
    ∃ ci, selectCommandInfo ril request = some ci := by
  unfold unsupportedRequest at hacc
  unfold selectCommandInfo
  split
  · next h =>
    have hlt : request.toNat < ril.s_commands.length := by omega
    exact ⟨_, List.getElem?_eq_getElem hlt⟩
  · split
    · next h =>
      have hlt : (request - ril.RIL_SECOND_REQUEST_BASE).toNat < ril.s_second_commands.length := by
        omega
      exact ⟨_, List.getElem?_eq_getElem hlt⟩
    · split
      · next h =>
        have hlt : (request - ril.RIL_IMS_REQUEST_BASE).toNat < ril.s_ims_commands.length := by
          omega
        exact ⟨_, List.getElem?_eq_getElem hlt⟩
      · split
        · next h =>
          have hlt : (request - ril.RIL_CUS_REQUEST_BASE).toNat < ril.s_cus_commands.length := by
            omega
          exact ⟨_, List.getElem?_eq_getElem hlt⟩
        · exfalso
          omega

/-- What `processCommandBuffer` does with a frame whose code is accepted and
resolves to a table entry. -/
theorem processCommandBuffer_accepted (ril : Ril δ ρ) (s : RilState δ ρ)
    (request token : Int) (body : List Nat) (ci : CommandInfo δ ρ)
    (hr1 : -2147483648 ≤ request) (hr2 : request < 2147483648)
    (ht1 : -2147483648 ≤ token) (ht2 : token < 2147483648)
    (hacc : ¬ unsupportedRequest ril request)
    (hci : selectCommandInfo ril request = some ci) :
    processCommandBuffer ril (int32Bytes request ++ int32Bytes token ++ body) s
      = match ci.dispatchFunction with
        | none =>
          RIL_onRequestComplete ril (some (s.allocated + 1)) ril.RIL_E_REQUEST_NOT_SUPPORTED
            none 0
            { s with
              allocated := s.allocated + 1
              s_pendingRequests :=
                { addr := s.allocated + 1, token := token, pCI := some ci, cancelled := 0,
                  local_ := 0 } :: s.s_pendingRequests }
        | some f =>
          ril.dispatchFunction f
            { mData := int32Bytes request ++ int32Bytes token ++ body, mDataPos := 8 }
            { addr := s.allocated + 1, token := token, pCI := some ci, cancelled := 0,
              local_ := 0 }
            { s with
              allocated := s.allocated + 1
              s_pendingRequests :=
                { addr := s.allocated + 1, token := token, pCI := some ci, cancelled := 0,
                  local_ := 0 } :: s.s_pendingRequests
              trace := s.trace ++ [Event.dispatch f
                { mData := int32Bytes request ++ int32Bytes token ++ body, mDataPos := 8 }
                (s.allocated + 1)] } := by
  have hh := Parcel.read_header request token body hr1 hr2 ht1 ht2
  unfold processCommandBuffer
  simp only [hh.1, hh.2, NO_ERROR, ne_eq, not_true_eq_false, if_false, hacc, hci]

/-- C9. For an accepted request code whose table entry has a decoder,
`processCommandBuffer` is one call of that decoder, made in the state where
exactly one new entry has been prepended to the pending list: the new head
carries the frame's token with cancelled = 0 and local = 0 and points to the
table entry, the previous entries follow unchanged, and the decoder gets the
parcel of the frame with the cursor just after the two header integers
(offset 8). Nothing is asked of the token, so one equal to a pending token
is inserted all the same. -/
theorem processCommandBuffer_dispatch (ril : Ril δ ρ) (s : RilState δ ρ)
    (request token : Int) (body : List Nat) (ci : CommandInfo δ ρ) (f : δ)
    (hr1 : -2147483648 ≤ request) (hr2 : request < 2147483648)
    (ht1 : -2147483648 ≤ token) (ht2 : token < 2147483648)
    (hacc : ¬ (request < 1
      ∨ ((ril.s_commands.length : Int) ≤ request ∧ request ≤ ril.RIL_SECOND_REQUEST_BASE)
      ∨ (ril.RIL_SECOND_REQUEST_BASE + ril.s_second_commands.length ≤ request
          ∧ request ≤ ril.RIL_IMS_REQUEST_BASE)
      ∨ (ril.RIL_IMS_REQUEST_BASE + ril.s_ims_commands.length ≤ request
          ∧ request ≤ ril.RIL_CUS_REQUEST_BASE)
      ∨ ril.RIL_CUS_REQUEST_BASE + ril.s_cus_commands.length ≤ request))
    (hci : selectCommandInfo ril request = some ci)
    (hf : ci.dispatchFunction = some f) :
    ∃ (pRI : RequestInfo δ ρ) (s1 : RilState δ ρ),
      processCommandBuffer ril (int32Bytes request ++ int32Bytes token ++ body) s
        = ril.dispatchFunction f
            { mData := int32Bytes request ++ int32Bytes token ++ body, mDataPos := 8 } pRI s1
      ∧ s1.s_pendingRequests = pRI :: s.s_pendingRequests
      ∧ pRI.token = token ∧ pRI.cancelled = 0 ∧ pRI.local_ = 0 ∧ pRI.pCI = some ci
      ∧ pRI.addr = s.allocated + 1
      ∧ s1.trace = s.trace ++ [Event.dispatch f
          { mData := int32Bytes request ++ int32Bytes token ++ body, mDataPos := 8 } pRI.addr]
      ∧ s1.s_fdCommand = s.s_fdCommand ∧ s1.socket = s.socket := by
  have h := processCommandBuffer_accepted ril s request token body ci hr1 hr2 ht1 ht2 hacc hci
  rw [hf] at h
  exact ⟨_, _, h, rfl, rfl, rfl, rfl, rfl, rfl, rfl, rfl, rfl⟩

/-- The sample configuration: request code 38 with token 5, which is also the token of a pending request. -/
theorem processCommandBuffer_dispatch_witness :
    ∃ (pRI : RequestInfo DispatchFn ResponseFn) (s1 : RilState DispatchFn ResponseFn),
      processCommandBuffer sampleRil (int32Bytes 38 ++ int32Bytes 5 ++ [1, 2]) sampleState
        = sampleRil.dispatchFunction .dispatchVoid
            { mData := int32Bytes 38 ++ int32Bytes 5 ++ [1, 2], mDataPos := 8 } pRI s1
      ∧ s1.s_pendingRequests = pRI :: sampleState.s_pendingRequests
      ∧ pRI.token = 5 ∧ pRI.cancelled = 0 ∧ pRI.local_ = 0
      ∧ pRI.pCI = some { requestNumber := 38, dispatchFunction := some .dispatchVoid,
                         responseFunction := some .responseString }
      ∧ pRI.addr = sampleState.allocated + 1
      ∧ s1.trace = sampleState.trace ++ [Event.dispatch .dispatchVoid
          { mData := int32Bytes 38 ++ int32Bytes 5 ++ [1, 2], mDataPos := 8 } pRI.addr]
      ∧ s1.s_fdCommand = sampleState.s_fdCommand ∧ s1.socket = sampleState.socket :=
  processCommandBuffer_dispatch sampleRil sampleState 38 5 [1, 2]
    { requestNumber := 38, dispatchFunction := some .dispatchVoid,
      responseFunction := some .responseString }
    .dispatchVoid (by decide) (by decide) (by decide) (by decide) (by decide) rfl rfl

/-- C10. If the request code is accepted and resolves to a table entry
whose decoder is NULL, `processCommandBuffer` calls `sendResponse` exactly
once, with the parcel (0, token, RIL_E_REQUEST_NOT_SUPPORTED) and no body;
no decoder and no vendor callback is invoked, and the pending list afterwards
equals the list before the frame. -/
theorem processCommandBuffer_not_supported (ril : Ril δ ρ) (s : RilState δ ρ)
    (request token : Int) (body : List Nat) (ci : CommandInfo δ ρ)
    (hr1 : -2147483648 ≤ request) (hr2 : request < 2147483648)
    (ht1 : -2147483648 ≤ token) (ht2 : token < 2147483648)
    (hacc : ¬ (request < 1
      ∨ ((ril.s_commands.length : Int) ≤ request ∧ request ≤ ril.RIL_SECOND_REQUEST_BASE)
      ∨ (ril.RIL_SECOND_REQUEST_BASE + ril.s_second_commands.length ≤ request
          ∧ request ≤ ril.RIL_IMS_REQUEST_BASE)
      ∨ (ril.RIL_IMS_REQUEST_BASE + ril.s_ims_commands.length ≤ request
          ∧ request ≤ ril.RIL_CUS_REQUEST_BASE)
      ∨ ril.RIL_CUS_REQUEST_BASE + ril.s_cus_commands.length ≤ request))
    (hci : selectCommandInfo ril request = some ci)
    (hf : ci.dispatchFunction = none) :
    ∃ s1, processCommandBuffer ril (int32Bytes request ++ int32Bytes token ++ body) s = some s1
      ∧ s1.trace = s.trace ++ [Event.sendResponse
          (int32Bytes 0 ++ int32Bytes token ++ int32Bytes ril.RIL_E_REQUEST_NOT_SUPPORTED)]
      ∧ s1.s_pendingRequests = s.s_pendingRequests := by
  have h := processCommandBuffer_accepted ril s request token body ci hr1 hr2 ht1 ht2 hacc hci
  rw [hf] at h
  simp only at h
  have h2 := RIL_onRequestComplete_null ril
    { s with
      allocated := s.allocated + 1
      s_pendingRequests :=
        { addr := s.allocated + 1, token := token, pCI := some ci, cancelled := 0,
          local_ := 0 } :: s.s_pendingRequests }
    [] s.s_pendingRequests
    { addr := s.allocated + 1, token := token, pCI := some ci, cancelled := 0, local_ := 0 }
    ril.RIL_E_REQUEST_NOT_SUPPORTED 0 rfl (by simp) (by simp) rfl
  rw [h2] at h
  refine ⟨_, h, ?_, ?_⟩
  · exact (sendResponse_frame _ _).2.1
  · exact (sendResponse_frame _ _).1

/-- The sample configuration: request code 37, whose entry has no decoder, with token 42. -/
theorem processCommandBuffer_not_supported_witness :
    ∃ s1, processCommandBuffer sampleRil (int32Bytes 37 ++ int32Bytes 42 ++ []) sampleState
        = some s1
      ∧ s1.trace = sampleState.trace ++ [Event.sendResponse
          (int32Bytes 0 ++ int32Bytes 42 ++ int32Bytes sampleRil.RIL_E_REQUEST_NOT_SUPPORTED)]
      ∧ s1.s_pendingRequests = sampleState.s_pendingRequests :=
  processCommandBuffer_not_supported sampleRil sampleState 37 42 []
    { requestNumber := 37, dispatchFunction := none, responseFunction := none }
    (by decide) (by decide) (by decide) (by decide) (by decide) rfl rfl

/-! ## Texts in a parcel -/

theorem char16Bytes_flatMap_length (s16 : List Nat) :
    (s16.flatMap char16Bytes).length = 2 * s16.length := by
  induction s16 with
  | nil => rfl
  | cons u rest ih =>
    simp only [List.flatMap_cons, List.length_append, ih, char16Bytes, List.length_cons,
      List.length_nil]
    omega

theorem char16OfBytes_flatMap (s16 : List Nat) (h : ∀ u ∈ s16, u < 65536) :
    char16OfBytes (s16.flatMap char16Bytes) = s16 := by
  induction s16 with
  | nil => rfl
  | cons u rest ih =>
    have hu : u < 65536 := h u (List.mem_cons_self _ _)
    have hr := ih (fun x hx => h x (List.mem_cons_of_mem _ hx))
    simp only [List.flatMap_cons, char16Bytes, List.cons_append, List.nil_append, char16OfBytes, hr]
    congr 1
    omega

theorem Parcel.writeString16_at_end (p : Parcel) (s16 : List Nat)
    (h : p.mDataPos = p.mData.length) :
    p.writeString16 (some s16)
      = { mData := p.mData ++ string16Bytes s16,
          mDataPos := p.mData.length + (string16Bytes s16).length } := by
  have h1 : p.writeInt32 s16.length
      = { mData := p.mData ++ int32Bytes s16.length, mDataPos := p.mData.length + 4 } :=
    Parcel.write_at_end p _ h
  simp only [Parcel.writeString16, h1, Parcel.writeInplace]
  rw [Parcel.write_at_end _ _ (by simp [int32Bytes_length])]
  simp only [string16Bytes, List.length_append, int32Bytes_length, List.append_assoc,
    Parcel.mk.injEq, true_and]
  omega

theorem Parcel.readString16Inplace_at (p : Parcel) (pre s16 : List Nat)
    (hd : p.mData = pre ++ string16Bytes s16) (hp : p.mDataPos = pre.length)
    (hlen : s16.length < 2147483647) (hu : ∀ u ∈ s16, u < 65536) :
    p.readString16Inplace = (some s16, s16.length, { p with mDataPos := p.mData.length }) := by
  have hflat := char16Bytes_flatMap_length s16
  have hl2 : (s16.flatMap char16Bytes ++ [0, 0]).length = (s16.length + 1) * 2 := by
    simp only [List.length_append, hflat, List.length_cons, List.length_nil]
    omega
  have hpad : (Parcel.padding ((s16.length + 1) * 2)).length
      = (4 - (s16.length + 1) * 2 % 4) % 4 := by
    simp [Parcel.padding]
  rw [string16Bytes, hl2] at hd
  have hr := Parcel.readInt32_at p pre
    ((s16.flatMap char16Bytes ++ [0, 0]) ++ Parcel.padding ((s16.length + 1) * 2))
    (s16.length : Int) (by rw [hd]; simp only [List.append_assoc]) hp (by omega) (by omega)
  have hsize : p.mData.length = pre.length + 4
      + ((s16.length + 1) * 2 + (4 - (s16.length + 1) * 2 % 4) % 4) := by
    rw [hd]
    simp only [List.length_append, int32Bytes_length, hpad, hflat, List.length_cons,
      List.length_nil]
    omega
  have hdrop : p.mData.drop (pre.length + 4)
      = (s16.flatMap char16Bytes ++ [0, 0]) ++ Parcel.padding ((s16.length + 1) * 2) := by
    rw [hd, ← List.append_assoc]
    exact List.drop_left' (by simp [int32Bytes_length])
  have htake : ((s16.flatMap char16Bytes ++ [0, 0])
        ++ Parcel.padding ((s16.length + 1) * 2)).take ((s16.length + 1) * 2)
      = s16.flatMap char16Bytes ++ [0, 0] :=
    List.take_left' hl2
  have htake2 : (s16.flatMap char16Bytes ++ [0, 0]).take (s16.length * 2)
      = s16.flatMap char16Bytes :=
    List.take_left' (by rw [hflat]; omega)
  unfold Parcel.readString16Inplace
  simp only [hr, Int.toNat_ofNat, Parcel.readInplace]
  have hc : (0 : Int) ≤ (s16.length : Int) ∧ (s16.length : Int) < 2147483647 := by omega
  rw [if_pos hc, if_pos (by rw [hsize])]
  simp only [hdrop, htake, htake2, char16OfBytes_flatMap s16 hu, hsize]

/-- The peer reads back a reply made of three integers and one text. -/
theorem readSolicitedString_frame (js : Jstring) (t e : Int) (text : List Nat)
    (ht1 : -2147483648 ≤ t) (ht2 : t < 2147483648)
    (he1 : -2147483648 ≤ e) (he2 : e < 2147483648)
    (hlen : (js.strdup8to16 text).length < 2147483647)
    (hunits : ∀ u ∈ js.strdup8to16 text, u < 65536)
    (hconv : js.strndup16to8 (js.strdup8to16 text) = text) :
    readSolicitedString js
        (int32Bytes 0 ++ int32Bytes t ++ int32Bytes e ++ string16Bytes (js.strdup8to16 text))
      = some (0, t, e, some text) := by
  generalize hfr : int32Bytes 0 ++ int32Bytes t ++ int32Bytes e
      ++ string16Bytes (js.strdup8to16 text) = frame
  have h1 : (Parcel.setData frame).readInt32 = (NO_ERROR, 0, Parcel.mk frame 4) := by
    have h := Parcel.readInt32_at (Parcel.setData frame) []
      (int32Bytes t ++ int32Bytes e ++ string16Bytes (js.strdup8to16 text)) 0
      (by rw [← hfr]; simp [Parcel.setData]) rfl (by decide) (by decide)
    simpa [Parcel.setData] using h
  have h2 : (Parcel.mk frame 4).readInt32 = (NO_ERROR, t, Parcel.mk frame 8) := by
    have h := Parcel.readInt32_at (Parcel.mk frame 4) (int32Bytes 0)
      (int32Bytes e ++ string16Bytes (js.strdup8to16 text)) t
      (by rw [← hfr]; simp) rfl ht1 ht2
    simpa [int32Bytes_length] using h
  have h3 : (Parcel.mk frame 8).readInt32 = (NO_ERROR, e, Parcel.mk frame 12) := by
    have h := Parcel.readInt32_at (Parcel.mk frame 8) (int32Bytes 0 ++ int32Bytes t)
      (string16Bytes (js.strdup8to16 text)) e
      (by rw [← hfr]) rfl he1 he2
    simpa [int32Bytes_length] using h
  have h4 : (Parcel.mk frame 12).readString16Inplace
      = (some (js.strdup8to16 text), (js.strdup8to16 text).length, Parcel.mk frame frame.length) := by
    have h := Parcel.readString16Inplace_at (Parcel.mk frame 12)
      (int32Bytes 0 ++ int32Bytes t ++ int32Bytes e) (js.strdup8to16 text)
      (by rw [← hfr]) rfl hlen hunits
    simpa using h
  simp only [readSolicitedString, h1, h2, h3, strdupReadString, h4, Option.map, hconv,
    and_self, if_true]

/-- C2. End to end for a request whose table entry is (dispatchVoid,
responseString): for every token t, status e and text, `processCommandBuffer`
on the frame (code, t) creates one pending request and calls the vendor's
`onRequest` exactly once, with NULL data of length 0; a following
`RIL_onRequestComplete` on the token handed to the vendor with (e, text) calls
`sendResponse` exactly once with a frame that the peer reads back as
(tag 0, token t, status e, text), and the pending list is then what it was
before the frame was routed. The text conversions are assumed to give the
text back. -/
theorem request_response_string (ril : Ril δ ρ) (js : Jstring) (s : RilState δ ρ)
    (request t e : Int) (body text : List Nat) (responselen : Nat)
    (ci : CommandInfo δ ρ) (fd : δ) (fr : ρ)
    (hr1 : -2147483648 ≤ request) (hr2 : request < 2147483648)
    (ht1 : -2147483648 ≤ t) (ht2 : t < 2147483648)
    (he1 : -2147483648 ≤ e) (he2 : e < 2147483648)
    (hacc : ¬ (request < 1
      ∨ ((ril.s_commands.length : Int) ≤ request ∧ request ≤ ril.RIL_SECOND_REQUEST_BASE)
      ∨ (ril.RIL_SECOND_REQUEST_BASE + ril.s_second_commands.length ≤ request
          ∧ request ≤ ril.RIL_IMS_REQUEST_BASE)
      ∨ (ril.RIL_IMS_REQUEST_BASE + ril.s_ims_commands.length ≤ request
          ∧ request ≤ ril.RIL_CUS_REQUEST_BASE)
      ∨ ril.RIL_CUS_REQUEST_BASE + ril.s_cus_commands.length ≤ request))
    (hci : selectCommandInfo ril request = some ci)
    (hfd : ci.dispatchFunction = some fd) (hfr : ci.responseFunction = some fr)
    (hdv : ril.dispatchFunction fd = dispatchVoid)
    (hrs : ril.responseFunction fr = responseString js)
    (hlen : (js.strdup8to16 text).length < 2147483647)
    (hunits : ∀ u ∈ js.strdup8to16 text, u < 65536)
    (hconv : js.strndup16to8 (js.strdup8to16 text) = text) :
    ∃ (s1 s2 : RilState δ ρ) (frame : List Nat),
      processCommandBuffer ril (int32Bytes request ++ int32Bytes t ++ body) s = some s1
      ∧ s1.s_pendingRequests
          = { addr := s.allocated + 1, token := t, pCI := some ci, cancelled := 0, local_ := 0 }
            :: s.s_pendingRequests
      ∧ s1.trace = s.trace
          ++ [Event.dispatch fd
                { mData := int32Bytes request ++ int32Bytes t ++ body, mDataPos := 8 }
                (s.allocated + 1),
              Event.onRequest ci.requestNumber none 0 (s.allocated + 1)]
      ∧ RIL_onRequestComplete ril (some (s.allocated + 1)) e (some (Data.cstr text)) responselen s1
          = some s2
      ∧ s2.trace = s1.trace ++ [Event.sendResponse frame]
      ∧ readSolicitedString js frame = some (0, t, e, some text)
      ∧ s2.s_pendingRequests = s.s_pendingRequests := by
  have h := processCommandBuffer_accepted ril s request t body ci hr1 hr2 ht1 ht2 hacc hci
  rw [hfd] at h
  simp only [hdv, dispatchVoid] at h
  have hp1 : writeStringToParcel js
      { mData := int32Bytes 0 ++ int32Bytes t ++ int32Bytes e, mDataPos := 12 } (some text)
      = { mData := int32Bytes 0 ++ int32Bytes t ++ int32Bytes e
            ++ string16Bytes (js.strdup8to16 text),
          mDataPos := (int32Bytes 0 ++ int32Bytes t ++ int32Bytes e).length
            + (string16Bytes (js.strdup8to16 text)).length } :=
    Parcel.writeString16_at_end _ _ (by simp [int32Bytes_length])
  have h2 := RIL_onRequestComplete_payload ril
    { s with
      allocated := s.allocated + 1
      s_pendingRequests :=
        { addr := s.allocated + 1, token := t, pCI := some ci, cancelled := 0, local_ := 0 }
          :: s.s_pendingRequests
      trace := s.trace
        ++ [Event.dispatch fd
              { mData := int32Bytes request ++ int32Bytes t ++ body, mDataPos := 8 }
              (s.allocated + 1)]
        ++ [Event.onRequest ci.requestNumber none 0 (s.allocated + 1)] }
    [] s.s_pendingRequests
    { addr := s.allocated + 1, token := t, pCI := some ci, cancelled := 0, local_ := 0 }
    e responselen (Data.cstr text) ci fr 0 _ rfl (by simp) (by simp) rfl rfl hfr
    (by rw [hrs]; exact congrArg (fun q => some ((0 : Int), q)) hp1)
  simp only [ne_eq, not_true_eq_false, if_false] at h2
  refine ⟨_, _,
    int32Bytes 0 ++ int32Bytes t ++ int32Bytes e ++ string16Bytes (js.strdup8to16 text),
    h, rfl, ?_, h2, ?_, ?_, ?_⟩
  · simp
  · exact (sendResponse_frame _ _).2.1
  · exact readSolicitedString_frame js t e text ht1 ht2 he1 he2 hlen hunits hconv
  · exact (sendResponse_frame _ _).1

/-- The sample configuration at request code 38 with token 42, status 0 and the text 123456789012345. -/
theorem request_response_string_witness :
    ∃ (s1 s2 : RilState DispatchFn ResponseFn) (frame : List Nat),
      processCommandBuffer sampleRil (int32Bytes 38 ++ int32Bytes 42 ++ []) sampleState = some s1
      ∧ s1.s_pendingRequests
          = { addr := 3, token := 42,
              pCI := some { requestNumber := 38, dispatchFunction := some .dispatchVoid,
                            responseFunction := some .responseString },
              cancelled := 0, local_ := 0 }
            :: sampleState.s_pendingRequests
      ∧ s1.trace = sampleState.trace
          ++ [Event.dispatch .dispatchVoid
                { mData := int32Bytes 38 ++ int32Bytes 42 ++ [], mDataPos := 8 } 3,
              Event.onRequest 38 none 0 3]
      ∧ RIL_onRequestComplete sampleRil (some 3) 0
          (some (Data.cstr [49, 50, 51, 52, 53, 54, 55, 56, 57, 48, 49, 50, 51, 52, 53])) 8 s1
          = some s2
      ∧ s2.trace = s1.trace ++ [Event.sendResponse frame]
      ∧ readSolicitedString asciiJstring frame
          = some (0, 42, 0, some [49, 50, 51, 52, 53, 54, 55, 56, 57, 48, 49, 50, 51, 52, 53])
      ∧ s2.s_pendingRequests = sampleState.s_pendingRequests :=
  request_response_string sampleRil asciiJstring sampleState 38 42 0 []
    [49, 50, 51, 52, 53, 54, 55, 56, 57, 48, 49, 50, 51, 52, 53] 8
    { requestNumber := 38, dispatchFunction := some .dispatchVoid,
      responseFunction := some .responseString }
    .dispatchVoid .responseString
    (by decide) (by decide) (by decide) (by decide) (by decide) (by decide) (by decide)
    rfl rfl rfl rfl rfl (by decide) (by decide) rfl

/-! ## Request routing: frames that are too short, and the table chosen -/

theorem Parcel.readInt32_short (p : Parcel) (h : p.mData.length < p.mDataPos + 4) :
    p.readInt32 = (NOT_ENOUGH_DATA, 0, p) := by
  have hl : (p.mData.drop p.mDataPos).length < 4 := by
    rw [List.length_drop]; omega
  unfold Parcel.readInt32
  rcases hd : p.mData.drop p.mDataPos with _ | ⟨a, _ | ⟨b, _ | ⟨c, _ | ⟨d, t⟩⟩⟩⟩
  · rfl
  · rfl
  · rfl
  · rfl
  · rw [hd] at hl
    simp only [List.length_cons] at hl
    omega

theorem Parcel.readInt32_cursor (p : Parcel) (h : p.mDataPos + 4 ≤ p.mData.length) :
    (p.readInt32).1 = NO_ERROR ∧ (p.readInt32).2.2 = { p with mDataPos := p.mDataPos + 4 } := by
  have hl : 4 ≤ (p.mData.drop p.mDataPos).length := by
    rw [List.length_drop]; omega
  unfold Parcel.readInt32
  rcases hd : p.mData.drop p.mDataPos with _ | ⟨a, _ | ⟨b, _ | ⟨c, _ | ⟨d, t⟩⟩⟩⟩
  · rw [hd] at hl; simp at hl
  · rw [hd] at hl; simp at hl
  · rw [hd] at hl; simp at hl
  · rw [hd] at hl; simp at hl
  · exact ⟨rfl, rfl⟩

/-- C11. From a frame of fewer than 8 bytes the request code or the token
cannot be read, and `processCommandBuffer` returns with the whole state as
it was: no call of `sendResponse`, no decoder, no vendor callback, same
pending list. -/
theorem processCommandBuffer_short_frame (ril : Ril δ ρ) (s : RilState δ ρ)
    (buffer : List Nat) (h : buffer.length < 8) :
    processCommandBuffer ril buffer s = some s := by
  unfold processCommandBuffer
  by_cases h4 : buffer.length < 4
  · have h1 := Parcel.readInt32_short (Parcel.setData buffer) (by simpa [Parcel.setData] using h4)
    simp only [h1, NOT_ENOUGH_DATA, NO_ERROR]
    simp
  · have h1 := Parcel.readInt32_cursor (Parcel.setData buffer)
      (by simp only [Parcel.setData]; omega)
    have h2 := Parcel.readInt32_short (Parcel.setData buffer).readInt32.2.2
      (by rw [h1.2]; simp only [Parcel.setData]; omega)
    simp only [h2, NOT_ENOUGH_DATA, NO_ERROR]
    simp

/-- A frame of seven bytes: the request code 38 and three quarters of a token. -/
theorem processCommandBuffer_short_frame_witness :
    processCommandBuffer sampleRil [38, 0, 0, 0, 42, 0, 0] sampleState = some sampleState :=
  processCommandBuffer_short_frame sampleRil sampleState [38, 0, 0, 0, 42, 0, 0] (by decide)

/-- C12. For an accepted request code the descriptor stored in the new
pending request (the head of the list when the decoder, or the completion for
a missing decoder, runs) is found by trying the ranges in the order base,
second, IMS, custom: `s_commands[r]` when 0 < r < size of the base table;
otherwise `s_second_commands[r - RIL_SECOND_REQUEST_BASE]` when r lies strictly
between that base and the base plus the table size; otherwise the entry of
the IMS table under the same test; otherwise
`s_cus_commands[r - RIL_CUS_REQUEST_BASE]`. -/
theorem processCommandBuffer_descriptor (ril : Ril δ ρ) (s : RilState δ ρ)
    (request token : Int) (body : List Nat)
    (hr1 : -2147483648 ≤ request) (hr2 : request < 2147483648)
    (ht1 : -2147483648 ≤ token) (ht2 : token < 2147483648)
    (hacc : ¬ (request < 1
      ∨ ((ril.s_commands.length : Int) ≤ request ∧ request ≤ ril.RIL_SECOND_REQUEST_BASE)
      ∨ (ril.RIL_SECOND_REQUEST_BASE + ril.s_second_commands.length ≤ request
          ∧ request ≤ ril.RIL_IMS_REQUEST_BASE)
      ∨ (ril.RIL_IMS_REQUEST_BASE + ril.s_ims_commands.length ≤ request
          ∧ request ≤ ril.RIL_CUS_REQUEST_BASE)
      ∨ ril.RIL_CUS_REQUEST_BASE + ril.s_cus_commands.length ≤ request)) :
    ∃ (ci : CommandInfo δ ρ) (pRI : RequestInfo δ ρ) (s1 : RilState δ ρ),
      pRI.pCI = some ci ∧ pRI.token = token
      ∧ s1.s_pendingRequests = pRI :: s.s_pendingRequests
      ∧ processCommandBuffer ril (int32Bytes request ++ int32Bytes token ++ body) s
          = (match ci.dispatchFunction with
            | none => RIL_onRequestComplete ril (some pRI.addr) ril.RIL_E_REQUEST_NOT_SUPPORTED
                none 0 s1
            | some f => ril.dispatchFunction f
                { mData := int32Bytes request ++ int32Bytes token ++ body, mDataPos := 8 } pRI
                { s1 with trace := s1.trace ++ [Event.dispatch f
                    { mData := int32Bytes request ++ int32Bytes token ++ body, mDataPos := 8 }
                    pRI.addr] })
      ∧ ((0 < request ∧ request < ril.s_commands.length) →
          ril.s_commands[request.toNat]? = some ci)
      ∧ (¬ (0 < request ∧ request < ril.s_commands.length) →
          (ril.RIL_SECOND_REQUEST_BASE < request
            ∧ request < ril.RIL_SECOND_REQUEST_BASE + ril.s_second_commands.length) →
          ril.s_second_commands[(request - ril.RIL_SECOND_REQUEST_BASE).toNat]? = some ci)
      ∧ (¬ (0 < request ∧ request < ril.s_commands.length) →
          ¬ (ril.RIL_SECOND_REQUEST_BASE < request
            ∧ request < ril.RIL_SECOND_REQUEST_BASE + ril.s_second_commands.length) →
          (ril.RIL_IMS_REQUEST_BASE < request
            ∧ request < ril.RIL_IMS_REQUEST_BASE + ril.s_ims_commands.length) →
          ril.s_ims_commands[(request - ril.RIL_IMS_REQUEST_BASE).toNat]? = some ci)
      ∧ (¬ (0 < request ∧ request < ril.s_commands.length) →
          ¬ (ril.RIL_SECOND_REQUEST_BASE < request
            ∧ request < ril.RIL_SECOND_REQUEST_BASE + ril.s_second_commands.length) →
          ¬ (ril.RIL_IMS_REQUEST_BASE < request
            ∧ request < ril.RIL_IMS_REQUEST_BASE + ril.s_ims_commands.length) →
          ril.s_cus_commands[(request - ril.RIL_CUS_REQUEST_BASE).toNat]? = some ci) := by
  obtain ⟨ci, hci⟩ := selectCommandInfo_of_accepted ril request hacc
  have h := processCommandBuffer_accepted ril s request token body ci hr1 hr2 ht1 ht2 hacc hci
  refine ⟨ci,
    { addr := s.allocated + 1, token := token, pCI := some ci, cancelled := 0, local_ := 0 },
    { s with
      allocated := s.allocated + 1
      s_pendingRequests :=
        { addr := s.allocated + 1, token := token, pCI := some ci, cancelled := 0,
          local_ := 0 } :: s.s_pendingRequests },
    rfl, rfl, rfl, ?_, ?_, ?_, ?_, ?_⟩
  · rw [h]
  · intro h1
    have h1' : request > 0 ∧ request < ril.s_commands.length := h1
    simp only [selectCommandInfo, if_pos h1'] at hci
    exact hci
  · intro h1 h2
    have h1' : ¬ (request > 0 ∧ request < ril.s_commands.length) := h1
    have h2' : request > ril.RIL_SECOND_REQUEST_BASE
        ∧ request < ril.RIL_SECOND_REQUEST_BASE + ril.s_second_commands.length := h2
    simp only [selectCommandInfo, if_neg h1', if_pos h2'] at hci
    exact hci
  · intro h1 h2 h3
    have h1' : ¬ (request > 0 ∧ request < ril.s_commands.length) := h1
    have h2' : ¬ (request > ril.RIL_SECOND_REQUEST_BASE
        ∧ request < ril.RIL_SECOND_REQUEST_BASE + ril.s_second_commands.length) := h2
    have h3' : request > ril.RIL_IMS_REQUEST_BASE
        ∧ request < ril.RIL_IMS_REQUEST_BASE + ril.s_ims_commands.length := h3
    simp only [selectCommandInfo, if_neg h1', if_neg h2', if_pos h3'] at hci
    exact hci
  · intro h1 h2 h3
    have h1' : ¬ (request > 0 ∧ request < ril.s_commands.length) := h1
    have h2' : ¬ (request > ril.RIL_SECOND_REQUEST_BASE
        ∧ request < ril.RIL_SECOND_REQUEST_BASE + ril.s_second_commands.length) := h2
    have h3' : ¬ (request > ril.RIL_IMS_REQUEST_BASE
        ∧ request < ril.RIL_IMS_REQUEST_BASE + ril.s_ims_commands.length) := h3
    simp only [selectCommandInfo, if_neg h1', if_neg h2', if_neg h3'] at hci
    split at hci
    · exact hci
    · cases hci

/-- The sample configuration at request code 1001: the base range does not
hold it, the second family does, and the entry stored is entry 1 of that table. -/
theorem processCommandBuffer_descriptor_witness :
    ∃ (ci : CommandInfo DispatchFn ResponseFn) (pRI : RequestInfo DispatchFn ResponseFn)
      (s1 : RilState DispatchFn ResponseFn),
      pRI.pCI = some ci ∧ pRI.token = 42
      ∧ s1.s_pendingRequests = pRI :: sampleState.s_pendingRequests
      ∧ sampleRil.s_second_commands[1]? = some ci
      ∧ ci.requestNumber = 1001 := by
  obtain ⟨ci, pRI, s1, h1, h2, h3, _, _, h5, _, _⟩ :=
    processCommandBuffer_descriptor sampleRil sampleState 1001 42 [] (by decide) (by decide)
      (by decide) (by decide) (by decide)
  have h6 : sampleRil.s_second_commands[1]? = some ci := h5 (by decide) (by decide)
  refine ⟨ci, pRI, s1, h1, h2, h3, h6, ?_⟩
  have h7 : sampleRil.s_second_commands[1]?
      = some { requestNumber := 1001, dispatchFunction := some .dispatchVoid,
               responseFunction := some .responseVoid } := rfl
  rw [h7] at h6
  rw [← Option.some.inj h6]

/-! ## The int-array decoder -/

theorem readInts_short (n : Nat) :
    ∀ (p : Parcel), 0 < n → p.mData.length < p.mDataPos + 4 * n → readInts n p = none := by
  induction n with
  | zero => intro p h; omega
  | succ k ih =>
    intro p _ hlen
    by_cases h4 : p.mData.length < p.mDataPos + 4
    · simp [readInts, Parcel.readInt32_short p h4, NOT_ENOUGH_DATA, NO_ERROR]
    · have hc := Parcel.readInt32_cursor p (by omega)
      have hk : 0 < k := by omega
      have hrest := ih p.readInt32.2.2 hk (by rw [hc.2]; simp only; omega)
      simp [readInts, hc.1, hrest]

theorem readInts_enough (n : Nat) :
    ∀ (p : Parcel), p.mDataPos + 4 * n ≤ p.mData.length →
      ∃ xs, readInts n p = some xs ∧ xs.length = n := by
  induction n with
  | zero => intro p _; exact ⟨[], rfl, rfl⟩
  | succ k ih =>
    intro p hlen
    have hc := Parcel.readInt32_cursor p (by omega)
    obtain ⟨xs, hxs, hl⟩ := ih p.readInt32.2.2 (by rw [hc.2]; simp only; omega)
    refine ⟨p.readInt32.2.1 :: xs, ?_, by simp [hl]⟩
    simp [readInts, hc.1, hxs]

theorem readInts_flatMap (xs : List Int) :
    ∀ (p : Parcel) (pre post : List Nat),
      p.mData = pre ++ xs.flatMap int32Bytes ++ post → p.mDataPos = pre.length →
      (∀ x ∈ xs, -2147483648 ≤ x ∧ x < 2147483648) →
      readInts xs.length p = some xs := by
  induction xs with
  | nil => intro p pre post _ _ _; rfl
  | cons x rest ih =>
    intro p pre post hd hp hr
    have hx := hr x (List.mem_cons_self _ _)
    have h1 := Parcel.readInt32_at p pre (rest.flatMap int32Bytes ++ post) x
      (by rw [hd]; simp only [List.flatMap_cons, List.append_assoc]) hp hx.1 hx.2
    have h2 := ih { p with mDataPos := pre.length + 4 } (pre ++ int32Bytes x) post
      (by simp only [hd, List.flatMap_cons, List.append_assoc])
      (by simp [int32Bytes_length])
      (fun y hy => hr y (List.mem_cons_of_mem _ hy))
    simp only [List.length_cons, readInts, h1, NO_ERROR, ne_eq, not_true_eq_false, if_false, h2,
      Option.map]

/-- `dispatchInts` on a payload that is the image of a non-empty list of
integers. -/
theorem dispatchInts_of_image (p : Parcel) (pRI : RequestInfo δ ρ) (s : RilState δ ρ)
    (ci : CommandInfo δ ρ) (hci : pRI.pCI = some ci) (pre post : List Nat) (xs : List Int)
    (hd : p.mData = pre ++ int32Bytes xs.length ++ xs.flatMap int32Bytes ++ post)
    (hp : p.mDataPos = pre.length) (hne : xs ≠ []) (hlt : xs.length < 2147483648)
    (hr : ∀ x ∈ xs, -2147483648 ≤ x ∧ x < 2147483648) :
    dispatchInts p pRI s = some { s with trace := s.trace
      ++ [Event.onRequest ci.requestNumber (some (Data.ints xs)) (4 * xs.length) pRI.addr] } := by
  have hlen : 0 < xs.length := List.length_pos.mpr hne
  have h1 := Parcel.readInt32_at p pre (xs.flatMap int32Bytes ++ post) (xs.length : Int)
    (by rw [hd]; simp only [List.append_assoc]) hp (by omega) (by omega)
  have h2 := readInts_flatMap xs { p with mDataPos := pre.length + 4 }
    (pre ++ int32Bytes xs.length) post (by simp only [hd])
    (by simp [int32Bytes_length]) hr
  have h0 : ¬ (NO_ERROR ≠ NO_ERROR ∨ (xs.length : Int) ≤ 0) := by
    intro h
    rcases h with h | h
    · exact h rfl
    · omega
  simp only [dispatchInts, hci, h1, h0, if_false, Int.toNat_ofNat, h2]

/-- C20. `dispatchInts` calls the vendor exactly when the count can be
read, is positive, and that many integers can be read after it. When the
count is missing (fewer than 4 bytes left), is zero or negative, or the
payload ends before `count` values, the state is returned as it was: no
vendor call. Otherwise there is exactly one call, with `count` integers and
a length of 4 * count; and when the payload is the image of the integers
`xs`, these are the integers handed over, in order. -/
theorem dispatchInts_spec (p : Parcel) (pRI : RequestInfo δ ρ) (s : RilState δ ρ)
    (ci : CommandInfo δ ρ) (hci : pRI.pCI = some ci) :
    (p.mData.length < p.mDataPos + 4 → dispatchInts p pRI s = some s)
    ∧ (p.readInt32.2.1 ≤ 0 → dispatchInts p pRI s = some s)
    ∧ (p.mData.length < p.mDataPos + 4 + 4 * p.readInt32.2.1.toNat →
        dispatchInts p pRI s = some s)
    ∧ (p.mDataPos + 4 ≤ p.mData.length → 0 < p.readInt32.2.1 →
        p.mDataPos + 4 + 4 * p.readInt32.2.1.toNat ≤ p.mData.length →
        ∃ pInts : List Int, (pInts.length : Int) = p.readInt32.2.1
          ∧ dispatchInts p pRI s = some { s with trace := s.trace
              ++ [Event.onRequest ci.requestNumber (some (Data.ints pInts))
                    (4 * p.readInt32.2.1.toNat) pRI.addr] })
    ∧ (∀ (pre post : List Nat) (xs : List Int),
        p.mData = pre ++ int32Bytes xs.length ++ xs.flatMap int32Bytes ++ post →
        p.mDataPos = pre.length → xs ≠ [] → xs.length < 2147483648 →
        (∀ x ∈ xs, -2147483648 ≤ x ∧ x < 2147483648) →
        dispatchInts p pRI s = some { s with trace := s.trace
          ++ [Event.onRequest ci.requestNumber (some (Data.ints xs)) (4 * xs.length)
                pRI.addr] }) := by
  refine ⟨?_, ?_, ?_, ?_, ?_⟩
  · intro h
    simp [dispatchInts, hci, Parcel.readInt32_short p h, NOT_ENOUGH_DATA, NO_ERROR]
  · intro h
    simp [dispatchInts, hci, h]
  · intro h
    by_cases h0 : p.readInt32.1 ≠ NO_ERROR ∨ p.readInt32.2.1 ≤ 0
    · simp only [dispatchInts, hci, h0, if_true]
    · have h4 : p.mDataPos + 4 ≤ p.mData.length := by
        by_contra hn
        exact h0 (Or.inl (by
          rw [Parcel.readInt32_short p (by omega)]; simp [NOT_ENOUGH_DATA, NO_ERROR]))
      have hc := Parcel.readInt32_cursor p h4
      have hpos : 0 < p.readInt32.2.1.toNat := by
        have : ¬ p.readInt32.2.1 ≤ 0 := fun hh => h0 (Or.inr hh)
        omega
      have hr := readInts_short p.readInt32.2.1.toNat p.readInt32.2.2 hpos
        (by rw [hc.2]; simp only; omega)
      simp only [dispatchInts, hci, h0, if_false, hr]
  · intro h4 hpos hlen
    have hc := Parcel.readInt32_cursor p h4
    obtain ⟨xs, hxs, hl⟩ := readInts_enough p.readInt32.2.1.toNat p.readInt32.2.2
      (by rw [hc.2]; simp only; omega)
    have h0 : ¬ (p.readInt32.1 ≠ NO_ERROR ∨ p.readInt32.2.1 ≤ 0) := by
      rw [hc.1]; simp; omega
    refine ⟨xs, by rw [hl]; omega, ?_⟩
    simp only [dispatchInts, hci, h0, if_false, hxs]
  · intro pre post xs hd hp hne hlt hr
    exact dispatchInts_of_image p pRI s ci hci pre post xs hd hp hne hlt hr

/-- A payload announcing two integers and holding 1 and 2; the same payload
one byte short; a count of zero. -/
theorem dispatchInts_spec_witness :
    dispatchInts (Parcel.mk [2, 0, 0, 0, 1, 0, 0, 0, 2, 0, 0, 0] 0) (sampleRequest 1 5 36)
        sampleState
      = some { sampleState with trace := [Event.onRequest 36 (some (Data.ints [1, 2])) 8 1] }
    ∧ dispatchInts (Parcel.mk [2, 0, 0, 0, 1, 0, 0, 0, 2, 0, 0] 0) (sampleRequest 1 5 36)
        sampleState = some sampleState
    ∧ dispatchInts (Parcel.mk [0, 0, 0, 0, 1, 0, 0, 0] 0) (sampleRequest 1 5 36) sampleState
        = some sampleState := by
  refine ⟨?_, ?_, ?_⟩
  · exact (dispatchInts_spec (Parcel.mk [2, 0, 0, 0, 1, 0, 0, 0, 2, 0, 0, 0] 0)
      (sampleRequest 1 5 36) sampleState _ rfl).2.2.2.2 [] [] [1, 2] rfl rfl (by decide)
      (by decide) (by decide)
  · exact (dispatchInts_spec (Parcel.mk [2, 0, 0, 0, 1, 0, 0, 0, 2, 0, 0] 0)
      (sampleRequest 1 5 36) sampleState _ rfl).2.2.1 (by decide)
  · exact (dispatchInts_spec (Parcel.mk [0, 0, 0, 0, 1, 0, 0, 0] 0)
      (sampleRequest 1 5 36) sampleState _ rfl).2.1 (by decide)

/-! ## The int-array encoder, and its round trip -/

theorem writeInts_at_end (xs : List Int) :
    ∀ (p : Parcel), p.mDataPos = p.mData.length →
      writeInts p xs = { mData := p.mData ++ xs.flatMap int32Bytes,
                         mDataPos := p.mData.length + 4 * xs.length } := by
  induction xs with
  | nil => intro p h; simp [writeInts, ← h]
  | cons x rest ih =>
    intro p h
    have h1 : p.writeInt32 x
        = { mData := p.mData ++ int32Bytes x, mDataPos := p.mData.length + 4 } :=
      Parcel.write_at_end p _ h
    have h2 := ih (p.writeInt32 x) (by rw [h1]; simp [int32Bytes_length])
    simp only [writeInts, List.foldl_cons] at h2 ⊢
    rw [h2, h1]
    simp only [List.flatMap_cons, List.append_assoc, List.length_append, int32Bytes_length,
      List.length_cons, Parcel.mk.injEq, true_and]
    omega

/-- `responseInts` where a pointer has the size of an `int`: the count and
the integers are appended. -/
theorem responseInts_ints (pre : List Nat) (xs : List Int) :
    responseInts 4 { mData := pre, mDataPos := pre.length } (some (Data.ints xs)) (4 * xs.length)
      = some (0, { mData := pre ++ int32Bytes xs.length ++ xs.flatMap int32Bytes,
                   mDataPos := pre.length + 4 + 4 * xs.length }) := by
  have h1 : (Parcel.mk pre pre.length).writeInt32 xs.length
      = { mData := pre ++ int32Bytes xs.length, mDataPos := pre.length + 4 } :=
    Parcel.write_at_end _ _ rfl
  have h2 := writeInts_at_end xs ((Parcel.mk pre pre.length).writeInt32 xs.length)
    (by rw [h1]; simp [int32Bytes_length])
  have hdiv : 4 * xs.length / 4 = xs.length := by omega
  have hmod : ¬ (4 * xs.length % 4 ≠ 0) := by omega
  simp only [responseInts, hmod, if_false, hdiv, le_refl, if_true, List.take_length]
  simp only [writeInts] at h2
  rw [if_neg (by simp), h2, h1]
  simp [int32Bytes_length]

/-- C15. On a target whose pointers are 8 bytes, `responseInts` handed
the two integers 1 and 2 with a length of 8 bytes (two `int`s) returns 0 and
writes the count 1 followed by the integer 1 only: the count is the length
divided by `sizeof(int*)`. With pointers of 4 bytes the same call writes the
count 2 and both integers. -/
theorem responseInts_count_by_pointer_size :
    responseInts 8 Parcel.empty (some (Data.ints [1, 2])) 8
      = some (0, { mData := int32Bytes 1 ++ int32Bytes 1, mDataPos := 8 })
    ∧ responseInts 4 Parcel.empty (some (Data.ints [1, 2])) 8
      = some (0, { mData := int32Bytes 2 ++ int32Bytes 1 ++ int32Bytes 2, mDataPos := 12 }) := by
  constructor <;> rfl

/-- C16, as stated, fails at the empty list. With pointers of 4 bytes the
encoder writes the count 0, and the decoder, given these bytes, returns
without calling the vendor. -/
theorem ints_round_trip_empty :
    responseInts 4 Parcel.empty (some (Data.ints [])) 0
      = some (0, { mData := [0, 0, 0, 0], mDataPos := 4 })
    ∧ dispatchInts (Parcel.setData [0, 0, 0, 0]) (sampleRequest 1 5 36) sampleState
      = some sampleState := by
  constructor <;> rfl

/-- C16, amended. Where a pointer has the size of an `int`, for every
non-empty list `xs` of 32-bit integers: the bytes that `responseInts` appends
for `xs` (after any bytes `pre` already in the parcel), read by `dispatchInts`
from where they start, make it call the vendor once with exactly `xs` and a
length of 4 bytes for each. -/
theorem ints_round_trip (pre : List Nat) (xs : List Int) (pRI : RequestInfo δ ρ)
    (s : RilState δ ρ) (ci : CommandInfo δ ρ)
    (hci : pRI.pCI = some ci) (hne : xs ≠ []) (hlt : xs.length < 2147483648)
    (hr : ∀ x ∈ xs, -2147483648 ≤ x ∧ x < 2147483648) :
    ∃ p1 : Parcel,
      responseInts 4 { mData := pre, mDataPos := pre.length } (some (Data.ints xs))
          (4 * xs.length) = some (0, p1)
      ∧ dispatchInts { mData := p1.mData, mDataPos := pre.length } pRI s
          = some { s with trace := s.trace
              ++ [Event.onRequest ci.requestNumber (some (Data.ints xs)) (4 * xs.length)
                    pRI.addr] } := by
  refine ⟨_, responseInts_ints pre xs, ?_⟩
  exact dispatchInts_of_image _ pRI s ci hci pre [] xs (by simp) rfl hne hlt hr

/-- The integers 7, -1 and 2147483647 written after an 8-byte header and
read back. -/
theorem ints_round_trip_witness :
    ∃ p1 : Parcel,
      responseInts 4 { mData := [36, 0, 0, 0, 5, 0, 0, 0], mDataPos := 8 }
          (some (Data.ints [7, -1, 2147483647])) 12 = some (0, p1)
      ∧ dispatchInts { mData := p1.mData, mDataPos := 8 } (sampleRequest 1 5 36) sampleState
          = some { sampleState with trace :=
              [Event.onRequest 36 (some (Data.ints [7, -1, 2147483647])) 12 1] } :=
  ints_round_trip [36, 0, 0, 0, 5, 0, 0, 0] [7, -1, 2147483647] (sampleRequest 1 5 36)
    sampleState _ rfl (by decide) (by decide) (by decide)

/-! ## The string-array encoder and decoder, and their round trip -/

theorem string16Bytes_length (s16 : List Nat) :
    (string16Bytes s16).length
      = 4 + ((s16.length + 1) * 2 + (4 - (s16.length + 1) * 2 % 4) % 4) := by
  have hflat := char16Bytes_flatMap_length s16
  have hl2 : (s16.flatMap char16Bytes ++ [0, 0]).length = (s16.length + 1) * 2 := by
    simp only [List.length_append, hflat, List.length_cons, List.length_nil]
    omega
  simp only [string16Bytes, hl2, List.length_append, int32Bytes_length, Parcel.padding,
    List.length_replicate]

theorem Parcel.readString16Inplace_mid (p : Parcel) (pre s16 post : List Nat)
    (hd : p.mData = pre ++ string16Bytes s16 ++ post) (hp : p.mDataPos = pre.length)
    (hlen : s16.length < 2147483647) (hu : ∀ u ∈ s16, u < 65536) :
    p.readString16Inplace
      = (some s16, s16.length,
          { p with mDataPos := pre.length + (string16Bytes s16).length }) := by
  have hflat := char16Bytes_flatMap_length s16
  have hl2 : (s16.flatMap char16Bytes ++ [0, 0]).length = (s16.length + 1) * 2 := by
    simp only [List.length_append, hflat, List.length_cons, List.length_nil]
    omega
  have hpad : (Parcel.padding ((s16.length + 1) * 2)).length
      = (4 - (s16.length + 1) * 2 % 4) % 4 := by
    simp [Parcel.padding]
  have hslen := string16Bytes_length s16
  have hd2 := hd
  rw [string16Bytes, hl2] at hd2
  have hr := Parcel.readInt32_at p pre
    ((s16.flatMap char16Bytes ++ [0, 0]) ++ Parcel.padding ((s16.length + 1) * 2) ++ post)
    (s16.length : Int) (by rw [hd2]; simp only [List.append_assoc]) hp (by omega) (by omega)
  have hsize : p.mData.length = pre.length + (4
      + ((s16.length + 1) * 2 + (4 - (s16.length + 1) * 2 % 4) % 4)) + post.length := by
    rw [hd]
    simp only [List.length_append, hslen]
  have hdrop : p.mData.drop (pre.length + 4)
      = (s16.flatMap char16Bytes ++ [0, 0])
          ++ (Parcel.padding ((s16.length + 1) * 2) ++ post) := by
    rw [hd2]
    have : pre ++ (int32Bytes ↑s16.length
          ++ (s16.flatMap char16Bytes ++ [0, 0] ++ Parcel.padding ((s16.length + 1) * 2)))
          ++ post
        = (pre ++ int32Bytes ↑s16.length)
          ++ ((s16.flatMap char16Bytes ++ [0, 0])
            ++ (Parcel.padding ((s16.length + 1) * 2) ++ post)) := by
      simp only [List.append_assoc]
    rw [this]
    exact List.drop_left' (by simp [int32Bytes_length])
  have htake : ((s16.flatMap char16Bytes ++ [0, 0])
        ++ (Parcel.padding ((s16.length + 1) * 2) ++ post)).take ((s16.length + 1) * 2)
      = s16.flatMap char16Bytes ++ [0, 0] :=
    List.take_left' hl2
  have htake2 : (s16.flatMap char16Bytes ++ [0, 0]).take (s16.length * 2)
      = s16.flatMap char16Bytes :=
    List.take_left' (by rw [hflat]; omega)
  unfold Parcel.readString16Inplace
  simp only [hr, Int.toNat_ofNat, Parcel.readInplace]
  have hc : (0 : Int) ≤ (s16.length : Int) ∧ (s16.length : Int) < 2147483647 := by omega
  rw [if_pos hc, if_pos (by rw [hsize]; omega)]
  simp only [hdrop, htake, htake2, char16OfBytes_flatMap s16 hu, hslen]
  simp only [Prod.mk.injEq, Parcel.mk.injEq, true_and]
  omega

/-- Reading back one text, NULL or not, that `writeStringToParcel` stored. -/
theorem strdupReadString_image (js : Jstring) (p : Parcel) (pre post : List Nat)
    (x : Option (List Nat))
    (hd : p.mData = pre ++ optString16Bytes (x.map js.strdup8to16) ++ post)
    (hp : p.mDataPos = pre.length)
    (hx : ∀ t, x = some t → (js.strdup8to16 t).length < 2147483647
      ∧ (∀ u ∈ js.strdup8to16 t, u < 65536) ∧ js.strndup16to8 (js.strdup8to16 t) = t) :
    strdupReadString js p
      = (x, { p with mDataPos :=
                pre.length + (optString16Bytes (x.map js.strdup8to16)).length }) := by
  cases x with
  | none =>
    have hr := Parcel.readInt32_at p pre post (-1)
      (by rw [hd]; rfl) hp (by decide) (by decide)
    simp only [strdupReadString, Parcel.readString16Inplace, hr, Option.map, optString16Bytes,
      int32Bytes_length]
    simp
  | some t =>
    obtain ⟨h1, h2, h3⟩ := hx t rfl
    have hr := Parcel.readString16Inplace_mid p pre (js.strdup8to16 t) post
      (by rw [hd]; rfl) hp h1 h2
    simp only [strdupReadString, hr, Option.map, h3, optString16Bytes]

theorem readStrings_image (js : Jstring) (xs : List (Option (List Nat))) :
    ∀ (p : Parcel) (pre post : List Nat),
      p.mData = pre ++ xs.flatMap (fun x => optString16Bytes (x.map js.strdup8to16)) ++ post →
      p.mDataPos = pre.length →
      (∀ t, some t ∈ xs → (js.strdup8to16 t).length < 2147483647
        ∧ (∀ u ∈ js.strdup8to16 t, u < 65536) ∧ js.strndup16to8 (js.strdup8to16 t) = t) →
      readStrings js xs.length p = xs := by
  induction xs with
  | nil => intro p pre post _ _ _; rfl
  | cons x rest ih =>
    intro p pre post hd hp hx
    have h1 := strdupReadString_image js p pre
      (rest.flatMap (fun x => optString16Bytes (x.map js.strdup8to16)) ++ post) x
      (by rw [hd]; simp only [List.flatMap_cons, List.append_assoc]) hp
      (fun t ht => hx t (by rw [ht]; exact List.mem_cons_self _ _))
    have h2 := ih
      { p with mDataPos := pre.length + (optString16Bytes (x.map js.strdup8to16)).length }
      (pre ++ optString16Bytes (x.map js.strdup8to16)) post
      (by simp only [hd, List.flatMap_cons, List.append_assoc])
      (by simp)
      (fun t ht => hx t (List.mem_cons_of_mem _ ht))
    simp only [List.length_cons, readStrings, h1, h2]

theorem writeStringToParcel_at_end (js : Jstring) (p : Parcel) (x : Option (List Nat))
    (h : p.mDataPos = p.mData.length) :
    writeStringToParcel js p x
      = { mData := p.mData ++ optString16Bytes (x.map js.strdup8to16),
          mDataPos := p.mData.length + (optString16Bytes (x.map js.strdup8to16)).length } := by
  cases x with
  | none => exact Parcel.write_at_end p _ h
  | some t => exact Parcel.writeString16_at_end p _ h

theorem writeStrings_at_end (js : Jstring) (xs : List (Option (List Nat))) :
    ∀ (p : Parcel), p.mDataPos = p.mData.length →
      xs.foldl (writeStringToParcel js) p
        = { mData := p.mData ++ xs.flatMap (fun x => optString16Bytes (x.map js.strdup8to16)),
            mDataPos := p.mData.length
              + (xs.flatMap (fun x => optString16Bytes (x.map js.strdup8to16))).length } := by
  induction xs with
  | nil => intro p h; simp [← h]
  | cons x rest ih =>
    intro p h
    have h1 := writeStringToParcel_at_end js p x h
    have h2 := ih (writeStringToParcel js p x) (by rw [h1]; simp)
    rw [List.foldl_cons, h2, h1]
    simp only [List.flatMap_cons, List.append_assoc, List.length_append, Nat.add_assoc]

/-- `responseStrings` on an array of `xs.length` pointers: the count and the
texts are appended. -/
theorem responseStrings_cstrs (js : Jstring) (sizeofPtr : Nat) (pre : List Nat)
    (xs : List (Option (List Nat))) (hptr : 0 < sizeofPtr) :
    responseStrings js sizeofPtr { mData := pre, mDataPos := pre.length }
        (some (Data.cstrs xs)) (xs.length * sizeofPtr)
      = some (0, { mData := pre ++ int32Bytes xs.length
                      ++ xs.flatMap (fun x => optString16Bytes (x.map js.strdup8to16)),
                   mDataPos := pre.length + 4
                      + (xs.flatMap (fun x => optString16Bytes (x.map js.strdup8to16))).length })
    := by
  have h1 : (Parcel.mk pre pre.length).writeInt32 xs.length
      = { mData := pre ++ int32Bytes xs.length, mDataPos := pre.length + 4 } :=
    Parcel.write_at_end _ _ rfl
  have h2 := writeStrings_at_end js xs ((Parcel.mk pre pre.length).writeInt32 xs.length)
    (by rw [h1]; simp [int32Bytes_length])
  have hdiv : xs.length * sizeofPtr / sizeofPtr = xs.length := Nat.mul_div_cancel _ hptr
  have hmod : ¬ (xs.length * sizeofPtr % sizeofPtr ≠ 0) := by
    simp [Nat.mul_mod_left]
  simp only [responseStrings, hmod, if_false, hdiv, le_refl, if_true, List.take_length]
  rw [if_neg (by simp), h2, h1]
  simp [int32Bytes_length]

/-- C17. String-array round trip. For every list `xs` of texts, entries
possibly NULL, such that the conversion to UTF-16 and back gives each text
back: the bytes that `responseStrings` appends for `xs`, read by
`dispatchStrings` from where they start, make it call the vendor once with a
length of `xs.length` pointers and an array whose first `xs.length` entries
are `xs`, NULL staying NULL. For a non-empty `xs` the array is `xs`; for the
empty list it is the one zeroed entry the decoder allocates, with length 0. -/
theorem strings_round_trip (js : Jstring) (sizeofPtr : Nat) (pre : List Nat)
    (xs : List (Option (List Nat))) (pRI : RequestInfo δ ρ) (s : RilState δ ρ)
    (ci : CommandInfo δ ρ)
    (hci : pRI.pCI = some ci) (hptr : 0 < sizeofPtr) (hlt : xs.length < 2147483648)
    (hx : ∀ t, some t ∈ xs → (js.strdup8to16 t).length < 2147483647
      ∧ (∀ u ∈ js.strdup8to16 t, u < 65536) ∧ js.strndup16to8 (js.strdup8to16 t) = t) :
    ∃ (p1 : Parcel) (pStrings : List (Option (List Nat))),
      responseStrings js sizeofPtr { mData := pre, mDataPos := pre.length }
          (some (Data.cstrs xs)) (xs.length * sizeofPtr) = some (0, p1)
      ∧ dispatchStrings js sizeofPtr { mData := p1.mData, mDataPos := pre.length } pRI s
          = some { s with trace := s.trace
              ++ [Event.onRequest ci.requestNumber (some (Data.cstrs pStrings))
                    (sizeofPtr * xs.length) pRI.addr] }
      ∧ pStrings.take xs.length = xs
      ∧ (xs ≠ [] → pStrings = xs) := by
  have henc := responseStrings_cstrs js sizeofPtr pre xs hptr
  have hread := Parcel.readInt32_at
    { mData := pre ++ int32Bytes xs.length
        ++ xs.flatMap (fun x => optString16Bytes (x.map js.strdup8to16)),
      mDataPos := pre.length }
    pre (xs.flatMap (fun x => optString16Bytes (x.map js.strdup8to16))) (xs.length : Int)
    rfl rfl (by omega) (by omega)
  by_cases hnil : xs = []
  · subst hnil
    refine ⟨_, [none], henc, ?_, rfl, fun h => absurd rfl h⟩
    simp only [dispatchStrings, hci, hread]
    simp [NO_ERROR]
  · have hpos : 0 < xs.length := List.length_pos.mpr hnil
    have hrs := readStrings_image js xs
      { mData := pre ++ int32Bytes xs.length
          ++ xs.flatMap (fun x => optString16Bytes (x.map js.strdup8to16)),
        mDataPos := pre.length + 4 }
      (pre ++ int32Bytes xs.length) [] (by simp) (by simp [int32Bytes_length]) hx
    refine ⟨_, xs, henc, ?_, List.take_length xs, fun _ => rfl⟩
    have hz : ¬ ((xs.length : Int) = 0) := by omega
    have hneg : ¬ ((xs.length : Int) < 0) := by omega
    simp only [dispatchStrings, hci, hread, NO_ERROR, ne_eq, not_true_eq_false, if_false, hz,
      hneg, Int.toNat_ofNat, hrs]

/-- Three entries, the second NULL, after an 8-byte header, with pointers of
8 bytes; the conversions keep 7-bit texts as they are. -/
theorem strings_round_trip_witness :
    ∃ (p1 : Parcel) (pStrings : List (Option (List Nat))),
      responseStrings asciiJstring 8 { mData := [36, 0, 0, 0, 5, 0, 0, 0], mDataPos := 8 }
          (some (Data.cstrs [some [97, 98], none, some []])) 24 = some (0, p1)
      ∧ dispatchStrings asciiJstring 8 { mData := p1.mData, mDataPos := 8 }
          (sampleRequest 1 5 36) sampleState
          = some { sampleState with trace :=
              [Event.onRequest 36 (some (Data.cstrs pStrings)) 24 1] }
      ∧ pStrings.take 3 = [some [97, 98], none, some []]
      ∧ ([some [97, 98], none, some []] ≠ ([] : List (Option (List Nat))) →
          pStrings = [some [97, 98], none, some []]) :=
  strings_round_trip asciiJstring 8 [36, 0, 0, 0, 5, 0, 0, 0] [some [97, 98], none, some []]
    (sampleRequest 1 5 36) sampleState _ rfl (by decide) (by decide)
    (by
      intro t ht
      have h2 : t = [97, 98] ∨ t = [] := by simpa using ht
      rcases h2 with h | h <;> subst h <;> decide)

/-! ## The data-call-setup decoder below version 4 -/

theorem strdupReadString_at_end (js : Jstring) (p : Parcel)
    (h : p.mData.length < p.mDataPos + 4) : strdupReadString js p = (none, p) := by
  have h1 := Parcel.readInt32_short p h
  have h2 : ¬ (p.mDataPos + (2 + (4 - 2 % 4) % 4) ≤ p.mData.length) := by omega
  simp [strdupReadString, Parcel.readString16Inplace, h1, Parcel.readInplace, h2]

theorem readStrings_at_end (js : Jstring) (n : Nat) (p : Parcel)
    (h : p.mData.length < p.mDataPos + 4) : readStrings js n p = List.replicate n none := by
  induction n with
  | zero => rfl
  | succ k ih => simp [readStrings, strdupReadString_at_end js p h, ih, List.replicate_succ]

/-- C19. With a negotiated version below 4 and a body that announces
n > 6 texts, `dispatchDataCall` hands `dispatchStrings` a parcel that holds the
bytes before the body and the count 6, and none of the texts: the vendor is
called once, with a length of 6 pointers and an array of 6 NULL entries,
whatever the texts s1..sn were. -/
theorem dispatchDataCall_below_version_4 (version : Int) (js : Jstring) (sizeofPtr : Nat)
    (p : Parcel) (pRI : RequestInfo δ ρ) (s : RilState δ ρ) (ci : CommandInfo δ ρ)
    (pre rest : List Nat) (n : Int)
    (hci : pRI.pCI = some ci) (hv : version < 4)
    (hd : p.mData = pre ++ int32Bytes n ++ rest) (hp : p.mDataPos = pre.length)
    (hn : 6 < n) (hn2 : n < 2147483648) :
    dispatchDataCall version js sizeofPtr p pRI s
      = some { s with trace := s.trace
          ++ [Event.onRequest ci.requestNumber
                (some (Data.cstrs [none, none, none, none, none, none])) (sizeofPtr * 6)
                pRI.addr] } := by
  have hr := Parcel.readInt32_at p pre rest n hd hp (by omega) hn2
  have hp2 : ((Parcel.empty.appendFrom p 0 p.dataPosition).writeInt32 6).setDataPosition
        p.dataPosition
      = { mData := pre ++ int32Bytes 6, mDataPos := pre.length } := by
    simp only [Parcel.appendFrom, Parcel.dataPosition, hp, hd]
    by_cases h0 : pre.length = 0
    · have : pre = [] := List.length_eq_zero.mp h0
      subst this
      rfl
    · simp [h0, Parcel.write, Parcel.empty, Parcel.writeInt32, Parcel.setDataPosition,
        int32Bytes_length]
  have hr2 := Parcel.readInt32_at { mData := pre ++ int32Bytes 6, mDataPos := pre.length }
    pre [] 6 (by simp) rfl (by decide) (by decide)
  have hrs := readStrings_at_end js 6
    { mData := pre ++ int32Bytes 6, mDataPos := pre.length + 4 }
    (by simp [int32Bytes_length])
  have hc : version < 4 ∧ n > 6 := ⟨hv, hn⟩
  simp only [dispatchDataCall, hr, hc, and_self, if_true, hp2, dispatchStrings, hci, hr2, NO_ERROR,
    ne_eq, not_true_eq_false, if_false]
  simp [hrs, List.replicate]

/-- Version 3 and a body of 8 one-letter texts `a` to `h` after an 8-byte
header, with pointers of 8 bytes. -/
theorem dispatchDataCall_below_version_4_witness :
    dispatchDataCall 3 asciiJstring 8
        { mData := [27, 0, 0, 0, 5, 0, 0, 0] ++ int32Bytes 8
            ++ [[97], [98], [99], [100], [101], [102], [103], [104]].flatMap string16Bytes,
          mDataPos := 8 }
        (sampleRequest 1 5 36) sampleState
      = some { sampleState with trace :=
          [Event.onRequest 36 (some (Data.cstrs [none, none, none, none, none, none])) 48 1] } :=
  dispatchDataCall_below_version_4 3 asciiJstring 8 _ (sampleRequest 1 5 36) sampleState _
    [27, 0, 0, 0, 5, 0, 0, 0]
    ([[97], [98], [99], [100], [101], [102], [103], [104]].flatMap string16Bytes) 8
    rfl (by decide) rfl rfl (by decide) (by decide)

/-! ## The signal-strength encoder -/

/-- What `responseRilSignalStrength` appends for a full-size record at a
version of 6 or less. -/
theorem responseRilSignalStrength_full_old (version : Int) (h : RilH) (p : Parcel)
    (responselen : Nat)
    (gwSignalStrength gwBitErrorRate cdmaDbm cdmaEcio evdoDbm evdoEcio evdoSignalNoiseRatio
      signalStrength rsrp rsrq rssnr cqi : Int) (more : List Int)
    (hpos : p.mDataPos = p.mData.length)
    (h5 : responselen ≥ h.sizeof_RIL_SignalStrength_v5)
    (h6 : responselen ≥ h.sizeof_RIL_SignalStrength_v6) (hv : version ≤ 6) :
    responseRilSignalStrength version h p
        (some (Data.ints (gwSignalStrength :: gwBitErrorRate :: cdmaDbm :: cdmaEcio
          :: evdoDbm :: evdoEcio :: evdoSignalNoiseRatio :: signalStrength :: rsrp :: rsrq
          :: rssnr :: cqi :: more))) responselen
      = some (0,
          { mData := p.mData ++ [gwSignalStrength, gwBitErrorRate, cdmaDbm, cdmaEcio,
                evdoDbm, evdoEcio, evdoSignalNoiseRatio,
                if signalStrength = -1 then 99 else signalStrength,
                if rsrp = -1 then 2147483647 else if rsrp < -1 then -rsrp else rsrp,
                if rsrq = -1 then 2147483647 else rsrq, rssnr,
                if cqi = -1 then 2147483647 else cqi].flatMap int32Bytes,
            mDataPos := p.mData.length + 48 }) := by
  have h7 := writeInts_at_end [gwSignalStrength, gwBitErrorRate, cdmaDbm, cdmaEcio, evdoDbm,
    evdoEcio, evdoSignalNoiseRatio] p hpos
  have h12 := writeInts_at_end
    [if signalStrength = -1 then 99 else signalStrength,
     if rsrp = -1 then INT_MAX else if rsrp < -1 then -rsrp else rsrp,
     if rsrq = -1 then INT_MAX else rsrq, rssnr, if cqi = -1 then INT_MAX else cqi]
    (writeInts p [gwSignalStrength, gwBitErrorRate, cdmaDbm, cdmaEcio, evdoDbm, evdoEcio,
      evdoSignalNoiseRatio])
    (by rw [h7]; simp [int32Bytes_length])
  simp only [responseRilSignalStrength, h5, h6, hv, if_true]
  rw [if_neg (by simp), h12, h7]
  simp [INT_MAX, int32Bytes_length]

/-- What `responseRilSignalStrength` appends for a full-size record at a
version above 6. -/
theorem responseRilSignalStrength_full_new (version : Int) (h : RilH) (p : Parcel)
    (responselen : Nat)
    (gwSignalStrength gwBitErrorRate cdmaDbm cdmaEcio evdoDbm evdoEcio evdoSignalNoiseRatio
      signalStrength rsrp rsrq rssnr cqi : Int) (more : List Int)
    (hpos : p.mDataPos = p.mData.length)
    (h5 : responselen ≥ h.sizeof_RIL_SignalStrength_v5)
    (h6 : responselen ≥ h.sizeof_RIL_SignalStrength_v6) (hv : 6 < version) :
    responseRilSignalStrength version h p
        (some (Data.ints (gwSignalStrength :: gwBitErrorRate :: cdmaDbm :: cdmaEcio
          :: evdoDbm :: evdoEcio :: evdoSignalNoiseRatio :: signalStrength :: rsrp :: rsrq
          :: rssnr :: cqi :: more))) responselen
      = some (0,
          { mData := p.mData ++ [gwSignalStrength, gwBitErrorRate, cdmaDbm, cdmaEcio,
                evdoDbm, evdoEcio, evdoSignalNoiseRatio, signalStrength, rsrp, rsrq, rssnr,
                cqi].flatMap int32Bytes,
            mDataPos := p.mData.length + 48 }) := by
  have h7 := writeInts_at_end [gwSignalStrength, gwBitErrorRate, cdmaDbm, cdmaEcio, evdoDbm,
    evdoEcio, evdoSignalNoiseRatio] p hpos
  have hv' : ¬ version ≤ 6 := by omega
  have h12 := writeInts_at_end [signalStrength, rsrp, rsrq, rssnr, cqi]
    (writeInts p [gwSignalStrength, gwBitErrorRate, cdmaDbm, cdmaEcio, evdoDbm, evdoEcio,
      evdoSignalNoiseRatio])
    (by rw [h7]; simp [int32Bytes_length])
  simp only [responseRilSignalStrength, h5, h6, hv', if_true, if_false]
  rw [if_neg (by simp), h12, h7]
  simp [int32Bytes_length]

/-- C18. For a response of at least `sizeof(RIL_SignalStrength_v6)` bytes
that holds the twelve fields, `responseRilSignalStrength` returns 0 and appends
twelve integers. The seven GW, CDMA and EVDO fields and the LTE rssnr are
appended unchanged whatever their value and the version. At a version of 6 or
less, an LTE rsrp, rsrq or cqi of -1 is appended as 2147483647 (INT_MAX),
while every other value of rsrq and cqi, negative ones included, is appended
unchanged. At a version above 6 all twelve fields are appended unchanged. -/
theorem responseRilSignalStrength_lte_sentinels (version : Int) (h : RilH) (p : Parcel)
    (responselen : Nat)
    (gwSignalStrength gwBitErrorRate cdmaDbm cdmaEcio evdoDbm evdoEcio evdoSignalNoiseRatio
      signalStrength rsrp rsrq rssnr cqi : Int) (more : List Int)
    (hpos : p.mDataPos = p.mData.length)
    (h5 : responselen ≥ h.sizeof_RIL_SignalStrength_v5)
    (h6 : responselen ≥ h.sizeof_RIL_SignalStrength_v6) :
    (version ≤ 6 →
      ∃ lteSignalStrength lteRsrp : Int,
        responseRilSignalStrength version h p
            (some (Data.ints (gwSignalStrength :: gwBitErrorRate :: cdmaDbm :: cdmaEcio
              :: evdoDbm :: evdoEcio :: evdoSignalNoiseRatio :: signalStrength :: rsrp :: rsrq
              :: rssnr :: cqi :: more))) responselen
          = some (0,
              { mData := p.mData ++ [gwSignalStrength, gwBitErrorRate, cdmaDbm, cdmaEcio,
                    evdoDbm, evdoEcio, evdoSignalNoiseRatio, lteSignalStrength, lteRsrp,
                    if rsrq = -1 then 2147483647 else rsrq, rssnr,
                    if cqi = -1 then 2147483647 else cqi].flatMap int32Bytes,
                mDataPos := p.mData.length + 48 })
        ∧ (rsrp = -1 → lteRsrp = 2147483647))
    ∧ (6 < version →
        responseRilSignalStrength version h p
            (some (Data.ints (gwSignalStrength :: gwBitErrorRate :: cdmaDbm :: cdmaEcio
              :: evdoDbm :: evdoEcio :: evdoSignalNoiseRatio :: signalStrength :: rsrp :: rsrq
              :: rssnr :: cqi :: more))) responselen
          = some (0,
              { mData := p.mData ++ [gwSignalStrength, gwBitErrorRate, cdmaDbm, cdmaEcio,
                    evdoDbm, evdoEcio, evdoSignalNoiseRatio, signalStrength, rsrp, rsrq, rssnr,
                    cqi].flatMap int32Bytes,
                mDataPos := p.mData.length + 48 })) := by
  constructor
  · intro hv
    refine ⟨if signalStrength = -1 then 99 else signalStrength,
      if rsrp = -1 then 2147483647 else if rsrp < -1 then -rsrp else rsrp,
      responseRilSignalStrength_full_old version h p responselen gwSignalStrength gwBitErrorRate
        cdmaDbm cdmaEcio evdoDbm evdoEcio evdoSignalNoiseRatio signalStrength rsrp rsrq rssnr
        cqi more hpos h5 h6 hv, ?_⟩
    intro h1
    simp [h1]
  · intro hv
    exact responseRilSignalStrength_full_new version h p responselen gwSignalStrength
      gwBitErrorRate cdmaDbm cdmaEcio evdoDbm evdoEcio evdoSignalNoiseRatio signalStrength rsrp
      rsrq rssnr cqi more hpos h5 h6 hv

/-- Version 6 and a record of 48 bytes on the 8-byte-pointer sample sizes,
with rsrp, rsrq, rssnr and cqi at -1 and negative values in the first seven
fields; then version 7 with every field negative. -/
theorem responseRilSignalStrength_lte_sentinels_witness :
    (∃ lteSignalStrength lteRsrp : Int,
      responseRilSignalStrength 6 sampleRilH Parcel.empty
          (some (Data.ints [-1, -2, -3, -4, -5, -6, -7, 20, -1, -1, -1, -1])) 48
        = some (0,
            { mData := Parcel.empty.mData ++ [-1, -2, -3, -4, -5, -6, -7, lteSignalStrength,
                lteRsrp, if (-1 : Int) = -1 then 2147483647 else -1, -1,
                if (-1 : Int) = -1 then 2147483647 else -1].flatMap int32Bytes,
              mDataPos := Parcel.empty.mData.length + 48 })
      ∧ ((-1 : Int) = -1 → lteRsrp = 2147483647))
    ∧ responseRilSignalStrength 7 sampleRilH Parcel.empty
        (some (Data.ints [-1, -2, -3, -4, -5, -6, -7, -1, -1, -1, -1, -1])) 48
      = some (0,
          { mData := Parcel.empty.mData
              ++ [-1, -2, -3, -4, -5, -6, -7, -1, -1, -1, -1, -1].flatMap int32Bytes,
            mDataPos := Parcel.empty.mData.length + 48 }) :=
  ⟨(responseRilSignalStrength_lte_sentinels 6 sampleRilH Parcel.empty
      48 (-1) (-2) (-3) (-4) (-5) (-6) (-7) 20 (-1) (-1) (-1) (-1) [] rfl (by decide)
      (by decide)).1 (by decide),
   (responseRilSignalStrength_lte_sentinels 7 sampleRilH Parcel.empty
      48 (-1) (-2) (-3) (-4) (-5) (-6) (-7) (-1) (-1) (-1) (-1) (-1) [] rfl (by decide)
      (by decide)).2 (by decide)⟩

/-! ## What an encoder has written when it reports an invalid response -/

theorem responseStrings_invalid (js : Jstring) (sizeofPtr : Nat) (p : Parcel)
    (response : Option Data) (responselen : Nat) (p1 : Parcel)
    (h : responseStrings js sizeofPtr p response responselen
      = some (RIL_ERRNO_INVALID_RESPONSE, p1)) : p1 = p := by
  simp only [responseStrings, RIL_ERRNO_INVALID_RESPONSE] at h
  repeat' split at h
  all_goals simp_all

theorem responseDataCallListV4_invalid (js : Jstring) (h : RilH) (p : Parcel)
    (response : Option Data) (responselen : Nat) (p1 : Parcel)
    (h1 : responseDataCallListV4 js h p response responselen
      = some (RIL_ERRNO_INVALID_RESPONSE, p1)) : p1 = p := by
  simp only [responseDataCallListV4, RIL_ERRNO_INVALID_RESPONSE] at h1
  repeat' split at h1
  all_goals simp_all

theorem responseDataCallList_invalid (version : Int) (js : Jstring) (h : RilH) (p : Parcel)
    (response : Option Data) (responselen : Nat) (p1 : Parcel)
    (h1 : responseDataCallList version js h p response responselen
      = some (RIL_ERRNO_INVALID_RESPONSE, p1)) : p1 = p.writeInt32 version := by
  simp only [responseDataCallList] at h1
  split at h1
  · exact responseDataCallListV4_invalid js h _ response responselen p1 h1
  · simp only [RIL_ERRNO_INVALID_RESPONSE] at h1
    repeat' split at h1
    all_goals simp_all

theorem responseSetupDataCall_invalid (version : Int) (js : Jstring) (h : RilH) (p : Parcel)
    (response : Option Data) (responselen : Nat) (p1 : Parcel)
    (h1 : responseSetupDataCall version js h p response responselen
      = some (RIL_ERRNO_INVALID_RESPONSE, p1)) : p1 = p.writeInt32 version := by
  simp only [responseSetupDataCall] at h1
  split at h1
  · exact responseStrings_invalid js _ _ response responselen p1 h1
  · exact responseDataCallList_invalid version js h p response responselen p1 h1

theorem callResponse_invalid (js : Jstring) (h : RilH) (version : Int) (f : ResponseFn)
    (p : Parcel) (response : Option Data) (responselen : Nat) (p1 : Parcel)
    (h1 : callResponse js h version f p response responselen
      = some (RIL_ERRNO_INVALID_RESPONSE, p1))
    (h2 : f ≠ ResponseFn.responseDataCallList) (h3 : f ≠ ResponseFn.responseSetupDataCall) :
    p1 = p := by
  cases f
  case responseDataCallList => exact absurd rfl h2
  case responseSetupDataCall => exact absurd rfl h3
  case responseStrings => exact responseStrings_invalid js _ p response responselen p1 h1
  case responseDataCallListV4 =>
    exact responseDataCallListV4_invalid js _ p response responselen p1 h1
  all_goals
    simp only [callResponse, responseVoid, responseString, responseInts, responseCallList,
      responseSMS, responseRaw, responseSIM_IO, responseCallForwards, responseSsn,
      responseCellList, responseRilSignalStrength, responseSimRefresh, responseCellInfoList,
      responseSimStatus, responseImsStatus, responseGsmBrSmsCnf, responseActivityData,
      RIL_ERRNO_INVALID_RESPONSE] at h1
    repeat' split at h1
    all_goals simp_all

/-- C13, as stated, fails: for a list of `RIL_Data_Call_Response_v11` and a
length of 1 byte at version 11, `responseDataCallList` returns
`RIL_ERRNO_INVALID_RESPONSE` and the parcel, empty before the call, holds the
four bytes of the version; `responseSetupDataCall` and
`responseStringsWithVersion` do the same at version 3 for an array of texts and a
length of 1 byte. -/
theorem encoder_invalid_after_version_written :
    callResponse asciiJstring sampleRilH 11 ResponseFn.responseDataCallList Parcel.empty
        (some (Data.dataCallsV11 [])) 1
      = some (RIL_ERRNO_INVALID_RESPONSE, { mData := [11, 0, 0, 0], mDataPos := 4 })
    ∧ callResponse asciiJstring sampleRilH 3 ResponseFn.responseSetupDataCall Parcel.empty
        (some (Data.cstrs [])) 1
      = some (RIL_ERRNO_INVALID_RESPONSE, { mData := [3, 0, 0, 0], mDataPos := 4 })
    ∧ responseStringsWithVersion 3 asciiJstring 8 Parcel.empty (some (Data.cstrs [])) 1
      = some (RIL_ERRNO_INVALID_RESPONSE, { mData := [3, 0, 0, 0], mDataPos := 4 })
    ∧ Parcel.empty.mData = [] ∧ Parcel.empty.mDataPos = 0 :=
  ⟨rfl, rfl, rfl, rfl, rfl⟩

/-- C13, amended. Whenever an encoder returns `RIL_ERRNO_INVALID_RESPONSE`,
the parcel is the one it was given, except for `responseDataCallList` and
`responseSetupDataCall`, and for `responseStringsWithVersion`, after which the
parcel is the one given with the negotiated version written to it and nothing
else. -/
theorem encoder_invalid_parcel (js : Jstring) (h : RilH) (version : Int) (p : Parcel)
    (response : Option Data) (responselen : Nat) (p1 : Parcel) :
    (∀ f : ResponseFn,
      callResponse js h version f p response responselen
          = some (RIL_ERRNO_INVALID_RESPONSE, p1) →
        p1 = if f = ResponseFn.responseDataCallList ∨ f = ResponseFn.responseSetupDataCall
              then p.writeInt32 version else p)
    ∧ (responseStringsWithVersion version js h.sizeofPtr p response responselen
          = some (RIL_ERRNO_INVALID_RESPONSE, p1) →
        p1 = p.writeInt32 version) := by
  constructor
  · intro f h1
    by_cases h2 : f = ResponseFn.responseDataCallList
    · subst h2
      rw [if_pos (Or.inl rfl)]
      exact responseDataCallList_invalid version js h p response responselen p1 h1
    · by_cases h3 : f = ResponseFn.responseSetupDataCall
      · subst h3
        rw [if_pos (Or.inr rfl)]
        exact responseSetupDataCall_invalid version js h p response responselen p1 h1
      · rw [if_neg (by simp [h2, h3])]
        exact callResponse_invalid js h version f p response responselen p1 h1 h2 h3
  · intro h1
    exact responseStrings_invalid js _ _ response responselen p1 h1

/-- At version 11 on the 8-byte-pointer sample sizes: `responseSMS` given a
record and a length of 23 bytes reports an invalid response and leaves an
empty parcel empty; `responseDataCallList` given a length of 1 byte reports it
and leaves the version; so does `responseStringsWithVersion`. -/
theorem encoder_invalid_parcel_witness :
    (callResponse asciiJstring sampleRilH 11 ResponseFn.responseSMS Parcel.empty
        (some (Data.sms { messageRef := 1, ackPDU := none, errorCode := 0 })) 23
      = some (RIL_ERRNO_INVALID_RESPONSE, Parcel.empty))
    ∧ (callResponse asciiJstring sampleRilH 11 ResponseFn.responseDataCallList Parcel.empty
        (some (Data.dataCallsV11 [])) 1
      = some (RIL_ERRNO_INVALID_RESPONSE, { mData := [11, 0, 0, 0], mDataPos := 4 }))
    ∧ Parcel.empty
      = (if ResponseFn.responseSMS = ResponseFn.responseDataCallList
            ∨ ResponseFn.responseSMS = ResponseFn.responseSetupDataCall
          then Parcel.empty.writeInt32 11 else Parcel.empty)
    ∧ ({ mData := [11, 0, 0, 0], mDataPos := 4 } : Parcel)
      = (if ResponseFn.responseDataCallList = ResponseFn.responseDataCallList
            ∨ ResponseFn.responseDataCallList = ResponseFn.responseSetupDataCall
          then Parcel.empty.writeInt32 11 else Parcel.empty)
    ∧ ({ mData := [11, 0, 0, 0], mDataPos := 4 } : Parcel) = Parcel.empty.writeInt32 11 :=
  ⟨rfl, rfl,
   (encoder_invalid_parcel asciiJstring sampleRilH 11 Parcel.empty
      (some (Data.sms { messageRef := 1, ackPDU := none, errorCode := 0 })) 23
      Parcel.empty).1 ResponseFn.responseSMS rfl,
   (encoder_invalid_parcel asciiJstring sampleRilH 11 Parcel.empty
      (some (Data.dataCallsV11 [])) 1 { mData := [11, 0, 0, 0], mDataPos := 4 }).1
      ResponseFn.responseDataCallList rfl,
   (encoder_invalid_parcel asciiJstring sampleRilH 11 Parcel.empty
      (some (Data.cstrs [])) 1 { mData := [11, 0, 0, 0], mDataPos := 4 }).2 rfl⟩

/-! ## Which encoders test the length of the response -/

/-- C14, as stated, fails. On the 8-byte-pointer sample sizes, where a
pointer takes 8 bytes, `responseString` given a text of one unit and a length
of 3 bytes, `responseImsStatus` given a record and a length of 1 byte, and
`responseGsmBrSmsCnf` given an array of one pointer, to the record
(1, 2, 3, 4, 1), and a length of 9 bytes all return 0 and write the response. -/
theorem encoder_accepts_inconsistent_length :
    callResponse asciiJstring sampleRilH 11 ResponseFn.responseString Parcel.empty
        (some (Data.cstr [97])) 3
      = some (0, { mData := [1, 0, 0, 0, 97, 0, 0, 0], mDataPos := 8 })
    ∧ callResponse asciiJstring sampleRilH 11 ResponseFn.responseImsStatus Parcel.empty
        (some (Data.imsStatus { reg_state := 1, service_type := 2, uri_response := none })) 1
      = some (0, { mData := [1, 0, 0, 0, 2, 0, 0, 0, 255, 255, 255, 255], mDataPos := 12 })
    ∧ callResponse asciiJstring sampleRilH 11 ResponseFn.responseGsmBrSmsCnf Parcel.empty
        (some (Data.brSmsCnf [⟨1, 2, 3, 4, 1⟩])) 9
      = some (0, { mData := [1, 0, 0, 0, 1, 0, 0, 0, 2, 0, 0, 0, 3, 0, 0, 0, 4, 0, 0, 0,
          1, 0, 0, 0], mDataPos := 24 })
    ∧ (0 : Int) ≠ RIL_ERRNO_INVALID_RESPONSE :=
  ⟨rfl, rfl, rfl, by decide⟩

/-- C14, amended. Each encoder to which `specLengthRule` gives a rule
(`responseInts`, `responseStrings`, `responseCallList`, `responseSMS`,
`responseDataCallListV4`, `responseDataCallList`, `responseSetupDataCall`,
`responseSIM_IO`, `responseCallForwards`, `responseSsn`, `responseCellInfoList`,
`responseSimStatus`, `responseActivityData`) returns
`RIL_ERRNO_INVALID_RESPONSE` for a non-NULL response whose length is not
consistent with that rule, whatever the response points to. -/
theorem encoder_rejects_inconsistent_length (js : Jstring) (h : RilH) (version : Int)
    (f : ResponseFn) (p : Parcel) (response : Option Data) (responselen : Nat)
    (rule : LengthRule)
    (hr : specLengthRule h version f = some rule) (hresp : response ≠ none)
    (hlen : rule.consistent responselen = false) :
    ∃ p1, callResponse js h version f p response responselen
      = some (RIL_ERRNO_INVALID_RESPONSE, p1) := by
  cases f <;> simp only [specLengthRule, Option.some.injEq] at hr <;> try cases hr
  all_goals simp only [LengthRule.consistent, decide_eq_false_iff_not] at hlen
  all_goals
    simp only [callResponse, responseInts, responseStrings, responseCallList, responseSMS,
      responseDataCallListV4, responseDataCallList, responseSetupDataCall,
      responseStringsWithVersion, responseSIM_IO, responseCallForwards, responseSsn,
      responseCellInfoList, responseSimStatus, responseActivityData]
  all_goals (try split) <;> simp_all

/-- At version 11 on the 8-byte-pointer sample sizes `responseActivityData`,
whose record takes 32 bytes, is given a record with five transmit times and a
length of 31 bytes. -/
theorem encoder_rejects_inconsistent_length_witness :
    specLengthRule sampleRilH 11 ResponseFn.responseActivityData = some (LengthRule.exact 32)
    ∧ (LengthRule.exact 32).consistent 31 = false
    ∧ ∃ p1, callResponse asciiJstring sampleRilH 11 ResponseFn.responseActivityData
        Parcel.empty
        (some (Data.activity ⟨1, 2, [3, 4, 5, 6, 7], 8⟩)) 31
      = some (RIL_ERRNO_INVALID_RESPONSE, p1) :=
  ⟨rfl, rfl,
   encoder_rejects_inconsistent_length asciiJstring sampleRilH 11
     ResponseFn.responseActivityData Parcel.empty
     (some (Data.activity ⟨1, 2, [3, 4, 5, 6, 7], 8⟩)) 31
     (LengthRule.exact 32) rfl (by simp) rfl⟩

/-! ## The string-array decoder on a truncated payload -/

theorem readStrings_image_then_end (js : Jstring) (m : Nat) (xs : List (Option (List Nat))) :
    ∀ (p : Parcel) (pre : List Nat),
      p.mData = pre ++ xs.flatMap (fun x => optString16Bytes (x.map js.strdup8to16)) →
      p.mDataPos = pre.length →
      (∀ t, some t ∈ xs → (js.strdup8to16 t).length < 2147483647
        ∧ (∀ u ∈ js.strdup8to16 t, u < 65536) ∧ js.strndup16to8 (js.strdup8to16 t) = t) →
      readStrings js (xs.length + m) p = xs ++ List.replicate m none := by
  induction xs with
  | nil =>
    intro p pre hd hp _
    simp only [List.flatMap_nil, List.append_nil] at hd
    simp only [List.length_nil, Nat.zero_add, List.nil_append]
    exact readStrings_at_end js m p (by rw [hd, hp]; omega)
  | cons x rest ih =>
    intro p pre hd hp hx
    have h1 := strdupReadString_image js p pre
      (rest.flatMap (fun x => optString16Bytes (x.map js.strdup8to16))) x
      (by rw [hd]; simp only [List.flatMap_cons, List.append_assoc]) hp
      (fun t ht => hx t (by rw [ht]; exact List.mem_cons_self _ _))
    have h2 : (x :: rest).length + m = (rest.length + m) + 1 := by
      simp only [List.length_cons]; omega
    rw [h2]
    simp only [readStrings, h1, List.cons_append, List.cons.injEq, true_and]
    exact ih _ (pre ++ optString16Bytes (x.map js.strdup8to16))
      (by simp only [hd, List.flatMap_cons, List.append_assoc])
      (by simp only [List.length_append])
      (fun t ht => hx t (List.mem_cons_of_mem _ ht))

theorem readStrings_length (js : Jstring) (n : Nat) :
    ∀ p : Parcel, (readStrings js n p).length = n := by
  induction n with
  | zero => intro p; rfl
  | succ k ih =>
    intro p
    simp only [readStrings, List.length_cons, ih]

theorem Calloc.returnsBlock_fits (m : Calloc) (nmemb size : Nat)
    (h : m.returnsBlock nmemb size = true) : nmemb * size ≤ m.SIZE_MAX := by
  unfold Calloc.returnsBlock at h
  simp only [Bool.and_eq_true, decide_eq_true_eq] at h
  exact h.1

/-- Where `calloc` returns a block for the array, `dispatchStringsCalloc` does
what `dispatchStrings` does. -/
theorem dispatchStringsCalloc_block (m : Calloc) (js : Jstring) (sizeofPtr : Nat) (p : Parcel)
    (pRI : RequestInfo δ ρ) (s : RilState δ ρ)
    (h : m.returnsBlock (max 1 p.readInt32.2.1.toNat) sizeofPtr = true) :
    dispatchStringsCalloc m js sizeofPtr p pRI s = dispatchStrings js sizeofPtr p pRI s := by
  unfold dispatchStringsCalloc dispatchStrings
  cases pRI.pCI with
  | none => rfl
  | some ci =>
    simp only
    by_cases hs : p.readInt32.1 ≠ NO_ERROR
    · rw [if_pos hs, if_pos hs]
    · rw [if_neg hs, if_neg hs]
      by_cases h0 : p.readInt32.2.1 = 0
      · rw [if_pos h0, if_pos h0]
        rw [h0] at h
        have h1 : m.returnsBlock 1 sizeofPtr = true := h
        rw [if_neg (by rw [h1]; decide)]
      · rw [if_neg h0, if_neg h0]
        by_cases hneg : p.readInt32.2.1 < 0
        · rw [if_pos hneg, if_pos hneg]
        · rw [if_neg hneg, if_neg hneg]
          have hmax : max 1 p.readInt32.2.1.toNat = p.readInt32.2.1.toNat := by omega
          rw [hmax] at h
          have hfit := Calloc.returnsBlock_fits m _ _ h
          have hmod : sizeofPtr * p.readInt32.2.1.toNat % (m.SIZE_MAX + 1)
              = sizeofPtr * p.readInt32.2.1.toNat := by
            apply Nat.mod_eq_of_lt
            rw [Nat.mul_comm]
            omega
          rw [if_neg (by rw [h]; decide), hmod]

/-- C21, as stated, fails. With pointers of 8 bytes and an allocator that has
the 16 bytes of the array at hand: a payload that announces two texts and
holds only the text `a` makes `dispatchStrings` call the vendor, with the
array (`a`, NULL) and a length of 16; so does a payload that announces two
texts and is cut inside the first one, a text of five units of which the
payload holds four: the array is then (NULL, `a`), the second entry being
read from what is left of the first text. A payload in which the count itself
is cut short makes it return without a call. -/
theorem dispatchStrings_truncated_calls_vendor :
    dispatchStringsCalloc sampleCalloc asciiJstring 8
        { mData := [36, 0, 0, 0, 5, 0, 0, 0] ++ int32Bytes 2 ++ string16Bytes [97], mDataPos := 8 }
        (sampleRequest 1 5 36) sampleState
      = some { sampleState with trace :=
          [Event.onRequest 36 (some (Data.cstrs [some [97], none])) 16 1] }
    ∧ dispatchStringsCalloc sampleCalloc asciiJstring 8
        { mData := [36, 0, 0, 0, 5, 0, 0, 0] ++ int32Bytes 2 ++ int32Bytes 5
            ++ [1, 0, 0, 0, 97, 0, 0, 0],
          mDataPos := 8 }
        (sampleRequest 1 5 36) sampleState
      = some { sampleState with trace :=
          [Event.onRequest 36 (some (Data.cstrs [none, some [97]])) 16 1] }
    ∧ dispatchStringsCalloc sampleCalloc asciiJstring 8
        { mData := [36, 0, 0, 0, 5, 0, 0, 0, 2, 0], mDataPos := 8 }
        (sampleRequest 1 5 36) sampleState
      = some sampleState := by
  refine ⟨?_, ?_, ?_⟩ <;> rfl

/-- C21, amended. When the count cannot be read, `dispatchStrings` returns
with the state as it was: no vendor call. When a count `n > 0` is read,
whatever follows it in the payload: if `calloc` returns no block for the array
of `n` pointers, which is so whenever `n` pointers do not fit a `size_t`, the
function returns with the state as it was; otherwise the vendor is called
once, with a length of `n` pointers and an array of `n` entries, the results
of `n` calls of `strdupReadString` in a row, whether or not the payload
holds `n` texts. When the payload ends after the texts `xs`, fewer than `n`,
the array is `xs` followed by NULL for each text that is missing; when fewer
than four bytes follow the count, every entry is NULL. -/
theorem dispatchStrings_truncated (m : Calloc) (js : Jstring) (sizeofPtr : Nat) (p : Parcel)
    (pRI : RequestInfo δ ρ) (s : RilState δ ρ) (ci : CommandInfo δ ρ)
    (hci : pRI.pCI = some ci) :
    (p.mData.length < p.mDataPos + 4 → dispatchStringsCalloc m js sizeofPtr p pRI s = some s)
    ∧ (∀ (pre rest : List Nat) (n : Nat),
        p.mData = pre ++ int32Bytes n ++ rest → p.mDataPos = pre.length →
        0 < n → n < 2147483648 →
        (m.SIZE_MAX < n * sizeofPtr → m.returnsBlock n sizeofPtr = false)
        ∧ (m.returnsBlock n sizeofPtr = false →
            dispatchStringsCalloc m js sizeofPtr p pRI s = some s)
        ∧ (m.returnsBlock n sizeofPtr = true →
            ∃ pStrings : List (Option (List Nat)),
              dispatchStringsCalloc m js sizeofPtr p pRI s
                = some { s with trace := s.trace
                    ++ [Event.onRequest ci.requestNumber (some (Data.cstrs pStrings))
                          (sizeofPtr * n) pRI.addr] }
              ∧ pStrings.length = n
              ∧ pStrings = readStrings js n { p with mDataPos := pre.length + 4 }
              ∧ (∀ xs : List (Option (List Nat)),
                  rest = xs.flatMap (fun x => optString16Bytes (x.map js.strdup8to16)) →
                  xs.length < n →
                  (∀ t, some t ∈ xs → (js.strdup8to16 t).length < 2147483647
                    ∧ (∀ u ∈ js.strdup8to16 t, u < 65536)
                    ∧ js.strndup16to8 (js.strdup8to16 t) = t) →
                  pStrings = xs ++ List.replicate (n - xs.length) none)
              ∧ (rest.length < 4 → pStrings = List.replicate n none))) := by
  constructor
  · intro h
    simp [dispatchStringsCalloc, hci, Parcel.readInt32_short p h, NOT_ENOUGH_DATA, NO_ERROR]
  · intro pre rest n hd hp hpos hn
    have hr := Parcel.readInt32_at p pre rest n hd hp (by omega) (by omega)
    have h0 : ¬ ((n : Int) = 0) := by omega
    have h1 : ¬ ((n : Int) < 0) := by omega
    refine ⟨?_, ?_, ?_⟩
    · intro hbig
      unfold Calloc.returnsBlock
      have : ¬ (n * sizeofPtr ≤ m.SIZE_MAX) := by omega
      simp only [this, decide_False, Bool.false_and]
    · intro hnull
      simp only [dispatchStringsCalloc, hci, hr, NO_ERROR, ne_eq, not_true_eq_false, if_false, h0,
        h1, Int.toNat_ofNat, hnull, if_true]
    · intro hblock
      have hfit := Calloc.returnsBlock_fits m _ _ hblock
      have hmod : sizeofPtr * n % (m.SIZE_MAX + 1) = sizeofPtr * n := by
        apply Nat.mod_eq_of_lt
        rw [Nat.mul_comm]
        omega
      refine ⟨readStrings js n { p with mDataPos := pre.length + 4 }, ?_,
        readStrings_length js n _, rfl, ?_, ?_⟩
      · simp only [dispatchStringsCalloc, hci, hr, NO_ERROR, ne_eq, not_true_eq_false, if_false,
          h0, h1, Int.toNat_ofNat, hblock, hmod]
        rw [if_neg (by decide)]
      · intro xs hrest hlt hx
        have hrs := readStrings_image_then_end js (n - xs.length) xs
          { p with mDataPos := pre.length + 4 } (pre ++ int32Bytes n)
          (by simp only [hd, hrest]) (by simp [int32Bytes_length]) hx
        have hlen : xs.length + (n - xs.length) = n := by omega
        rw [hlen] at hrs
        exact hrs
      · intro hshort
        apply readStrings_at_end
        simp only [hd, List.length_append, int32Bytes_length]
        omega

/-- Pointers of 8 bytes, an 8-byte header, a count of 3 and the single text
`a`, after which the payload ends, with an allocator that has the 24 bytes at
hand: the vendor gets (`a`, NULL, NULL). On a target with pointers and a
`size_t` of 4 bytes, a count of 2147483647 with nothing after it: the array
does not fit, and the vendor is not called. -/
theorem dispatchStrings_truncated_witness :
    (∃ pStrings : List (Option (List Nat)),
      dispatchStringsCalloc sampleCalloc asciiJstring 8
          { mData := [36, 0, 0, 0, 5, 0, 0, 0] ++ int32Bytes (3 : Nat) ++ string16Bytes [97],
            mDataPos := 8 }
          (sampleRequest 1 5 36) sampleState
        = some { sampleState with trace := sampleState.trace
            ++ [Event.onRequest 36 (some (Data.cstrs pStrings)) (8 * 3)
                  (sampleRequest 1 5 36).addr] }
      ∧ pStrings = [some [97], none, none])
    ∧ dispatchStringsCalloc sampleCalloc32 asciiJstring 4
        { mData := [36, 0, 0, 0, 5, 0, 0, 0] ++ int32Bytes (2147483647 : Nat) ++ [],
          mDataPos := 8 }
        (sampleRequest 1 5 36) sampleState
      = some sampleState := by
  constructor
  · obtain ⟨pStrings, h1, _, _, h4, _⟩ :=
      ((dispatchStrings_truncated sampleCalloc asciiJstring 8
        { mData := [36, 0, 0, 0, 5, 0, 0, 0] ++ int32Bytes (3 : Nat) ++ string16Bytes [97],
          mDataPos := 8 }
        (sampleRequest 1 5 36) sampleState _ rfl).2
        [36, 0, 0, 0, 5, 0, 0, 0] (string16Bytes [97]) 3 rfl rfl (by decide) (by decide)).2.2
        (by decide)
    refine ⟨pStrings, h1, ?_⟩
    exact h4 [some [97]] (by decide) (by decide)
      (by
        intro t ht
        have h2 : t = [97] := by simpa using ht
        subst h2
        decide)
  · have T := (dispatchStrings_truncated sampleCalloc32 asciiJstring 4
      { mData := [36, 0, 0, 0, 5, 0, 0, 0] ++ int32Bytes (2147483647 : Nat) ++ [],
        mDataPos := 8 }
      (sampleRequest 1 5 36) sampleState _ rfl).2
      [36, 0, 0, 0, 5, 0, 0, 0] [] 2147483647 rfl rfl (by decide) (by decide)
    exact T.2.1 (T.1 (by decide))

/-! ## Decoders on their invalid path -/

theorem dispatchInts_invalid (p : Parcel) (pRI : RequestInfo δ ρ) (s : RilState δ ρ)
    (ci : CommandInfo δ ρ) (hci : pRI.pCI = some ci)
    (h : p.mData.length < p.mDataPos + 4 ∨ p.readInt32.2.1 ≤ 0
      ∨ p.mData.length < p.mDataPos + 4 + 4 * p.readInt32.2.1.toNat) :
    dispatchInts p pRI s = some s := by
  by_cases h4 : p.mData.length < p.mDataPos + 4
  · simp [dispatchInts, hci, Parcel.readInt32_short p h4, NOT_ENOUGH_DATA, NO_ERROR]
  · by_cases h0 : p.readInt32.2.1 ≤ 0
    · simp [dispatchInts, hci, h0]
    · have hc := Parcel.readInt32_cursor p (by omega)
      have hlt : p.mData.length < p.mDataPos + 4 + 4 * p.readInt32.2.1.toNat := by
        rcases h with h | h | h
        · exact absurd h h4
        · exact absurd h h0
        · exact h
      have hs := readInts_short p.readInt32.2.1.toNat p.readInt32.2.2 (by omega)
        (by rw [hc.2]; exact hlt)
      simp only [dispatchInts, hci, hc.1, ne_eq, not_true_eq_false, h0, or_self, if_false, hs]

theorem dispatchString_invalid (js : Jstring) (sizeofPtr : Nat) (p : Parcel)
    (pRI : RequestInfo δ ρ) (s : RilState δ ρ) (ci : CommandInfo δ ρ) (hci : pRI.pCI = some ci)
    (h : (strdupReadString js p).1 = none) :
    dispatchString js sizeofPtr p pRI s = some s := by
  simp only [dispatchString, h, invalidCommandBlock, hci]

theorem dispatchImsSms_invalid (js : Jstring) (c : RilEnums) (sizeofPtr : Nat) (p : Parcel)
    (pRI : RequestInfo δ ρ) (s : RilState δ ρ) (ci : CommandInfo δ ρ) (hci : pRI.pCI = some ci)
    (h : p.mData.length < p.mDataPos + 12 ∨ p.readInt32.2.1 ≠ c.RADIO_TECH_3GPP) :
    dispatchImsSms js c sizeofPtr p pRI s = some s := by
  by_cases h4 : p.mData.length < p.mDataPos + 4
  · simp [dispatchImsSms, invalidCommandBlock, hci, Parcel.readInt32_short p h4, NOT_ENOUGH_DATA,
      NO_ERROR]
  · have hc := Parcel.readInt32_cursor p (by omega)
    by_cases h8 : p.mData.length < p.mDataPos + 8
    · have hr : ¬ (p.mDataPos + 4 + (1 + (4 - 1 % 4) % 4) ≤ p.mData.length) := by omega
      simp [dispatchImsSms, invalidCommandBlock, hci, hc.1, hc.2, Parcel.read,
        Parcel.readInplace, hr, NOT_ENOUGH_DATA, NO_ERROR]
    · have hr : p.mDataPos + 4 + (1 + (4 - 1 % 4) % 4) ≤ p.mData.length := by omega
      by_cases h12 : p.mData.length < p.mDataPos + 12
      · have hr3 : ¬ (p.mDataPos + 4 + (1 + (4 - 1 % 4) % 4) + (4 + (4 - 4 % 4) % 4)
            ≤ p.mData.length) := by omega
        simp [dispatchImsSms, invalidCommandBlock, hci, hc.1, hc.2, Parcel.read,
          Parcel.readInplace, hr, hr3, NOT_ENOUGH_DATA, NO_ERROR]
      · have hr3 : p.mDataPos + 4 + (1 + (4 - 1 % 4) % 4) + (4 + (4 - 4 % 4) % 4)
            ≤ p.mData.length := by omega
        have hf : ¬ (c.RADIO_TECH_3GPP = p.readInt32.2.1) := by
          rcases h with h | h
          · exact absurd h h12
          · exact fun e => h e.symm
        simp [dispatchImsSms, hc.1, hc.2, Parcel.read, Parcel.readInplace, hr, hr3, NO_ERROR, hf]

/-- C22. When the decoder of an accepted request takes its invalid path
(`dispatchInts` with a count that cannot be read, is zero or negative, or is
followed by too few integers; `dispatchString` with a text that is NULL or
cannot be read; `dispatchImsSms` with a header of fewer than 12 bytes or a
format other than `RADIO_TECH_3GPP`), `processCommandBuffer` returns with the
new entry at the head of the pending list and nothing else done: the trace
grows by the call of the decoder only, so no frame is sent and the vendor is
not called, and the socket is untouched. -/
theorem processCommandBuffer_invalid_payload (ril : Ril δ ρ) (js : Jstring) (c : RilEnums)
    (sizeofPtr : Nat) (s : RilState δ ρ) (request token : Int) (body : List Nat)
    (ci : CommandInfo δ ρ) (f : δ) (P : Parcel)
    (hr1 : -2147483648 ≤ request) (hr2 : request < 2147483648)
    (ht1 : -2147483648 ≤ token) (ht2 : token < 2147483648)
    (hacc : ¬ unsupportedRequest ril request)
    (hci : selectCommandInfo ril request = some ci)
    (hf : ci.dispatchFunction = some f)
    (hP : P = { mData := int32Bytes request ++ int32Bytes token ++ body, mDataPos := 8 })
    (hinv :
      (ril.dispatchFunction f = dispatchInts
        ∧ (body.length < 4 ∨ P.readInt32.2.1 ≤ 0
            ∨ body.length < 4 + 4 * P.readInt32.2.1.toNat))
      ∨ (ril.dispatchFunction f = dispatchString js sizeofPtr
        ∧ (strdupReadString js P).1 = none)
      ∨ (ril.dispatchFunction f = dispatchImsSms js c sizeofPtr
        ∧ (body.length < 12 ∨ P.readInt32.2.1 ≠ c.RADIO_TECH_3GPP))) :
    processCommandBuffer ril (int32Bytes request ++ int32Bytes token ++ body) s
      = some { s with
          allocated := s.allocated + 1
          s_pendingRequests :=
            { addr := s.allocated + 1, token := token, pCI := some ci, cancelled := 0,
              local_ := 0 } :: s.s_pendingRequests
          trace := s.trace ++ [Event.dispatch f P (s.allocated + 1)] } := by
  have hacc2 := processCommandBuffer_accepted ril s request token body ci hr1 hr2 ht1 ht2 hacc hci
  rw [hacc2, hf]
  simp only
  have hlen : P.mData.length = 8 + body.length := by
    rw [hP]
    simp only [List.length_append, int32Bytes_length]
  have hpos : P.mDataPos = 8 := by rw [hP]
  rw [← hP]
  rcases hinv with ⟨hfn, h⟩ | ⟨hfn, h⟩ | ⟨hfn, h⟩
  · rw [hfn]
    exact dispatchInts_invalid P _ _ ci rfl (by rw [hlen, hpos]; omega)
  · rw [hfn]
    exact dispatchString_invalid js sizeofPtr P _ _ ci rfl h
  · rw [hfn]
    refine dispatchImsSms_invalid js c sizeofPtr P _ _ ci rfl ?_
    rcases h with h | h
    · left
      rw [hlen, hpos]
      omega
    · right
      exact h

/-- The custom table of `sampleDecoderRil`: request 3001 (`dispatchInts`)
with a count of 0, request 3002 (`dispatchString`) with a NULL text, and
request 3003 (`dispatchImsSms`) with the format 2, each with token 9. -/
theorem processCommandBuffer_invalid_payload_witness :
    processCommandBuffer sampleDecoderRil
        (int32Bytes 3001 ++ int32Bytes 9 ++ [0, 0, 0, 0]) sampleState
      = some { sampleState with
          allocated := 3
          s_pendingRequests :=
            { addr := 3, token := 9,
              pCI := some { requestNumber := 3001, dispatchFunction := some .dispatchInts,
                            responseFunction := some .responseVoid },
              cancelled := 0, local_ := 0 } :: sampleState.s_pendingRequests
          trace := [Event.dispatch .dispatchInts
            { mData := int32Bytes 3001 ++ int32Bytes 9 ++ [0, 0, 0, 0], mDataPos := 8 } 3] }
    ∧ processCommandBuffer sampleDecoderRil
        (int32Bytes 3002 ++ int32Bytes 9 ++ [255, 255, 255, 255]) sampleState
      = some { sampleState with
          allocated := 3
          s_pendingRequests :=
            { addr := 3, token := 9,
              pCI := some { requestNumber := 3002, dispatchFunction := some .dispatchString,
                            responseFunction := some .responseVoid },
              cancelled := 0, local_ := 0 } :: sampleState.s_pendingRequests
          trace := [Event.dispatch .dispatchString
            { mData := int32Bytes 3002 ++ int32Bytes 9 ++ [255, 255, 255, 255], mDataPos := 8 }
            3] }
    ∧ processCommandBuffer sampleDecoderRil
        (int32Bytes 3003 ++ int32Bytes 9 ++ [2, 0, 0, 0, 1, 0, 0, 0, 7, 0, 0, 0]) sampleState
      = some { sampleState with
          allocated := 3
          s_pendingRequests :=
            { addr := 3, token := 9,
              pCI := some { requestNumber := 3003, dispatchFunction := some .dispatchImsSms,
                            responseFunction := some .responseSMS },
              cancelled := 0, local_ := 0 } :: sampleState.s_pendingRequests
          trace := [Event.dispatch .dispatchImsSms
            { mData := int32Bytes 3003 ++ int32Bytes 9 ++ [2, 0, 0, 0, 1, 0, 0, 0, 7, 0, 0, 0],
              mDataPos := 8 } 3] } :=
  ⟨processCommandBuffer_invalid_payload sampleDecoderRil asciiJstring sampleEnums 8 sampleState
      3001 9 [0, 0, 0, 0] _ DispatchFn.dispatchInts _ (by decide) (by decide) (by decide)
      (by decide) (by decide) rfl rfl rfl (Or.inl ⟨rfl, Or.inr (Or.inl (by decide))⟩),
   processCommandBuffer_invalid_payload sampleDecoderRil asciiJstring sampleEnums 8 sampleState
      3002 9 [255, 255, 255, 255] _ DispatchFn.dispatchString _ (by decide) (by decide)
      (by decide) (by decide) (by decide) rfl rfl rfl (Or.inr (Or.inl ⟨rfl, rfl⟩)),
   processCommandBuffer_invalid_payload sampleDecoderRil asciiJstring sampleEnums 8 sampleState
      3003 9 [2, 0, 0, 0, 1, 0, 0, 0, 7, 0, 0, 0] _ DispatchFn.dispatchImsSms _ (by decide)
      (by decide) (by decide) (by decide) (by decide) rfl rfl rfl
      (Or.inr (Or.inr ⟨rfl, Or.inr (by decide)⟩))⟩

/-! ## What sending a frame changes -/

theorem sendResponseRaw_state (data : List Nat) (s : RilState δ ρ) :
    (sendResponseRaw data s).2 = { s with socket := (sendResponseRaw data s).2.socket } := by
  unfold sendResponseRaw
  split
  · rfl
  · split
    · rfl
    · simp only
      split
      · rfl
      · split <;> rfl

theorem sendResponse_state (p : Parcel) (s : RilState δ ρ) :
    (sendResponse p s).2
      = { s with trace := s.trace ++ [Event.sendResponse p.mData]
                 socket := (sendResponse p s).2.socket } := by
  unfold sendResponse
  rw [sendResponseRaw_state]
  rfl

/-! ## The voice-radio-technology shim -/

theorem radioStates_facts (c : RilEnums) (st : Int) (hd : c.radioStates.Nodup)
    (hm : st ∈ c.legacyStates) :
    st ≠ c.RADIO_STATE_OFF ∧ st ≠ c.RADIO_STATE_UNAVAILABLE ∧ st ≠ c.RADIO_STATE_ON := by
  refine ⟨?_, ?_, ?_⟩
  · intro e
    subst e
    simp only [RilEnums.radioStates, List.nodup_cons] at hd
    apply hd.1
    simp only [RilEnums.legacyStates, List.mem_cons, List.mem_singleton, List.not_mem_nil,
      or_false] at hm
    simp only [List.mem_cons, List.mem_singleton, List.not_mem_nil, or_false]
    tauto
  · intro e
    subst e
    simp only [RilEnums.radioStates, List.nodup_cons] at hd
    apply hd.2.1
    simp only [RilEnums.legacyStates, List.mem_cons, List.mem_singleton, List.not_mem_nil,
      or_false] at hm
    simp only [List.mem_cons, List.mem_singleton, List.not_mem_nil, or_false]
    tauto
  · intro e
    subst e
    simp only [RilEnums.radioStates, RilEnums.legacyStates, List.nodup_cons, List.mem_cons,
      List.mem_singleton, List.not_mem_nil, or_false, not_or] at hd hm
    obtain ⟨_, _, h2, h3, h4, h5, h6, h7, h8, h9, _⟩ := hd
    rcases hm with h | h | h | h | h | h | h | h
    · exact h2.2.2.2.2.2.2.2 h.symm
    · exact h3.2.2.2.2.2.2 h.symm
    · exact h4.2.2.2.2.2 h.symm
    · exact h5.2.2.2.2 h.symm
    · exact h6.2.2.2 h.symm
    · exact h7.2.2 h.symm
    · exact h8.2 h.symm
    · exact h9 h.symm

theorem decode_legacy (c : RilEnums) (st : Int) (hd : c.radioStates.Nodup) :
    (st ∈ [c.RADIO_STATE_SIM_NOT_READY, c.RADIO_STATE_SIM_LOCKED_OR_ABSENT,
        c.RADIO_STATE_SIM_READY] → decodeVoiceRadioTechnology c st = c.RADIO_TECH_UMTS)
    ∧ (st ∈ [c.RADIO_STATE_RUIM_NOT_READY, c.RADIO_STATE_RUIM_READY,
        c.RADIO_STATE_RUIM_LOCKED_OR_ABSENT, c.RADIO_STATE_NV_NOT_READY,
        c.RADIO_STATE_NV_READY] → decodeVoiceRadioTechnology c st = c.RADIO_TECH_1xRTT) := by
  constructor
  · intro hm
    simp only [List.mem_cons, List.mem_singleton, List.not_mem_nil, or_false] at hm
    simp only [decodeVoiceRadioTechnology, hm, if_true]
  · intro hm
    simp only [List.mem_cons, List.mem_singleton, List.not_mem_nil, or_false] at hm
    simp only [RilEnums.radioStates, List.nodup_cons, List.mem_cons, List.mem_singleton,
      List.not_mem_nil, or_false, not_or] at hd
    obtain ⟨_, _, h2, h3, h4, _⟩ := hd
    have hn : ¬ (st = c.RADIO_STATE_SIM_NOT_READY ∨ st = c.RADIO_STATE_SIM_LOCKED_OR_ABSENT
        ∨ st = c.RADIO_STATE_SIM_READY) := by
      intro h
      rcases h with h | h | h
      · subst h
        rcases hm with e | e | e | e | e
        · exact h2.2.2.1 e
        · exact h2.2.2.2.1 e
        · exact h2.2.2.2.2.1 e
        · exact h2.2.2.2.2.2.1 e
        · exact h2.2.2.2.2.2.2.1 e
      · subst h
        rcases hm with e | e | e | e | e
        · exact h3.2.1 e
        · exact h3.2.2.1 e
        · exact h3.2.2.2.1 e
        · exact h3.2.2.2.2.1 e
        · exact h3.2.2.2.2.2.1 e
      · subst h
        rcases hm with e | e | e | e | e
        · exact h4.1 e
        · exact h4.2.1 e
        · exact h4.2.2.1 e
        · exact h4.2.2.2.1 e
        · exact h4.2.2.2.2.1 e
    simp only [decodeVoiceRadioTechnology, hn, if_false, hm, if_true]

theorem decodeVoiceRadioTechnology_legacy_mem (c : RilEnums) (st : Int)
    (hm : st ∈ c.legacyStates) :
    st ∈ [c.RADIO_STATE_SIM_NOT_READY, c.RADIO_STATE_SIM_LOCKED_OR_ABSENT,
        c.RADIO_STATE_SIM_READY]
    ∨ st ∈ [c.RADIO_STATE_RUIM_NOT_READY, c.RADIO_STATE_RUIM_READY,
        c.RADIO_STATE_RUIM_LOCKED_OR_ABSENT, c.RADIO_STATE_NV_NOT_READY,
        c.RADIO_STATE_NV_READY] := by
  simp only [RilEnums.legacyStates, List.mem_cons, List.mem_singleton, List.not_mem_nil,
    or_false] at hm ⊢
  tauto

/-- C23. With distinct radio state values: when the vendor reports
`RADIO_STATE_ON`, `dispatchVoiceRadioTech` calls the vendor's `onRequest` once,
with no argument and a length of 0, and does nothing else. When the vendor
reports one of the eight SIM, RUIM and NV states, the technology decoded from
it is `RADIO_TECH_UMTS` for the three SIM states and `RADIO_TECH_1xRTT` for
the RUIM and NV states, and, these two values not being negative, the
function is one call of `RIL_onRequestComplete` with `RIL_E_SUCCESS` and a
response of one `int`, the decoded technology, which is also stored in
`voiceRadioTech`; for a pending request that is neither cancelled nor local
this sends the reply frame, removes the request from the pending list, and
adds no call of the vendor to the trace. -/
theorem dispatchVoiceRadioTech_spec (ril : Ril δ ρ) (c : RilEnums) (p : Parcel)
    (pRI : RequestInfo δ ρ) (s : RilState δ ρ) (ci : CommandInfo δ ρ)
    (hci : pRI.pCI = some ci) (hd : c.radioStates.Nodup) :
    (s.radioState = c.RADIO_STATE_ON →
      dispatchVoiceRadioTech ril c p pRI s
        = some { s with trace := s.trace
            ++ [Event.onRequest ci.requestNumber none 0 pRI.addr] })
    ∧ (s.radioState ∈ [c.RADIO_STATE_SIM_NOT_READY, c.RADIO_STATE_SIM_LOCKED_OR_ABSENT,
          c.RADIO_STATE_SIM_READY] →
        decodeVoiceRadioTechnology c s.radioState = c.RADIO_TECH_UMTS)
    ∧ (s.radioState ∈ [c.RADIO_STATE_RUIM_NOT_READY, c.RADIO_STATE_RUIM_READY,
          c.RADIO_STATE_RUIM_LOCKED_OR_ABSENT, c.RADIO_STATE_NV_NOT_READY,
          c.RADIO_STATE_NV_READY] →
        decodeVoiceRadioTechnology c s.radioState = c.RADIO_TECH_1xRTT)
    ∧ (s.radioState ∈ c.legacyStates → 0 ≤ c.RADIO_TECH_UMTS → 0 ≤ c.RADIO_TECH_1xRTT →
        dispatchVoiceRadioTech ril c p pRI s
            = RIL_onRequestComplete ril (some pRI.addr) c.RIL_E_SUCCESS
                (some (Data.ints [decodeVoiceRadioTechnology c s.radioState])) 4
                { s with voiceRadioTech := decodeVoiceRadioTechnology c s.radioState }
        ∧ ∀ (front back : List (RequestInfo δ ρ)) (f : ρ) (ret : Int) (p1 : Parcel),
            s.s_pendingRequests = front ++ pRI :: back →
            (∀ x ∈ front, x.addr ≠ pRI.addr) →
            ¬ pRI.local_ > 0 → pRI.cancelled = 0 →
            ci.responseFunction = some f →
            ril.responseFunction f
                { mData := int32Bytes 0 ++ int32Bytes pRI.token ++ int32Bytes c.RIL_E_SUCCESS,
                  mDataPos := 12 }
                (some (Data.ints [decodeVoiceRadioTechnology c s.radioState])) 4
              = some (ret, p1) →
            ∃ s1, dispatchVoiceRadioTech ril c p pRI s = some s1
              ∧ s1.trace = s.trace
                  ++ [Event.sendResponse
                        (if ret ≠ 0 then (p1.setDataPosition 8).writeInt32 ret else p1).mData]
              ∧ s1.s_pendingRequests = front ++ back
              ∧ s1.voiceRadioTech = decodeVoiceRadioTechnology c s.radioState) := by
  refine ⟨?_, (decode_legacy c s.radioState hd).1, (decode_legacy c s.radioState hd).2, ?_⟩
  · intro hon
    have h1 : c.RADIO_STATE_UNAVAILABLE ≠ c.RADIO_STATE_ON := by
      simp only [RilEnums.radioStates, List.nodup_cons, List.mem_cons, List.mem_singleton,
        List.not_mem_nil, or_false, not_or] at hd
      exact hd.2.1.2.2.2.2.2.2.2.2
    have h0 : c.RADIO_STATE_OFF ≠ c.RADIO_STATE_ON := by
      simp only [RilEnums.radioStates, List.nodup_cons, List.mem_cons, List.mem_singleton,
        List.not_mem_nil, or_false, not_or] at hd
      exact hd.1.2.2.2.2.2.2.2.2.2
    simp only [dispatchVoiceRadioTech, hon, h1, h0, or_self, if_false, if_true, dispatchVoid, hci]
  · intro hm hu hx
    obtain ⟨hoff, hun, hon⟩ := radioStates_facts c s.radioState hd hm
    have htech : 0 ≤ decodeVoiceRadioTechnology c s.radioState := by
      rcases decodeVoiceRadioTechnology_legacy_mem c s.radioState hm with h | h
      · rw [(decode_legacy c s.radioState hd).1 h]; exact hu
      · rw [(decode_legacy c s.radioState hd).2 h]; exact hx
    have hcall : dispatchVoiceRadioTech ril c p pRI s
        = RIL_onRequestComplete ril (some pRI.addr) c.RIL_E_SUCCESS
            (some (Data.ints [decodeVoiceRadioTechnology c s.radioState])) 4
            { s with voiceRadioTech := decodeVoiceRadioTechnology c s.radioState } := by
      have e1 : ¬ (c.RADIO_STATE_UNAVAILABLE = s.radioState ∨ c.RADIO_STATE_OFF = s.radioState) := by
        intro h
        rcases h with h | h
        · exact hun h.symm
        · exact hoff h.symm
      have e2 : ¬ (c.RADIO_STATE_ON = s.radioState) := fun h => hon h.symm
      have e3 : ¬ (decodeVoiceRadioTechnology c s.radioState < 0) := by omega
      simp only [dispatchVoiceRadioTech, e1, e2, e3, if_false]
    refine ⟨hcall, ?_⟩
    intro front back f ret p1 hs hf hl hc hfn hr
    have hp := RIL_onRequestComplete_payload ril
      { s with voiceRadioTech := decodeVoiceRadioTechnology c s.radioState } front back pRI
      c.RIL_E_SUCCESS 4 (Data.ints [decodeVoiceRadioTechnology c s.radioState]) ci f ret p1
      hs hf hl hc hci hfn hr
    rw [hcall, hp]
    refine ⟨_, rfl, ?_, ?_, ?_⟩
    · exact (sendResponse_frame _ _).2.1
    · exact (sendResponse_frame _ _).1
    · rw [sendResponse_state]

/-- The sample configuration with pointers of 4 bytes and the pending
request at address 2 (token 7, encoder `responseInts`): a vendor that reports
state 10 (`RADIO_STATE_ON`) is called; states 4 (`RADIO_STATE_SIM_READY`) and 8
(`RADIO_STATE_NV_NOT_READY`) decode to 3 and 6; with state 4 the reply frame
(0, 7, 0, count 1, value 3) is sent and the request leaves the list. -/
theorem dispatchVoiceRadioTech_spec_witness :
    dispatchVoiceRadioTech sampleRil32 sampleEnums Parcel.empty (sampleRequest 2 7 36)
        { sampleState with radioState := 10 }
      = some { sampleState with
          radioState := 10
          trace := [Event.onRequest 36 none 0 2] }
    ∧ decodeVoiceRadioTechnology sampleEnums 4 = 3
    ∧ decodeVoiceRadioTechnology sampleEnums 8 = 6
    ∧ ∃ s1, dispatchVoiceRadioTech sampleRil32 sampleEnums Parcel.empty (sampleRequest 2 7 36)
          { sampleState with radioState := 4 } = some s1
        ∧ s1.trace = [Event.sendResponse
            [0, 0, 0, 0, 7, 0, 0, 0, 0, 0, 0, 0, 1, 0, 0, 0, 3, 0, 0, 0]]
        ∧ s1.s_pendingRequests = [sampleRequest 1 5 38]
        ∧ s1.voiceRadioTech = 3 :=
  ⟨(dispatchVoiceRadioTech_spec sampleRil32 sampleEnums Parcel.empty (sampleRequest 2 7 36)
      { sampleState with radioState := 10 } _ rfl (by decide)).1 rfl,
   (dispatchVoiceRadioTech_spec sampleRil32 sampleEnums Parcel.empty (sampleRequest 2 7 36)
      { sampleState with radioState := 4 } _ rfl (by decide)).2.1 (by decide),
   (dispatchVoiceRadioTech_spec sampleRil32 sampleEnums Parcel.empty (sampleRequest 2 7 36)
      { sampleState with radioState := 8 } _ rfl (by decide)).2.2.1 (by decide),
   ((dispatchVoiceRadioTech_spec sampleRil32 sampleEnums Parcel.empty (sampleRequest 2 7 36)
      { sampleState with radioState := 4 } _ rfl (by decide)).2.2.2 (by decide) (by decide)
      (by decide)).2 [] [sampleRequest 1 5 38] ResponseFn.responseInts 0
      { mData := [0, 0, 0, 0, 7, 0, 0, 0, 0, 0, 0, 0, 1, 0, 0, 0, 3, 0, 0, 0], mDataPos := 20 }
      rfl (by simp) (by decide) rfl rfl rfl⟩

/-! ## Unsolicited responses: what a call can change -/

theorem unsolicited_header (unsolResponse : Int) :
    (Parcel.empty.writeInt32 RESPONSE_UNSOLICITED).writeInt32 unsolResponse
      = { mData := int32Bytes 1 ++ int32Bytes unsolResponse, mDataPos := 8 } := by
  simp [Parcel.writeInt32, Parcel.write, Parcel.empty, int32Bytes, RESPONSE_UNSOLICITED]

theorem armWakeTimeout_frame (b : Bool) (s1 : RilState δ ρ) :
    (armWakeTimeout b s1).trace = s1.trace
    ∧ (armWakeTimeout b s1).s_pendingRequests = s1.s_pendingRequests
    ∧ (armWakeTimeout b s1).s_registerCalled = s1.s_registerCalled
    ∧ (armWakeTimeout b s1).s_callbacks = s1.s_callbacks
    ∧ (armWakeTimeout b s1).radioState = s1.radioState
    ∧ (armWakeTimeout b s1).voiceRadioTech = s1.voiceRadioTech
    ∧ (armWakeTimeout b s1).simRuimStatus = s1.simRuimStatus
    ∧ (armWakeTimeout b s1).s_fdCommand = s1.s_fdCommand
    ∧ (armWakeTimeout b s1).socket = s1.socket
    ∧ (armWakeTimeout b s1).s_lastNITZTimeData = s1.s_lastNITZTimeData
    ∧ (armWakeTimeout b s1).s_lastNITZTimeDataSize = s1.s_lastNITZTimeDataSize := by
  unfold armWakeTimeout
  split <;> simp [internalRequestTimedCallback]

theorem sendResponseRaw_code (data : List Nat) (s s1 : RilState δ ρ)
    (hfd : s1.s_fdCommand = s.s_fdCommand) (hk : s1.socket = s.socket) :
    (sendResponseRaw data s1).1 = (sendResponseRaw data s).1 := by
  unfold sendResponseRaw
  rw [hfd, hk]
  split
  · rfl
  · split
    · rfl
    · simp only
      split
      · rfl
      · split <;> rfl

theorem sendResponse_code (p : Parcel) (s : RilState δ ρ) :
    (sendResponse p s).1 = (sendResponseRaw p.mData s).1 := by
  unfold sendResponse
  exact sendResponseRaw_code p.mData s _ rfl rfl

theorem unsolicitedSend_trace (c : RilEnums) (unsolResponse : Int) (b : Bool) (p : Parcel)
    (s1 : RilState δ ρ) :
    (unsolicitedSend c unsolResponse b p s1).trace = s1.trace ++ [Event.sendResponse p.mData]
    ∧ (unsolicitedSend c unsolResponse b p s1).s_pendingRequests = s1.s_pendingRequests
    ∧ (unsolicitedSend c unsolResponse b p s1).s_registerCalled = s1.s_registerCalled
    ∧ (unsolicitedSend c unsolResponse b p s1).s_callbacks = s1.s_callbacks
    ∧ (unsolicitedSend c unsolResponse b p s1).radioState = s1.radioState
    ∧ (unsolicitedSend c unsolResponse b p s1).voiceRadioTech = s1.voiceRadioTech
    ∧ (unsolicitedSend c unsolResponse b p s1).simRuimStatus = s1.simRuimStatus := by
  have ha := armWakeTimeout_frame b s1
  unfold unsolicitedSend
  simp only
  split <;> (rw [sendResponse_state]; simp [ha])

theorem unsolicitedSend_cache (c : RilEnums) (unsolResponse : Int) (b : Bool) (p : Parcel)
    (s1 : RilState δ ρ) :
    (unsolicitedSend c unsolResponse b p s1).s_lastNITZTimeData
        = (if (sendResponseRaw p.mData s1).1 ≠ 0
              ∧ unsolResponse = c.RIL_UNSOL_NITZ_TIME_RECEIVED then some p.mData
            else s1.s_lastNITZTimeData)
    ∧ (unsolicitedSend c unsolResponse b p s1).s_lastNITZTimeDataSize
        = (if (sendResponseRaw p.mData s1).1 ≠ 0
              ∧ unsolResponse = c.RIL_UNSOL_NITZ_TIME_RECEIVED then p.mData.length
            else s1.s_lastNITZTimeDataSize) := by
  have ha := armWakeTimeout_frame b s1
  have hcode : (sendResponse p (armWakeTimeout b s1)).1 = (sendResponseRaw p.mData s1).1 := by
    rw [sendResponse_code]
    exact sendResponseRaw_code p.mData s1 _ ha.2.2.2.2.2.2.2.1 ha.2.2.2.2.2.2.2.2.1
  unfold unsolicitedSend
  simp only
  rw [hcode]
  split
  · exact ⟨rfl, rfl⟩
  · rw [sendResponse_state]
    exact ⟨ha.2.2.2.2.2.2.2.2.2.1, ha.2.2.2.2.2.2.2.2.2.2⟩

theorem processRadioStateWith_invariant (c : RilEnums)
    (notify : Int → Option Data → Nat → RilState δ ρ → Option (RilState δ ρ))
    (R : RilState δ ρ → RilState δ ρ → Prop) (good : Int → Prop)
    (hrefl : ∀ s, R s s) (htrans : ∀ a b d, R a b → R b d → R a d)
    (hvoice : ∀ s v, R s { s with voiceRadioTech := v })
    (hsim : ∀ s v, R s { s with simRuimStatus := v })
    (hgV : good c.RIL_UNSOL_VOICE_RADIO_TECH_CHANGED)
    (hgS : good c.RIL_UNSOL_RESPONSE_SIM_STATUS_CHANGED)
    (hn : ∀ u data len s s1, good u → notify u data len s = some s1 → R s s1)
    (st : Int) (s : RilState δ ρ) (v : Int) (s1 : RilState δ ρ)
    (h : processRadioStateWith c notify st s = some (v, s1)) : R s s1 := by
  unfold processRadioStateWith at h
  split at h
  · simp only at h
    split at h
    · cases h
    · rename_i sa hra
      have hRa : R s sa := by
        split at hra
        · exact htrans _ _ _ (hvoice s _) (hn _ _ _ _ _ hgV hra)
        · cases hra
          exact hrefl s
      split at h
      · cases h
      · rename_i sb hrb
        have hRb : R sa sb := by
          split at hrb
          · exact htrans _ _ _ (hsim sa _) (hn _ _ _ _ _ hgS hrb)
          · cases hrb
            exact hrefl sa
        cases h
        exact htrans _ _ _ hRa hRb
  · cases h
    exact hrefl s

theorem RIL_onUnsolicitedResponse_invariant (ril : Ril δ ρ) (c : RilEnums)
    (R : RilState δ ρ → RilState δ ρ → Prop) (good : Int → Prop)
    (hrefl : ∀ s, R s s) (htrans : ∀ a b d, R a b → R b d → R a d)
    (hvoice : ∀ s v, R s { s with voiceRadioTech := v })
    (hsim : ∀ s v, R s { s with simRuimStatus := v })
    (hgV : good c.RIL_UNSOL_VOICE_RADIO_TECH_CHANGED)
    (hgS : good c.RIL_UNSOL_RESPONSE_SIM_STATUS_CHANGED)
    (hsend : ∀ u b p s1, good u → R s1 (unsolicitedSend c u b p s1)) :
    ∀ (depth : Nat) (u : Int) (data : Option Data) (len : Nat) (s s1 : RilState δ ρ),
      good u → RIL_onUnsolicitedResponse ril c depth u data len s = some s1 → R s s1 := by
  intro depth
  induction depth with
  | zero =>
    intro u data len s s1 _ h
    simp [RIL_onUnsolicitedResponse] at h
  | succ n ih =>
    intro u data len s s1 hg h
    simp only [RIL_onUnsolicitedResponse, onUnsolicitedResponseWith] at h
    split at h
    · cases h; exact hrefl s
    · split at h
      · cases h; exact hrefl s
      · split at h
        · cases h
        · split at h
          · cases h
          · split at h
            · cases h
            · split at h
              · cases h; exact hrefl s
              · split at h
                · cases h
                · rename_i pp ss hr
                  cases h
                  refine htrans _ _ _ ?_ (hsend u _ pp ss hg)
                  split at hr
                  · split at hr
                    · cases hr
                    · rename_i v sr hprs
                      cases hr
                      exact processRadioStateWith_invariant c _ R good hrefl htrans hvoice hsim
                        hgV hgS ih _ _ _ _ hprs
                  · split at hr
                    · cases hr; exact hrefl s
                    · cases hr; exact hrefl s

theorem unsolResponseIndex_in_range (ril : Ril δ ρ) (c : RilEnums) (u : Int)
    (info : UnsolResponseInfo ρ) (h0 : 0 ≤ u - c.RIL_UNSOL_RESPONSE_BASE)
    (hidx : ril.s_unsolResponses[(u - c.RIL_UNSOL_RESPONSE_BASE).toNat]? = some info) :
    ¬ (u - c.RIL_UNSOL_RESPONSE_BASE < 0
      ∨ u - c.RIL_UNSOL_RESPONSE_BASE ≥ ril.s_unsolResponses.length) := by
  have hlt : (u - c.RIL_UNSOL_RESPONSE_BASE).toNat < ril.s_unsolResponses.length := by
    rcases Nat.lt_or_ge (u - c.RIL_UNSOL_RESPONSE_BASE).toNat ril.s_unsolResponses.length
      with h | h
    · exact h
    · rw [List.getElem?_eq_none h] at hidx
      cases hidx
  omega

/-- An event other than the radio state change, for a registered vendor and
a code inside the table. -/
theorem RIL_onUnsolicitedResponse_plain (ril : Ril δ ρ) (c : RilEnums) (depth : Nat) (u : Int)
    (data : Option Data) (len : Nat) (s : RilState δ ρ) (info : UnsolResponseInfo ρ) (f : ρ)
    (ret : Int) (p1 : Parcel)
    (hreg : s.s_registerCalled ≠ 0) (h0 : 0 ≤ u - c.RIL_UNSOL_RESPONSE_BASE)
    (hidx : ril.s_unsolResponses[(u - c.RIL_UNSOL_RESPONSE_BASE).toNat]? = some info)
    (hf : info.responseFunction = some f)
    (henc : ril.responseFunction f { mData := int32Bytes 1 ++ int32Bytes u, mDataPos := 8 }
      data len = some (ret, p1))
    (hu : u ≠ c.RIL_UNSOL_RESPONSE_RADIO_STATE_CHANGED) :
    RIL_onUnsolicitedResponse ril c (depth + 1) u data len s
      = some (if ret ≠ 0 then s
          else unsolicitedSend c u (decide (info.wakeType = WakeType.WAKE_PARTIAL))
            (if u = c.RIL_UNSOL_NITZ_TIME_RECEIVED then p1.writeInt64 0 else p1) s) := by
  have hr := unsolResponseIndex_in_range ril c u info h0 hidx
  simp only [RIL_onUnsolicitedResponse, onUnsolicitedResponseWith, hreg, if_false, hr, hidx, hf,
    unsolicited_header, henc, hu]
  by_cases hret : ret ≠ 0
  · rw [if_pos hret, if_pos hret]
  · rw [if_neg hret, if_neg hret]
    by_cases hn : u = c.RIL_UNSOL_NITZ_TIME_RECEIVED
    · simp only [hn, if_true]
    · simp only [hn, if_false]

/-- The radio state change, for a registered vendor and a code inside the
table. -/
theorem RIL_onUnsolicitedResponse_radio (ril : Ril δ ρ) (c : RilEnums) (depth : Nat) (u : Int)
    (data : Option Data) (len : Nat) (s : RilState δ ρ) (info : UnsolResponseInfo ρ) (f : ρ)
    (ret : Int) (p1 : Parcel)
    (hreg : s.s_registerCalled ≠ 0) (h0 : 0 ≤ u - c.RIL_UNSOL_RESPONSE_BASE)
    (hidx : ril.s_unsolResponses[(u - c.RIL_UNSOL_RESPONSE_BASE).toNat]? = some info)
    (hf : info.responseFunction = some f)
    (henc : ril.responseFunction f { mData := int32Bytes 1 ++ int32Bytes u, mDataPos := 8 }
      data len = some (ret, p1))
    (hu : u = c.RIL_UNSOL_RESPONSE_RADIO_STATE_CHANGED) :
    RIL_onUnsolicitedResponse ril c (depth + 1) u data len s
      = (if ret ≠ 0 then some s
          else (processRadioState ril c depth s.radioState s).map (fun r =>
            unsolicitedSend c u (decide (info.wakeType = WakeType.WAKE_PARTIAL))
              (p1.writeInt32 r.1) r.2)) := by
  have hr := unsolResponseIndex_in_range ril c u info h0 hidx
  simp only [RIL_onUnsolicitedResponse, onUnsolicitedResponseWith, hreg, if_false, hr, hidx, hf,
    unsolicited_header, henc]
  by_cases hret : ret ≠ 0
  · rw [if_pos hret, if_pos hret]
  · rw [if_neg hret, if_neg hret]
    simp only [hu, if_true, processRadioState]
    cases hprs : processRadioStateWith c (RIL_onUnsolicitedResponse ril c depth) s.radioState s with
    | none => simp
    | some r => simp

/-! ## Unsolicited responses: events that are ignored, and the frame of the others -/

/-- C24. Called before `RIL_register` has accepted a vendor
(`s_registerCalled` is 0), or with an event code whose offset from
`RIL_UNSOL_RESPONSE_BASE` is negative or not below the size of
`s_unsolResponses`, `RIL_onUnsolicitedResponse` returns with the whole state as
it was: nothing is sent, no timer is added, and the tracked timer and the
network time cache keep their values. -/
theorem RIL_onUnsolicitedResponse_ignored (ril : Ril δ ρ) (c : RilEnums) (depth : Nat)
    (unsolResponse : Int) (data : Option Data) (datalen : Nat) (s : RilState δ ρ)
    (h : s.s_registerCalled = 0
      ∨ unsolResponse - c.RIL_UNSOL_RESPONSE_BASE < 0
      ∨ unsolResponse - c.RIL_UNSOL_RESPONSE_BASE ≥ ril.s_unsolResponses.length) :
    RIL_onUnsolicitedResponse ril c (depth + 1) unsolResponse data datalen s = some s := by
  simp only [RIL_onUnsolicitedResponse, onUnsolicitedResponseWith]
  by_cases hreg : s.s_registerCalled = 0
  · rw [if_pos hreg]
  · rw [if_neg hreg]
    have h2 : unsolResponse - c.RIL_UNSOL_RESPONSE_BASE < 0
        ∨ unsolResponse - c.RIL_UNSOL_RESPONSE_BASE ≥ ril.s_unsolResponses.length := by
      rcases h with h | h | h
      · exact absurd h hreg
      · exact Or.inl h
      · exact Or.inr h
    rw [if_pos h2]

/-- The network time event 1008 before registration, and the codes 999 and
1036, just outside the table of 36 entries, after it. -/
theorem RIL_onUnsolicitedResponse_ignored_witness :
    RIL_onUnsolicitedResponse sampleRil sampleEnums 2 1008 (some (Data.cstr [97])) 8 sampleState
      = some sampleState
    ∧ RIL_onUnsolicitedResponse sampleRil sampleEnums 2 999 none 0 sampleRegistered
      = some sampleRegistered
    ∧ RIL_onUnsolicitedResponse sampleRil sampleEnums 2 1036 none 0 sampleRegistered
      = some sampleRegistered :=
  ⟨RIL_onUnsolicitedResponse_ignored sampleRil sampleEnums 1 1008 (some (Data.cstr [97])) 8
      sampleState (Or.inl rfl),
   RIL_onUnsolicitedResponse_ignored sampleRil sampleEnums 1 999 none 0 sampleRegistered
      (Or.inr (Or.inl (by decide))),
   RIL_onUnsolicitedResponse_ignored sampleRil sampleEnums 1 1036 none 0 sampleRegistered
      (Or.inr (Or.inr (by decide)))⟩

/-- C25. For a registered vendor and an event code `c` inside the table,
the encoder of the entry is handed a parcel that holds the two integers 1 and
`c`. If it returns 0 after appending the bytes `out`, one frame is sent, and
it is the integers 1 and `c`, then `out`, then what the event adds: for the
radio state change the integer `processRadioState` returns, once it has
returned; for the network time eight bytes; for any other event nothing. If
the encoder returns another value, the state is left as it was: no frame, no
timer, same tracked timer and same network time cache. -/
theorem RIL_onUnsolicitedResponse_frame (ril : Ril δ ρ) (c : RilEnums) (depth : Nat)
    (unsolResponse : Int) (data : Option Data) (datalen : Nat) (s : RilState δ ρ)
    (info : UnsolResponseInfo ρ) (f : ρ) (ret : Int) (p1 : Parcel)
    (hreg : s.s_registerCalled ≠ 0) (h0 : 0 ≤ unsolResponse - c.RIL_UNSOL_RESPONSE_BASE)
    (hidx : ril.s_unsolResponses[(unsolResponse - c.RIL_UNSOL_RESPONSE_BASE).toNat]?
      = some info)
    (hf : info.responseFunction = some f)
    (henc : ril.responseFunction f
      { mData := int32Bytes 1 ++ int32Bytes unsolResponse, mDataPos := 8 } data datalen
      = some (ret, p1)) :
    (ret ≠ 0 →
      RIL_onUnsolicitedResponse ril c (depth + 1) unsolResponse data datalen s = some s)
    ∧ (∀ out : List Nat, ret = 0 →
        p1 = { mData := int32Bytes 1 ++ int32Bytes unsolResponse ++ out,
               mDataPos := 8 + out.length } →
        (unsolResponse ≠ c.RIL_UNSOL_RESPONSE_RADIO_STATE_CHANGED →
          ∃ s1, RIL_onUnsolicitedResponse ril c (depth + 1) unsolResponse data datalen s
              = some s1
            ∧ s1.trace = s.trace
                ++ [Event.sendResponse (int32Bytes 1 ++ int32Bytes unsolResponse ++ out
                      ++ (if unsolResponse = c.RIL_UNSOL_NITZ_TIME_RECEIVED then int64Bytes 0
                          else []))])
        ∧ (unsolResponse = c.RIL_UNSOL_RESPONSE_RADIO_STATE_CHANGED →
            ∀ (newState : Int) (s0 : RilState δ ρ),
              processRadioState ril c depth s.radioState s = some (newState, s0) →
              ∃ s1, RIL_onUnsolicitedResponse ril c (depth + 1) unsolResponse data datalen s
                  = some s1
                ∧ s1.trace = s0.trace
                    ++ [Event.sendResponse (int32Bytes 1 ++ int32Bytes unsolResponse ++ out
                          ++ int32Bytes newState)])) := by
  constructor
  · intro hret
    by_cases hu : unsolResponse = c.RIL_UNSOL_RESPONSE_RADIO_STATE_CHANGED
    · rw [RIL_onUnsolicitedResponse_radio ril c depth unsolResponse data datalen s info f ret p1
        hreg h0 hidx hf henc hu, if_pos hret]
    · rw [RIL_onUnsolicitedResponse_plain ril c depth unsolResponse data datalen s info f ret p1
        hreg h0 hidx hf henc hu, if_pos hret]
  · intro out hret hp1
    have hend : p1.mDataPos = p1.mData.length := by
      rw [hp1]
      simp only [List.length_append, int32Bytes_length]
    have hnr : ¬ (ret ≠ 0) := fun h => h hret
    constructor
    · intro hu
      rw [RIL_onUnsolicitedResponse_plain ril c depth unsolResponse data datalen s info f ret p1
        hreg h0 hidx hf henc hu, if_neg hnr]
      refine ⟨_, rfl, ?_⟩
      rw [(unsolicitedSend_trace c unsolResponse _ _ s).1]
      by_cases hn : unsolResponse = c.RIL_UNSOL_NITZ_TIME_RECEIVED
      · rw [if_pos hn, if_pos hn, Parcel.writeInt64, Parcel.write_at_end p1 _ hend, hp1]
      · rw [if_neg hn, if_neg hn, hp1]
        simp
    · intro hu newState s0 hprs
      rw [RIL_onUnsolicitedResponse_radio ril c depth unsolResponse data datalen s info f ret p1
        hreg h0 hidx hf henc hu, if_neg hnr, hprs]
      refine ⟨_, rfl, ?_⟩
      simp only
      rw [(unsolicitedSend_trace c unsolResponse _ _ s0).1, Parcel.writeInt32,
        Parcel.write_at_end p1 _ hend, hp1]

/-- The sample configuration after registration: the network time event 1008
with the text `a`, whose encoder `responseString` returns 0, and the
connection notice 1034 with a length of 3 bytes, which its encoder
`responseInts` rejects. -/
theorem RIL_onUnsolicitedResponse_frame_witness :
    (∃ s1, RIL_onUnsolicitedResponse sampleRil sampleEnums 2 1008 (some (Data.cstr [97])) 8
          sampleRegistered = some s1
        ∧ s1.trace = sampleRegistered.trace
            ++ [Event.sendResponse (int32Bytes 1 ++ int32Bytes 1008 ++ string16Bytes [97]
                  ++ (if (1008 : Int) = sampleEnums.RIL_UNSOL_NITZ_TIME_RECEIVED
                      then int64Bytes 0 else []))])
    ∧ RIL_onUnsolicitedResponse sampleRil sampleEnums 2 1034 (some (Data.ints [11])) 3
        sampleRegistered = some sampleRegistered :=
  ⟨((RIL_onUnsolicitedResponse_frame sampleRil sampleEnums 1 1008 (some (Data.cstr [97])) 8
      sampleRegistered
      { requestNumber := 1008, responseFunction := some ResponseFn.responseString,
        wakeType := WakeType.WAKE_PARTIAL }
      ResponseFn.responseString 0
      { mData := int32Bytes 1 ++ int32Bytes 1008 ++ string16Bytes [97], mDataPos := 16 }
      (by decide) (by decide) rfl rfl rfl).2 (string16Bytes [97]) rfl rfl).1 (by decide),
   (RIL_onUnsolicitedResponse_frame sampleRil sampleEnums 1 1034 (some (Data.ints [11])) 3
      sampleRegistered
      { requestNumber := 1034, responseFunction := some ResponseFn.responseInts,
        wakeType := WakeType.WAKE_PARTIAL }
      ResponseFn.responseInts (-1)
      { mData := int32Bytes 1 ++ int32Bytes 1034, mDataPos := 8 }
      (by decide) (by decide) rfl rfl rfl).1 (by decide)⟩

/-! ## The radio state handed to the peer -/

theorem processRadioState_value (ril : Ril δ ρ) (c : RilEnums) (depth : Nat)
    (newRadioState : Int) (s : RilState δ ρ) (v : Int) (s1 : RilState δ ρ)
    (h : processRadioState ril c depth newRadioState s = some (v, s1)) :
    v = (if newRadioState > c.RADIO_STATE_UNAVAILABLE ∧ newRadioState < c.RADIO_STATE_ON
          then c.RADIO_STATE_ON else newRadioState) := by
  simp only [processRadioState, processRadioStateWith] at h
  split at h
  · rename_i hl
    rw [if_pos hl]
    split at h
    · cases h
    · split at h
      · cases h
      · cases h
        rfl
  · rename_i hl
    rw [if_neg hl]
    cases h
    rfl

theorem processRadioState_outside (ril : Ril δ ρ) (c : RilEnums) (depth : Nat)
    (newRadioState : Int) (s : RilState δ ρ)
    (h : ¬ (newRadioState > c.RADIO_STATE_UNAVAILABLE ∧ newRadioState < c.RADIO_STATE_ON)) :
    processRadioState ril c depth newRadioState s = some (newRadioState, s) := by
  simp only [processRadioState, processRadioStateWith, h, if_false]

/-- C30. `processRadioState` returns `RADIO_STATE_ON` for a state strictly
between `RADIO_STATE_UNAVAILABLE` and `RADIO_STATE_ON` and the state itself
otherwise, in which case it changes nothing; with the enumerators in the
order of their declaration the states strictly between are the eight SIM,
RUIM and NV states, and OFF, UNAVAILABLE and ON are not. The value it returns
is returned again when it is given back. For the radio state change, with an
encoder that returns 0 after appending `out`, the frame sent is the integers
1 and the event code, then `out`, then the value `processRadioState` returns
for the state the vendor reports. -/
theorem processRadioState_spec (ril : Ril δ ρ) (c : RilEnums) (depth : Nat)
    (unsolResponse : Int) (data : Option Data) (datalen : Nat) (s : RilState δ ρ)
    (info : UnsolResponseInfo ρ) (f : ρ) (out : List Nat)
    (hreg : s.s_registerCalled ≠ 0) (h0 : 0 ≤ unsolResponse - c.RIL_UNSOL_RESPONSE_BASE)
    (hidx : ril.s_unsolResponses[(unsolResponse - c.RIL_UNSOL_RESPONSE_BASE).toNat]?
      = some info)
    (hf : info.responseFunction = some f)
    (henc : ril.responseFunction f
      { mData := int32Bytes 1 ++ int32Bytes unsolResponse, mDataPos := 8 } data datalen
      = some (0, { mData := int32Bytes 1 ++ int32Bytes unsolResponse ++ out,
                   mDataPos := 8 + out.length }))
    (hu : unsolResponse = c.RIL_UNSOL_RESPONSE_RADIO_STATE_CHANGED) :
    (∀ (v : Int) (s0 : RilState δ ρ),
      processRadioState ril c depth s.radioState s = some (v, s0) →
        v = (if s.radioState > c.RADIO_STATE_UNAVAILABLE ∧ s.radioState < c.RADIO_STATE_ON
              then c.RADIO_STATE_ON else s.radioState)
        ∧ processRadioState ril c depth v s0 = some (v, s0)
        ∧ ∃ s1, RIL_onUnsolicitedResponse ril c (depth + 1) unsolResponse data datalen s
              = some s1
            ∧ s1.trace = s0.trace
                ++ [Event.sendResponse (int32Bytes 1 ++ int32Bytes unsolResponse ++ out
                      ++ int32Bytes v)])
    ∧ (¬ (s.radioState > c.RADIO_STATE_UNAVAILABLE ∧ s.radioState < c.RADIO_STATE_ON) →
        processRadioState ril c depth s.radioState s = some (s.radioState, s))
    ∧ (c.radioStates.Pairwise (fun a b => a < b) →
        (∀ st ∈ c.legacyStates, st > c.RADIO_STATE_UNAVAILABLE ∧ st < c.RADIO_STATE_ON)
        ∧ (∀ st ∈ [c.RADIO_STATE_OFF, c.RADIO_STATE_UNAVAILABLE, c.RADIO_STATE_ON],
            ¬ (st > c.RADIO_STATE_UNAVAILABLE ∧ st < c.RADIO_STATE_ON))) := by
  refine ⟨?_, processRadioState_outside ril c depth s.radioState s, ?_⟩
  · intro v s0 hprs
    have hv := processRadioState_value ril c depth s.radioState s v s0 hprs
    refine ⟨hv, ?_, ?_⟩
    · apply processRadioState_outside
      rw [hv]
      split
      · omega
      · assumption
    · have hend : ({ mData := int32Bytes 1 ++ int32Bytes unsolResponse ++ out,
                     mDataPos := 8 + out.length } : Parcel).mDataPos
          = ({ mData := int32Bytes 1 ++ int32Bytes unsolResponse ++ out,
               mDataPos := 8 + out.length } : Parcel).mData.length := by
        simp only [List.length_append, int32Bytes_length]
      rw [RIL_onUnsolicitedResponse_radio ril c depth unsolResponse data datalen s info f 0 _
        hreg h0 hidx hf henc hu, if_neg (by simp), hprs]
      refine ⟨_, rfl, ?_⟩
      simp only [Option.map_some']
      rw [(unsolicitedSend_trace c unsolResponse _ _ s0).1, Parcel.writeInt32,
        Parcel.write_at_end _ _ hend]
  · intro hord
    simp only [RilEnums.radioStates, List.pairwise_cons, List.mem_cons, List.mem_singleton,
      List.not_mem_nil, or_false, forall_eq_or_imp, forall_eq, false_implies, implies_true,
      List.Pairwise.nil, and_true] at hord
    constructor
    · intro st hst
      simp only [RilEnums.legacyStates, List.mem_cons, List.mem_singleton, List.not_mem_nil,
        or_false] at hst
      rcases hst with h | h | h | h | h | h | h | h <;> subst h <;> omega
    · intro st hst
      simp only [List.mem_cons, List.mem_singleton, List.not_mem_nil, or_false] at hst
      rcases hst with h | h | h <;> subst h <;> omega

/-- The sample configuration after registration, with a vendor that reports
state 4 (`RADIO_STATE_SIM_READY`): `processRadioState` sends the voice
technology change and the SIM status change and returns 10
(`RADIO_STATE_ON`), which it returns again for 10; the frame of the radio
state change 1000 is (1, 1000, 10). -/
theorem processRadioState_spec_witness :
    (10 : Int) = (if (4 : Int) > sampleEnums.RADIO_STATE_UNAVAILABLE
        ∧ (4 : Int) < sampleEnums.RADIO_STATE_ON then sampleEnums.RADIO_STATE_ON else 4)
    ∧ processRadioState sampleRil sampleEnums 1 10
        { sampleRegistered with
          radioState := 4, allocated := 4, s_last_wake_timeout_info := some 4,
          voiceRadioTech := 3, simRuimStatus := 4,
          timers := [{ addr := 3, userParam := 1 }, { addr := 4, userParam := 0 }],
          socket := { writeResults := [], closed := false,
                      wire := [0, 0, 0, 12, 1, 0, 0, 0, 11, 4, 0, 0, 0, 0, 0, 0,
                               0, 0, 0, 8, 1, 0, 0, 0, 251, 3, 0, 0] },
          trace := [Event.sendResponse [1, 0, 0, 0, 11, 4, 0, 0, 0, 0, 0, 0],
                    Event.sendResponse [1, 0, 0, 0, 251, 3, 0, 0]] }
      = some (10,
        { sampleRegistered with
          radioState := 4, allocated := 4, s_last_wake_timeout_info := some 4,
          voiceRadioTech := 3, simRuimStatus := 4,
          timers := [{ addr := 3, userParam := 1 }, { addr := 4, userParam := 0 }],
          socket := { writeResults := [], closed := false,
                      wire := [0, 0, 0, 12, 1, 0, 0, 0, 11, 4, 0, 0, 0, 0, 0, 0,
                               0, 0, 0, 8, 1, 0, 0, 0, 251, 3, 0, 0] },
          trace := [Event.sendResponse [1, 0, 0, 0, 11, 4, 0, 0, 0, 0, 0, 0],
                    Event.sendResponse [1, 0, 0, 0, 251, 3, 0, 0]] })
    ∧ ∃ s1, RIL_onUnsolicitedResponse sampleRil sampleEnums 2 1000 none 0
          { sampleRegistered with radioState := 4 } = some s1
        ∧ s1.trace
          = [Event.sendResponse [1, 0, 0, 0, 11, 4, 0, 0, 0, 0, 0, 0],
             Event.sendResponse [1, 0, 0, 0, 251, 3, 0, 0]]
            ++ [Event.sendResponse (int32Bytes 1 ++ int32Bytes 1000 ++ [] ++ int32Bytes 10)] :=
  (processRadioState_spec sampleRil sampleEnums 1 1000 none 0
      { sampleRegistered with radioState := 4 }
      { requestNumber := 1000, responseFunction := some ResponseFn.responseVoid,
        wakeType := WakeType.WAKE_PARTIAL }
      ResponseFn.responseVoid [] (by decide) (by decide) rfl rfl rfl rfl).1 10
    { sampleRegistered with
      radioState := 4, allocated := 4, s_last_wake_timeout_info := some 4,
      voiceRadioTech := 3, simRuimStatus := 4,
      timers := [{ addr := 3, userParam := 1 }, { addr := 4, userParam := 0 }],
      socket := { writeResults := [], closed := false,
                  wire := [0, 0, 0, 12, 1, 0, 0, 0, 11, 4, 0, 0, 0, 0, 0, 0,
                           0, 0, 0, 8, 1, 0, 0, 0, 251, 3, 0, 0] },
      trace := [Event.sendResponse [1, 0, 0, 0, 11, 4, 0, 0, 0, 0, 0, 0],
                Event.sendResponse [1, 0, 0, 0, 251, 3, 0, 0]] }
    rfl

/-! ## The network time cache -/

/-- An event other than the network time leaves the cache as it is,
whatever it sends on the way. -/
theorem RIL_onUnsolicitedResponse_cache_kept (ril : Ril δ ρ) (c : RilEnums)
    (hV : c.RIL_UNSOL_VOICE_RADIO_TECH_CHANGED ≠ c.RIL_UNSOL_NITZ_TIME_RECEIVED)
    (hS : c.RIL_UNSOL_RESPONSE_SIM_STATUS_CHANGED ≠ c.RIL_UNSOL_NITZ_TIME_RECEIVED)
    (depth : Nat) (u : Int) (data : Option Data) (len : Nat) (s s1 : RilState δ ρ)
    (hu : u ≠ c.RIL_UNSOL_NITZ_TIME_RECEIVED)
    (h : RIL_onUnsolicitedResponse ril c depth u data len s = some s1) :
    s1.s_lastNITZTimeData = s.s_lastNITZTimeData
    ∧ s1.s_lastNITZTimeDataSize = s.s_lastNITZTimeDataSize := by
  refine RIL_onUnsolicitedResponse_invariant ril c
    (fun a b => b.s_lastNITZTimeData = a.s_lastNITZTimeData
      ∧ b.s_lastNITZTimeDataSize = a.s_lastNITZTimeDataSize)
    (fun x => x ≠ c.RIL_UNSOL_NITZ_TIME_RECEIVED)
    (fun _ => ⟨rfl, rfl⟩) (fun a b d h1 h2 => ⟨h2.1.trans h1.1, h2.2.trans h1.2⟩)
    (fun _ _ => ⟨rfl, rfl⟩) (fun _ _ => ⟨rfl, rfl⟩) hV hS ?_ depth u data len s s1 hu h
  intro x b p sx hx
  have hc := unsolicitedSend_cache c x b p sx
  have hn : ¬ ((sendResponseRaw p.mData sx).1 ≠ 0 ∧ x = c.RIL_UNSOL_NITZ_TIME_RECEIVED) :=
    fun h => hx h.2
  rw [if_neg hn, if_neg hn] at hc
  exact hc

/-- C26. For the network time event of a registered vendor, with an encoder
that returns 0 after appending `out`, the frame is the integers 1 and the
event code, then `out`, then the eight bytes of the receive time. If sending
it fails (which it does when there is no connection or the frame is longer
than `MAX_COMMAND_BYTES`), the cache afterwards holds exactly these bytes and
their number, whatever it held before; if sending succeeds the cache is as
before. Any other event leaves the cache as before, whether its frame is sent
or not. -/
theorem RIL_onUnsolicitedResponse_nitz_cache (ril : Ril δ ρ) (c : RilEnums) (depth : Nat)
    (unsolResponse : Int) (data : Option Data) (datalen : Nat) (s : RilState δ ρ)
    (hR : c.RIL_UNSOL_NITZ_TIME_RECEIVED ≠ c.RIL_UNSOL_RESPONSE_RADIO_STATE_CHANGED)
    (hV : c.RIL_UNSOL_VOICE_RADIO_TECH_CHANGED ≠ c.RIL_UNSOL_NITZ_TIME_RECEIVED)
    (hS : c.RIL_UNSOL_RESPONSE_SIM_STATUS_CHANGED ≠ c.RIL_UNSOL_NITZ_TIME_RECEIVED) :
    (∀ (info : UnsolResponseInfo ρ) (f : ρ) (out : List Nat),
      unsolResponse = c.RIL_UNSOL_NITZ_TIME_RECEIVED →
      s.s_registerCalled ≠ 0 → 0 ≤ unsolResponse - c.RIL_UNSOL_RESPONSE_BASE →
      ril.s_unsolResponses[(unsolResponse - c.RIL_UNSOL_RESPONSE_BASE).toNat]? = some info →
      info.responseFunction = some f →
      ril.responseFunction f
          { mData := int32Bytes 1 ++ int32Bytes unsolResponse, mDataPos := 8 } data datalen
        = some (0, { mData := int32Bytes 1 ++ int32Bytes unsolResponse ++ out,
                     mDataPos := 8 + out.length }) →
      ∃ s1, RIL_onUnsolicitedResponse ril c (depth + 1) unsolResponse data datalen s = some s1
        ∧ s1.trace = s.trace
            ++ [Event.sendResponse
                  (int32Bytes 1 ++ int32Bytes unsolResponse ++ out ++ int64Bytes 0)]
        ∧ ((sendResponseRaw (int32Bytes 1 ++ int32Bytes unsolResponse ++ out ++ int64Bytes 0)
              s).1 ≠ 0 →
            s1.s_lastNITZTimeData
                = some (int32Bytes 1 ++ int32Bytes unsolResponse ++ out ++ int64Bytes 0)
            ∧ s1.s_lastNITZTimeDataSize
                = (int32Bytes 1 ++ int32Bytes unsolResponse ++ out ++ int64Bytes 0).length)
        ∧ ((sendResponseRaw (int32Bytes 1 ++ int32Bytes unsolResponse ++ out ++ int64Bytes 0)
              s).1 = 0 →
            s1.s_lastNITZTimeData = s.s_lastNITZTimeData
            ∧ s1.s_lastNITZTimeDataSize = s.s_lastNITZTimeDataSize))
    ∧ (∀ frame : List Nat, s.s_fdCommand < 0 ∨ frame.length > MAX_COMMAND_BYTES →
        (sendResponseRaw frame s).1 ≠ 0)
    ∧ (unsolResponse ≠ c.RIL_UNSOL_NITZ_TIME_RECEIVED →
        ∀ s1, RIL_onUnsolicitedResponse ril c (depth + 1) unsolResponse data datalen s = some s1 →
          s1.s_lastNITZTimeData = s.s_lastNITZTimeData
          ∧ s1.s_lastNITZTimeDataSize = s.s_lastNITZTimeDataSize) := by
  refine ⟨?_, ?_, ?_⟩
  · intro info f out hu hreg h0 hidx hf henc
    have hend : ({ mData := int32Bytes 1 ++ int32Bytes unsolResponse ++ out,
                   mDataPos := 8 + out.length } : Parcel).mDataPos
        = ({ mData := int32Bytes 1 ++ int32Bytes unsolResponse ++ out,
             mDataPos := 8 + out.length } : Parcel).mData.length := by
      simp only [List.length_append, int32Bytes_length]
    have hframe : (({ mData := int32Bytes 1 ++ int32Bytes unsolResponse ++ out,
                      mDataPos := 8 + out.length } : Parcel).writeInt64 0).mData
        = int32Bytes 1 ++ int32Bytes unsolResponse ++ out ++ int64Bytes 0 := by
      rw [Parcel.writeInt64, Parcel.write_at_end _ _ hend]
    have hne : unsolResponse ≠ c.RIL_UNSOL_RESPONSE_RADIO_STATE_CHANGED := by
      rw [hu]; exact hR
    rw [RIL_onUnsolicitedResponse_plain ril c depth unsolResponse data datalen s info f 0 _
      hreg h0 hidx hf henc hne, if_neg (by simp), if_pos hu]
    refine ⟨_, rfl, ?_, ?_, ?_⟩
    · rw [(unsolicitedSend_trace c unsolResponse _ _ s).1, hframe]
    · intro hfail
      have hc := unsolicitedSend_cache c unsolResponse
        (decide (info.wakeType = WakeType.WAKE_PARTIAL))
        (({ mData := int32Bytes 1 ++ int32Bytes unsolResponse ++ out,
            mDataPos := 8 + out.length } : Parcel).writeInt64 0) s
      rw [hframe] at hc
      rw [if_pos ⟨hfail, hu⟩, if_pos ⟨hfail, hu⟩] at hc
      exact hc
    · intro hok
      have hc := unsolicitedSend_cache c unsolResponse
        (decide (info.wakeType = WakeType.WAKE_PARTIAL))
        (({ mData := int32Bytes 1 ++ int32Bytes unsolResponse ++ out,
            mDataPos := 8 + out.length } : Parcel).writeInt64 0) s
      rw [hframe] at hc
      have hn : ¬ ((sendResponseRaw
          (int32Bytes 1 ++ int32Bytes unsolResponse ++ out ++ int64Bytes 0) s).1 ≠ 0
          ∧ unsolResponse = c.RIL_UNSOL_NITZ_TIME_RECEIVED) := fun h => h.1 hok
      rw [if_neg hn, if_neg hn] at hc
      exact hc
  · intro frame h
    unfold sendResponseRaw
    have hm : ((-1 : Int), s).1 ≠ 0 := by
      show (-1 : Int) ≠ 0
      decide
    rcases h with h | h
    · rw [if_pos h]
      exact hm
    · by_cases hfd : s.s_fdCommand < 0
      · rw [if_pos hfd]
        exact hm
      · rw [if_neg hfd, if_pos h]
        exact hm
  · intro hu s1 h
    exact RIL_onUnsolicitedResponse_cache_kept ril c hV hS (depth + 1) unsolResponse data datalen
      s s1 hu h

/-- The sample configuration after registration, with no connection
(`s_fdCommand` is -1) and a cache that holds one byte: the network time event
1008 with the text `a` replaces the cache by its frame of 24 bytes; the SIM
status change 1019, whose frame cannot be sent either, leaves the cache. -/
theorem RIL_onUnsolicitedResponse_nitz_cache_witness :
    (∃ s1, RIL_onUnsolicitedResponse sampleRil sampleEnums 2 1008 (some (Data.cstr [97])) 8
          { sampleRegistered with
            s_fdCommand := -1, s_lastNITZTimeData := some [9], s_lastNITZTimeDataSize := 1 }
          = some s1
        ∧ s1.s_lastNITZTimeData
            = some (int32Bytes 1 ++ int32Bytes 1008 ++ string16Bytes [97] ++ int64Bytes 0)
        ∧ s1.s_lastNITZTimeDataSize
            = (int32Bytes 1 ++ int32Bytes 1008 ++ string16Bytes [97] ++ int64Bytes 0).length)
    ∧ (∃ s1, RIL_onUnsolicitedResponse sampleRil sampleEnums 2 1019 none 0
          { sampleRegistered with
            s_fdCommand := -1, s_lastNITZTimeData := some [9], s_lastNITZTimeDataSize := 1 }
          = some s1
        ∧ s1.trace = [Event.sendResponse (int32Bytes 1 ++ int32Bytes 1019)]
        ∧ s1.s_lastNITZTimeData = some [9] ∧ s1.s_lastNITZTimeDataSize = 1) := by
  constructor
  · have T := RIL_onUnsolicitedResponse_nitz_cache sampleRil sampleEnums 1 1008
      (some (Data.cstr [97])) 8
      { sampleRegistered with
        s_fdCommand := -1, s_lastNITZTimeData := some [9], s_lastNITZTimeDataSize := 1 }
      (by decide) (by decide) (by decide)
    obtain ⟨s1, h1, _, hfail, _⟩ := T.1
      { requestNumber := 1008, responseFunction := some ResponseFn.responseString,
        wakeType := WakeType.WAKE_PARTIAL }
      ResponseFn.responseString (string16Bytes [97]) rfl (by decide) (by decide) rfl rfl rfl
    exact ⟨s1, h1, hfail (T.2.1 _ (Or.inl (by decide)))⟩
  · refine ⟨_, rfl, rfl, ?_⟩
    exact (RIL_onUnsolicitedResponse_nitz_cache sampleRil sampleEnums 1 1019 none 0
      { sampleRegistered with
        s_fdCommand := -1, s_lastNITZTimeData := some [9], s_lastNITZTimeDataSize := 1 }
      (by decide) (by decide) (by decide)).2.2 (by decide) _ rfl

/-! ## The connection handshake -/

/-- Whatever an unsolicited response adds to the trace is calls of
`sendResponse`. -/
theorem RIL_onUnsolicitedResponse_trace_sends (ril : Ril δ ρ) (c : RilEnums)
    (depth : Nat) (u : Int) (data : Option Data) (len : Nat) (s s1 : RilState δ ρ)
    (h : RIL_onUnsolicitedResponse ril c depth u data len s = some s1) :
    ∃ l, s1.trace = s.trace ++ l ∧ ∀ e ∈ l, ∃ d, e = Event.sendResponse d := by
  refine RIL_onUnsolicitedResponse_invariant ril c
    (fun a b => ∃ l, b.trace = a.trace ++ l ∧ ∀ e ∈ l, ∃ d, e = Event.sendResponse d)
    (fun _ => True)
    (fun a => ⟨[], by simp, by simp⟩) ?_
    (fun a _ => ⟨[], by simp, by simp⟩) (fun a _ => ⟨[], by simp, by simp⟩) trivial trivial ?_
    depth u data len s s1 trivial h
  · intro a b d h1 h2
    obtain ⟨l1, e1, m1⟩ := h1
    obtain ⟨l2, e2, m2⟩ := h2
    refine ⟨l1 ++ l2, by rw [e2, e1, List.append_assoc], ?_⟩
    intro e he
    rcases List.mem_append.mp he with he | he
    · exact m1 e he
    · exact m2 e he
  · intro x b p sx _
    refine ⟨[Event.sendResponse p.mData], (unsolicitedSend_trace c x b p sx).1, ?_⟩
    intro e he
    exact ⟨p.mData, List.mem_singleton.mp he⟩

/-- C27. With a network time frame in the cache, `onNewCommandConnect`
first sends the connection notice and the radio state change, which add
calls of `sendResponse` only, then hands the cached bytes and their number to
`sendResponseRaw`, once, on the connection as these two events left it, and
empties the cache. A following `onNewCommandConnect` is the two events and
nothing more: its trace has no further call of `sendResponseRaw` and the cache
stays empty. The codes of the events involved are taken to differ from the
network time code. -/
theorem onNewCommandConnect_replay (ril : Ril δ ρ) (c : RilEnums) (depth : Nat)
    (s s1 s2 : RilState δ ρ) (bytes : List Nat)
    (hC : c.RIL_UNSOL_RIL_CONNECTED ≠ c.RIL_UNSOL_NITZ_TIME_RECEIVED)
    (hR : c.RIL_UNSOL_RESPONSE_RADIO_STATE_CHANGED ≠ c.RIL_UNSOL_NITZ_TIME_RECEIVED)
    (hV : c.RIL_UNSOL_VOICE_RADIO_TECH_CHANGED ≠ c.RIL_UNSOL_NITZ_TIME_RECEIVED)
    (hS : c.RIL_UNSOL_RESPONSE_SIM_STATUS_CHANGED ≠ c.RIL_UNSOL_NITZ_TIME_RECEIVED)
    (h1 : RIL_onUnsolicitedResponse ril c depth c.RIL_UNSOL_RIL_CONNECTED
      (some (Data.ints [s.s_callbacks.version])) 4 s = some s1)
    (h2 : RIL_onUnsolicitedResponse ril c depth c.RIL_UNSOL_RESPONSE_RADIO_STATE_CHANGED
      none 0 s1 = some s2)
    (hcache : s.s_lastNITZTimeData = some bytes)
    (hsize : s.s_lastNITZTimeDataSize = bytes.length) :
    ∃ (s3 : RilState δ ρ) (l : List (Event δ)),
      onNewCommandConnect ril c depth s = some s3
      ∧ s3.trace = s.trace ++ l ++ [Event.sendResponseRaw bytes bytes.length]
      ∧ (∀ e ∈ l, ∃ d, e = Event.sendResponse d)
      ∧ s3.socket = (sendResponseRaw bytes s2).2.socket
      ∧ s3.s_lastNITZTimeData = none
      ∧ ∀ (s4 s5 : RilState δ ρ),
          RIL_onUnsolicitedResponse ril c depth c.RIL_UNSOL_RIL_CONNECTED
            (some (Data.ints [s3.s_callbacks.version])) 4 s3 = some s4 →
          RIL_onUnsolicitedResponse ril c depth c.RIL_UNSOL_RESPONSE_RADIO_STATE_CHANGED
            none 0 s4 = some s5 →
          onNewCommandConnect ril c depth s3 = some s5
          ∧ s5.s_lastNITZTimeData = none
          ∧ ∃ l2, s5.trace = s3.trace ++ l2 ∧ ∀ e ∈ l2, ∃ d, e = Event.sendResponse d := by
  have k1 := RIL_onUnsolicitedResponse_cache_kept ril c hV hS depth _ _ _ s s1 hC h1
  have k2 := RIL_onUnsolicitedResponse_cache_kept ril c hV hS depth _ _ _ s1 s2 hR h2
  have hc2 : s2.s_lastNITZTimeData = some bytes := by rw [k2.1, k1.1, hcache]
  have hz2 : s2.s_lastNITZTimeDataSize = bytes.length := by rw [k2.2, k1.2, hsize]
  obtain ⟨l1, e1, m1⟩ := RIL_onUnsolicitedResponse_trace_sends ril c depth _ _ _ s s1 h1
  obtain ⟨l2, e2, m2⟩ := RIL_onUnsolicitedResponse_trace_sends ril c depth _ _ _ s1 s2 h2
  have hrun : onNewCommandConnect ril c depth s
      = some { (sendResponseRaw bytes
          { s2 with trace := s2.trace ++ [Event.sendResponseRaw bytes bytes.length] }).2 with
          s_lastNITZTimeData := none } := by
    simp only [onNewCommandConnect, h1, h2, hc2, hz2, le_refl, if_true, List.take_length]
  refine ⟨_, l1 ++ l2, hrun, ?_, ?_, ?_, rfl, ?_⟩
  · rw [sendResponseRaw_state]
    simp only [e2, e1, List.append_assoc]
  · intro e he
    rcases List.mem_append.mp he with he | he
    · exact m1 e he
    · exact m2 e he
  · show (sendResponseRaw bytes _).2.socket = (sendResponseRaw bytes s2).2.socket
    unfold sendResponseRaw
    split
    · rfl
    · split
      · rfl
      · simp only
        split
        · rfl
        · split <;> rfl
  · intro s4 s5 h4 h5
    have k4 := RIL_onUnsolicitedResponse_cache_kept ril c hV hS depth _ _ _ _ s4 hC h4
    have k5 := RIL_onUnsolicitedResponse_cache_kept ril c hV hS depth _ _ _ s4 s5 hR h5
    have hc5 : s5.s_lastNITZTimeData = none := by rw [k5.1, k4.1]
    obtain ⟨l4, e4, m4⟩ := RIL_onUnsolicitedResponse_trace_sends ril c depth _ _ _ _ s4 h4
    obtain ⟨l5, e5, m5⟩ := RIL_onUnsolicitedResponse_trace_sends ril c depth _ _ _ s4 s5 h5
    refine ⟨?_, hc5, l4 ++ l5, by rw [e5, e4, List.append_assoc], ?_⟩
    · simp only [onNewCommandConnect, h4, h5, hc5]
    · intro e he
      rcases List.mem_append.mp he with he | he
      · exact m4 e he
      · exact m5 e he

/-- The sample configuration after registration, with the 8 bytes of a
frame (1, 1008) in the cache: the handshake sends the connection notice and
the radio state change, hands the 8 bytes to `sendResponseRaw` and empties the
cache; a second handshake sends the two events again and nothing else. -/
theorem onNewCommandConnect_replay_witness :
    (∃ (s3 : RilState DispatchFn ResponseFn) (l : List (Event DispatchFn)),
      onNewCommandConnect sampleRil sampleEnums 2
          { sampleRegistered with
            s_lastNITZTimeData := some [1, 0, 0, 0, 240, 3, 0, 0], s_lastNITZTimeDataSize := 8 }
        = some s3
      ∧ s3.trace = sampleRegistered.trace ++ l
          ++ [Event.sendResponseRaw [1, 0, 0, 0, 240, 3, 0, 0] 8]
      ∧ (∀ e ∈ l, ∃ d, e = Event.sendResponse d)
      ∧ s3.s_lastNITZTimeData = none)
    ∧ ((onNewCommandConnect sampleRil sampleEnums 2
          { sampleRegistered with
            s_lastNITZTimeData := some [1, 0, 0, 0, 240, 3, 0, 0],
            s_lastNITZTimeDataSize := 8 }).map (fun s3 => (s3.trace, s3.socket.wire))
        = some ([Event.sendResponse [1, 0, 0, 0, 10, 4, 0, 0, 0, 0, 0, 0],
                 Event.sendResponse [1, 0, 0, 0, 232, 3, 0, 0, 10, 0, 0, 0],
                 Event.sendResponseRaw [1, 0, 0, 0, 240, 3, 0, 0] 8],
                [0, 0, 0, 12, 1, 0, 0, 0, 10, 4, 0, 0, 0, 0, 0, 0,
                 0, 0, 0, 12, 1, 0, 0, 0, 232, 3, 0, 0, 10, 0, 0, 0,
                 0, 0, 0, 8, 1, 0, 0, 0, 240, 3, 0, 0]))
    ∧ (((onNewCommandConnect sampleRil sampleEnums 2
          { sampleRegistered with
            s_lastNITZTimeData := some [1, 0, 0, 0, 240, 3, 0, 0],
            s_lastNITZTimeDataSize := 8 }).bind
          (onNewCommandConnect sampleRil sampleEnums 2)).map
          (fun s5 => (s5.trace, s5.s_lastNITZTimeData))
        = some ([Event.sendResponse [1, 0, 0, 0, 10, 4, 0, 0, 0, 0, 0, 0],
                 Event.sendResponse [1, 0, 0, 0, 232, 3, 0, 0, 10, 0, 0, 0],
                 Event.sendResponseRaw [1, 0, 0, 0, 240, 3, 0, 0] 8,
                 Event.sendResponse [1, 0, 0, 0, 10, 4, 0, 0, 0, 0, 0, 0],
                 Event.sendResponse [1, 0, 0, 0, 232, 3, 0, 0, 10, 0, 0, 0]], none)) := by
  refine ⟨?_, rfl, rfl⟩
  obtain ⟨s3, l, hrun, htr, hl, _, hnone, _⟩ := onNewCommandConnect_replay sampleRil sampleEnums 2
    { sampleRegistered with
      s_lastNITZTimeData := some [1, 0, 0, 0, 240, 3, 0, 0], s_lastNITZTimeDataSize := 8 }
    _ _ [1, 0, 0, 0, 240, 3, 0, 0] (by decide) (by decide) (by decide) (by decide) rfl rfl rfl rfl
  exact ⟨s3, l, hrun, htr, hl, hnone⟩

/-! ## Registration -/

theorem RIL_register_cases (c : RilEnums) (callbacks : Option RIL_RadioFunctions)
    (s : RilState δ ρ) :
    RIL_register c callbacks s = s
    ∨ ∃ cb, callbacks = some cb ∧ c.RIL_VERSION_MIN ≤ cb.version ∧ cb.version ≤ c.RIL_VERSION
        ∧ ¬ s.s_registerCalled > 0
        ∧ RIL_register c callbacks s = { s with s_callbacks := cb, s_registerCalled := 1 } := by
  cases callbacks with
  | none => left; rfl
  | some cb =>
    simp only [RIL_register]
    by_cases h1 : cb.version < c.RIL_VERSION_MIN
    · left; rw [if_pos h1]
    · by_cases h2 : cb.version > c.RIL_VERSION
      · left; rw [if_neg h1, if_pos h2]
      · by_cases h3 : s.s_registerCalled > 0
        · left; rw [if_neg h1, if_neg h2, if_pos h3]
        · right
          refine ⟨cb, rfl, by omega, by omega, h3, ?_⟩
          rw [if_neg h1, if_neg h2, if_neg h3]

theorem registerAll_registered (c : RilEnums) (cbs : List (Option RIL_RadioFunctions)) :
    ∀ s : RilState δ ρ, s.s_registerCalled > 0 → registerAll c cbs s = s := by
  induction cbs with
  | nil => intro s _; rfl
  | cons cb rest ih =>
    intro s hs
    have h1 : RIL_register c cb s = s := by
      rcases RIL_register_cases c cb s with h | ⟨_, _, _, _, hn, _⟩
      · exact h
      · exact absurd hs hn
    simp only [registerAll, h1]
    exact ih s hs

/-- C28. `RIL_register` leaves the state, and with it the stored table, the
version and `s_registerCalled`, as it was when its argument is NULL, when the
version supplied is below `RIL_VERSION_MIN` or above `RIL_VERSION`, or when
`s_registerCalled` is already positive; otherwise it stores the table supplied
and sets `s_registerCalled` to 1. Over any sequence of calls either nothing is
stored, or exactly one call stores its table: the calls before it and after
it leave the state as it was. -/
theorem RIL_register_spec (c : RilEnums) (callbacks : Option RIL_RadioFunctions)
    (s : RilState δ ρ) :
    ((callbacks = none
        ∨ (∃ cb, callbacks = some cb
            ∧ (cb.version < c.RIL_VERSION_MIN ∨ cb.version > c.RIL_VERSION))
        ∨ s.s_registerCalled > 0) →
      RIL_register c callbacks s = s)
    ∧ (∀ cb, callbacks = some cb → c.RIL_VERSION_MIN ≤ cb.version →
        cb.version ≤ c.RIL_VERSION → ¬ s.s_registerCalled > 0 →
        RIL_register c callbacks s = { s with s_callbacks := cb, s_registerCalled := 1 }
        ∧ (RIL_register c callbacks s).s_callbacks.version = cb.version)
    ∧ (∀ cbs : List (Option RIL_RadioFunctions),
        registerAll c cbs s = s
        ∨ ∃ pre cb post, cbs = pre ++ some cb :: post
            ∧ registerAll c pre s = s
            ∧ RIL_register c (some cb) s = { s with s_callbacks := cb, s_registerCalled := 1 }
            ∧ registerAll c cbs s = { s with s_callbacks := cb, s_registerCalled := 1 }) := by
  refine ⟨?_, ?_, ?_⟩
  · intro h
    rcases RIL_register_cases c callbacks s with h1 | ⟨cb, hcb, hmin, hmax, hn, _⟩
    · exact h1
    · rcases h with h | ⟨cb2, hcb2, hv⟩ | h
      · rw [h] at hcb; cases hcb
      · rw [hcb2] at hcb
        cases hcb
        omega
      · exact absurd h hn
  · intro cb hcb hmin hmax hn
    have h1 : ¬ cb.version < c.RIL_VERSION_MIN := by omega
    have h2 : ¬ cb.version > c.RIL_VERSION := by omega
    rw [hcb]
    simp only [RIL_register, h1, h2, hn, if_false, and_self]
  · intro cbs
    induction cbs with
    | nil => left; rfl
    | cons cb rest ih =>
      rcases RIL_register_cases c cb s with h1 | ⟨x, hx, _, _, hn, hw⟩
      · rcases ih with h | ⟨pre, y, post, hsplit, hpre, hone, hall⟩
        · left
          simp only [registerAll, h1, h]
        · right
          refine ⟨cb :: pre, y, post, by rw [hsplit]; rfl, ?_, hone, ?_⟩
          · simp only [registerAll, h1, hpre]
          · simp only [registerAll, h1, hall]
      · right
        refine ⟨[], x, rest, by rw [hx]; rfl, rfl, by rw [← hx]; exact hw, ?_⟩
        simp only [registerAll, hw]
        exact registerAll_registered c rest _ (by show (1 : Int) > 0; decide)

/-- The sample state and versions 6 to 15: NULL, version 5 and version 16
are turned away; `sampleCallbacks` (version 11) is stored; and of the calls
with versions 5, 11 and 12 in a row only the second stores its table. -/
theorem RIL_register_spec_witness :
    RIL_register sampleEnums none sampleState = sampleState
    ∧ RIL_register sampleEnums (some { sampleCallbacks with version := 5 }) sampleState
        = sampleState
    ∧ RIL_register sampleEnums (some sampleCallbacks) sampleRegistered = sampleRegistered
    ∧ (RIL_register sampleEnums (some sampleCallbacks) sampleState
          = { sampleState with s_callbacks := sampleCallbacks, s_registerCalled := 1 }
        ∧ (RIL_register sampleEnums (some sampleCallbacks) sampleState).s_callbacks.version = 11)
    ∧ registerAll sampleEnums
        [some { sampleCallbacks with version := 5 }, some sampleCallbacks,
         some { sampleCallbacks with version := 12 }] sampleState
      = { sampleState with s_callbacks := sampleCallbacks, s_registerCalled := 1 } :=
  ⟨(RIL_register_spec sampleEnums none sampleState).1 (Or.inl rfl),
   (RIL_register_spec sampleEnums (some { sampleCallbacks with version := 5 }) sampleState).1
      (Or.inr (Or.inl ⟨_, rfl, Or.inl (by decide)⟩)),
   (RIL_register_spec sampleEnums (some sampleCallbacks) sampleRegistered).1
      (Or.inr (Or.inr (by decide))),
   (RIL_register_spec sampleEnums (some sampleCallbacks) sampleState).2.1 sampleCallbacks rfl
      (by decide) (by decide) (by decide),
   rfl⟩

/-! ## The frame on the wire -/

theorem blockingWriteLoop_ok (script : List WriteResult) :
    ∀ (toWrite wire : List Nat), WriteResult.failed ∉ script →
      ∃ rest, blockingWriteLoop script toWrite wire = (0, rest, wire ++ toWrite, false)
        ∧ WriteResult.failed ∉ rest := by
  induction script with
  | nil =>
    intro toWrite wire _
    exact ⟨[], rfl, by simp⟩
  | cons r rest ih =>
    intro toWrite wire hok
    have hrest : WriteResult.failed ∉ rest := fun h => hok (List.mem_cons_of_mem _ h)
    by_cases he : toWrite = []
    · refine ⟨r :: rest, ?_, hok⟩
      simp only [blockingWriteLoop, he, if_true, List.append_nil]
    · cases r with
      | written n =>
        obtain ⟨rest2, h1, h2⟩ := ih (toWrite.drop n) (wire ++ toWrite.take n) hrest
        refine ⟨rest2, ?_, h2⟩
        simp only [blockingWriteLoop, he, if_false, h1, List.append_assoc,
          List.take_append_drop]
      | eintr =>
        obtain ⟨rest2, h1, h2⟩ := ih toWrite wire hrest
        exact ⟨rest2, by simp only [blockingWriteLoop, he, if_false, h1], h2⟩
      | eagain =>
        obtain ⟨rest2, h1, h2⟩ := ih toWrite wire hrest
        exact ⟨rest2, by simp only [blockingWriteLoop, he, if_false, h1], h2⟩
      | failed => exact absurd (List.mem_cons_self _ _) hok

theorem blockingWrite_ok (buffer : List Nat) (k : CommandSocket) (hopen : k.closed = false)
    (hok : WriteResult.failed ∉ k.writeResults) :
    (blockingWrite buffer k).1 = 0
    ∧ (blockingWrite buffer k).2.wire = k.wire ++ buffer
    ∧ (blockingWrite buffer k).2.closed = false
    ∧ WriteResult.failed ∉ (blockingWrite buffer k).2.writeResults := by
  unfold blockingWrite
  by_cases he : buffer = []
  · rw [if_pos he, he]
    exact ⟨rfl, by simp, hopen, hok⟩
  · obtain ⟨rest, h1, h2⟩ := blockingWriteLoop_ok k.writeResults buffer k.wire hok
    rw [if_neg he, hopen]
    simp only [Bool.false_eq_true, if_false, h1]
    exact ⟨trivial, trivial, trivial, h2⟩

/-- C29. With a command connection open (`s_fdCommand` not negative, the
descriptor not closed), a payload of `n` bytes with `n` at most
`MAX_COMMAND_BYTES`, and no `write` that fails, `sendResponseRaw` returns 0 and
has put on the wire exactly 4 + n bytes: the four bytes of `n` in network
order, most significant first, then the payload as it is. Partial writes and
interrupted ones are allowed. -/
theorem sendResponseRaw_wire (data : List Nat) (s : RilState δ ρ)
    (hfd : ¬ s.s_fdCommand < 0) (hopen : s.socket.closed = false)
    (hlen : data.length ≤ MAX_COMMAND_BYTES)
    (hok : WriteResult.failed ∉ s.socket.writeResults) :
    (sendResponseRaw data s).1 = 0
    ∧ (sendResponseRaw data s).2.socket.wire = s.socket.wire ++ htonl data.length ++ data
    ∧ htonl data.length = [0, 0, data.length / 256, data.length % 256]
    ∧ (htonl data.length ++ data).length = 4 + data.length
    ∧ data.length = 16777216 * 0 + 65536 * 0 + 256 * (data.length / 256) + data.length % 256
    ∧ (sendResponseRaw data s).2.socket.closed = false := by
  have hle : data.length ≤ 8192 := hlen
  have hh : htonl data.length = [0, 0, data.length / 256, data.length % 256] := by
    simp only [htonl, List.cons.injEq, and_true]
    omega
  have hnl : ¬ data.length > MAX_COMMAND_BYTES := by
    show ¬ data.length > 8192
    omega
  obtain ⟨a1, a2, a3, a4⟩ := blockingWrite_ok (htonl data.length) s.socket hopen hok
  obtain ⟨b1, b2, b3, _⟩ := blockingWrite_ok data (blockingWrite (htonl data.length) s.socket).2
    a3 a4
  have e1 : ¬ (blockingWrite (htonl data.length) s.socket).1 < 0 := by rw [a1]; decide
  have e2 : ¬ (blockingWrite data (blockingWrite (htonl data.length) s.socket).2).1 < 0 := by
    rw [b1]; decide
  simp only [sendResponseRaw, hfd, hnl, if_false, e1, e2]
  refine ⟨trivial, ?_, hh, ?_, by omega, b3⟩
  · rw [b2, a2]
  · rw [hh]
    simp only [List.length_append, List.length_cons, List.length_nil]

/-- The sample state (descriptor 9, open) and a payload of 300 bytes, with a
`write` that takes 2 bytes, one that is interrupted and one that takes 100
bytes before the rest goes through: the header is 0, 0, 1, 44. -/
theorem sendResponseRaw_wire_witness :
    (sendResponseRaw (List.replicate 300 7)
        { sampleState with
          socket := { writeResults := [WriteResult.written 2, WriteResult.eintr,
                        WriteResult.written 100],
                      wire := [], closed := false } }).1 = 0
    ∧ (sendResponseRaw (List.replicate 300 7)
        { sampleState with
          socket := { writeResults := [WriteResult.written 2, WriteResult.eintr,
                        WriteResult.written 100],
                      wire := [], closed := false } }).2.socket.wire
        = [] ++ htonl (List.replicate 300 7).length ++ List.replicate 300 7
    ∧ htonl (List.replicate 300 7).length
        = [0, 0, (List.replicate 300 7).length / 256, (List.replicate 300 7).length % 256]
    ∧ htonl 300 = [0, 0, 1, 44] := by
  have T := sendResponseRaw_wire (List.replicate 300 7)
    { sampleState with
      socket := { writeResults := [WriteResult.written 2, WriteResult.eintr,
                    WriteResult.written 100],
                  wire := [], closed := false } }
    (by decide) rfl (by rw [List.length_replicate]; decide) (by decide)
  exact ⟨T.1, T.2.1, T.2.2.1, by decide⟩


/-! ## Hexadecimal texts -/

theorem hexCharToInt_range (c : Nat) :
    hexCharToInt c ≤ 16
    ∧ (hexCharToInt c = 16
        ↔ ¬ ((48 ≤ c ∧ c ≤ 57) ∨ (65 ≤ c ∧ c ≤ 70) ∨ (97 ≤ c ∧ c ≤ 102))) := by
  unfold hexCharToInt INVALID_HEX_CHAR
  split
  · omega
  · split
    · omega
    · split
      · omega
      · omega

theorem hexCharToInt_hexDigit (upper : Bool) (n : Nat) (h : n < 16) :
    hexCharToInt (hexDigit upper n) = n := by
  unfold hexCharToInt hexDigit INVALID_HEX_CHAR
  cases upper <;> simp only [Bool.false_eq_true, if_false, if_true] <;>
    (split <;> split <;> (try split) <;> (try split) <;> omega)

theorem hexByte_value : ∀ a b : Fin 16,
    ((a.val <<< 4) ||| b.val) % 256 = 16 * a.val + b.val := by
  decide

theorem convertHexLoop_valid (cs : List Nat) :
    ∀ n, cs.length = 2 * n → (∀ c ∈ cs, hexCharToInt c ≠ 16) →
      ∃ bytes, convertHexLoop n cs = some (some bytes) ∧ bytes.length = n
        ∧ ∀ i, i < n → bytes.getD i 0
            = 16 * hexCharToInt (cs.getD (2 * i) 0) + hexCharToInt (cs.getD (2 * i + 1) 0) := by
  intro n
  induction n generalizing cs with
  | zero =>
    intro _ _
    exact ⟨[], rfl, rfl, fun i hi => absurd hi (Nat.not_lt_zero i)⟩
  | succ k ih =>
    intro hl hv
    match cs, hl, hv with
    | c1 :: c2 :: rest, hl, hv =>
      have hl2 : rest.length = 2 * k := by
        simp only [List.length_cons] at hl
        omega
      obtain ⟨bs, h1, h2, h3⟩ := ih rest hl2 (fun c hc => hv c (by simp [hc]))
      have hc1 := hv c1 (by simp)
      have hc2 := hv c2 (by simp)
      have r1 := (hexCharToInt_range c1).1
      have r2 := (hexCharToInt_range c2).1
      have hb := hexByte_value ⟨hexCharToInt c1, by omega⟩ ⟨hexCharToInt c2, by omega⟩
      simp only at hb
      refine ⟨(16 * hexCharToInt c1 + hexCharToInt c2) :: bs, ?_, by simp [h2], ?_⟩
      · simp only [convertHexLoop, INVALID_HEX_CHAR, hc1, hc2, or_self, if_false, h1,
          Option.map_some', hb]
      · intro i hi
        cases i with
        | zero => simp
        | succ j =>
          have := h3 j (by omega)
          simp only [List.getD_cons_succ, this]
          have e1 : 2 * (j + 1) = (2 * j) + 1 + 1 := by omega
          rw [e1]
          simp only [List.getD_cons_succ]
    | [], hl, _ => simp at hl
    | [_], hl, _ => simp at hl; omega

theorem convertHexLoop_invalid (cs : List Nat) :
    ∀ n, cs.length = 2 * n → (∃ c ∈ cs, hexCharToInt c = 16) →
      convertHexLoop n cs = some none := by
  intro n
  induction n generalizing cs with
  | zero =>
    intro hl hv
    have : cs = [] := List.length_eq_zero.mp (by omega)
    subst this
    obtain ⟨c, hc, _⟩ := hv
    simp at hc
  | succ k ih =>
    intro hl hv
    match cs, hl, hv with
    | c1 :: c2 :: rest, hl, hv =>
      have hl2 : rest.length = 2 * k := by
        simp only [List.length_cons] at hl
        omega
      by_cases hbad : hexCharToInt c1 = 16 ∨ hexCharToInt c2 = 16
      · simp only [convertHexLoop, INVALID_HEX_CHAR, hbad, if_true]
      · have hrest : ∃ c ∈ rest, hexCharToInt c = 16 := by
          obtain ⟨c, hc, h16⟩ := hv
          simp only [List.mem_cons] at hc
          rcases hc with hc | hc | hc
          · subst hc; exact absurd (Or.inl h16) hbad
          · subst hc; exact absurd (Or.inr h16) hbad
          · exact ⟨c, hc, h16⟩
        simp only [convertHexLoop, INVALID_HEX_CHAR, hbad, if_false, ih rest hl2 hrest,
          Option.map_some', Option.map_none']
    | [], hl, _ => simp at hl
    | [_], hl, _ => simp at hl; omega

theorem convertHexLoop_hexSpelling (upperHigh upperLow : Bool) (bytes : List Nat)
    (hb : ∀ b ∈ bytes, b < 256) :
    convertHexLoop bytes.length (hexSpelling upperHigh upperLow bytes) = some (some bytes) := by
  induction bytes with
  | nil => rfl
  | cons b rest ih =>
    have hb0 : b < 256 := hb b (by simp)
    have h1 := hexCharToInt_hexDigit upperHigh (b / 16) (by omega)
    have h2 := hexCharToInt_hexDigit upperLow (b % 16) (by omega)
    have hv := hexByte_value ⟨b / 16, by omega⟩ ⟨b % 16, by omega⟩
    simp only at hv
    have ih2 := ih (fun x hx => hb x (by simp [hx]))
    have hne1 : ¬ (b / 16 = 16) := by omega
    have hne2 : ¬ (b % 16 = 16) := by omega
    have hsum : 16 * (b / 16) + b % 16 = b := by omega
    have hsp : hexSpelling upperHigh upperLow (b :: rest)
        = hexDigit upperHigh (b / 16) :: hexDigit upperLow (b % 16)
            :: hexSpelling upperHigh upperLow rest := by
      simp [hexSpelling]
    rw [hsp]
    simp only [List.length_cons, convertHexLoop, h1, h2, INVALID_HEX_CHAR, hne1, hne2, or_self,
      if_false, hv, hsum, ih2, Option.map_some']

/-- C40. `hexCharToInt` returns 16 exactly for the characters that are no
hexadecimal digit and a value below 16 for the others, the same for a digit in
upper and in lower case. `convertHexStringToBytes` returns NULL when the
length is odd and when one of the characters is no digit; otherwise it returns
half as many bytes as there are characters, byte `i` being
`16 * hexCharToInt(c[2i]) + hexCharToInt(c[2i+1])`; so the spelling of a
sequence of bytes, in either case, converts to that sequence. -/
theorem convertHexStringToBytes_spec :
    (∀ c : Nat, hexCharToInt c ≤ 16
      ∧ (hexCharToInt c = INVALID_HEX_CHAR
          ↔ ¬ ((48 ≤ c ∧ c ≤ 57) ∨ (65 ≤ c ∧ c ≤ 70) ∨ (97 ≤ c ∧ c ≤ 102))))
    ∧ (∀ n : Nat, n < 16 →
        hexCharToInt (hexDigit true n) = n ∧ hexCharToInt (hexDigit false n) = n)
    ∧ (∀ (response : List Nat) (responseLen : Nat), responseLen % 2 ≠ 0 →
        convertHexStringToBytes response responseLen = some none)
    ∧ (∀ cs : List Nat, cs.length % 2 = 0 →
        (∃ c ∈ cs, hexCharToInt c = INVALID_HEX_CHAR) →
        convertHexStringToBytes cs cs.length = some none)
    ∧ (∀ cs : List Nat, cs.length % 2 = 0 →
        (∀ c ∈ cs, hexCharToInt c ≠ INVALID_HEX_CHAR) →
        ∃ bytes, convertHexStringToBytes cs cs.length = some (some bytes)
          ∧ bytes.length = cs.length / 2
          ∧ ∀ i, i < cs.length / 2 → bytes.getD i 0
              = 16 * hexCharToInt (cs.getD (2 * i) 0) + hexCharToInt (cs.getD (2 * i + 1) 0))
    ∧ (∀ (upperHigh upperLow : Bool) (bytes : List Nat), (∀ b ∈ bytes, b < 256) →
        convertHexStringToBytes (hexSpelling upperHigh upperLow bytes) (2 * bytes.length)
          = some (some bytes)) := by
  refine ⟨hexCharToInt_range, ?_, ?_, ?_, ?_, ?_⟩
  · intro n hn
    exact ⟨hexCharToInt_hexDigit true n hn, hexCharToInt_hexDigit false n hn⟩
  · intro response responseLen hodd
    unfold convertHexStringToBytes
    rw [if_pos hodd]
  · intro cs heven hbad
    have hl : cs.length = 2 * (cs.length / 2) := by omega
    unfold convertHexStringToBytes
    rw [if_neg (by omega)]
    exact convertHexLoop_invalid cs (cs.length / 2) hl hbad
  · intro cs heven hgood
    have hl : cs.length = 2 * (cs.length / 2) := by omega
    unfold convertHexStringToBytes
    rw [if_neg (by omega)]
    exact convertHexLoop_valid cs (cs.length / 2) hl hgood
  · intro upperHigh upperLow bytes hb
    unfold convertHexStringToBytes
    rw [if_neg (by omega)]
    have hd : 2 * bytes.length / 2 = bytes.length := by omega
    rw [hd]
    exact convertHexLoop_hexSpelling upperHigh upperLow bytes hb

/-- The bytes 65, 255 and 10 spelled `41fF0a`: the text converts back to the
three bytes. -/
theorem convertHexStringToBytes_spec_witness :
    (∀ b ∈ [65, 255, 10], b < 256)
    ∧ hexSpelling false true [65, 255, 10] = [52, 49, 102, 70, 48, 65]
    ∧ convertHexStringToBytes (hexSpelling false true [65, 255, 10]) (2 * [65, 255, 10].length)
        = some (some [65, 255, 10]) :=
  ⟨by decide, by decide,
    convertHexStringToBytes_spec.2.2.2.2.2 false true [65, 255, 10] (by decide)⟩

/-! ## Frames that are not sent -/

/-- C39. `sendResponseRaw` returns -1 and leaves the whole state, the wire
included, as it was when the command descriptor is negative and when the
payload is longer than `MAX_COMMAND_BYTES`, which is 8192. A payload of
exactly 8192 bytes passes the size test: on an open connection whose writes
do not fail it is sent, after its four-byte length, and 0 is returned. -/
theorem sendResponseRaw_rejected (data : List Nat) (s : RilState δ ρ) :
    MAX_COMMAND_BYTES = 8192
    ∧ (s.s_fdCommand < 0 → sendResponseRaw data s = (-1, s))
    ∧ (data.length > 8192 → sendResponseRaw data s = (-1, s))
    ∧ (data.length = 8192 → ¬ s.s_fdCommand < 0 → s.socket.closed = false →
        WriteResult.failed ∉ s.socket.writeResults →
        (sendResponseRaw data s).1 = 0
        ∧ (sendResponseRaw data s).2.socket.wire = s.socket.wire ++ [0, 0, 32, 0] ++ data) := by
  refine ⟨rfl, ?_, ?_, ?_⟩
  · intro hfd
    unfold sendResponseRaw
    rw [if_pos hfd]
  · intro hlen
    have hl : data.length > MAX_COMMAND_BYTES := hlen
    unfold sendResponseRaw
    by_cases hfd : s.s_fdCommand < 0
    · rw [if_pos hfd]
    · rw [if_neg hfd, if_pos hl]
  · intro hlen hfd hopen hok
    have hnl : ¬ data.length > MAX_COMMAND_BYTES := by
      show ¬ data.length > 8192
      omega
    have hh : htonl data.length = [0, 0, 32, 0] := by
      rw [hlen]
      rfl
    obtain ⟨a1, a2, a3, a4⟩ := blockingWrite_ok (htonl data.length) s.socket hopen hok
    obtain ⟨b1, b2, _, _⟩ := blockingWrite_ok data (blockingWrite (htonl data.length) s.socket).2
      a3 a4
    have e1 : ¬ (blockingWrite (htonl data.length) s.socket).1 < 0 := by rw [a1]; decide
    have e2 : ¬ (blockingWrite data (blockingWrite (htonl data.length) s.socket).2).1 < 0 := by
      rw [b1]; decide
    simp only [sendResponseRaw, hfd, hnl, if_false, e1, e2]
    refine ⟨trivial, ?_⟩
    rw [b2, a2, hh]

/-- A payload of 8193 bytes on the sample state: nothing is written. -/
theorem sendResponseRaw_rejected_witness :
    (List.replicate 8193 7).length > 8192
    ∧ sendResponseRaw (List.replicate 8193 7) sampleState = (-1, sampleState) :=
  ⟨by rw [List.length_replicate]; decide,
    (sendResponseRaw_rejected (List.replicate 8193 7) sampleState).2.2.1
      (by rw [List.length_replicate]; decide)⟩

/-! ## The rejection test and the table selection -/

/-- C36. When the rejection test of `processCommandBuffer` is false for a
request code, one of the four range tests that pick a table is true, and the
descriptor stored in the pending request is an entry of a table, not NULL;
this needs nothing of the table sizes and the family bases. When each table
ends at or before the base of the next family, the code 0 and the three
family bases are turned away by the test: their frames are answered with
`RIL_E_GENERIC_FAILURE` and nothing is queued or dispatched. -/
theorem processCommandBuffer_descriptor_set (ril : Ril δ ρ) (request : Int) :
    (¬ unsupportedRequest ril request →
      ((request > 0 ∧ request < ril.s_commands.length)
        ∨ (request > ril.RIL_SECOND_REQUEST_BASE
            ∧ request < ril.RIL_SECOND_REQUEST_BASE + ril.s_second_commands.length)
        ∨ (request > ril.RIL_IMS_REQUEST_BASE
            ∧ request < ril.RIL_IMS_REQUEST_BASE + ril.s_ims_commands.length)
        ∨ (request > ril.RIL_CUS_REQUEST_BASE
            ∧ request < ril.RIL_CUS_REQUEST_BASE + ril.s_cus_commands.length))
      ∧ ∃ ci, selectCommandInfo ril request = some ci)
    ∧ ((ril.s_commands.length : Int) ≤ ril.RIL_SECOND_REQUEST_BASE →
        ril.RIL_SECOND_REQUEST_BASE + ril.s_second_commands.length ≤ ril.RIL_IMS_REQUEST_BASE →
        ril.RIL_IMS_REQUEST_BASE + ril.s_ims_commands.length ≤ ril.RIL_CUS_REQUEST_BASE →
        (request = 0 ∨ request = ril.RIL_SECOND_REQUEST_BASE
          ∨ request = ril.RIL_IMS_REQUEST_BASE ∨ request = ril.RIL_CUS_REQUEST_BASE) →
        unsupportedRequest ril request
        ∧ ∀ (token : Int) (body : List Nat) (s : RilState δ ρ),
            -2147483648 ≤ request → request < 2147483648 →
            -2147483648 ≤ token → token < 2147483648 →
            processCommandBuffer ril (int32Bytes request ++ int32Bytes token ++ body) s
              = some (sendResponse
                  { mData := int32Bytes 0 ++ int32Bytes token
                      ++ int32Bytes ril.RIL_E_GENERIC_FAILURE,
                    mDataPos := 12 } s).2) := by
  constructor
  · intro hacc
    refine ⟨?_, selectCommandInfo_of_accepted ril request hacc⟩
    unfold unsupportedRequest at hacc
    omega
  · intro h1 h2 h3 hreq
    have hu : unsupportedRequest ril request := by
      unfold unsupportedRequest
      omega
    refine ⟨hu, ?_⟩
    intro token body s hr1 hr2 ht1 ht2
    have hh := Parcel.read_header request token body hr1 hr2 ht1 ht2
    unfold processCommandBuffer
    simp only [hh.1, hh.2, NO_ERROR, ne_eq, not_true_eq_false, if_false, hu, if_true,
      RESPONSE_SOLICITED, Parcel.three_ints]

/-- The sample configuration: the base 2000 of the IMS family is turned away,
and the frame that carries it is answered with the generic failure 2. -/
theorem processCommandBuffer_descriptor_set_witness :
    unsupportedRequest sampleRil 2000
    ∧ processCommandBuffer sampleRil (int32Bytes 2000 ++ int32Bytes 42 ++ []) sampleState
        = some (sendResponse
            { mData := int32Bytes 0 ++ int32Bytes 42 ++ int32Bytes 2, mDataPos := 12 }
            sampleState).2 :=
  ⟨((processCommandBuffer_descriptor_set sampleRil 2000).2 (by decide) (by decide) (by decide)
      (Or.inr (Or.inr (Or.inl rfl)))).1,
    ((processCommandBuffer_descriptor_set sampleRil 2000).2 (by decide) (by decide) (by decide)
      (Or.inr (Or.inr (Or.inl rfl)))).2 42 [] sampleState (by decide) (by decide) (by decide)
      (by decide)⟩


/-! ## The signal strength record by its length, and the SIM refresh -/

theorem ints_bytes_length (xs : List Int) : (xs.flatMap int32Bytes).length = 4 * xs.length := by
  induction xs with
  | nil => rfl
  | cons x rest ih =>
    simp only [List.flatMap_cons, List.length_append, int32Bytes_length, ih, List.length_cons]
    omega

theorem list_at_least_seven (xs : List Int) (h : 7 ≤ xs.length) :
    ∃ a0 a1 a2 a3 a4 a5 a6 rest, xs = a0 :: a1 :: a2 :: a3 :: a4 :: a5 :: a6 :: rest := by
  rcases xs with _ | ⟨a0, _ | ⟨a1, _ | ⟨a2, _ | ⟨a3, _ | ⟨a4, _ | ⟨a5, _ | ⟨a6, rest⟩⟩⟩⟩⟩⟩⟩
  all_goals first
    | exact ⟨_, _, _, _, _, _, _, _, rfl⟩
    | (exfalso; simp only [List.length_cons, List.length_nil] at h; omega)

theorem list_at_least_five (xs : List Int) (h : 5 ≤ xs.length) :
    ∃ a0 a1 a2 a3 a4 rest, xs = a0 :: a1 :: a2 :: a3 :: a4 :: rest := by
  rcases xs with _ | ⟨a0, _ | ⟨a1, _ | ⟨a2, _ | ⟨a3, _ | ⟨a4, rest⟩⟩⟩⟩⟩
  all_goals first
    | exact ⟨_, _, _, _, _, _, rfl⟩
    | (exfalso; simp only [List.length_cons, List.length_nil] at h; omega)

theorem responseRilSignalStrength_v5_only (version : Int) (h : RilH) (p : Parcel)
    (responselen : Nat) (a0 a1 a2 a3 a4 a5 a6 : Int) (lte : List Int)
    (hpos : p.mDataPos = p.mData.length)
    (h5 : responselen ≥ h.sizeof_RIL_SignalStrength_v5)
    (h6 : ¬ responselen ≥ h.sizeof_RIL_SignalStrength_v6) :
    responseRilSignalStrength version h p
        (some (Data.ints (a0 :: a1 :: a2 :: a3 :: a4 :: a5 :: a6 :: lte))) responselen
      = some (0,
          { mData := p.mData ++ [a0, a1, a2, a3, a4, a5, a6, 99, 2147483647, 2147483647,
              2147483647, 2147483647].flatMap int32Bytes,
            mDataPos := p.mData.length + 48 }) := by
  have h7 := writeInts_at_end [a0, a1, a2, a3, a4, a5, a6] p hpos
  have h12 := writeInts_at_end [99, INT_MAX, INT_MAX, INT_MAX, INT_MAX]
    (writeInts p [a0, a1, a2, a3, a4, a5, a6])
    (by rw [h7]; simp [int32Bytes_length])
  simp only [responseRilSignalStrength, h5, h6, if_true, if_false]
  rw [if_neg (by simp), h12, h7]
  simp [INT_MAX, int32Bytes_length]

theorem responseRilSignalStrength_short (version : Int) (h : RilH) (p : Parcel)
    (responselen : Nat) (xs : List Int)
    (hpos : p.mDataPos = p.mData.length)
    (h5 : ¬ responselen ≥ h.sizeof_RIL_SignalStrength_v5)
    (h4 : responselen % 4 = 0) (hmem : responselen / 4 ≤ xs.length) :
    responseRilSignalStrength version h p (some (Data.ints xs)) responselen
      = some (0,
          { mData := p.mData
              ++ (xs.take (responselen / 4)
                    ++ List.replicate (7 - responselen / 4) 0).flatMap int32Bytes,
            mDataPos := p.mData.length
              + 4 * (xs.take (responselen / 4)
                      ++ List.replicate (7 - responselen / 4) (0 : Int)).length }) := by
  have ha := writeInts_at_end (xs.take (responselen / 4)) p hpos
  have hb := writeInts_at_end (List.replicate (7 - responselen / 4) (0 : Int))
    (writeInts p (xs.take (responselen / 4)))
    (by rw [ha]; simp only [List.length_append, ints_bytes_length])
  simp only [responseRilSignalStrength, h5, h4, hmem, if_true, if_false]
  rw [if_neg (by simp), hb, ha]
  simp only [List.length_append, ints_bytes_length, List.flatMap_append, List.append_assoc]
  have e : p.mData.length + 4 * (xs.take (responselen / 4)).length
        + 4 * (List.replicate (7 - responselen / 4) (0 : Int)).length
      = p.mData.length + 4 * ((xs.take (responselen / 4)).length
        + (List.replicate (7 - responselen / 4) (0 : Int)).length) := by omega
  rw [e]

/-- C38. At a version of 6 or less and for a record of at least
`sizeof(RIL_SignalStrength_v6)` bytes, `responseRilSignalStrength` writes an
LTE signalStrength of -1 as 99 and any other LTE signalStrength as it is, and
writes an LTE rsrp `v` with -2147483648 < v < -1 as `-v`, which is positive
and fits an `int`. -/
theorem responseRilSignalStrength_lte_old (version : Int) (h : RilH) (p : Parcel)
    (responselen : Nat)
    (gwSignalStrength gwBitErrorRate cdmaDbm cdmaEcio evdoDbm evdoEcio evdoSignalNoiseRatio
      signalStrength rsrp rsrq rssnr cqi : Int) (more : List Int)
    (hpos : p.mDataPos = p.mData.length)
    (h5 : responselen ≥ h.sizeof_RIL_SignalStrength_v5)
    (h6 : responselen ≥ h.sizeof_RIL_SignalStrength_v6) (hv : version ≤ 6) :
    ∃ lteSignalStrength lteRsrp lteRsrq lteCqi : Int,
      responseRilSignalStrength version h p
          (some (Data.ints (gwSignalStrength :: gwBitErrorRate :: cdmaDbm :: cdmaEcio
            :: evdoDbm :: evdoEcio :: evdoSignalNoiseRatio :: signalStrength :: rsrp :: rsrq
            :: rssnr :: cqi :: more))) responselen
        = some (0,
            { mData := p.mData ++ [gwSignalStrength, gwBitErrorRate, cdmaDbm, cdmaEcio,
                  evdoDbm, evdoEcio, evdoSignalNoiseRatio, lteSignalStrength, lteRsrp,
                  lteRsrq, rssnr, lteCqi].flatMap int32Bytes,
              mDataPos := p.mData.length + 48 })
      ∧ (signalStrength = -1 → lteSignalStrength = 99)
      ∧ (signalStrength ≠ -1 → lteSignalStrength = signalStrength)
      ∧ (-2147483648 < rsrp → rsrp < -1 →
          lteRsrp = -rsrp ∧ 0 < lteRsrp ∧ lteRsrp ≤ 2147483647) := by
  refine ⟨if signalStrength = -1 then 99 else signalStrength,
    if rsrp = -1 then 2147483647 else if rsrp < -1 then -rsrp else rsrp,
    if rsrq = -1 then 2147483647 else rsrq,
    if cqi = -1 then 2147483647 else cqi,
    responseRilSignalStrength_full_old version h p responselen gwSignalStrength gwBitErrorRate
      cdmaDbm cdmaEcio evdoDbm evdoEcio evdoSignalNoiseRatio signalStrength rsrp rsrq rssnr
      cqi more hpos h5 h6 hv, ?_, ?_, ?_⟩
  · intro h1
    rw [if_pos h1]
  · intro h1
    rw [if_neg h1]
  · intro h1 h2
    have hne : ¬ rsrp = -1 := by omega
    rw [if_neg hne, if_pos h2]
    omega

/-- Version 6, a record of 48 bytes on the sample sizes, LTE signalStrength
-1 and rsrp -97: the eighth and ninth integers written are 99 and 97. -/
theorem responseRilSignalStrength_lte_old_witness :
    ∃ lteSignalStrength lteRsrp lteRsrq lteCqi : Int,
      responseRilSignalStrength 6 sampleRilH Parcel.empty
          (some (Data.ints [20, 1, 75, 125, 80, 130, 7, -1, -97, 10, 30, 5])) 48
        = some (0,
            { mData := Parcel.empty.mData ++ [20, 1, 75, 125, 80, 130, 7, lteSignalStrength,
                  lteRsrp, lteRsrq, 30, lteCqi].flatMap int32Bytes,
              mDataPos := Parcel.empty.mData.length + 48 })
      ∧ ((-1 : Int) = -1 → lteSignalStrength = 99)
      ∧ ((-1 : Int) ≠ -1 → lteSignalStrength = -1)
      ∧ ((-2147483648 : Int) < -97 → (-97 : Int) < -1 →
          lteRsrp = -(-97) ∧ 0 < lteRsrp ∧ lteRsrp ≤ 2147483647) :=
  responseRilSignalStrength_lte_old 6 sampleRilH Parcel.empty 48 20 1 75 125 80 130 7 (-1) (-97)
    10 30 5 [] rfl (by decide) (by decide) (by decide)

/-- C35. With the v5 record of seven `int`s (28 bytes) and the v6 record of
twelve (48 bytes), and a response that holds at least `responselen` bytes of
`int`s: for a length of at least 28 `responseRilSignalStrength` returns 0 and
writes twelve integers, the first seven as supplied, the last five being 99
and four times INT_MAX when the length is below 48; for a shorter length that
is a multiple of 4 it returns 0 and writes seven integers, the supplied ones
in order and then zeros; for a shorter length that is no multiple of 4 it
returns the invalid-response code with the parcel as it was. A NULL response
of length 0 gives seven zeros. -/
theorem responseRilSignalStrength_count (version : Int) (h : RilH) (p : Parcel) (xs : List Int)
    (responselen : Nat)
    (hpos : p.mDataPos = p.mData.length)
    (h5 : h.sizeof_RIL_SignalStrength_v5 = 28) (h6 : h.sizeof_RIL_SignalStrength_v6 = 48)
    (hmem : responselen ≤ 4 * xs.length) :
    (responselen ≥ 28 →
      ∃ lte : List Int, lte.length = 5 ∧ (xs.take 7).length = 7
        ∧ responseRilSignalStrength version h p (some (Data.ints xs)) responselen
            = some (0,
                { mData := p.mData ++ (xs.take 7 ++ lte).flatMap int32Bytes,
                  mDataPos := p.mData.length + 48 })
        ∧ ((xs.take 7 ++ lte).flatMap int32Bytes).length = 4 * 12
        ∧ (responselen < 48 → lte = [99, 2147483647, 2147483647, 2147483647, 2147483647]))
    ∧ (responselen < 28 → responselen % 4 = 0 →
        responseRilSignalStrength version h p (some (Data.ints xs)) responselen
            = some (0,
                { mData := p.mData
                    ++ (xs.take (responselen / 4)
                          ++ List.replicate (7 - responselen / 4) 0).flatMap int32Bytes,
                  mDataPos := p.mData.length + 28 })
        ∧ (xs.take (responselen / 4)).length = responselen / 4
        ∧ (xs.take (responselen / 4)
              ++ List.replicate (7 - responselen / 4) (0 : Int)).length = 7)
    ∧ (responselen < 28 → responselen % 4 ≠ 0 →
        responseRilSignalStrength version h p (some (Data.ints xs)) responselen
          = some (RIL_ERRNO_INVALID_RESPONSE, p))
    ∧ responseRilSignalStrength version h p none 0
        = some (0, { mData := p.mData ++ (List.replicate 7 (0 : Int)).flatMap int32Bytes,
                     mDataPos := p.mData.length + 28 }) := by
  refine ⟨?_, ?_, ?_, ?_⟩
  · intro hge
    obtain ⟨a0, a1, a2, a3, a4, a5, a6, rest, hxs⟩ := list_at_least_seven xs (by omega)
    subst hxs
    have hge5 : responselen ≥ h.sizeof_RIL_SignalStrength_v5 := by rw [h5]; exact hge
    by_cases h48 : responselen ≥ 48
    · have hge6 : responselen ≥ h.sizeof_RIL_SignalStrength_v6 := by rw [h6]; exact h48
      obtain ⟨b0, b1, b2, b3, b4, more, hrest⟩ := list_at_least_five rest (by
        simp only [List.length_cons] at hmem
        omega)
      subst hrest
      by_cases hv : version ≤ 6
      · refine ⟨[if b0 = -1 then 99 else b0,
          if b1 = -1 then 2147483647 else if b1 < -1 then -b1 else b1,
          if b2 = -1 then 2147483647 else b2, b3, if b4 = -1 then 2147483647 else b4],
          rfl, rfl, ?_, ?_, fun hlt => absurd h48 (by omega)⟩
        · rw [responseRilSignalStrength_full_old version h p responselen a0 a1 a2 a3 a4 a5 a6
            b0 b1 b2 b3 b4 more hpos hge5 hge6 hv]
          rfl
        · rw [ints_bytes_length]
          rfl
      · refine ⟨[b0, b1, b2, b3, b4], rfl, rfl, ?_, ?_, fun hlt => absurd h48 (by omega)⟩
        · rw [responseRilSignalStrength_full_new version h p responselen a0 a1 a2 a3 a4 a5 a6
            b0 b1 b2 b3 b4 more hpos hge5 hge6 (by omega)]
          rfl
        · rw [ints_bytes_length]
          rfl
    · have hlt6 : ¬ responselen ≥ h.sizeof_RIL_SignalStrength_v6 := by rw [h6]; exact h48
      refine ⟨[99, 2147483647, 2147483647, 2147483647, 2147483647], rfl, rfl, ?_, ?_,
        fun _ => rfl⟩
      · rw [responseRilSignalStrength_v5_only version h p responselen a0 a1 a2 a3 a4 a5 a6 rest
          hpos hge5 hlt6]
        rfl
      · rw [ints_bytes_length]
        rfl
  · intro hlt h4
    have hlt5 : ¬ responselen ≥ h.sizeof_RIL_SignalStrength_v5 := by rw [h5]; omega
    have hnum : responselen / 4 ≤ xs.length := by omega
    have htake : (xs.take (responselen / 4)).length = responselen / 4 := by
      rw [List.length_take]
      omega
    have htot : (xs.take (responselen / 4)
        ++ List.replicate (7 - responselen / 4) (0 : Int)).length = 7 := by
      rw [List.length_append, htake, List.length_replicate]
      omega
    refine ⟨?_, htake, htot⟩
    rw [responseRilSignalStrength_short version h p responselen xs hpos hlt5 h4 hnum, htot]
  · intro hlt h4
    have hlt5 : ¬ responselen ≥ h.sizeof_RIL_SignalStrength_v5 := by rw [h5]; omega
    simp only [responseRilSignalStrength, hlt5, h4, if_false]
    rw [if_neg (by simp)]
  · have hb := writeInts_at_end (List.replicate 7 (0 : Int)) p hpos
    have h0 : ¬ (0 ≥ h.sizeof_RIL_SignalStrength_v5) := by rw [h5]; decide
    simp only [responseRilSignalStrength, h0, if_false]
    rw [if_neg (by simp)]
    simp only [Nat.zero_mod, if_true, Nat.zero_div, Nat.sub_zero]
    rw [hb]
    rfl

/-- The sample sizes: two integers in 8 bytes give the two and five zeros. -/
theorem responseRilSignalStrength_count_witness :
    responseRilSignalStrength 11 sampleRilH Parcel.empty (some (Data.ints [17, 3])) 8
        = some (0,
            { mData := Parcel.empty.mData
                ++ (([17, 3] : List Int).take (8 / 4)
                      ++ List.replicate (7 - 8 / 4) 0).flatMap int32Bytes,
              mDataPos := Parcel.empty.mData.length + 28 })
    ∧ (([17, 3] : List Int).take (8 / 4)).length = 8 / 4
    ∧ (([17, 3] : List Int).take (8 / 4) ++ List.replicate (7 - 8 / 4) (0 : Int)).length = 7 :=
  (responseRilSignalStrength_count 11 sampleRilH Parcel.empty [17, 3] 8 rfl rfl rfl
    (by decide)).2.1 (by decide) (by decide)

/-- C34. `responseSimRefresh` tests the negotiated version for being equal to
7: only then does it write result, ef_id and the aid text of the
`RIL_SimRefreshResponse_v7`. At every other version, those above 7 included,
it writes the first two `int`s of the response, which are the result and the
ef_id of such a record, and a NULL text in place of the aid. -/
theorem responseSimRefresh_version (version : Int) (js : Jstring) (p : Parcel)
    (r : RIL_SimRefreshResponse_v7) (responselen : Nat) :
    (version = 7 →
      responseSimRefresh version js p (some (Data.simRefresh r)) responselen
        = some (0, writeStringToParcel js (writeInts p [r.result, r.ef_id]) r.aid))
    ∧ (version ≠ 7 →
        responseSimRefresh version js p (some (Data.simRefresh r)) responselen
          = some (0, writeStringToParcel js (writeInts p [r.result, r.ef_id]) none)
        ∧ ∀ p0 p1 more,
            responseSimRefresh version js p (some (Data.ints (p0 :: p1 :: more))) responselen
              = some (0, writeStringToParcel js (writeInts p [p0, p1]) none)) := by
  constructor
  · intro hv
    simp only [responseSimRefresh, hv, if_true]
    rw [if_neg (by simp), if_neg (by simp)]
  · intro hv
    constructor
    · simp only [responseSimRefresh, hv, if_false]
      rw [if_neg (by simp), if_neg (by simp)]
    · intro p0 p1 more
      simp only [responseSimRefresh, hv, if_false]
      rw [if_neg (by simp), if_neg (by simp)]

/-- Version 11 and a record with result 1, ef_id 28423 and the aid `A0`: the
reply holds 1, 28423 and the length -1 of a NULL text, not the aid. -/
theorem responseSimRefresh_version_witness :
    responseSimRefresh 11 asciiJstring Parcel.empty
        (some (Data.simRefresh { result := 1, ef_id := 28423, aid := some [65, 48] })) 24
      = some (0, { mData := int32Bytes 1 ++ int32Bytes 28423 ++ int32Bytes (-1), mDataPos := 12 })
    ∧ responseSimRefresh 7 asciiJstring Parcel.empty
        (some (Data.simRefresh { result := 1, ef_id := 28423, aid := some [65, 48] })) 24
      = some (0, { mData := int32Bytes 1 ++ int32Bytes 28423 ++ string16Bytes [65, 48],
                   mDataPos := 20 }) :=
  ⟨((responseSimRefresh_version 11 asciiJstring Parcel.empty
      { result := 1, ef_id := 28423, aid := some [65, 48] } 24).2 (by decide)).1.trans
      (by decide),
   ((responseSimRefresh_version 7 asciiJstring Parcel.empty
      { result := 1, ef_id := 28423, aid := some [65, 48] } 24).1 rfl).trans (by decide)⟩


/-! ## The voice radio technology of a radio that is off -/

theorem decodeVoiceRadioTechnology_outside (c : RilEnums) (st : Int)
    (h : st ∉ c.legacyStates) : decodeVoiceRadioTechnology c st = -1 := by
  simp only [RilEnums.legacyStates, List.mem_cons, List.mem_singleton, List.not_mem_nil,
    or_false, not_or] at h
  obtain ⟨h1, h2, h3, h4, h5, h6, h7, h8⟩ := h
  simp only [decodeVoiceRadioTechnology, h1, h2, h3, h4, h5, h6, h7, h8, or_self, if_false]

theorem radioStates_off (c : RilEnums) (hd : c.radioStates.Nodup) :
    c.RADIO_STATE_OFF ∉ c.legacyStates ∧ c.RADIO_STATE_UNAVAILABLE ∉ c.legacyStates
    ∧ c.RADIO_STATE_ON ≠ c.RADIO_STATE_OFF ∧ c.RADIO_STATE_ON ≠ c.RADIO_STATE_UNAVAILABLE := by
  refine ⟨fun hm => (radioStates_facts c _ hd hm).1 rfl,
    fun hm => (radioStates_facts c _ hd hm).2.1 rfl, ?_, ?_⟩
  · simp only [RilEnums.radioStates, List.nodup_cons, List.mem_cons, List.mem_singleton,
      List.not_mem_nil, or_false, not_or] at hd
    exact fun e => hd.1.2.2.2.2.2.2.2.2.2 e.symm
  · simp only [RilEnums.radioStates, List.nodup_cons, List.mem_cons, List.mem_singleton,
      List.not_mem_nil, or_false, not_or] at hd
    exact fun e => hd.2.1.2.2.2.2.2.2.2.2 e.symm

/-- C37. With distinct radio state values, a vendor that reports
`RADIO_STATE_OFF` or `RADIO_STATE_UNAVAILABLE`, and a pending request that is
neither cancelled nor local and whose address no other pending request has:
`dispatchVoiceRadioTech` returns, has called `sendResponse` once, with the
parcel (0, token, RIL_E_RADIO_NOT_AVAILABLE) and no body, has added no call of
the vendor to the trace, has removed the request from the pending list and has
stored -1 in `voiceRadioTech`. The second completion, with the generic
failure, which the fall-through reaches, finds no request for the token and
leaves the state as it is. -/
theorem dispatchVoiceRadioTech_radio_off (ril : Ril δ ρ) (c : RilEnums) (p : Parcel)
    (pRI : RequestInfo δ ρ) (s : RilState δ ρ) (front back : List (RequestInfo δ ρ))
    (hd : c.radioStates.Nodup)
    (hoff : s.radioState = c.RADIO_STATE_OFF ∨ s.radioState = c.RADIO_STATE_UNAVAILABLE)
    (hs : s.s_pendingRequests = front ++ pRI :: back)
    (huniq : ∀ x ∈ front ++ back, x.addr ≠ pRI.addr)
    (hl : ¬ pRI.local_ > 0) (hc : pRI.cancelled = 0) :
    ∃ s1, dispatchVoiceRadioTech ril c p pRI s = some s1
      ∧ s1 = { (sendResponse
                  { mData := int32Bytes 0 ++ int32Bytes pRI.token
                      ++ int32Bytes c.RIL_E_RADIO_NOT_AVAILABLE,
                    mDataPos := 12 }
                  { s with s_pendingRequests := front ++ back }).2 with voiceRadioTech := -1 }
      ∧ s1.trace = s.trace ++ [Event.sendResponse
          (int32Bytes 0 ++ int32Bytes pRI.token ++ int32Bytes c.RIL_E_RADIO_NOT_AVAILABLE)]
      ∧ s1.s_pendingRequests = front ++ back
      ∧ (∀ x ∈ s1.s_pendingRequests, x.addr ≠ pRI.addr)
      ∧ RIL_onRequestComplete ril (some pRI.addr) ril.RIL_E_GENERIC_FAILURE none 0 s1 = some s1 := by
  obtain ⟨hoffL, hunL, hoffOn, hunOn⟩ := radioStates_off c hd
  have hst : s.radioState ∉ c.legacyStates := by
    rcases hoff with h | h
    · rw [h]; exact hoffL
    · rw [h]; exact hunL
  have hnon : ¬ c.RADIO_STATE_ON = s.radioState := by
    rcases hoff with h | h
    · rw [h]; exact hoffOn
    · rw [h]; exact hunOn
  have hcond : c.RADIO_STATE_UNAVAILABLE = s.radioState ∨ c.RADIO_STATE_OFF = s.radioState := by
    rcases hoff with h | h
    · exact Or.inr h.symm
    · exact Or.inl h.symm
  have hdec := decodeVoiceRadioTechnology_outside c s.radioState hst
  have hf : ∀ x ∈ front, x.addr ≠ pRI.addr := fun x hx =>
    huniq x (List.mem_append_left _ hx)
  have hfirst := RIL_onRequestComplete_null ril s front back pRI c.RIL_E_RADIO_NOT_AVAILABLE 0
    hs hf hl hc
  have hpend : (sendResponse
      { mData := int32Bytes 0 ++ int32Bytes pRI.token ++ int32Bytes c.RIL_E_RADIO_NOT_AVAILABLE,
        mDataPos := 12 }
      { s with s_pendingRequests := front ++ back }).2.s_pendingRequests = front ++ back :=
    (sendResponse_frame _ _).1
  have htrace := (sendResponse_frame
      { mData := int32Bytes 0 ++ int32Bytes pRI.token ++ int32Bytes c.RIL_E_RADIO_NOT_AVAILABLE,
        mDataPos := 12 }
      { s with s_pendingRequests := front ++ back }).2.1
  have hsecond := RIL_onRequestComplete_absent ril (some pRI.addr) ril.RIL_E_GENERIC_FAILURE
    none 0
    { (sendResponse
        { mData := int32Bytes 0 ++ int32Bytes pRI.token
            ++ int32Bytes c.RIL_E_RADIO_NOT_AVAILABLE,
          mDataPos := 12 }
        { s with s_pendingRequests := front ++ back }).2 with voiceRadioTech := -1 }
    (by
      intro a ha r hr
      cases ha
      exact huniq r (by rw [← hpend]; exact hr))
  refine ⟨_, ?_, rfl, htrace, hpend, ?_, hsecond⟩
  · simp only [dispatchVoiceRadioTech, hcond, if_true, hfirst, hnon, if_false, hdec]
    rw [if_pos (show (-1 : Int) < 0 by decide)]
    exact hsecond
  · intro x hx
    exact huniq x (by rw [← hpend]; exact hx)

/-- The sample configuration with a vendor that reports state 0
(`RADIO_STATE_OFF`) and the pending request at address 2 (token 7): one frame
(0, 7, 1) is sent and the request leaves the list. -/
theorem dispatchVoiceRadioTech_radio_off_witness :
    ∃ s1, dispatchVoiceRadioTech sampleRil sampleEnums Parcel.empty (sampleRequest 2 7 36)
          { sampleState with radioState := 0 } = some s1
      ∧ s1 = { (sendResponse
                  { mData := int32Bytes 0 ++ int32Bytes 7 ++ int32Bytes 1, mDataPos := 12 }
                  { sampleState with
                    radioState := 0
                    s_pendingRequests := [] ++ [sampleRequest 1 5 38] }).2
                with voiceRadioTech := -1 }
      ∧ s1.trace = [] ++ [Event.sendResponse (int32Bytes 0 ++ int32Bytes 7 ++ int32Bytes 1)]
      ∧ s1.s_pendingRequests = [] ++ [sampleRequest 1 5 38]
      ∧ (∀ x ∈ s1.s_pendingRequests, x.addr ≠ 2)
      ∧ RIL_onRequestComplete sampleRil (some 2) 2 none 0 s1 = some s1 :=
  dispatchVoiceRadioTech_radio_off sampleRil sampleEnums Parcel.empty (sampleRequest 2 7 36)
    { sampleState with radioState := 0 } [] [sampleRequest 1 5 38] (by decide) (Or.inl rfl) rfl
    (by decide) (by decide) rfl


/-! ## The dial decoder -/

theorem dispatchDial_invalid (js : Jstring) (sizeof_RIL_Dial sizeofPtr : Nat) (p : Parcel)
    (pRI : RequestInfo δ ρ) (s : RilState δ ρ)
    (h : (strdupReadString js p).2.readInt32.1 ≠ NO_ERROR ∨ (strdupReadString js p).1 = none) :
    dispatchDial js sizeof_RIL_Dial sizeofPtr p pRI s = invalidCommandBlock pRI s := by
  unfold dispatchDial
  exact if_pos h

theorem dispatchDial_old (js : Jstring) (sizeof_RIL_Dial sizeofPtr : Nat) (p : Parcel)
    (pRI : RequestInfo δ ρ) (s : RilState δ ρ) (ci : CommandInfo δ ρ)
    (h : ¬ ((strdupReadString js p).2.readInt32.1 ≠ NO_ERROR ∨ (strdupReadString js p).1 = none))
    (hv : s.s_callbacks.version < 3) (hci : pRI.pCI = some ci) :
    dispatchDial js sizeof_RIL_Dial sizeofPtr p pRI s
      = some { s with trace := s.trace
          ++ [Event.onRequest ci.requestNumber
                (some (Data.dial { address := (strdupReadString js p).1,
                                   clir := (strdupReadString js p).2.readInt32.2.1,
                                   uusInfo := none }))
                (sizeof_RIL_Dial - sizeofPtr) pRI.addr] } := by
  unfold dispatchDial
  refine (if_neg h).trans ?_
  refine (if_pos hv).trans ?_
  rw [hci]

theorem dispatchDial_uus_zero (js : Jstring) (sizeof_RIL_Dial sizeofPtr : Nat) (p : Parcel)
    (pRI : RequestInfo δ ρ) (s : RilState δ ρ) (ci : CommandInfo δ ρ)
    (h : ¬ ((strdupReadString js p).2.readInt32.1 ≠ NO_ERROR ∨ (strdupReadString js p).1 = none))
    (hv : ¬ s.s_callbacks.version < 3) (hci : pRI.pCI = some ci)
    (h2 : ¬ (strdupReadString js p).2.readInt32.2.2.readInt32.1 ≠ NO_ERROR)
    (h0 : (strdupReadString js p).2.readInt32.2.2.readInt32.2.1 = 0) :
    dispatchDial js sizeof_RIL_Dial sizeofPtr p pRI s
      = some { s with trace := s.trace
          ++ [Event.onRequest ci.requestNumber
                (some (Data.dial { address := (strdupReadString js p).1,
                                   clir := (strdupReadString js p).2.readInt32.2.1,
                                   uusInfo := none }))
                sizeof_RIL_Dial pRI.addr] } := by
  unfold dispatchDial
  refine (if_neg h).trans ?_
  refine (if_neg hv).trans ?_
  refine (if_neg h2).trans ?_
  refine (if_pos h0).trans ?_
  rw [hci]


/-- C33. For a payload that holds the address, the clir and then any bytes:
with a negotiated version below 3, `dispatchDial` calls the vendor once with a
dial record of that address and clir whose `uusInfo` is NULL and with the
length `sizeof(RIL_Dial)` less one pointer, whatever the bytes after the
clir are; with a version of 3 or more and a `uusPresent` of 0 after the clir,
the record is the same and the length is the full `sizeof(RIL_Dial)`. For
every payload whose address is NULL or cannot be read, or whose clir cannot
be read, the vendor is not called and the state stays as it is. -/
theorem dispatchDial_uus_absent (js : Jstring) (sizeof_RIL_Dial sizeofPtr : Nat)
    (pRI : RequestInfo δ ρ) (s : RilState δ ρ) (ci : CommandInfo δ ρ)
    (address : List Nat) (clir : Int) (tail : List Nat)
    (hci : pRI.pCI = some ci)
    (hx : (js.strdup8to16 address).length < 2147483647
      ∧ (∀ u ∈ js.strdup8to16 address, u < 65536)
      ∧ js.strndup16to8 (js.strdup8to16 address) = address)
    (hc1 : -2147483648 ≤ clir) (hc2 : clir < 2147483648) :
    (s.s_callbacks.version < 3 →
      dispatchDial js sizeof_RIL_Dial sizeofPtr
          (Parcel.setData (string16Bytes (js.strdup8to16 address) ++ int32Bytes clir ++ tail))
          pRI s
        = some { s with trace := s.trace
            ++ [Event.onRequest ci.requestNumber
                  (some (Data.dial { address := some address, clir := clir, uusInfo := none }))
                  (sizeof_RIL_Dial - sizeofPtr) pRI.addr] })
    ∧ (¬ s.s_callbacks.version < 3 →
        dispatchDial js sizeof_RIL_Dial sizeofPtr
            (Parcel.setData (string16Bytes (js.strdup8to16 address) ++ int32Bytes clir
              ++ int32Bytes 0 ++ tail))
            pRI s
          = some { s with trace := s.trace
              ++ [Event.onRequest ci.requestNumber
                    (some (Data.dial { address := some address, clir := clir, uusInfo := none }))
                    sizeof_RIL_Dial pRI.addr] })
    ∧ (∀ p : Parcel,
        (strdupReadString js p).1 = none ∨ (strdupReadString js p).2.readInt32.1 ≠ NO_ERROR →
        dispatchDial js sizeof_RIL_Dial sizeofPtr p pRI s = some s) := by
  have himg : ∀ post : List Nat,
      strdupReadString js
          (Parcel.setData (string16Bytes (js.strdup8to16 address) ++ int32Bytes clir ++ post))
        = (some address,
            { mData := string16Bytes (js.strdup8to16 address) ++ int32Bytes clir ++ post,
              mDataPos := (string16Bytes (js.strdup8to16 address)).length }) := by
    intro post
    have h := strdupReadString_image js
      (Parcel.setData (string16Bytes (js.strdup8to16 address) ++ int32Bytes clir ++ post))
      [] (int32Bytes clir ++ post) (some address)
      (by simp [Parcel.setData, optString16Bytes]) rfl
      (by
        intro t ht
        cases ht
        exact hx)
    rw [h]
    simp [Parcel.setData, optString16Bytes]
  have hclir : ∀ post : List Nat,
      (Parcel.mk (string16Bytes (js.strdup8to16 address) ++ int32Bytes clir ++ post)
          (string16Bytes (js.strdup8to16 address)).length).readInt32
        = (NO_ERROR, clir,
            { mData := string16Bytes (js.strdup8to16 address) ++ int32Bytes clir ++ post,
              mDataPos := (string16Bytes (js.strdup8to16 address)).length + 4 }) := by
    intro post
    exact Parcel.readInt32_at _ (string16Bytes (js.strdup8to16 address)) post clir rfl rfl hc1 hc2
  refine ⟨?_, ?_, ?_⟩
  · intro hv
    have hok : ¬ ((strdupReadString js (Parcel.setData
          (string16Bytes (js.strdup8to16 address) ++ int32Bytes clir ++ tail))).2.readInt32.1
            ≠ NO_ERROR
        ∨ (strdupReadString js (Parcel.setData
          (string16Bytes (js.strdup8to16 address) ++ int32Bytes clir ++ tail))).1 = none) := by
      rw [himg tail]
      simp only [hclir tail]
      simp
    rw [dispatchDial_old js sizeof_RIL_Dial sizeofPtr _ pRI s ci hok hv hci, himg tail]
    simp only [hclir tail]
  · intro hv
    have e : string16Bytes (js.strdup8to16 address) ++ int32Bytes clir ++ int32Bytes 0 ++ tail
        = string16Bytes (js.strdup8to16 address) ++ int32Bytes clir ++ (int32Bytes 0 ++ tail) := by
      simp only [List.append_assoc]
    have hzero :
        (Parcel.mk (string16Bytes (js.strdup8to16 address) ++ int32Bytes clir
            ++ (int32Bytes 0 ++ tail))
          ((string16Bytes (js.strdup8to16 address)).length + 4)).readInt32
        = (NO_ERROR, 0,
            { mData := string16Bytes (js.strdup8to16 address) ++ int32Bytes clir
                ++ (int32Bytes 0 ++ tail),
              mDataPos := (string16Bytes (js.strdup8to16 address) ++ int32Bytes clir).length
                + 4 }) := by
      exact Parcel.readInt32_at _ (string16Bytes (js.strdup8to16 address) ++ int32Bytes clir)
        tail 0 (by simp only [List.append_assoc])
        (by simp only [List.length_append, int32Bytes_length]) (by decide) (by decide)
    rw [e]
    have hok : ¬ ((strdupReadString js (Parcel.setData
          (string16Bytes (js.strdup8to16 address) ++ int32Bytes clir
            ++ (int32Bytes 0 ++ tail)))).2.readInt32.1 ≠ NO_ERROR
        ∨ (strdupReadString js (Parcel.setData
          (string16Bytes (js.strdup8to16 address) ++ int32Bytes clir
            ++ (int32Bytes 0 ++ tail)))).1 = none) := by
      rw [himg (int32Bytes 0 ++ tail)]
      simp only [hclir (int32Bytes 0 ++ tail)]
      simp
    have h2 : ¬ (strdupReadString js (Parcel.setData
          (string16Bytes (js.strdup8to16 address) ++ int32Bytes clir
            ++ (int32Bytes 0 ++ tail)))).2.readInt32.2.2.readInt32.1 ≠ NO_ERROR := by
      rw [himg (int32Bytes 0 ++ tail)]
      simp only [hclir (int32Bytes 0 ++ tail), hzero]
      simp
    have h0 : (strdupReadString js (Parcel.setData
          (string16Bytes (js.strdup8to16 address) ++ int32Bytes clir
            ++ (int32Bytes 0 ++ tail)))).2.readInt32.2.2.readInt32.2.1 = 0 := by
      rw [himg (int32Bytes 0 ++ tail)]
      simp only [hclir (int32Bytes 0 ++ tail), hzero]
    rw [dispatchDial_uus_zero js sizeof_RIL_Dial sizeofPtr _ pRI s ci hok hv hci h2 h0,
      himg (int32Bytes 0 ++ tail)]
    simp only [hclir (int32Bytes 0 ++ tail)]
  · intro p hbad
    rw [dispatchDial_invalid js sizeof_RIL_Dial sizeofPtr p pRI s hbad.symm]
    simp only [invalidCommandBlock, hci]

/-- The text `12` and the clir 1 followed by the four bytes 9, 9, 9, 9, at
version 2 on the sample state, with a record of 24 bytes and pointers of 8:
the vendor gets the address, the clir, no UUS info, and the length 16. -/
theorem dispatchDial_uus_absent_witness :
    dispatchDial asciiJstring 24 8
        (Parcel.setData (string16Bytes (asciiJstring.strdup8to16 [49, 50]) ++ int32Bytes 1
          ++ [9, 9, 9, 9]))
        (sampleRequest 2 7 10)
        { sampleState with s_callbacks := { sampleCallbacks with version := 2 } }
      = some { sampleState with
          s_callbacks := { sampleCallbacks with version := 2 }
          trace := [] ++ [Event.onRequest 10
            (some (Data.dial { address := some [49, 50], clir := 1, uusInfo := none }))
            (24 - 8) 2] } :=
  (dispatchDial_uus_absent asciiJstring 24 8 (sampleRequest 2 7 10)
    { sampleState with s_callbacks := { sampleCallbacks with version := 2 } }
    _ [49, 50] 1 [9, 9, 9, 9] rfl (by decide) (by decide) (by decide)).1 (by decide)


/-! ## The wake-release timers -/

theorem armWakeTimeout_armed (s1 : RilState δ ρ) (hv : s1.s_callbacks.version < 13) :
    (armWakeTimeout true s1).timers
        = s1.timers.map (fun i =>
            if some i.addr = s1.s_last_wake_timeout_info then { i with userParam := 1 } else i)
          ++ [if some (s1.allocated + 1) = s1.s_last_wake_timeout_info then
                { addr := s1.allocated + 1, userParam := 1 }
              else { addr := s1.allocated + 1, userParam := 0 }]
    ∧ (armWakeTimeout true s1).s_last_wake_timeout_info = some (s1.allocated + 1)
    ∧ (armWakeTimeout true s1).allocated = s1.allocated + 1 := by
  unfold armWakeTimeout
  rw [if_pos ⟨hv, rfl⟩]
  simp only [internalRequestTimedCallback, List.map_append, List.map_cons, List.map_nil]
  exact ⟨trivial, trivial, trivial⟩

theorem armWakeTimeout_idle (b : Bool) (s1 : RilState δ ρ)
    (h : ¬ (s1.s_callbacks.version < 13 ∧ b = true)) : armWakeTimeout b s1 = s1 := by
  unfold armWakeTimeout
  rw [if_neg h]

theorem unsolicitedSend_timers (c : RilEnums) (unsolResponse : Int) (b : Bool) (p : Parcel)
    (s1 : RilState δ ρ) :
    (unsolicitedSend c unsolResponse b p s1).timers = (armWakeTimeout b s1).timers
    ∧ (unsolicitedSend c unsolResponse b p s1).s_last_wake_timeout_info
        = (armWakeTimeout b s1).s_last_wake_timeout_info
    ∧ (unsolicitedSend c unsolResponse b p s1).allocated = (armWakeTimeout b s1).allocated := by
  unfold unsolicitedSend
  simp only
  split <;> (rw [sendResponse_state]; exact ⟨rfl, rfl, rfl⟩)

/-- C31. For an event that is in the table, whose encoder returns 0, on a
registered library: let `s0` be the state the last part of
`RIL_onUnsolicitedResponse` starts from, which is the state of the call, or,
for the radio state change, the state `processRadioState` leaves, and let the
tracking slot of `s0` not hold the address the next allocation returns. With
the policy WAKE_PARTIAL and a version below 13, the call adds exactly one
timer, with a NULL parameter, at the new address; the timer the slot tracked
before, if there is one, gets the parameter 1, every other timer stays as it
is, and the slot holds the new address. With the policy DONT_WAKE, or a
version of 13 or more, the timers, the slot and the allocations are those of
`s0`. -/
theorem RIL_onUnsolicitedResponse_wake_timer (ril : Ril δ ρ) (c : RilEnums) (depth : Nat)
    (u : Int) (data : Option Data) (len : Nat) (s s0 : RilState δ ρ)
    (info : UnsolResponseInfo ρ) (f : ρ) (p1 : Parcel)
    (hreg : s.s_registerCalled ≠ 0) (h0 : 0 ≤ u - c.RIL_UNSOL_RESPONSE_BASE)
    (hidx : ril.s_unsolResponses[(u - c.RIL_UNSOL_RESPONSE_BASE).toNat]? = some info)
    (hf : info.responseFunction = some f)
    (henc : ril.responseFunction f { mData := int32Bytes 1 ++ int32Bytes u, mDataPos := 8 }
      data len = some (0, p1))
    (hs0 : (if u = c.RIL_UNSOL_RESPONSE_RADIO_STATE_CHANGED then
              (processRadioState ril c depth s.radioState s).map (fun r => r.2)
            else some s) = some s0)
    (hslot : s0.s_last_wake_timeout_info ≠ some (s0.allocated + 1)) :
    ∃ s1, RIL_onUnsolicitedResponse ril c (depth + 1) u data len s = some s1
      ∧ (info.wakeType = WakeType.WAKE_PARTIAL → s0.s_callbacks.version < 13 →
          s1.timers
              = s0.timers.map (fun i =>
                  if some i.addr = s0.s_last_wake_timeout_info then { i with userParam := 1 }
                  else i)
                ++ [{ addr := s0.allocated + 1, userParam := 0 }]
          ∧ s1.s_last_wake_timeout_info = some (s0.allocated + 1)
          ∧ s1.allocated = s0.allocated + 1)
      ∧ (info.wakeType = WakeType.DONT_WAKE ∨ ¬ s0.s_callbacks.version < 13 →
          s1.timers = s0.timers
          ∧ s1.s_last_wake_timeout_info = s0.s_last_wake_timeout_info
          ∧ s1.allocated = s0.allocated) := by
  have key : ∀ p : Parcel,
      (info.wakeType = WakeType.WAKE_PARTIAL → s0.s_callbacks.version < 13 →
          (unsolicitedSend c u (decide (info.wakeType = WakeType.WAKE_PARTIAL)) p s0).timers
              = s0.timers.map (fun i =>
                  if some i.addr = s0.s_last_wake_timeout_info then { i with userParam := 1 }
                  else i)
                ++ [{ addr := s0.allocated + 1, userParam := 0 }]
          ∧ (unsolicitedSend c u (decide (info.wakeType = WakeType.WAKE_PARTIAL)) p
                s0).s_last_wake_timeout_info = some (s0.allocated + 1)
          ∧ (unsolicitedSend c u (decide (info.wakeType = WakeType.WAKE_PARTIAL)) p s0).allocated
              = s0.allocated + 1)
      ∧ (info.wakeType = WakeType.DONT_WAKE ∨ ¬ s0.s_callbacks.version < 13 →
          (unsolicitedSend c u (decide (info.wakeType = WakeType.WAKE_PARTIAL)) p s0).timers
              = s0.timers
          ∧ (unsolicitedSend c u (decide (info.wakeType = WakeType.WAKE_PARTIAL)) p
                s0).s_last_wake_timeout_info = s0.s_last_wake_timeout_info
          ∧ (unsolicitedSend c u (decide (info.wakeType = WakeType.WAKE_PARTIAL)) p s0).allocated
              = s0.allocated) := by
    intro p
    obtain ⟨t1, t2, t3⟩ := unsolicitedSend_timers c u
      (decide (info.wakeType = WakeType.WAKE_PARTIAL)) p s0
    constructor
    · intro hw hv
      have hb : decide (info.wakeType = WakeType.WAKE_PARTIAL) = true := decide_eq_true hw
      rw [hb] at t1 t2 t3
      rw [hb]
      obtain ⟨a1, a2, a3⟩ := armWakeTimeout_armed s0 hv
      rw [if_neg (fun e => hslot e.symm)] at a1
      exact ⟨t1.trans a1, t2.trans a2, t3.trans a3⟩
    · intro hw
      have hidle : armWakeTimeout (decide (info.wakeType = WakeType.WAKE_PARTIAL)) s0 = s0 := by
        apply armWakeTimeout_idle
        rintro ⟨hv, hb⟩
        rcases hw with hw | hw
        · rw [hw] at hb
          exact absurd hb (by decide)
        · exact hw hv
      rw [hidle] at t1 t2 t3
      exact ⟨t1, t2, t3⟩
  by_cases hu : u = c.RIL_UNSOL_RESPONSE_RADIO_STATE_CHANGED
  · rw [if_pos hu] at hs0
    have hr := RIL_onUnsolicitedResponse_radio ril c depth u data len s info f 0 p1 hreg h0 hidx hf
      henc hu
    rw [if_neg (by decide)] at hr
    cases hprs : processRadioState ril c depth s.radioState s with
    | none =>
      rw [hprs] at hs0
      cases hs0
    | some r =>
      rw [hprs] at hs0 hr
      simp only [Option.map_some', Option.some.injEq] at hs0 hr
      subst hs0
      exact ⟨_, hr, key _⟩
  · rw [if_neg hu] at hs0
    cases hs0
    have hr := RIL_onUnsolicitedResponse_plain ril c depth u data len s info f 0 p1 hreg h0 hidx hf
      henc hu
    rw [if_neg (by decide)] at hr
    exact ⟨_, hr, key _⟩

/-- The registered sample state (version 11), in which the timer at address
1 is tracked, and the network time event 1008, whose policy is WAKE_PARTIAL:
the old timer gets the parameter 1, a timer with parameter 0 is added at
address 3 and the slot holds 3. -/
theorem RIL_onUnsolicitedResponse_wake_timer_witness :
    ∃ s1, RIL_onUnsolicitedResponse sampleRil sampleEnums (1 + 1) 1008 (some (Data.cstr [97])) 8
          { sampleRegistered with
            timers := [{ addr := 1, userParam := 0 }], s_last_wake_timeout_info := some 1 }
          = some s1
      ∧ s1.timers = [{ addr := 1, userParam := 1 }, { addr := 3, userParam := 0 }]
      ∧ s1.s_last_wake_timeout_info = some 3
      ∧ s1.allocated = 3 := by
  obtain ⟨s1, h1, h2, _⟩ := RIL_onUnsolicitedResponse_wake_timer sampleRil sampleEnums 1 1008
    (some (Data.cstr [97])) 8
    { sampleRegistered with
      timers := [{ addr := 1, userParam := 0 }], s_last_wake_timeout_info := some 1 }
    { sampleRegistered with
      timers := [{ addr := 1, userParam := 0 }], s_last_wake_timeout_info := some 1 }
    { requestNumber := 1008, responseFunction := some ResponseFn.responseString,
      wakeType := WakeType.WAKE_PARTIAL }
    ResponseFn.responseString
    { mData := int32Bytes 1 ++ int32Bytes 1008 ++ string16Bytes [97], mDataPos := 16 }
    (by decide) (by decide) (by decide) rfl (by decide) (by decide) (by decide)
  exact ⟨s1, h1, h2 rfl (by decide)⟩

/-! ## The invariant of the wake-release timers -/

theorem wakeTimersInvariant_congr (s s1 : RilState δ ρ) (ht : s1.timers = s.timers)
    (hk : s1.s_last_wake_timeout_info = s.s_last_wake_timeout_info)
    (ha : s1.allocated = s.allocated) (h : wakeTimersInvariant s) : wakeTimersInvariant s1 := by
  unfold wakeTimersInvariant at h ⊢
  rw [ht, hk, ha]
  exact h

theorem wakeTimersInvariant_arm (b : Bool) (s : RilState δ ρ) (h : wakeTimersInvariant s) :
    wakeTimersInvariant (armWakeTimeout b s) := by
  by_cases hc : s.s_callbacks.version < 13 ∧ b = true
  · obtain ⟨hv, hb⟩ := hc
    subst hb
    obtain ⟨a1, a2, a3⟩ := armWakeTimeout_armed s hv
    obtain ⟨i1, i2, i3, i4⟩ := h
    have hnew : ¬ some (s.allocated + 1) = s.s_last_wake_timeout_info := by
      intro e
      have hm := i3 (s.allocated + 1) (by rw [← e]; exact rfl)
      obtain ⟨i, hi, hia⟩ := List.mem_map.mp hm
      have := i1 i hi
      omega
    rw [if_neg hnew] at a1
    have haddr : ∀ i : UserCallbackInfo,
        (if some i.addr = s.s_last_wake_timeout_info then { i with userParam := 1 } else i).addr
          = i.addr := by
      intro i
      split <;> rfl
    have hmap : (s.timers.map (fun i =>
          if some i.addr = s.s_last_wake_timeout_info then { i with userParam := 1 } else i)).map
          (fun i => i.addr) = s.timers.map (fun i => i.addr) := by
      rw [List.map_map]
      apply List.map_congr_left
      intro i _
      exact haddr i
    unfold wakeTimersInvariant
    rw [a1, a2, a3]
    refine ⟨?_, ?_, ?_, ?_⟩
    · intro i hi
      rcases List.mem_append.mp hi with hi | hi
      · obtain ⟨j, hj, hji⟩ := List.mem_map.mp hi
        have := i1 j hj
        have := haddr j
        rw [← hji]
        omega
      · simp only [List.mem_singleton] at hi
        rw [hi]
    · rw [List.map_append, hmap]
      simp only [List.map_cons, List.map_nil]
      rw [List.nodup_append]
      refine ⟨i2, List.nodup_singleton _, ?_⟩
      intro a ha hb
      simp only [List.mem_singleton] at hb
      obtain ⟨j, hj, hja⟩ := List.mem_map.mp ha
      have := i1 j hj
      omega
    · intro a ha
      cases ha
      rw [List.map_append]
      exact List.mem_append_right _ (by simp)
    · intro i hi
      rcases List.mem_append.mp hi with hi | hi
      · obtain ⟨j, hj, hji⟩ := List.mem_map.mp hi
        have hle := i1 j hj
        have hja := haddr j
        rw [hji] at hja
        constructor
        · intro e
          have : s.allocated + 1 = i.addr := Option.some.inj e
          omega
        · intro _
          rw [← hji]
          by_cases ht : some j.addr = s.s_last_wake_timeout_info
          · rw [if_pos ht]
          · rw [if_neg ht]
            exact (i4 j hj).2 (fun e => ht e.symm)
      · simp only [List.mem_singleton] at hi
        rw [hi]
        exact ⟨fun _ => rfl, fun e => absurd rfl e⟩
  · rw [armWakeTimeout_idle b s hc]
    exact h

theorem wakeTimersInvariant_send (c : RilEnums) (u : Int) (b : Bool) (p : Parcel)
    (s : RilState δ ρ) (h : wakeTimersInvariant s) :
    wakeTimersInvariant (unsolicitedSend c u b p s) := by
  obtain ⟨t1, t2, t3⟩ := unsolicitedSend_timers c u b p s
  exact wakeTimersInvariant_congr _ _ t1 t2 t3 (wakeTimersInvariant_arm b s h)

theorem wakeTimersInvariant_unsolicited (ril : Ril δ ρ) (c : RilEnums) (depth : Nat) (u : Int)
    (data : Option Data) (len : Nat) (s s1 : RilState δ ρ)
    (hrun : RIL_onUnsolicitedResponse ril c depth u data len s = some s1)
    (h : wakeTimersInvariant s) : wakeTimersInvariant s1 :=
  RIL_onUnsolicitedResponse_invariant ril c
    (fun a b => wakeTimersInvariant a → wakeTimersInvariant b) (fun _ => True)
    (fun _ h => h) (fun _ _ _ h1 h2 h => h2 (h1 h))
    (fun s _ h => wakeTimersInvariant_congr s _ rfl rfl rfl h)
    (fun s _ h => wakeTimersInvariant_congr s _ rfl rfl rfl h)
    trivial trivial
    (fun u b p s1 _ h => wakeTimersInvariant_send c u b p s1 h)
    depth u data len s s1 trivial hrun h

theorem timers_find (a : Nat) (l : List UserCallbackInfo) (i : UserCallbackInfo)
    (hi : i ∈ l) (ha : i.addr = a) (hn : (l.map (fun i => i.addr)).Nodup) :
    l.find? (fun i => i.addr = a) = some i := by
  induction l with
  | nil => simp at hi
  | cons x rest ih =>
    simp only [List.map_cons, List.nodup_cons] at hn
    rcases List.mem_cons.mp hi with e | hr
    · subst e
      simp [List.find?, ha]
    · have hx : x.addr ≠ a := by
        intro e
        apply hn.1
        rw [e, ← ha]
        exact List.mem_map.mpr ⟨i, hr, rfl⟩
      simp only [List.find?, hx, decide_False]
      exact ih hr hn.2

theorem userTimerCallback_fires (s : RilState δ ρ) (i : UserCallbackInfo) (hi : i ∈ s.timers)
    (hn : (s.timers.map (fun i => i.addr)).Nodup) :
    userTimerCallback i.addr s
      = some (decide (i.userParam = 0),
          { s with
            s_last_wake_timeout_info :=
              if s.s_last_wake_timeout_info = some i.addr then none
              else s.s_last_wake_timeout_info
            timers := s.timers.filter (fun j => j.addr ≠ i.addr) }) := by
  unfold userTimerCallback
  rw [timers_find i.addr s.timers i hi rfl hn]
  simp only [wakeTimeoutCallback, releaseWakeLock]
  by_cases h0 : i.userParam = 0
  · simp only [h0, if_true, decide_True]
    by_cases ht : s.s_last_wake_timeout_info = some i.addr
    · rw [if_pos ⟨by rw [ht]; simp, ht⟩, if_pos ht]
    · rw [if_neg (fun h => ht h.2), if_neg ht]
  · simp only [h0, if_false, decide_False]
    by_cases ht : s.s_last_wake_timeout_info = some i.addr
    · rw [if_pos ⟨by rw [ht]; simp, ht⟩, if_pos ht]
    · rw [if_neg (fun h => ht h.2), if_neg ht]

theorem userTimerCallback_some (p_info : Nat) (s : RilState δ ρ) (r : Bool × RilState δ ρ)
    (h : userTimerCallback p_info s = some r) :
    ∃ i ∈ s.timers, i.addr = p_info := by
  unfold userTimerCallback at h
  cases hf : s.timers.find? (fun i => i.addr = p_info) with
  | none =>
    rw [hf] at h
    cases h
  | some info =>
    have hp := List.find?_some hf
    exact ⟨info, List.mem_of_find?_eq_some hf, by simpa using hp⟩

theorem wakeTimersInvariant_fire (s : RilState δ ρ) (i : UserCallbackInfo)
    (h : wakeTimersInvariant s) :
    wakeTimersInvariant
      { s with
        s_last_wake_timeout_info :=
          if s.s_last_wake_timeout_info = some i.addr then none else s.s_last_wake_timeout_info
        timers := s.timers.filter (fun j => j.addr ≠ i.addr) } := by
  obtain ⟨i1, i2, i3, i4⟩ := h
  unfold wakeTimersInvariant
  simp only
  refine ⟨?_, ?_, ?_, ?_⟩
  · intro j hj
    exact i1 j (List.mem_of_mem_filter hj)
  · exact i2.sublist ((List.filter_sublist s.timers).map _)
  · intro a ha
    by_cases ht : s.s_last_wake_timeout_info = some i.addr
    · rw [if_pos ht] at ha
      cases ha
    · rw [if_neg ht] at ha
      have hs : s.s_last_wake_timeout_info = some a := ha
      obtain ⟨j, hj, hja⟩ := List.mem_map.mp (i3 a ha)
      refine List.mem_map.mpr ⟨j, List.mem_filter.mpr ⟨hj, ?_⟩, hja⟩
      have hne : j.addr ≠ i.addr := by
        intro e
        apply ht
        rw [hs, ← hja, e]
      simpa using hne
  · intro j hj
    have hjm := List.mem_of_mem_filter hj
    have hne : j.addr ≠ i.addr := by
      have := (List.mem_filter.mp hj).2
      simpa using this
    by_cases ht : s.s_last_wake_timeout_info = some i.addr
    · rw [if_pos ht]
      refine ⟨fun e => (by cases e), fun _ => (i4 j hjm).2 ?_⟩
      rw [ht]
      intro e
      exact hne (Option.some.inj e).symm
    · rw [if_neg ht]
      exact i4 j hjm

theorem wakeTimersInvariant_run (ril : Ril δ ρ) (c : RilEnums) (depth : Nat)
    (steps : List WakeStep) :
    ∀ (s s1 : RilState δ ρ), wakeTimersInvariant s → runWakeSteps ril c depth steps s = some s1 →
      wakeTimersInvariant s1 := by
  induction steps with
  | nil =>
    intro s s1 h hrun
    cases hrun
    exact h
  | cons st rest ih =>
    intro s s1 h hrun
    cases st with
    | unsolicited u data len =>
      simp only [runWakeSteps] at hrun
      cases hu : RIL_onUnsolicitedResponse ril c depth u data len s with
      | none =>
        rw [hu] at hrun
        cases hrun
      | some s2 =>
        rw [hu] at hrun
        exact ih s2 s1 (wakeTimersInvariant_unsolicited ril c depth u data len s s2 hu h) hrun
    | timer a =>
      simp only [runWakeSteps] at hrun
      cases ht : userTimerCallback a s with
      | none =>
        rw [ht] at hrun
        cases hrun
      | some r =>
        rw [ht] at hrun
        obtain ⟨i, hi, hia⟩ := userTimerCallback_some a s r ht
        subst hia
        rw [userTimerCallback_fires s i hi h.2.1] at ht
        cases ht
        exact ih _ s1 (wakeTimersInvariant_fire s i h) hrun

/-- C32. From a state in which the invariant of the wake-release timers
holds, after any sequence of unsolicited events and timer firings that runs
through: the invariant holds again; at most one outstanding timer has a NULL
parameter, and it is the one the tracking slot holds; every outstanding timer
the slot does not hold has the sentinel 1. `wakeTimeoutCallback` calls
`releaseWakeLock` exactly when its parameter is NULL, and leaves the state as
it is either way. Every outstanding timer can fire: `userTimerCallback` then
calls `releaseWakeLock` exactly when the timer is the tracked one, so not for
a timer that carries the sentinel, clears the slot exactly when the timer is
the tracked one, frees the timer's block, and keeps the invariant. -/
theorem wake_timers_invariant (ril : Ril δ ρ) (c : RilEnums) (depth : Nat)
    (steps : List WakeStep) (s s1 : RilState δ ρ)
    (hinv : wakeTimersInvariant s) (hrun : runWakeSteps ril c depth steps s = some s1) :
    wakeTimersInvariant s1
    ∧ (∀ i ∈ s1.timers, ∀ j ∈ s1.timers, i.userParam = 0 → j.userParam = 0 → i = j)
    ∧ (∀ i ∈ s1.timers, i.userParam = 0 → s1.s_last_wake_timeout_info = some i.addr)
    ∧ (∀ i ∈ s1.timers, s1.s_last_wake_timeout_info ≠ some i.addr → i.userParam = 1)
    ∧ (∀ (param : Nat) (t : RilState δ ρ),
        ((wakeTimeoutCallback param t).1 = true ↔ param = 0)
        ∧ (wakeTimeoutCallback param t).2 = t)
    ∧ (∀ i ∈ s1.timers, ∃ r, userTimerCallback i.addr s1 = some r
        ∧ (r.1 = true ↔ s1.s_last_wake_timeout_info = some i.addr)
        ∧ (i.userParam = 1 → r.1 = false)
        ∧ r.2.s_last_wake_timeout_info
            = (if s1.s_last_wake_timeout_info = some i.addr then none
                else s1.s_last_wake_timeout_info)
        ∧ r.2.timers = s1.timers.filter (fun j => j.addr ≠ i.addr)
        ∧ wakeTimersInvariant r.2) := by
  have h1 := wakeTimersInvariant_run ril c depth steps s s1 hinv hrun
  have hzero : ∀ i ∈ s1.timers, i.userParam = 0 → s1.s_last_wake_timeout_info = some i.addr := by
    intro i hi h0
    by_contra hne
    have := (h1.2.2.2 i hi).2 hne
    omega
  refine ⟨h1, ?_, hzero, fun i hi => (h1.2.2.2 i hi).2, ?_, ?_⟩
  · intro i hi j hj hi0 hj0
    have e : i.addr = j.addr := Option.some.inj ((hzero i hi hi0).symm.trans (hzero j hj hj0))
    cases i
    cases j
    simp only at e hi0 hj0
    rw [e, hi0, hj0]
  · intro param t
    unfold wakeTimeoutCallback releaseWakeLock
    by_cases hp : param = 0
    · rw [if_pos hp]
      exact ⟨⟨fun _ => hp, fun _ => rfl⟩, rfl⟩
    · rw [if_neg hp]
      exact ⟨⟨fun h => (by cases h), fun h => absurd h hp⟩, rfl⟩
  · intro i hi
    refine ⟨_, userTimerCallback_fires s1 i hi h1.2.1, ?_, ?_, rfl, rfl,
      wakeTimersInvariant_fire s1 i h1⟩
    · simp only [decide_eq_true_eq]
      constructor
      · exact hzero i hi
      · exact (h1.2.2.2 i hi).1
    · intro h
      simp only [h, decide_eq_false_iff_not]
      decide

/-- The registered sample state (version 11, no timer) after the network
time event 1008 and the SIM status change 1019, both WAKE_PARTIAL: the timer
at address 3 is soft-cancelled, the one at address 4 is tracked. When the
first fires the wake lock is not released and the slot stays; when the second
fires the wake lock is released and the slot is cleared. -/
theorem wake_timers_invariant_witness :
    ∃ s1, runWakeSteps sampleRil sampleEnums 2
          [WakeStep.unsolicited 1008 (some (Data.cstr [97])) 8,
           WakeStep.unsolicited 1019 none 0]
          sampleRegistered = some s1
      ∧ s1.timers = [{ addr := 3, userParam := 1 }, { addr := 4, userParam := 0 }]
      ∧ s1.s_last_wake_timeout_info = some 4
      ∧ wakeTimersInvariant s1
      ∧ (∃ r, userTimerCallback 3 s1 = some r ∧ r.1 = false
          ∧ r.2.s_last_wake_timeout_info = some 4)
      ∧ (∃ r, userTimerCallback 4 s1 = some r ∧ r.1 = true
          ∧ r.2.s_last_wake_timeout_info = none) := by
  refine ⟨_, rfl, rfl, rfl, ?_, ?_, ?_⟩
  · exact (wake_timers_invariant sampleRil sampleEnums 2
      [WakeStep.unsolicited 1008 (some (Data.cstr [97])) 8, WakeStep.unsolicited 1019 none 0]
      sampleRegistered _ (by decide) rfl).1
  · exact ⟨_, rfl, rfl, rfl⟩
  · exact ⟨_, rfl, rfl, rfl⟩

end Libril
